import Mathlib

/-!
# FusionSound: stream ring buffer, playback objects, mixer and object creation

A shallow embedding of the streaming runtime of FusionSound
(`src/buffer/ifusionsoundstream.c`, `src/core/playback.c`,
`src/core/sound_buffer.c`, `src/core/core_sound.c`,
`src/playback/ifusionsoundplayback.c`), of the creation of buffers and streams
(`src/ifusionsound.c`), of the playing of static buffers
(`src/buffer/ifusionsoundbuffer.c`), of the configuration and its option lists
(`src/misc/sound_conf.c`) and of the sample and channel mode macros
(`include/fusionsound.h`, `src/core/fs_types.h`).

Modelling conventions.

* C `int` and `long long` values are `Int`.  Where values can leave the range
  of `int` the operation is reduced with `int_wrap` (two's complement
  wrap-around): in `IFusionSoundStream_GetPresentationDelay`, whose product by
  1000 leaves the range for some two million buffered frames; in
  `fs_core_initialize_config`, whose product of sample rate and buffer time
  leaves it for rates that the configuration accepts and whose result is stored
  in an `unsigned int`; in the sums of accumulator samples that
  `FS_MIX_OUTPUT_LOOP` forms (`mix_output_lanes`); in `fsf_dither`, which works
  on an `unsigned int`; and in `sscanf_d`, which stores an `int`.
  `fs_buffer_mixto_int` is `fs_buffer_mixto` with the narrowing of the frame
  count to `int` written out in the same way, and `stream_create_int` is
  `stream_create` with the product `rate * 5` taken in `int`; each pair agrees
  while the values fit.
* A C string is a list of characters in a buffer that holds the character 0 as
  terminator; a pointer into the buffer is an index, and NULL is `none`.  A
  `float` is a rational number.
* The build is the one with six channels (`FS_MAX_CHANNELS == 6`) and fixed
  point samples (no `FS_IEEE_FLOATS`).
* Whether the pools hand out an object or memory is decided by the
  surroundings; a creation function takes those decisions as an argument
  (`CreateEnv`).
* A pointer to an object is replaced by the object itself; the private data of
  a stream therefore holds its core, its buffer and its playback.
* Sample memory is a map from byte offsets to byte values.  A pointer into the
  buffer is the byte offset from `buffer->data`; a pointer into caller memory
  is a map from byte offsets to byte values, shifted by pointer arithmetic.
* Skirmish and mutex operations always succeed (single process build); they
  leave no trace in the state.  `D_ASSERT` and `D_DEBUG_AT` are no-ops, as in a
  release build.
* A call that reaches `direct_waitqueue_wait` cannot make progress without
  another thread.  Such a call yields `Exit.waiting` together with the state it
  waits in; it is resumed when the waiter is woken.
* Loops that C leaves unbounded take a fuel argument; `none` means the fuel
  ran out before the loop ended.
* Reactions attached to a playback run synchronously inside
  `fs_playback_dispatch`, in the thread that notifies.
-/

namespace FusionSound

/-! ## Result codes and constants -/

/-- Result codes of libdirect that the sound core hands out. -/
inductive DirectResult
  | DR_OK
  | DR_INVARG
  | DR_FUSION
  | DR_TEMPUNAVAIL
  | DR_BUFFEREMPTY
  | DR_UNSUPPORTED
  | DR_NOLOCALMEMORY
  | DR_LIMITEXCEEDED
  | DR_BUSY
  | DR_SUSPENDED
  deriving DecidableEq, Repr

open DirectResult

/-- How a call is left in the sequential model: it returned a result code, or
it sits in `direct_waitqueue_wait`. -/
inductive Exit
  | returned (ret : DirectResult)
  | waiting
  deriving DecidableEq, Repr

/-- Number of fractional bits of a pitch value (`playback.h`). -/
def FS_PITCH_BITS : Nat := 14

/-- Pitch value of one-to-one playback, `1 << FS_PITCH_BITS`. -/
def FS_PITCH_ONE : Int := 2 ^ FS_PITCH_BITS

/-- Number of fractional bits of a fixed point sample (`fs_types.h`). -/
def FSF_DECIBITS : Nat := 23

/-- Fixed point one, `1 << FSF_DECIBITS`. -/
def FSF_ONE : Int := 2 ^ FSF_DECIBITS

/-- Fixed point product `((a) >> (FSF_DECIBITS - 15)) * ((b) >> 15)`. -/
def fsf_mul (a b : Int) : Int := (a >>> (FSF_DECIBITS - 15)) * (b >>> 15)

def CPNF_START : Nat := 0x00000001
def CPNF_STOP : Nat := 0x00000002
def CPNF_ADVANCE : Nat := 0x00000004

/-- The macro `FS_SAMPLEFORMAT(index,bits,depth,is_signed)` of `fusionsound.h`. -/
def FS_SAMPLEFORMAT (index bits depth is_signed : Nat) : Nat :=
  (index &&& 0x0F) ||| ((bits &&& 0x7F) <<< 4) ||| ((depth &&& 0x7F) <<< 11) |||
    ((is_signed &&& 0x01) <<< 18)

def FSSF_S16 : Nat := FS_SAMPLEFORMAT 1 16 16 1

/-- The macro `FS_CHANNELMODE(num,center,rears,lfe)` of `fusionsound.h`. -/
def FS_CHANNELMODE (num center rears lfe : Nat) : Nat :=
  (num &&& 0x3F) ||| ((center &&& 0x01) <<< 4) ||| ((rears &&& 0x03) <<< 5) |||
    ((lfe &&& 0x01) <<< 7)

def FSCM_STEREO : Nat := FS_CHANNELMODE 2 0 0 0

/-- The macro `FS_SAMPLEFORMAT_INDEX`. -/
def FS_SAMPLEFORMAT_INDEX (fmt : Nat) : Nat := fmt &&& 0x0000000F

/-- The macro `FS_CHANNELS_FOR_MODE`. -/
def FS_CHANNELS_FOR_MODE (mode : Nat) : Nat := mode &&& 0x0000000F

/-! ## Data model -/

/-- The struct `CorePlaybackNotification` (the playback pointer is left out). -/
structure CorePlaybackNotification where
  flags : Nat
  pos   : Int
  stop  : Int
  num   : Int
  deriving DecidableEq, Repr

/-- The struct `__FS_CoreSoundBuffer`. -/
structure CoreSoundBuffer where
  length : Int
  mode   : Nat
  format : Nat
  rate   : Int
  bytes  : Int
  data   : Int → Int

/-- The struct `__FS_CorePlayback`.  `pid` stands for the address of the
object, by which playlist entries refer to it. -/
structure CorePlayback where
  pid      : Nat
  notify   : Bool
  disabled : Bool
  running  : Bool
  position : Int
  stop     : Int
  pitch    : Int
  center   : Int
  rear     : Int
  levels   : List Int
  volume   : Int
  deriving DecidableEq, Repr

/-- The part of `CoreSoundShared` the playbacks act on: the playlist entries
(each the `pid` of its playback, newest first) and the number of playlist
entries the shared memory pool can still hand out. -/
structure CoreSound where
  playlist_entries : List Nat
  shmpool_free     : Nat
  output_delay     : Int
  deriving DecidableEq, Repr

/-- The struct `IFusionSoundStream_data`. -/
structure IFusionSoundStream_data where
  core               : CoreSound
  buffer             : CoreSoundBuffer
  streaming_playback : CorePlayback
  buffersize         : Int
  rate               : Int
  prebuffer          : Int
  playing            : Bool
  pos_write          : Int
  pos_read           : Int
  filled             : Int
  pending            : Int

/-! ## Sound buffer (`sound_buffer.c`) -/

/-- The function `fs_buffer_lock`: result code, `ret_data` as a byte offset into
the buffer, and `ret_bytes`. -/
def fs_buffer_lock (buffer : CoreSoundBuffer) (pos length : Int) : DirectResult × Int × Int :=
  let length := if length = 0 then buffer.length - pos else length
  (DR_OK, buffer.bytes * pos, buffer.bytes * length)

/-- The function `fs_buffer_unlock`. -/
def fs_buffer_unlock (_buffer : CoreSoundBuffer) : DirectResult := DR_OK

/-- Pointer arithmetic `p + k` on a pointer into caller memory. -/
def ptr_add (p : Int → Int) (k : Int) : Int → Int := fun i => p (i + k)

/-- The call `direct_memcpy( dst, src, n )` with `dst` a byte offset into the
memory `mem`: the `n` bytes at `src` land at offsets `dst .. dst + n - 1`. -/
def direct_memcpy (mem : Int → Int) (dst : Int) (src : Int → Int) (n : Int) : Int → Int :=
  fun a => if dst ≤ a ∧ a < dst + n then src (a - dst) else mem a

/-- The type `SoundMXFunc` of the mixing routines of `sound_mix.h`: from the
buffer, the accumulator `dest`, the output mode, `pos`, `inc`, `max`, the
levels and `last` to the new accumulator and the number of frames written. -/
abbrev SoundMXFunc :=
  CoreSoundBuffer → List Int → Nat → Int → Int → Int → List Int → Bool → List Int × Int

/-- The tables `MIX_FW` and `MIX_RW`, indexed by format and channel index.
Their entries are generated from `sound_mix.h`. -/
structure MixTables where
  MIX_FW : Nat → Nat → SoundMXFunc
  MIX_RW : Nat → Nat → SoundMXFunc

/-- What `fs_buffer_mixto` hands back: the result code, the accumulator, and
the values stored through `ret_pos`, `ret_num` and `ret_len`. -/
structure MixtoResult where
  ret     : DirectResult
  dest    : List Int
  ret_pos : Int
  ret_num : Int
  ret_len : Int

/-- The clamp of `inc` and `max` compiled in when `SIZEOF_LONG == 4`. -/
def clamp_long (SIZEOF_LONG : Nat) (x : Int) : Int :=
  if SIZEOF_LONG = 4 then
    if x > 0x7fffffff then 0x7fffffff
    else if x < -0x7fffffff then -0x7fffffff
    else x
  else x

/-- The function `fs_buffer_mixto`. -/
def fs_buffer_mixto (T : MixTables) (SIZEOF_LONG : Nat) (buffer : CoreSoundBuffer)
    (dest : List Int) (rate : Int) (mode : Nat) (max_frames pos stop : Int)
    (levels : List Int) (pitch : Int) : MixtoResult :=
  let inc := Int.tdiv (buffer.rate * pitch) rate
  let max := max_frames * inc
  let inc := clamp_long SIZEOF_LONG inc
  let max := clamp_long SIZEOF_LONG max
  let maxlast : Int × Bool :=
    if stop ≥ 0 then
      if pitch < 0 then
        let stop := if pos ≤ stop then stop - buffer.length else stop
        let tmp := (stop - pos) * 2 ^ FS_PITCH_BITS
        if max ≤ tmp then (tmp, true) else (max, false)
      else
        let stop := if pos ≥ stop then stop + buffer.length else stop
        let tmp := (stop - pos) * 2 ^ FS_PITCH_BITS
        if max ≥ tmp then (tmp, true) else (max, false)
    else (max, false)
  let max := maxlast.1
  let last := maxlast.2
  let mixed : List Int × Int :=
    if inc ≠ 0 ∧ (levels.getD 0 0 ≠ 0 ∨ levels.getD 1 0 ≠ 0) then
      let format_index := FS_SAMPLEFORMAT_INDEX buffer.format
      let channel_index := FS_CHANNELS_FOR_MODE buffer.mode - 1
      let func := if pitch < 0 then T.MIX_RW format_index channel_index
                  else T.MIX_FW format_index channel_index
      func buffer dest mode pos inc max levels last
    else
      (dest, if inc ≠ 0 then Int.tdiv max inc else max_frames)
  let num := max >>> FS_PITCH_BITS
  let pos := pos + num
  let pos := Int.tmod pos buffer.length
  let pos := if pos < 0 then pos + buffer.length else pos
  { ret := if last then DR_BUFFEREMPTY else DR_OK
    dest := mixed.1
    ret_pos := pos
    ret_num := |num|
    ret_len := mixed.2 }

/-! ## Playlist (`core_sound.c`) -/

/-- The function `fs_core_add_playback`: allocate a playlist entry and prepend
it; without shared memory left nothing is added. -/
def fs_core_add_playback (core : CoreSound) (playback : CorePlayback) : CoreSound × DirectResult :=
  if core.shmpool_free = 0 then (core, DR_NOLOCALMEMORY)
  else
    ({ core with
        playlist_entries := playback.pid :: core.playlist_entries
        shmpool_free := core.shmpool_free - 1 }, DR_OK)

/-- The function `fs_core_remove_playback`: every entry of the playback is
removed and freed. -/
def fs_core_remove_playback (core : CoreSound) (playback : CorePlayback) : CoreSound × DirectResult :=
  ({ core with
      playlist_entries := core.playlist_entries.filter (fun e => e ≠ playback.pid)
      shmpool_free := core.shmpool_free + core.playlist_entries.count playback.pid }, DR_OK)

/-- The function `fs_core_output_delay`. -/
def fs_core_output_delay (core : CoreSound) : Int := core.output_delay

/-! ## Playback (`playback.c`) -/

/-- The function `fs_playback_create`, given the zeroed object from the pool.
The default downmix levels and the local volume come out of floating point
conversions and are taken as arguments. -/
def fs_playback_create (pid : Nat) (notify : Bool) (center rear volume : Int) : CorePlayback :=
  { pid := pid
    notify := notify
    disabled := false
    running := false
    position := 0
    stop := 0
    pitch := FS_PITCH_ONE
    center := center
    rear := rear
    levels := [FSF_ONE, FSF_ONE, center, rear, rear, FSF_ONE]
    volume := volume }

/-- The function `fs_playback_enable`. -/
def fs_playback_enable (playback : CorePlayback) : CorePlayback × DirectResult :=
  ({ playback with disabled := false }, DR_OK)

/-- The function `fs_playback_notify`: the playback after the call and the
notification handed to `fs_playback_dispatch`, if any. -/
def fs_playback_notify (playback : CorePlayback) (flags : Nat) (num : Int) :
    CorePlayback × Option CorePlaybackNotification :=
  let playback := if flags &&& CPNF_START ≠ 0 then { playback with running := true } else playback
  let playback := if flags &&& CPNF_STOP ≠ 0 then { playback with running := false } else playback
  if playback.notify = false then (playback, none)
  else
    (playback, some
      { flags := flags
        pos := playback.position
        stop := if playback.running then playback.stop else playback.position
        num := num })

/-- The function `fs_playback_start`. -/
def fs_playback_start (core : CoreSound) (playback : CorePlayback) (enable : Bool) :
    CoreSound × CorePlayback × DirectResult × Option CorePlaybackNotification :=
  let playback := if enable then { playback with disabled := false } else playback
  if playback.running = false then
    if playback.disabled then (core, playback, DR_TEMPUNAVAIL, none)
    else
      match fs_core_add_playback core playback with
      | (core, ret) =>
        if ret = DR_OK then
          match fs_playback_notify playback CPNF_START 0 with
          | (playback, n) => (core, playback, ret, n)
        else (core, playback, ret, none)
  else (core, playback, DR_OK, none)

/-- The function `fs_playback_stop`. -/
def fs_playback_stop (core : CoreSound) (playback : CorePlayback) (disable : Bool) :
    CoreSound × CorePlayback × DirectResult × Option CorePlaybackNotification :=
  let r : CoreSound × CorePlayback × Option CorePlaybackNotification :=
    if playback.running then
      match fs_playback_notify playback CPNF_STOP 0 with
      | (playback1, n) => ((fs_core_remove_playback core playback).1, playback1, n)
    else (core, playback, none)
  let playback := if disable then { r.2.1 with disabled := true } else r.2.1
  (r.1, playback, DR_OK, r.2.2)

/-- The function `fs_playback_set_stop`. -/
def fs_playback_set_stop (playback : CorePlayback) (stop : Int) : CorePlayback × DirectResult :=
  ({ playback with stop := stop }, DR_OK)

/-- The function `fs_playback_set_position`. -/
def fs_playback_set_position (playback : CorePlayback) (position : Int) :
    CorePlayback × DirectResult :=
  ({ playback with position := position }, DR_OK)

/-- The function `fs_playback_set_pitch`. -/
def fs_playback_set_pitch (playback : CorePlayback) (pitch : Int) : CorePlayback × DirectResult :=
  ({ playback with pitch := pitch }, DR_OK)

/-- What `fs_playback_mixto` hands back. -/
structure PlaybackMixResult where
  playback     : CorePlayback
  dest         : List Int
  ret          : DirectResult
  ret_samples  : Int
  notification : Option CorePlaybackNotification

/-- The function `fs_playback_mixto`. -/
def fs_playback_mixto (T : MixTables) (SIZEOF_LONG : Nat) (buffer : CoreSoundBuffer)
    (playback : CorePlayback) (dest : List Int) (rate : Int) (mode : Nat) (max_frames : Int)
    (volume : Int) : PlaybackMixResult :=
  let levels :=
    if volume ≠ FSF_ONE ∨ playback.volume ≠ FSF_ONE then
      let volume := fsf_mul volume playback.volume
      (List.range 6).map (fun i => fsf_mul (playback.levels.getD i 0) volume)
    else playback.levels
  let r := fs_buffer_mixto T SIZEOF_LONG buffer dest rate mode max_frames playback.position
    playback.stop levels playback.pitch
  let playback := if r.ret ≠ DR_OK then { playback with running := false } else playback
  let playback := { playback with position := r.ret_pos }
  match fs_playback_notify playback
      (if r.ret ≠ DR_OK then CPNF_ADVANCE ||| CPNF_STOP else CPNF_ADVANCE) r.ret_num with
  | (playback, n) =>
    { playback := playback
      dest := r.dest
      ret := r.ret
      ret_samples := r.ret_len
      notification := n }

/-! ## Stream (`ifusionsoundstream.c`) -/

/-- The function `IFusionSoundStream_React`, the reaction the stream attaches to
its playback. -/
def IFusionSoundStream_React (notification : CorePlaybackNotification)
    (data : IFusionSoundStream_data) : IFusionSoundStream_data :=
  if notification.flags &&& CPNF_START ≠ 0 then { data with playing := true }
  else
    let data :=
      if notification.flags &&& CPNF_ADVANCE ≠ 0 then
        { data with filled := data.filled - notification.num }
      else data
    let data := { data with pos_read := notification.pos }
    if notification.flags &&& CPNF_STOP ≠ 0 then { data with playing := false } else data

/-- The call `fs_playback_dispatch` on the stream's playback: the notification,
if one was produced, is handed to the attached reaction of the stream. -/
def fs_playback_dispatch (n : Option CorePlaybackNotification)
    (data : IFusionSoundStream_data) : IFusionSoundStream_data :=
  match n with
  | none => data
  | some notification => IFusionSoundStream_React notification data

/-- The call `fs_playback_start( data->streaming_playback, enable )` made on
the stream's playback, with the notification dispatched to the stream. -/
def stream_playback_start (data : IFusionSoundStream_data) (enable : Bool) :
    IFusionSoundStream_data × DirectResult :=
  match fs_playback_start data.core data.streaming_playback enable with
  | (core, playback, ret, n) =>
    (fs_playback_dispatch n { data with core := core, streaming_playback := playback }, ret)

/-- The call `fs_playback_stop( data->streaming_playback, disable )` made on
the stream's playback, with the notification dispatched to the stream. -/
def stream_playback_stop (data : IFusionSoundStream_data) (disable : Bool) :
    IFusionSoundStream_data × DirectResult :=
  match fs_playback_stop data.core data.streaming_playback disable with
  | (core, playback, ret, n) =>
    (fs_playback_dispatch n { data with core := core, streaming_playback := playback }, ret)

/-- State of the inner `while (size)` loop of `IFusionSoundStream_Write`.
`stored` is a ghost counter: the frames copied into the ring so far. -/
structure FillState where
  data   : IFusionSoundStream_data
  size   : Int
  bytes  : Int
  stored : Int
  ret    : DirectResult

/-- The inner loop `while (size)` of `IFusionSoundStream_Write`, which fills
free space with automatic wrap around.  A result with `ret` other than `DR_OK`
stands for `goto out`. -/
def Write_fill : Nat → (Int → Int) → FillState → Option FillState
  | 0, _, _ => none
  | fuel + 1, sample_data, st =>
    if st.size = 0 then some st
    else
      let data := st.data
      let length := min st.size (data.buffersize - data.pos_write)
      match fs_buffer_lock data.buffer data.pos_write length with
      | (ret, lock_data, lock_bytes) =>
        if ret ≠ DR_OK then some { st with ret := ret }
        else
          let mem := direct_memcpy data.buffer.data lock_data (ptr_add sample_data st.bytes)
            lock_bytes
          let data := { data with buffer := { data.buffer with data := mem } }
          let size := st.size - length
          let bytes := st.bytes + lock_bytes
          let data := { data with pos_write := data.pos_write + length }
          let data :=
            if data.pos_write = data.buffersize then { data with pos_write := 0 } else data
          match fs_playback_set_stop data.streaming_playback data.pos_write with
          | (playback, ret) =>
            let data := { data with streaming_playback := playback }
            if ret ≠ DR_OK then
              some { data := data, size := size, bytes := bytes,
                     stored := st.stored + length, ret := ret }
            else
              let data :=
                { data with streaming_playback := (fs_playback_enable data.streaming_playback).1 }
              let data := { data with filled := data.filled + length }
              Write_fill fuel sample_data
                { data := data, size := size, bytes := bytes,
                  stored := st.stored + length, ret := ret }

/-- State of a writer inside `IFusionSoundStream_Write`: the stream, the input
pointer, the ghost counter of frames stored, and how the call was left. -/
structure WriteState where
  data        : IFusionSoundStream_data
  sample_data : Int → Int
  stored      : Int
  exit        : Exit

/-- The outer loop `while (data->pending)` of `IFusionSoundStream_Write`,
entered at its head.  A writer woken from `direct_waitqueue_wait` continues
here as well: it leaves when `pending` is zero, waits again while the ring is
full, and otherwise goes on with the loop body. -/
def Write_loop : Nat → IFusionSoundStream_data → (Int → Int) → Int → Option WriteState
  | 0, _, _, _ => none
  | fuel + 1, data, sample_data, stored =>
    if data.pending = 0 then
      some { data := data, sample_data := sample_data, stored := stored,
             exit := Exit.returned DR_OK }
    else if data.filled = data.buffersize then
      some { data := data, sample_data := sample_data, stored := stored, exit := Exit.waiting }
    else
      let num := data.buffersize - data.filled
      let num := if num > data.pending then data.pending else num
      match Write_fill fuel sample_data
          { data := data, size := num, bytes := 0, stored := stored, ret := DR_OK } with
      | none => none
      | some st =>
        if st.ret ≠ DR_OK then
          some { data := st.data, sample_data := sample_data, stored := st.stored,
                 exit := Exit.returned st.ret }
        else
          let data := st.data
          let data :=
            if data.playing = false ∧ data.prebuffer ≥ 0 ∧ data.filled ≥ data.prebuffer then
              (stream_playback_start data true).1
            else data
          let sample_data := ptr_add sample_data st.bytes
          let data :=
            if data.pending ≠ 0 then { data with pending := data.pending - num } else data
          Write_loop fuel data sample_data st.stored

/-- The function `IFusionSoundStream_Write`, up to the point where it returns
or waits for free space.  `sample_data` is `none` for a null pointer. -/
def IFusionSoundStream_Write (fuel : Nat) (data : IFusionSoundStream_data)
    (sample_data : Option (Int → Int)) (length : Int) : Option WriteState :=
  match sample_data with
  | none =>
    some { data := data, sample_data := fun _ => 0, stored := 0,
           exit := Exit.returned DR_INVARG }
  | some sample_data =>
    if length < 1 then
      some { data := data, sample_data := sample_data, stored := 0,
             exit := Exit.returned DR_INVARG }
    else
      Write_loop fuel { data with pending := length } sample_data 0

/-- The function `IFusionSoundStream_Wait`: one pass through its loop, which
either breaks out and returns or reaches `direct_waitqueue_wait`. -/
def IFusionSoundStream_Wait (data : IFusionSoundStream_data) (length : Int) :
    IFusionSoundStream_data × Exit :=
  if length < 0 ∨ length > data.buffersize then (data, Exit.returned DR_INVARG)
  else if length ≠ 0 then
    let num := data.buffersize - data.filled
    if num ≥ length then (data, Exit.returned DR_OK) else (data, Exit.waiting)
  else if data.playing = false then (data, Exit.returned DR_OK)
  else (data, Exit.waiting)

/-- The function `IFusionSoundStream_Flush`: the playback is stopped; while the
stream still counts as playing the call waits, otherwise it resets the ring. -/
def IFusionSoundStream_Flush (data : IFusionSoundStream_data) :
    IFusionSoundStream_data × Exit :=
  let data := (stream_playback_stop data true).1
  if data.playing then (data, Exit.waiting)
  else
    let data := { data with pos_write := data.pos_read }
    let data := { data with filled := 0 }
    (data, Exit.returned DR_OK)

/-- The function `IFusionSoundStream_Drop`. -/
def IFusionSoundStream_Drop (data : IFusionSoundStream_data) :
    IFusionSoundStream_data × DirectResult :=
  ({ data with pending := 0 }, DR_OK)

/-- What `IFusionSoundStream_Access` hands back: the stream, how the call was
left, `*ret_data` as a byte offset into the buffer and `*ret_frames`. -/
structure AccessResult where
  data       : IFusionSoundStream_data
  exit       : Exit
  ret_data   : Int
  ret_frames : Int

/-- The function `IFusionSoundStream_Access` (both result pointers non-null). -/
def IFusionSoundStream_Access (data : IFusionSoundStream_data) : AccessResult :=
  if data.filled = data.buffersize then
    { data := data, exit := Exit.waiting, ret_data := 0, ret_frames := 0 }
  else
    let length := data.buffersize - data.filled
    let length :=
      if length > data.buffersize - data.pos_write then data.buffersize - data.pos_write
      else length
    match fs_buffer_lock data.buffer data.pos_write length with
    | (ret, ret_data, _bytes) =>
      { data := data, exit := Exit.returned ret, ret_data := ret_data,
        ret_frames := if ret ≠ DR_OK then 0 else length }

/-- The function `IFusionSoundStream_Commit`. -/
def IFusionSoundStream_Commit (data : IFusionSoundStream_data) (length : Int) :
    IFusionSoundStream_data × DirectResult :=
  if length < 0 then (data, DR_INVARG)
  else if length > data.buffersize - data.filled then (data, DR_INVARG)
  else if length ≠ 0 then
    let data := { data with pos_write := data.pos_write + length }
    let data := if data.pos_write = data.buffersize then { data with pos_write := 0 } else data
    match fs_playback_set_stop data.streaming_playback data.pos_write with
    | (playback, ret) =>
      let data := { data with streaming_playback := playback }
      if ret ≠ DR_OK then (data, ret)
      else
        let data :=
          { data with streaming_playback := (fs_playback_enable data.streaming_playback).1 }
        let data := { data with filled := data.filled + length }
        let data :=
          if data.playing = false ∧ data.prebuffer ≥ 0 ∧ data.filled ≥ data.prebuffer then
            (stream_playback_start data true).1
          else data
        (data, ret)
  else (data, DR_OK)

/-- The function `IFusionSoundStream_Construct` on its success path: the
playback is created with notifications on, the reaction is attached, and the
playback is disabled; the remaining private data starts out zeroed. -/
def IFusionSoundStream_Construct (core : CoreSound) (buffer : CoreSoundBuffer) (pid : Nat)
    (center rear volume : Int) (buffersize rate prebuffer : Int) : IFusionSoundStream_data :=
  let playback := fs_playback_create pid true center rear volume
  let data : IFusionSoundStream_data :=
    { core := core
      buffer := buffer
      streaming_playback := playback
      buffersize := buffersize
      rate := rate
      prebuffer := prebuffer
      playing := false
      pos_write := 0
      pos_read := 0
      filled := 0
      pending := 0 }
  (stream_playback_stop data true).1

/-! ## Playback interface of a stream (`ifusionsoundplayback.c`) and the mixer -/

/-- The function `IFusionSoundPlayback_Continue` on the interface returned by
`GetPlayback` of the stream. -/
def IFusionSoundPlayback_Continue (data : IFusionSoundStream_data) :
    IFusionSoundStream_data × DirectResult :=
  stream_playback_start data false

/-- The function `IFusionSoundPlayback_Stop` on the interface returned by
`GetPlayback` of the stream. -/
def IFusionSoundPlayback_Stop (data : IFusionSoundStream_data) :
    IFusionSoundStream_data × DirectResult :=
  stream_playback_stop data false

/-- The call `fs_playback_set_pitch( data->playback, pitch * dir )` that
`IFusionSoundPlayback_SetPitch` and `IFusionSoundPlayback_SetDirection` end
in, on the stream's playback. -/
def stream_playback_set_pitch (data : IFusionSoundStream_data) (pitch : Int) :
    IFusionSoundStream_data :=
  { data with streaming_playback := (fs_playback_set_pitch data.streaming_playback pitch).1 }

/-- One pass of the playlist loop of `fs_sound_thread` over the entries `es`,
for the playlist entries of the stream's playback (entries of other playbacks
are passed over): the playback is mixed, its notification is dispatched to the
stream, and on a result other than `DR_OK` its entry is removed and freed. -/
def fs_sound_thread_mix (T : MixTables) (SIZEOF_LONG : Nat) (rate : Int) (mode : Nat)
    (buffersize soft_volume : Int) :
    List Nat → IFusionSoundStream_data → List Int → IFusionSoundStream_data × List Int
  | [], data, mixing => (data, mixing)
  | e :: es, data, mixing =>
    if e = data.streaming_playback.pid then
      let r := fs_playback_mixto T SIZEOF_LONG data.buffer data.streaming_playback mixing rate
        mode buffersize soft_volume
      let data := fs_playback_dispatch r.notification { data with streaming_playback := r.playback }
      let data :=
        if r.ret ≠ DR_OK then
          { data with core :=
              { data.core with
                  playlist_entries := data.core.playlist_entries.erase e
                  shmpool_free := data.core.shmpool_free + 1 } }
        else data
      fs_sound_thread_mix T SIZEOF_LONG rate mode buffersize soft_volume es data r.dest
    else fs_sound_thread_mix T SIZEOF_LONG rate mode buffersize soft_volume es data mixing

/-- One mixer tick on the system of the stream: the playlist loop run over the
entries present when the tick begins. -/
def mixer_tick (T : MixTables) (SIZEOF_LONG : Nat) (rate : Int) (mode : Nat)
    (buffersize soft_volume : Int) (data : IFusionSoundStream_data) (mixing : List Int) :
    IFusionSoundStream_data × List Int :=
  fs_sound_thread_mix T SIZEOF_LONG rate mode buffersize soft_volume
    data.core.playlist_entries data mixing

/-! ## Traces of a stream

A stream is driven by calls of its producer (`Write`, `Access`, `Commit`) and by
the notifications of its playback.  A writer that waits for free space is woken
by the broadcast at the end of `IFusionSoundStream_React`; it then continues its
loop with the input pointer it had reached. -/

/-- Steps of a stream between two stable points. -/
inductive StreamEvent
  /-- a call of `Write`, up to its return or its first wait -/
  | write (sample_data : Option (Int → Int)) (length : Int)
  /-- the waiting writer is woken and continues with its input pointer -/
  | wake (sample_data : Int → Int)
  /-- a call of `Access` -/
  | access
  /-- a call of `Commit` -/
  | commit (length : Int)
  /-- the notification of `fs_playback_notify( playback, CPNF_START, 0 )` -/
  | started (pos stop : Int)
  /-- the notification of `fs_playback_notify( playback, CPNF_STOP, 0 )` -/
  | stopped (pos stop : Int)
  /-- the notification sent by `fs_playback_mixto`: `CPNF_ADVANCE` with `num`,
  together with `CPNF_STOP` when the playback ended -/
  | advanced (pos stop num : Int) (ended : Bool)

/-- A stream together with two ghost counters: `W`, the frames stored by the
producer so far, and `C`, the sum of the `num` values of the `ADVANCE`
notifications so far. -/
structure Ledger where
  data : IFusionSoundStream_data
  W    : Int
  C    : Int

/-- One step of a stream, with the ghost counters kept up to date. -/
def stream_step (fuel : Nat) : StreamEvent → Ledger → Option Ledger
  | StreamEvent.write sample_data length, l =>
    (IFusionSoundStream_Write fuel l.data sample_data length).map
      (fun w => { data := w.data, W := l.W + w.stored, C := l.C })
  | StreamEvent.wake sample_data, l =>
    (Write_loop fuel l.data sample_data 0).map
      (fun w => { data := w.data, W := l.W + w.stored, C := l.C })
  | StreamEvent.access, l =>
    some { data := (IFusionSoundStream_Access l.data).data, W := l.W, C := l.C }
  | StreamEvent.commit length, l =>
    let r := IFusionSoundStream_Commit l.data length
    some { data := r.1, W := l.W + (if r.2 = DR_OK then length else 0), C := l.C }
  | StreamEvent.started pos stop, l =>
    some { data := IFusionSoundStream_React
                     { flags := CPNF_START, pos := pos, stop := stop, num := 0 } l.data
           W := l.W, C := l.C }
  | StreamEvent.stopped pos stop, l =>
    some { data := IFusionSoundStream_React
                     { flags := CPNF_STOP, pos := pos, stop := stop, num := 0 } l.data
           W := l.W, C := l.C }
  | StreamEvent.advanced pos stop num ended, l =>
    some { data := IFusionSoundStream_React
                     { flags := if ended then CPNF_ADVANCE ||| CPNF_STOP else CPNF_ADVANCE
                       pos := pos, stop := stop, num := num } l.data
           W := l.W, C := l.C + num }

/-- A sequence of steps of a stream. -/
def stream_run (fuel : Nat) : List StreamEvent → Ledger → Option Ledger
  | [], l => some l
  | e :: es, l => (stream_step fuel e l).bind (stream_run fuel es)

/-- The steps of the producer: those that can store frames. -/
def StreamEvent.producer : StreamEvent → Bool
  | StreamEvent.write _ _ => true
  | StreamEvent.wake _ => true
  | StreamEvent.commit _ => true
  | _ => false

/-! ## Auxiliary descriptions of the writer -/

/-- One pass through the body of the loop `while (size)` of
`IFusionSoundStream_Write`, with the calls it makes evaluated. -/
def fill_step (sample_data : Int → Int) (st : FillState) : FillState :=
  let data := st.data
  let length := min st.size (data.buffersize - data.pos_write)
  let lock_bytes :=
    data.buffer.bytes * (if length = 0 then data.buffer.length - data.pos_write else length)
  let pos_write := if data.pos_write + length = data.buffersize then 0 else data.pos_write + length
  { data :=
      { data with
          buffer := { data.buffer with
            data := direct_memcpy data.buffer.data (data.buffer.bytes * data.pos_write)
              (ptr_add sample_data st.bytes) lock_bytes }
          pos_write := pos_write
          streaming_playback := { data.streaming_playback with stop := pos_write, disabled := false }
          filled := data.filled + length }
    size := st.size - length
    bytes := st.bytes + lock_bytes
    stored := st.stored + length
    ret := DR_OK }

/-- The stream after `size` frames went into the ring, whose sample memory is
then `mem`: the write position and the stop position of the playback moved on
by `size` modulo the ring size, the playback is enabled, the fill level grew by
`size`. -/
def after_fill (data : IFusionSoundStream_data) (size : Int) (mem : Int → Int) :
    IFusionSoundStream_data :=
  { data with
      buffer := { data.buffer with data := mem }
      pos_write := (data.pos_write + size) % data.buffersize
      streaming_playback :=
        { data.streaming_playback with
            stop := (data.pos_write + size) % data.buffersize
            disabled := false }
      filled := data.filled + size }

/-- The check made once the fill level is updated: (re)start if playback is
stopped and the prebuffer level is reached. -/
def start_if_prebuffered (data : IFusionSoundStream_data) : IFusionSoundStream_data :=
  if data.playing = false ∧ data.prebuffer ≥ 0 ∧ data.filled ≥ data.prebuffer then
    (stream_playback_start data true).1
  else data

/-- The stream after the bookkeeping of `IFusionSoundStream_Commit` for
`length` frames, before the check for a (re)start: write position with the
wrap at the end of the ring, stop position, enabled playback, fill level. -/
def after_commit (data : IFusionSoundStream_data) (length : Int) : IFusionSoundStream_data :=
  let pos_write :=
    if data.pos_write + length = data.buffersize then 0 else data.pos_write + length
  { data with
      pos_write := pos_write
      streaming_playback := { data.streaming_playback with stop := pos_write, disabled := false }
      filled := data.filled + length }

/-- Between `before` and `after` the playback of the stream was started: it
runs, it got a playlist entry, and the stream was told so when the playback
notifies. -/
def playback_started (before after : IFusionSoundStream_data) : Prop :=
  after.streaming_playback.running = true ∧
  after.core.playlist_entries =
    before.streaming_playback.pid :: before.core.playlist_entries ∧
  (before.streaming_playback.notify = true → after.playing = true)

/-- Between `before` and `after` the playback of the stream was neither started
nor stopped. -/
def playback_unchanged (before after : IFusionSoundStream_data) : Prop :=
  after.streaming_playback.running = before.streaming_playback.running ∧
  after.core = before.core ∧
  after.playing = before.playing

/-! ## Concrete streams for the examples -/

/-- Mixing routines that write nothing and report no frame; they stand in for
the routines of `sound_mix.h` where only positions matter. -/
def demo_tables : MixTables :=
  { MIX_FW := fun _ _ _ dest _ _ _ _ _ _ => (dest, 0)
    MIX_RW := fun _ _ _ dest _ _ _ _ _ _ => (dest, 0) }

/-- A stereo S16 buffer of `length` frames at 48000 Hz, all bytes zero. -/
def demo_buffer (length : Int) : CoreSoundBuffer :=
  { length := length, mode := FSCM_STEREO, format := FSSF_S16, rate := 48000, bytes := 4
    data := fun _ => 0 }

/-- A core with an empty playlist and room for four playlist entries. -/
def demo_core : CoreSound :=
  { playlist_entries := [], shmpool_free := 4, output_delay := 0 }

/-- A freshly constructed stream of `buffersize` frames on `demo_buffer`. -/
def demo_stream (buffersize prebuffer : Int) : IFusionSoundStream_data :=
  IFusionSoundStream_Construct demo_core (demo_buffer buffersize) 7 FSF_ONE FSF_ONE FSF_ONE
    buffersize 48000 prebuffer

/-- Caller memory whose byte at offset `i` is `i mod 256`. -/
def demo_input : Int → Int := fun i => i % 256

/-- The stream `data` after a `Write` of `length` frames of `demo_input`
(unchanged should the fuel run out). -/
def demo_write (data : IFusionSoundStream_data) (length : Int) : IFusionSoundStream_data :=
  match IFusionSoundStream_Write 8 data (some demo_input) length with
  | some w => w.data
  | none => data

/-- One mixer tick at 48000 Hz, stereo, with `buffersize` device frames. -/
def demo_tick (data : IFusionSoundStream_data) (buffersize : Int) : IFusionSoundStream_data :=
  (mixer_tick demo_tables 8 48000 FSCM_STEREO buffersize FSF_ONE data []).1

/-- The stream of 10 frames after a `Write` of 8 frames and a mixer tick that
played them: the write and read positions are 8 and the ring is empty. -/
def demo_drained : IFusionSoundStream_data :=
  demo_tick (demo_write (demo_stream 10 0) 8) 8

/-- The stream of 10 frames after a `Write` of one frame, a mixer tick that
played it and ended the playback at the stop position, and `Continue` on the
playback interface of the stream. -/
def demo_underrun : IFusionSoundStream_data :=
  (IFusionSoundPlayback_Continue (demo_tick (demo_write (demo_stream 10 0) 1) 4)).1

/-- The stream of 10 frames after a `Write` of one frame, which started the
playback, and a change of the direction to backward. -/
def demo_rewind : IFusionSoundStream_data :=
  stream_playback_set_pitch (demo_write (demo_stream 10 0) 1) (-FS_PITCH_ONE)

/-- The notification of the next mixer tick of the stream's playback, with
`max_frames` device frames at 48000 Hz. -/
def demo_next_notification (data : IFusionSoundStream_data) (max_frames : Int) :
    Option CorePlaybackNotification :=
  (fs_playback_mixto demo_tables 8 data.buffer data.streaming_playback [] 48000 FSCM_STEREO
    max_frames FSF_ONE).notification

/-! ## Presentation delay (`ifusionsoundstream.c`) -/

/-- The value of a C `int` expression whose exact result is `x`, on a two's
complement machine with 32 bit `int`. -/
def int_wrap (x : Int) : Int := (x + 2 ^ 31) % 2 ^ 32 - 2 ^ 31

/-- The value `x` fits a C `int`. -/
abbrev in_int (x : Int) : Prop := -2 ^ 31 ≤ x ∧ x < 2 ^ 31

/-- The function `IFusionSoundStream_GetPresentationDelay` (result pointer
non-null): the stream, the result code and `*ret_delay`.  The expression is
evaluated in `int`, step by step. -/
def IFusionSoundStream_GetPresentationDelay (data : IFusionSoundStream_data) :
    IFusionSoundStream_data × DirectResult × Int :=
  (data, DR_OK,
    int_wrap (fs_core_output_delay data.core +
      int_wrap (Int.tdiv (int_wrap (int_wrap (data.filled + data.pending) * 1000)) data.rate)))

/-! ## Fixed point samples (`fs_types.h`, build without `FS_IEEE_FLOATS`) -/

/-- The constant `FSF_MAX`. -/
def FSF_MAX : Int := FSF_ONE - 1

/-- The constant `FSF_MIN`. -/
def FSF_MIN : Int := -FSF_ONE

/-- The macro `fsf_clip`. -/
def fsf_clip (x : Int) : Int :=
  if x > FSF_MAX then FSF_MAX else if x < FSF_MIN then FSF_MIN else x

/-- The macro `fsf_from_u8`: `((x) - 128) << (FSF_DECIBITS - 7)`. -/
def fsf_from_u8 (x : Int) : Int := (x - 128) * 2 ^ (FSF_DECIBITS - 7)

/-- The macro `fsf_to_u8`: `((x) >> (FSF_DECIBITS - 7)) + 128`. -/
def fsf_to_u8 (x : Int) : Int := (x >>> (FSF_DECIBITS - 7)) + 128

/-- The macro `fsf_from_s16`: `(x) << (FSF_DECIBITS - 15)`. -/
def fsf_from_s16 (x : Int) : Int := x * 2 ^ (FSF_DECIBITS - 15)

/-- The macro `fsf_to_s16`: `(x) >> (FSF_DECIBITS - 15)`. -/
def fsf_to_s16 (x : Int) : Int := x >>> (FSF_DECIBITS - 15)

/-- The macro `fsf_from_s24`: `(x) << (FSF_DECIBITS - 23)`. -/
def fsf_from_s24 (x : Int) : Int := x * 2 ^ (FSF_DECIBITS - 23)

/-- The macro `fsf_to_s24`: `(x) >> (FSF_DECIBITS - 23)`. -/
def fsf_to_s24 (x : Int) : Int := x >>> (FSF_DECIBITS - 23)

/-- The macro `fsf_from_s32`: `(x) >> (31 - FSF_DECIBITS)`. -/
def fsf_from_s32 (x : Int) : Int := x >>> (31 - FSF_DECIBITS)

/-- The macro `fsf_to_s32`: `(x) << (31 - FSF_DECIBITS)`. -/
def fsf_to_s32 (x : Int) : Int := x * 2 ^ (31 - FSF_DECIBITS)

/-! ## The arithmetic of a mixer tick -/

/-- The levels `fs_playback_mixto` hands to `fs_buffer_mixto`, and through it
to the mixing routine: the levels of the playback, each multiplied by the
product of the `volume` argument and the local volume unless both are
`FSF_ONE`. -/
def fs_playback_mixto_levels (playback : CorePlayback) (volume : Int) : List Int :=
  if volume ≠ FSF_ONE ∨ playback.volume ≠ FSF_ONE then
    let volume := fsf_mul volume playback.volume
    (List.range 6).map (fun i => fsf_mul (playback.levels.getD i 0) volume)
  else playback.levels

/-- The step `inc` of `fs_buffer_mixto` in units of 2^-14 frames, before the
clamp: `(long long) buffer->rate * pitch / rate`. -/
def mixto_inc (buffer : CoreSoundBuffer) (pitch rate : Int) : Int :=
  Int.tdiv (buffer.rate * pitch) rate

/-- The distance in frames from `pos` to `stop` in the direction of motion on a
buffer of `L` frames, with wrap around: forward for `pitch ≥ 0`, backward for
`pitch < 0`. -/
def stop_distance (L pos stop pitch : Int) : Int :=
  if pitch < 0 then
    if pos > stop then pos - stop else pos + L - stop
  else
    if pos < stop then stop - pos else stop + L - pos

/-- The position the specification gives for one tick of `N` frames of a
looping playback on a buffer of `L` frames:
`(pos + floor(N * pitch * R_src / R_dst / 2^14)) mod L`.  For a positive
`R_dst` the integer quotient by `R_dst * 2^14` is that floor. -/
def resample_position_spec (L pos N pitch R_src R_dst : Int) : Int :=
  (pos + (N * pitch * R_src) / (R_dst * 2 ^ 14)) % L

/-- The playback `IFusionSoundBuffer_Play` and `IFusionSoundPlayback_Start` set
up before they start it: created with `notify`, then position, stop and pitch
set. -/
def demo_playback (notify : Bool) (position stop pitch : Int) : CorePlayback :=
  (fs_playback_set_pitch
    (fs_playback_set_stop
      (fs_playback_set_position (fs_playback_create 7 notify FSF_ONE FSF_ONE FSF_ONE)
        position).1 stop).1 pitch).1

/-- A stereo S16 buffer of `length` frames at `rate` Hz, all bytes zero. -/
def demo_buffer_at (length rate : Int) : CoreSoundBuffer :=
  { length := length, mode := FSCM_STEREO, format := FSSF_S16, rate := rate, bytes := 4
    data := fun _ => 0 }

/-! ## Sample formats and channel modes (`fusionsound.h`) -/

/-- The build constant `FS_MAX_CHANNELS`: the build with six channels, which
defines all thirteen channel modes. -/
def FS_MAX_CHANNELS : Nat := 6

/-- The macro `FS_MAX_FRAMES`: `0x7fffffff / FS_MAX_CHANNELS / 4`. -/
def FS_MAX_FRAMES : Int := 0x7fffffff / FS_MAX_CHANNELS / 4

def FSSF_UNKNOWN : Nat := 0x00000000
def FSSF_U8 : Nat := FS_SAMPLEFORMAT 0 8 8 0
def FSSF_S24 : Nat := FS_SAMPLEFORMAT 2 24 24 1
def FSSF_S32 : Nat := FS_SAMPLEFORMAT 3 32 32 1
def FSSF_FLOAT : Nat := FS_SAMPLEFORMAT 4 32 32 1

/-- The macro `FS_BYTES_PER_SAMPLE`. -/
def FS_BYTES_PER_SAMPLE (fmt : Nat) : Nat := (fmt &&& 0x000007F0) >>> 7

def FSCM_UNKNOWN : Nat := 0x00000000
def FSCM_MONO : Nat := FS_CHANNELMODE 1 0 0 0
def FSCM_STEREO21 : Nat := FS_CHANNELMODE 3 0 0 1
def FSCM_STEREO30 : Nat := FS_CHANNELMODE 3 1 0 0
def FSCM_STEREO31 : Nat := FS_CHANNELMODE 3 1 0 1
def FSCM_SURROUND30 : Nat := FS_CHANNELMODE 3 0 1 0
def FSCM_SURROUND31 : Nat := FS_CHANNELMODE 4 0 1 1
def FSCM_SURROUND40_2F2R : Nat := FS_CHANNELMODE 4 0 2 0
def FSCM_SURROUND41_2F2R : Nat := FS_CHANNELMODE 5 0 2 1
def FSCM_SURROUND40_3F1R : Nat := FS_CHANNELMODE 4 1 1 0
def FSCM_SURROUND41_3F1R : Nat := FS_CHANNELMODE 5 1 1 1
def FSCM_SURROUND50 : Nat := FS_CHANNELMODE 5 1 2 0
def FSCM_SURROUND51 : Nat := FS_CHANNELMODE 6 1 2 1

/-- The macro `FS_MODE_HAS_CENTER`. -/
def FS_MODE_HAS_CENTER (mode : Nat) : Bool := mode &&& 0x00000010 != 0

/-- The macro `FS_MODE_NUM_REARS`. -/
def FS_MODE_NUM_REARS (mode : Nat) : Nat := (mode &&& 0x00000060) >>> 5

/-- The macro `FS_MODE_HAS_LFE`. -/
def FS_MODE_HAS_LFE (mode : Nat) : Bool := mode &&& 0x00000080 != 0

/-- The thirteen members of `FSChannelMode` other than `FSCM_UNKNOWN`, in the
order of the enumeration. -/
def channel_modes : List Nat :=
  [FSCM_MONO, FSCM_STEREO, FSCM_STEREO21, FSCM_STEREO30, FSCM_STEREO31, FSCM_SURROUND30,
   FSCM_SURROUND31, FSCM_SURROUND40_2F2R, FSCM_SURROUND41_2F2R, FSCM_SURROUND40_3F1R,
   FSCM_SURROUND41_3F1R, FSCM_SURROUND50, FSCM_SURROUND51]

/-- The five members of `FSSampleFormat` other than `FSSF_UNKNOWN`. -/
def sample_formats : List Nat := [FSSF_U8, FSSF_S16, FSSF_S24, FSSF_S32, FSSF_FLOAT]

/-- The number of channels of the layout a channel mode stands for, as the
specification counts it: one front channel for mono and two otherwise, plus
the center, the rears and the subwoofer the tag announces. -/
def layout_channels (mode : Nat) : Nat :=
  (if mode = FSCM_MONO then 1 else 2) + (if FS_MODE_HAS_CENTER mode then 1 else 0) +
    FS_MODE_NUM_REARS mode + (if FS_MODE_HAS_LFE mode then 1 else 0)

/-- The function `fs_mode_for_channels` (`sound_util.c`). -/
def fs_mode_for_channels (channels : Int) : Nat :=
  if channels = 1 then FSCM_MONO
  else if channels = 2 then FSCM_STEREO
  else if channels = 3 then FSCM_STEREO30
  else if channels = 4 then FSCM_SURROUND40_2F2R
  else if channels = 5 then FSCM_SURROUND50
  else if channels = 6 then FSCM_SURROUND51
  else FSCM_UNKNOWN

/-! ## Status of a playback and `IFusionSoundPlayback_Wait` -/

def CPS_NONE : Nat := 0x00000000
def CPS_PLAYING : Nat := 0x00000001
def CPS_LOOPING : Nat := 0x00000002

/-- The function `fs_playback_get_status`: the result code, the status flags
and the position. -/
def fs_playback_get_status (playback : CorePlayback) : DirectResult × Nat × Int :=
  let status := CPS_NONE
  let status :=
    if playback.running then
      let status := status ||| CPS_PLAYING
      if playback.stop < 0 then status ||| CPS_LOOPING else status
    else status
  (DR_OK, status, playback.position)

/-- The function `IFusionSoundPlayback_Wait`: one pass through its loop, which
either breaks out and returns or reaches `direct_waitqueue_wait`. -/
def IFusionSoundPlayback_Wait (playback : CorePlayback) : Exit :=
  match fs_playback_get_status playback with
  | (ret, status, _) =>
    if ret ≠ DR_OK then Exit.returned ret
    else if status &&& CPS_PLAYING ≠ 0 then
      if status &&& CPS_LOOPING ≠ 0 then Exit.returned DR_UNSUPPORTED
      else Exit.waiting
    else Exit.returned ret

/-- The private data of a playback interface (`IFusionSoundPlayback_data`), as
far as `Start` and `Wait` use it, together with the core. -/
structure IFusionSoundPlayback_data where
  core     : CoreSound
  playback : CorePlayback
  stream   : Bool
  length   : Int

/-- The function `IFusionSoundPlayback_Start`. -/
def IFusionSoundPlayback_Start (data : IFusionSoundPlayback_data) (start stop : Int) :
    IFusionSoundPlayback_data × DirectResult :=
  if data.stream then (data, DR_UNSUPPORTED)
  else if start < 0 ∨ start ≥ data.length then (data, DR_INVARG)
  else if stop ≥ data.length then (data, DR_INVARG)
  else
    let playback := (fs_playback_set_position data.playback start).1
    let playback := (fs_playback_set_stop playback stop).1
    match fs_playback_start data.core playback false with
    | (core, playback, _, _) => ({ data with core := core, playback := playback }, DR_OK)

/-! ## Configuration and the size of the device buffer (`sound_conf.c`, `core_sound.c`) -/

/-- The struct `FSConfig`.  The fields the sound core does not read carry the
values `config_allocate` gives them. -/
structure FSConfig where
  channelmode  : Nat
  sampleformat : Nat
  samplerate   : Int
  buffertime   : Int
  dither       : Bool
  driver       : Option (List Char) := none
  banner       : Bool := true
  wait         : Bool := true
  deinit_check : Bool := true
  session      : Int := 1
  deriving DecidableEq, Repr

/-- The struct `CoreSoundDeviceConfig`. -/
structure CoreSoundDeviceConfig where
  mode       : Nat
  format     : Nat
  rate       : Int
  buffersize : Int
  deriving DecidableEq, Repr

/-- The branch of `fs_config_set` for the option `samplerate`, given the parsed
number. -/
def fs_config_set_samplerate (conf : FSConfig) (rate : Int) : FSConfig × DirectResult :=
  if rate < 1 then (conf, DR_INVARG)
  else ({ conf with samplerate := rate }, DR_OK)

/-- The branch of `fs_config_set` for the option `buffertime`, given the parsed
number. -/
def fs_config_set_buffertime (conf : FSConfig) (time : Int) : FSConfig × DirectResult :=
  if time < 1 ∨ time > 5000 then (conf, DR_INVARG)
  else ({ conf with buffertime := time }, DR_OK)

/-- The device configuration `fs_core_initialize` sets up before it opens the
device; the product and the quotient are computed in `int`, and the quotient is
stored in the `unsigned int` field `buffersize`, in which the comparison with
65535 is made. -/
def fs_core_initialize_config (conf : FSConfig) : CoreSoundDeviceConfig :=
  let buffersize :=
    int_wrap (Int.tdiv (int_wrap (conf.samplerate * conf.buffertime)) 1000) % 2 ^ 32
  let buffersize := if buffersize > 65535 then 65535 else buffersize
  { mode := conf.channelmode
    format := conf.sampleformat
    rate := conf.samplerate
    buffersize := buffersize }

/-! ## Master feedback (`fs_sound_thread`) -/

/-- The running minima and maxima `l_min`, `l_max`, `r_min`, `r_max` of the
feedback loops of `fs_sound_thread`. -/
structure FeedbackState where
  l_min : Int
  l_max : Int
  r_min : Int
  r_max : Int
  deriving DecidableEq, Repr

/-- The body of the feedback loop for one channel, at index `i`. -/
def feedback_body_mono (mixing : List Int) (st : FeedbackState) (i : Nat) : FeedbackState :=
  let st := if mixing.getD i 0 < st.l_min then { st with l_min := mixing.getD i 0 } else st
  let st := if mixing.getD i 0 > st.l_max then { st with l_max := mixing.getD i 0 } else st
  st

/-- The body of the feedback loop for two or more channels, at index `i`. -/
def feedback_body (mixing : List Int) (st : FeedbackState) (i : Nat) : FeedbackState :=
  let st := if mixing.getD i 0 < st.l_min then { st with l_min := mixing.getD i 0 } else st
  let st := if mixing.getD i 0 > st.l_max then { st with l_max := mixing.getD i 0 } else st
  let st := if mixing.getD (i + 1) 0 < st.r_min then { st with r_min := mixing.getD i 0 } else st
  let st := if mixing.getD (i + 1) 0 > st.r_max then { st with r_max := mixing.getD i 0 } else st
  st

/-- The master feedback `fs_sound_thread` publishes after mixing `length`
frames into `mixing`: `(master_feedback_left, master_feedback_right)`.  The
loop `for (i = 0; i < length * ch; i += ch)` visits `i = 0, ch, 2 ch, ...`,
`length` indices in all unless `ch` is zero. -/
def fs_sound_thread_feedback (mode : Nat) (mixing : List Int) (length : Nat) : Int × Int :=
  let init : FeedbackState :=
    { l_min := FSF_MAX, l_max := FSF_MIN, r_min := FSF_MAX, r_max := FSF_MIN }
  let st :=
    if FS_CHANNELS_FOR_MODE mode = 1 then
      let st := (List.range length).foldl (feedback_body_mono mixing) init
      { st with r_min := st.l_min, r_max := st.l_max }
    else if FS_CHANNELS_FOR_MODE mode = 0 then init
    else
      ((List.range length).map (fun k => k * FS_CHANNELS_FOR_MODE mode)).foldl
        (feedback_body mixing) init
  (st.l_max - st.l_min, st.r_max - st.r_min)

/-- The largest minus the smallest element of a list of samples, zero for the
empty list. -/
def sample_range (samples : List Int) : Int :=
  samples.foldl max (samples.headD 0) - samples.foldl min (samples.headD 0)

/-- The samples of channel `c` over the frames `[0, length)` of the mixing
buffer, which holds `FS_MAX_CHANNELS` samples a frame. -/
def accumulator_channel (mixing : List Int) (length : Nat) (c : Nat) : List Int :=
  (List.range length).map (fun k => mixing.getD (k * FS_MAX_CHANNELS + c) 0)

/-- The feedback the specification asks for: the range of the left and of the
right channel of the accumulator over the mixed frames. -/
def feedback_spec (mixing : List Int) (length : Nat) : Int × Int :=
  (sample_range (accumulator_channel mixing length 0),
   sample_range (accumulator_channel mixing length 1))

/-! ## Creation of buffers and streams (`ifusionsound.c`, `sound_buffer.c`) -/

def FSBDF_LENGTH : Nat := 0x00000001
def FSBDF_CHANNELS : Nat := 0x00000002
def FSBDF_SAMPLEFORMAT : Nat := 0x00000004
def FSBDF_SAMPLERATE : Nat := 0x00000008
def FSBDF_CHANNELMODE : Nat := 0x00000010
def FSBDF_ALL : Nat := 0x0000001F

def FSSDF_BUFFERSIZE : Nat := 0x00000001
def FSSDF_CHANNELS : Nat := 0x00000002
def FSSDF_SAMPLEFORMAT : Nat := 0x00000004
def FSSDF_SAMPLERATE : Nat := 0x00000008
def FSSDF_PREBUFFER : Nat := 0x00000010
def FSSDF_CHANNELMODE : Nat := 0x00000020
def FSSDF_ALL : Nat := 0x0000003F

/-- The struct `FSBufferDescription`. -/
structure FSBufferDescription where
  flags        : Nat
  length       : Int
  channels     : Int
  sampleformat : Nat
  samplerate   : Int
  channelmode  : Nat
  deriving DecidableEq, Repr

/-- The struct `FSStreamDescription`. -/
structure FSStreamDescription where
  flags        : Nat
  buffersize   : Int
  channels     : Int
  sampleformat : Nat
  samplerate   : Int
  prebuffer    : Int
  channelmode  : Nat
  deriving DecidableEq, Repr

/-- What the surroundings decide when an object is created: whether the object
pool hands out a buffer object, whether the shared memory pool serves a request
of a given number of bytes, what the memory served holds, and the result of the
reference, creation and attach calls inside a `Construct` function. -/
structure CreateEnv where
  object_ok : Bool
  shmalloc  : Int → Bool
  memory    : Int → Int
  construct : DirectResult

/-- The `switch` on a channel mode in `IFusionSound_CreateBuffer` and
`IFusionSound_CreateStream`: true for the cases that take the mode. -/
def channelmode_case (mode : Nat) : Bool :=
  mode = FSCM_MONO ∨ mode = FSCM_STEREO ∨ mode = FSCM_STEREO21 ∨ mode = FSCM_STEREO30 ∨
  mode = FSCM_STEREO31 ∨ mode = FSCM_SURROUND30 ∨ mode = FSCM_SURROUND31 ∨
  mode = FSCM_SURROUND40_2F2R ∨ mode = FSCM_SURROUND41_2F2R ∨ mode = FSCM_SURROUND40_3F1R ∨
  mode = FSCM_SURROUND41_3F1R ∨ mode = FSCM_SURROUND50 ∨ mode = FSCM_SURROUND51

/-- The `switch` on a sample format in `IFusionSound_CreateBuffer` and
`IFusionSound_CreateStream`: true for the cases that take the format. -/
def sampleformat_case (format : Nat) : Bool :=
  format = FSSF_U8 ∨ format = FSSF_S16 ∨ format = FSSF_S24 ∨ format = FSSF_S32 ∨
  format = FSSF_FLOAT

/-- The function `fs_buffer_create`. -/
def fs_buffer_create (env : CreateEnv) (length : Int) (mode format : Nat) (rate : Int) :
    DirectResult × Option CoreSoundBuffer :=
  if env.object_ok = false then (DR_FUSION, none)
  else
    let bytes : Int := FS_BYTES_PER_SAMPLE format
    let channels : Int := FS_CHANNELS_FOR_MODE mode
    if env.shmalloc (length * bytes * channels) = false then (DR_NOLOCALMEMORY, none)
    else
      (DR_OK, some
        { length := length, mode := mode, format := format, rate := rate
          bytes := bytes * channels, data := env.memory })

/-- The private data of a buffer interface (`IFusionSoundBuffer_data`).  The
interface data is allocated zeroed: `locked`, `pos` and `looping_playback`
start out as false, 0 and NULL. -/
structure IFusionSoundBuffer_data where
  core   : CoreSound
  buffer : CoreSoundBuffer
  length : Int
  mode   : Nat
  format : Nat
  rate   : Int
  locked : Bool := false
  pos    : Int := 0
  looping_playback : Option CorePlayback := none

/-- The function `IFusionSoundBuffer_Construct`. -/
def IFusionSoundBuffer_Construct (env : CreateEnv) (core : CoreSound) (buffer : CoreSoundBuffer)
    (length : Int) (mode format : Nat) (rate : Int) :
    DirectResult × Option IFusionSoundBuffer_data :=
  if env.construct ≠ DR_OK then (env.construct, none)
  else
    (DR_OK, some
      { core := core, buffer := buffer, length := length, mode := mode, format := format
        rate := rate })

/-- The function `IFusionSound_CreateBuffer`.  `desc` is `none` for a NULL
descriptor, `ret_interface` is false for a NULL result pointer; the interface
is handed back through the second component. -/
def IFusionSound_CreateBuffer (env : CreateEnv) (core : CoreSound)
    (config : CoreSoundDeviceConfig) (desc : Option FSBufferDescription)
    (ret_interface : Bool) : DirectResult × Option IFusionSoundBuffer_data :=
  match desc with
  | none => (DR_INVARG, none)
  | some desc =>
    if ret_interface = false then (DR_INVARG, none)
    else
      let mode := config.mode
      let format := config.format
      let rate := config.rate
      if desc.flags &&& (0xFFFFFFFF ^^^ FSBDF_ALL) ≠ 0 then (DR_INVARG, none)
      else if desc.flags &&& FSBDF_CHANNELMODE ≠ 0 ∧ channelmode_case desc.channelmode = false
        then (DR_INVARG, none)
      else if desc.flags &&& FSBDF_CHANNELMODE = 0 ∧ desc.flags &&& FSBDF_CHANNELS ≠ 0 ∧
          ¬ (1 ≤ desc.channels ∧ desc.channels ≤ FS_MAX_CHANNELS) then (DR_INVARG, none)
      else
        let mode :=
          if desc.flags &&& FSBDF_CHANNELMODE ≠ 0 then desc.channelmode
          else if desc.flags &&& FSBDF_CHANNELS ≠ 0 then fs_mode_for_channels desc.channels
          else mode
        if desc.flags &&& FSBDF_SAMPLEFORMAT ≠ 0 ∧ sampleformat_case format = false then
          (DR_INVARG, none)
        else
          let format := if desc.flags &&& FSBDF_SAMPLEFORMAT ≠ 0 then desc.sampleformat else format
          if desc.flags &&& FSBDF_SAMPLERATE ≠ 0 ∧ desc.samplerate < 100 then
            (DR_UNSUPPORTED, none)
          else
            let rate := if desc.flags &&& FSBDF_SAMPLERATE ≠ 0 then desc.samplerate else rate
            let length : Int := if desc.flags &&& FSBDF_LENGTH ≠ 0 then desc.length else 0
            if length < 1 then (DR_INVARG, none)
            else if length > FS_MAX_FRAMES then (DR_LIMITEXCEEDED, none)
            else
              match fs_buffer_create env length mode format rate with
              | (_, some buffer) =>
                IFusionSoundBuffer_Construct env core buffer length mode format rate
              | (ret, none) => (ret, none)

/-- The block `if (desc) { ... }` of `IFusionSound_CreateStream`, entered with
the values of the device configuration and with `buffersize = 0` and
`prebuffer = 0`: the result code it returns with, or `DR_OK` when it runs
through, and the values of `mode`, `format`, `rate`, `buffersize` and
`prebuffer` it leaves. -/
def stream_description_check (config : CoreSoundDeviceConfig) (desc : FSStreamDescription) :
    DirectResult × Nat × Nat × Int × Int × Int :=
  let mode := config.mode
  let format := config.format
  let rate := config.rate
  let buffersize : Int := 0
  let prebuffer : Int := 0
  if desc.flags &&& (0xFFFFFFFF ^^^ FSSDF_ALL) ≠ 0 then
    (DR_INVARG, mode, format, rate, buffersize, prebuffer)
  else if desc.flags &&& FSSDF_CHANNELMODE ≠ 0 ∧ channelmode_case desc.channelmode = false
    then (DR_INVARG, mode, format, rate, buffersize, prebuffer)
  else if desc.flags &&& FSSDF_CHANNELMODE = 0 ∧ desc.flags &&& FSSDF_CHANNELS ≠ 0 ∧
      ¬ (1 ≤ desc.channels ∧ desc.channels ≤ FS_MAX_CHANNELS) then
    (DR_INVARG, mode, format, rate, buffersize, prebuffer)
  else
    let mode :=
      if desc.flags &&& FSSDF_CHANNELMODE ≠ 0 then desc.channelmode
      else if desc.flags &&& FSSDF_CHANNELS ≠ 0 then fs_mode_for_channels desc.channels
      else mode
    if desc.flags &&& FSSDF_SAMPLEFORMAT ≠ 0 ∧ sampleformat_case desc.sampleformat = false
      then (DR_INVARG, mode, format, rate, buffersize, prebuffer)
    else
      let format :=
        if desc.flags &&& FSSDF_SAMPLEFORMAT ≠ 0 then desc.sampleformat else format
      if desc.flags &&& FSSDF_SAMPLERATE ≠ 0 ∧ desc.samplerate < 100 then
        (DR_UNSUPPORTED, mode, format, rate, buffersize, prebuffer)
      else
        let rate := if desc.flags &&& FSSDF_SAMPLERATE ≠ 0 then desc.samplerate else rate
        if desc.flags &&& FSSDF_BUFFERSIZE ≠ 0 ∧ desc.buffersize < 1 then
          (DR_INVARG, mode, format, rate, buffersize, prebuffer)
        else
          let buffersize :=
            if desc.flags &&& FSSDF_BUFFERSIZE ≠ 0 then desc.buffersize else buffersize
          if desc.flags &&& FSSDF_PREBUFFER ≠ 0 ∧ desc.prebuffer ≥ buffersize then
            (DR_INVARG, mode, format, rate, buffersize, prebuffer)
          else
            let prebuffer :=
              if desc.flags &&& FSSDF_PREBUFFER ≠ 0 then desc.prebuffer else prebuffer
            (DR_OK, mode, format, rate, buffersize, prebuffer)

/-- The part of `IFusionSound_CreateStream` after the descriptor has been
read: the default for the ring buffer size, the limit of five seconds, and the
creation of the buffer and of the stream on it.  The product `rate * 5` is
taken as an integer here; `stream_create_int` computes it in `int`. -/
def stream_create (env : CreateEnv) (core : CoreSound) (mode format : Nat)
    (rate buffersize prebuffer : Int) (pid : Nat) (center rear volume : Int) :
    DirectResult × Option IFusionSoundStream_data :=
  let buffersize := if buffersize = 0 then Int.tdiv rate 5 else buffersize
  if buffersize > rate * 5 then (DR_LIMITEXCEEDED, none)
  else
    match fs_buffer_create env buffersize mode format rate with
    | (_, some buffer) =>
      if env.construct ≠ DR_OK then (env.construct, none)
      else
        (DR_OK, some (IFusionSoundStream_Construct core buffer pid center rear volume
          buffersize rate prebuffer))
    | (ret, none) => (ret, none)

/-- The function `IFusionSound_CreateStream`.  `desc` is `none` for a NULL
descriptor, `ret_interface` is false for a NULL result pointer.  The stream is
handed back through the second component; its channel mode and sample format
are those of its buffer.  `pid`, `center`, `rear` and `volume` are what
`fs_playback_create` gives the playback of the stream. -/
def IFusionSound_CreateStream (env : CreateEnv) (core : CoreSound)
    (config : CoreSoundDeviceConfig) (desc : Option FSStreamDescription)
    (ret_interface : Bool) (pid : Nat) (center rear volume : Int) :
    DirectResult × Option IFusionSoundStream_data :=
  if ret_interface = false then (DR_INVARG, none)
  else
    match desc with
    | none =>
      stream_create env core config.mode config.format config.rate 0 0 pid center rear volume
    | some desc =>
      match stream_description_check config desc with
      | (ret, mode, format, rate, buffersize, prebuffer) =>
        if ret ≠ DR_OK then (ret, none)
        else stream_create env core mode format rate buffersize prebuffer pid center rear volume

/-- The part of `IFusionSound_CreateStream` after the descriptor has been
read, with the product `rate * 5` computed in `int` as the code does:
`if (buffersize > rate * 5) return DR_LIMITEXCEEDED;`. -/
def stream_create_int (env : CreateEnv) (core : CoreSound) (mode format : Nat)
    (rate buffersize prebuffer : Int) (pid : Nat) (center rear volume : Int) :
    DirectResult × Option IFusionSoundStream_data :=
  let buffersize := if buffersize = 0 then Int.tdiv rate 5 else buffersize
  if buffersize > int_wrap (rate * 5) then (DR_LIMITEXCEEDED, none)
  else
    match fs_buffer_create env buffersize mode format rate with
    | (_, some buffer) =>
      if env.construct ≠ DR_OK then (env.construct, none)
      else
        (DR_OK, some (IFusionSoundStream_Construct core buffer pid center rear volume
          buffersize rate prebuffer))
    | (ret, none) => (ret, none)

/-- The function `IFusionSound_CreateStream` with the limit of five seconds
tested in `int` (`stream_create_int`); everything else is as in
`IFusionSound_CreateStream` above. -/
def IFusionSound_CreateStream_int (env : CreateEnv) (core : CoreSound)
    (config : CoreSoundDeviceConfig) (desc : Option FSStreamDescription)
    (ret_interface : Bool) (pid : Nat) (center rear volume : Int) :
    DirectResult × Option IFusionSoundStream_data :=
  if ret_interface = false then (DR_INVARG, none)
  else
    match desc with
    | none =>
      stream_create_int env core config.mode config.format config.rate 0 0 pid center rear
        volume
    | some desc =>
      match stream_description_check config desc with
      | (ret, mode, format, rate, buffersize, prebuffer) =>
        if ret ≠ DR_OK then (ret, none)
        else
          stream_create_int env core mode format rate buffersize prebuffer pid center rear volume

/-- A stream descriptor whose fields other than the sample rate pass the block
`if (desc) { ... }` of `IFusionSound_CreateStream`: no undefined flag, a channel
mode, channel count and sample format of the enumerations where they are set, a
ring buffer size of at least one frame where it is set, and a prebuffer below
the ring buffer size of the descriptor (zero where that is not set). -/
abbrev stream_fields_pass (desc : FSStreamDescription) : Prop :=
  desc.flags &&& (0xFFFFFFFF ^^^ FSSDF_ALL) = 0 ∧
  (desc.flags &&& FSSDF_CHANNELMODE ≠ 0 → channelmode_case desc.channelmode = true) ∧
  (desc.flags &&& FSSDF_CHANNELMODE = 0 → desc.flags &&& FSSDF_CHANNELS ≠ 0 →
    1 ≤ desc.channels ∧ desc.channels ≤ FS_MAX_CHANNELS) ∧
  (desc.flags &&& FSSDF_SAMPLEFORMAT ≠ 0 → sampleformat_case desc.sampleformat = true) ∧
  (desc.flags &&& FSSDF_BUFFERSIZE ≠ 0 → 1 ≤ desc.buffersize) ∧
  (desc.flags &&& FSSDF_PREBUFFER ≠ 0 →
    desc.prebuffer < (if desc.flags &&& FSSDF_BUFFERSIZE ≠ 0 then desc.buffersize else 0))

/-- A buffer descriptor whose fields other than the sample rate are valid: no
undefined flag, a channel mode, channel count and sample format of the
enumerations where they are set, and a length from 1 to `FS_MAX_FRAMES`. -/
abbrev buffer_fields_valid (desc : FSBufferDescription) : Prop :=
  desc.flags &&& (0xFFFFFFFF ^^^ FSBDF_ALL) = 0 ∧
  (desc.flags &&& FSBDF_CHANNELMODE ≠ 0 → channelmode_case desc.channelmode = true) ∧
  (desc.flags &&& FSBDF_CHANNELMODE = 0 → desc.flags &&& FSBDF_CHANNELS ≠ 0 →
    1 ≤ desc.channels ∧ desc.channels ≤ FS_MAX_CHANNELS) ∧
  (desc.flags &&& FSBDF_SAMPLEFORMAT ≠ 0 → sampleformat_case desc.sampleformat = true) ∧
  desc.flags &&& FSBDF_LENGTH ≠ 0 ∧ 1 ≤ desc.length ∧ desc.length ≤ FS_MAX_FRAMES

/-- Surroundings in which every creation step succeeds. -/
abbrev env_ok (env : CreateEnv) : Prop :=
  env.object_ok = true ∧ (∀ n, env.shmalloc n = true) ∧ env.construct = DR_OK

/-- Surroundings in which every creation step succeeds, with zeroed memory. -/
def demo_env : CreateEnv :=
  { object_ok := true, shmalloc := fun _ => true, memory := fun _ => 0, construct := DR_OK }

/-- A device configuration: stereo, signed 16 bit, 48000 Hz, 1200 frames. -/
def demo_config : CoreSoundDeviceConfig :=
  { mode := FSCM_STEREO, format := FSSF_S16, rate := 48000, buffersize := 1200 }

/-! ## The life of one playback -/

/-- One pass of the playlist loop of `fs_sound_thread` over the entries `es`,
for the playlist entries of one playback (entries of other playbacks are passed
over): the playback is mixed, and on a result other than `DR_OK` its entry is
removed from the playlist and freed. -/
def fs_sound_thread_entries (T : MixTables) (SIZEOF_LONG : Nat) (buffer : CoreSoundBuffer)
    (rate : Int) (mode : Nat) (buffersize soft_volume : Int) :
    List Nat → CoreSound → CorePlayback → List Int → CoreSound × CorePlayback × List Int
  | [], core, playback, mixing => (core, playback, mixing)
  | e :: es, core, playback, mixing =>
    if e = playback.pid then
      let r := fs_playback_mixto T SIZEOF_LONG buffer playback mixing rate mode buffersize
        soft_volume
      let core :=
        if r.ret ≠ DR_OK then
          { core with
              playlist_entries := core.playlist_entries.erase e
              shmpool_free := core.shmpool_free + 1 }
        else core
      fs_sound_thread_entries T SIZEOF_LONG buffer rate mode buffersize soft_volume es core
        r.playback r.dest
    else
      fs_sound_thread_entries T SIZEOF_LONG buffer rate mode buffersize soft_volume es core
        playback mixing

/-- The calls that act on a playback and the playlist.  A mixer tick carries
the device rate, channel mode and buffer size and the soft volume it runs
with. -/
inductive PlaybackEvent
  | enable
  | start (enable : Bool)
  | stop (disable : Bool)
  | set_position (position : Int)
  | set_stop (stop : Int)
  | set_pitch (pitch : Int)
  | tick (rate : Int) (mode : Nat) (buffersize soft_volume : Int)

/-- The effect of one call on the core and the playback. -/
def playback_step (T : MixTables) (SIZEOF_LONG : Nat) (buffer : CoreSoundBuffer) :
    PlaybackEvent → CoreSound × CorePlayback → CoreSound × CorePlayback
  | PlaybackEvent.enable, (core, playback) => (core, (fs_playback_enable playback).1)
  | PlaybackEvent.start enable, (core, playback) =>
    ((fs_playback_start core playback enable).1, (fs_playback_start core playback enable).2.1)
  | PlaybackEvent.stop disable, (core, playback) =>
    ((fs_playback_stop core playback disable).1, (fs_playback_stop core playback disable).2.1)
  | PlaybackEvent.set_position position, (core, playback) =>
    (core, (fs_playback_set_position playback position).1)
  | PlaybackEvent.set_stop stop, (core, playback) => (core, (fs_playback_set_stop playback stop).1)
  | PlaybackEvent.set_pitch pitch, (core, playback) =>
    (core, (fs_playback_set_pitch playback pitch).1)
  | PlaybackEvent.tick rate mode buffersize soft_volume, (core, playback) =>
    let r := fs_sound_thread_entries T SIZEOF_LONG buffer rate mode buffersize soft_volume
      core.playlist_entries core playback []
    (r.1, r.2.1)

/-- A sequence of calls, run from left to right. -/
def playback_run (T : MixTables) (SIZEOF_LONG : Nat) (buffer : CoreSoundBuffer)
    (events : List PlaybackEvent) (st : CoreSound × CorePlayback) : CoreSound × CorePlayback :=
  events.foldl (fun st e => playback_step T SIZEOF_LONG buffer e st) st

/-- The invariant of a playback against the playlist: it is not both disabled
and running, and the playlist holds one entry for it while it is running and
none while it is not. -/
abbrev playback_invariant (st : CoreSound × CorePlayback) : Prop :=
  ¬ (st.2.disabled = true ∧ st.2.running = true) ∧
  st.1.playlist_entries.count st.2.pid = (if st.2.running then 1 else 0)

/-! ## Output conversion of the mixer (`fs_types.h`, `fs_sound_thread`) -/

/-- The macro `fsf_shr`. -/
def fsf_shr (a : Int) (b : Nat) : Int := a >>> b

/-- The macro `fsf_to_float`: `(float) (x) / (float) FSF_ONE`, as a rational
number.  Both conversions and the quotient are exact for the values that
`fsf_clip` lets through. -/
def fsf_to_float (x : Int) : Rat := (x : Rat) / (FSF_ONE : Rat)

/-- One element of `fsf_dither_profiles`: the error history `e[5]` and the
state `r` of the random number generator. -/
structure DitherProfile where
  e0 : Int
  e1 : Int
  e2 : Int
  e3 : Int
  e4 : Int
  r  : Int
  deriving DecidableEq, Repr

/-- The initial value of a dither profile. -/
def DitherProfile.zero : DitherProfile := { e0 := 0, e1 := 0, e2 := 0, e3 := 0, e4 := 0, r := 0 }

/-- The macro `fsf_dither( s, b, p )` of the fixed point build: the dithered
sample and the profile it leaves.  `_m + 1` is a power of two, so `x & _m` is
`x mod (_m + 1)` and `x & ~_m` is `x - x mod (_m + 1)`; `r` is an
`unsigned int`. -/
def fsf_dither (s : Int) (b : Nat) (p : DitherProfile) : Int × DitherProfile :=
  let _m : Int := 2 ^ (FSF_DECIBITS + 1 - b) - 1
  let _s := int_wrap (s + p.e0 - p.e1 + p.e2 - p.e3 + p.e4)
  let _o := int_wrap (_s + 2 ^ (FSF_DECIBITS - b) - p.r % (_m + 1))
  let r := (p.r * 196314165 + 907633515) % 2 ^ 32
  let _o := int_wrap (_o + r % (_m + 1))
  let e4 := int_wrap ((p.e3 >>> 1) - (p.e3 >>> 3))
  let e3 := int_wrap (p.e2 - (p.e2 >>> 2))
  let e2 := int_wrap (p.e1 - (p.e1 >>> 4))
  let e1 := int_wrap (p.e0 + (p.e0 >>> 4))
  let e0 := int_wrap (_s - (_o - _o % (_m + 1)))
  let e0 := int_wrap (e0 * 2 + (e0 >>> 5))
  (_o, { e0 := e0, e1 := e1, e2 := e2, e3 := e3, e4 := e4, r := r })

/-- A store through `dst`: one byte, a `u16`, a `u32` or a `float`. -/
inductive Store
  | u8 (v : Int)
  | u16 (v : Int)
  | u32 (v : Int)
  | f32 (v : Rat)
  deriving DecidableEq, Repr

/-- What the output loop works on: the dither profiles of the six channels and
the stores made through `dst` so far, oldest first. -/
structure OutputState where
  dither : List DitherProfile
  dst    : List Store
  deriving DecidableEq, Repr

/-- The samples `s` that `FS_MIX_OUTPUT_LOOP` (build with six channels) hands
to its body for one frame, each with its channel `c`, in the order of the
macro; `src` gives the six accumulator samples of the frame.  The sums are
formed in `__fsf`, an `int`. -/
def mix_output_lanes (mode : Nat) (src : Nat → Int) : List (Nat × Int) :=
  if mode = FSCM_MONO then
    [(0, fsf_shr (int_wrap (src 0 + src 1 + src 2 + src 2 + src 3 + src 4)) 1)]
  else if mode = FSCM_STEREO then
    [(0, int_wrap (src 0 + src 2 + src 3)), (1, int_wrap (src 1 + src 2 + src 4))]
  else if mode = FSCM_STEREO21 ∨ mode = FSCM_STEREO30 ∨ mode = FSCM_STEREO31 then
    (if FS_MODE_HAS_CENTER mode then
       [(0, int_wrap (src 0 + src 3)), (2, src 2), (1, int_wrap (src 1 + src 4))]
     else [(0, int_wrap (src 0 + src 2 + src 3)), (1, int_wrap (src 1 + src 2 + src 4))]) ++
    (if FS_MODE_HAS_LFE mode then [(5, src 5)] else [])
  else if mode = FSCM_SURROUND30 ∨ mode = FSCM_SURROUND31 ∨ mode = FSCM_SURROUND40_2F2R ∨
      mode = FSCM_SURROUND41_2F2R ∨ mode = FSCM_SURROUND40_3F1R ∨
      mode = FSCM_SURROUND41_3F1R ∨ mode = FSCM_SURROUND50 then
    (if FS_MODE_HAS_CENTER mode then [(0, src 0), (2, src 2), (1, src 1)]
     else [(0, int_wrap (src 0 + src 2)), (1, int_wrap (src 1 + src 2))]) ++
    (if FS_MODE_NUM_REARS mode = 1 then [(3, fsf_shr (int_wrap (src 3 + src 4)) 1)]
     else [(3, src 3), (4, src 4)]) ++
    (if FS_MODE_HAS_LFE mode then [(5, src 5)] else [])
  else if mode = FSCM_SURROUND51 then
    [(0, src 0), (2, src 2), (1, src 1), (3, src 3), (4, src 4), (5, src 5)]
  else []

/-- The samples handed to the body for the frames `[0, count)` of the mixing
buffer, frame after frame. -/
def mix_output_samples (mode : Nat) (mixing : List Int) (count : Nat) : List (Nat × Int) :=
  (List.range count).flatMap
    (fun n => mix_output_lanes mode (fun c => mixing.getD (n * FS_MAX_CHANNELS + c) 0))

/-- The dither step of the bodies for `FSSF_U8` and `FSSF_S16`:
`if (fs_config->dither) s = fsf_dither( s, b, dither[c] );`. -/
def output_dither (dither : Bool) (b : Nat) (st : OutputState) (c : Nat) (s : Int) :
    OutputState × Int :=
  if dither then
    let r := fsf_dither s b (st.dither.getD c DitherProfile.zero)
    ({ st with dither := st.dither.set c r.2 }, r.1)
  else (st, s)

/-- The body the `switch` on the device format gives to `FS_MIX_OUTPUT_LOOP`,
run on one sample `s` of channel `c`. -/
def output_body (format : Nat) (dither : Bool) (WORDS_BIGENDIAN : Bool) (st : OutputState)
    (lane : Nat × Int) : OutputState :=
  let c := lane.1
  let s := lane.2
  if format = FSSF_U8 then
    match output_dither dither 8 st c s with
    | (st, s) =>
      let s := fsf_clip s
      { st with dst := st.dst ++ [Store.u8 (fsf_to_u8 s % 2 ^ 8)] }
  else if format = FSSF_S16 then
    match output_dither dither 16 st c s with
    | (st, s) =>
      let s := fsf_clip s
      { st with dst := st.dst ++ [Store.u16 (fsf_to_s16 s % 2 ^ 16)] }
  else if format = FSSF_S24 then
    let s := fsf_clip s
    let d := fsf_to_s24 s
    if WORDS_BIGENDIAN then
      { st with dst := st.dst ++
          [Store.u8 ((d >>> 16) % 2 ^ 8), Store.u8 ((d >>> 8) % 2 ^ 8), Store.u8 (d % 2 ^ 8)] }
    else
      { st with dst := st.dst ++
          [Store.u8 (d % 2 ^ 8), Store.u8 ((d >>> 8) % 2 ^ 8), Store.u8 ((d >>> 16) % 2 ^ 8)] }
  else if format = FSSF_S32 then
    let s := fsf_clip s
    { st with dst := st.dst ++ [Store.u32 (fsf_to_s32 s % 2 ^ 32)] }
  else if format = FSSF_FLOAT then
    let s := fsf_clip s
    { st with dst := st.dst ++ [Store.f32 (fsf_to_float s)] }
  else st

/-- The conversion of `count` frames of the mixing buffer to the device format
in `fs_sound_thread`: the `switch` on the format with `FS_MIX_OUTPUT_LOOP` in
each case.  `dither` is `fs_config->dither`. -/
def fs_sound_thread_output (format mode : Nat) (dither : Bool) (WORDS_BIGENDIAN : Bool)
    (st : OutputState) (mixing : List Int) (count : Nat) : OutputState :=
  (mix_output_samples mode mixing count).foldl (output_body format dither WORDS_BIGENDIAN) st

/-! ## The call handler of the core (`core_sound.c`) -/

def CSCID_GET_VOLUME : Nat := 0
def CSCID_SET_VOLUME : Nat := 1
def CSCID_SUSPEND : Nat := 2
def CSCID_RESUME : Nat := 3

def DCF_VOLUME : Nat := 0x00000001

/-- The macro `fsf_from_float`: `(__fsf) ((x) * (float) FSF_ONE)`, on a `float`
given as a rational number; the conversion to `int` truncates toward zero. -/
def fsf_from_float (x : Rat) : Int :=
  Int.tdiv (x * (FSF_ONE : Rat)).num (x * (FSF_ONE : Rat)).den

/-- What the sound device answers: its capabilities, the result and value of
`fs_device_get_volume`, and the results of `fs_device_set_volume`,
`fs_device_suspend` and `fs_device_resume`. -/
structure CoreSoundDevice where
  capabilities : Nat
  get_volume   : DirectResult × Rat
  set_volume   : Rat → DirectResult
  suspend      : DirectResult
  resume       : DirectResult

/-- The fields of `CoreSound` and `CoreSoundShared` the call handler acts on:
`suspended`, whether `sound_thread` holds a mixer thread, `soft_volume` and
`call_arg`. -/
structure CoreSoundControl where
  suspended    : Bool
  sound_thread : Bool
  soft_volume  : Int
  call_arg     : Rat
  deriving DecidableEq, Repr

/-- The function `Core_Call_Handler`: the state it leaves and `*ret_val`, which
stays as it was (`ret_val`) for an unexpected call. -/
def Core_Call_Handler (device : CoreSoundDevice) (core : CoreSoundControl) (call_arg : Nat)
    (ret_val : DirectResult) : CoreSoundControl × DirectResult :=
  if call_arg = CSCID_GET_VOLUME then
    if core.suspended then (core, DR_SUSPENDED)
    else
      let volume :=
        if device.capabilities &&& DCF_VOLUME = 0 ∨ device.get_volume.1 ≠ DR_OK then
          fsf_to_float core.soft_volume
        else device.get_volume.2
      ({ core with call_arg := volume }, DR_OK)
  else if call_arg = CSCID_SET_VOLUME then
    if core.suspended then (core, DR_SUSPENDED)
    else
      let volume := core.call_arg
      if device.capabilities &&& DCF_VOLUME = 0 ∨ device.set_volume volume ≠ DR_OK then
        ({ core with soft_volume := fsf_from_float volume }, DR_OK)
      else ({ core with soft_volume := FSF_ONE }, DR_OK)
  else if call_arg = CSCID_SUSPEND then
    if core.suspended then (core, DR_BUSY)
    else
      let core := { core with sound_thread := false }
      if device.suspend ≠ DR_OK then ({ core with sound_thread := true }, device.suspend)
      else ({ core with suspended := true }, DR_OK)
  else if call_arg = CSCID_RESUME then
    if core.suspended = false then (core, DR_BUSY)
    else
      if device.resume ≠ DR_OK then (core, device.resume)
      else
        let core := { core with sound_thread := true }
        ({ core with suspended := false }, DR_OK)
  else (core, ret_val)

/-- The function `fs_core_get_master_volume`: the state, the result and
`*ret_level`. -/
def fs_core_get_master_volume (device : CoreSoundDevice) (core : CoreSoundControl) :
    CoreSoundControl × DirectResult × Rat :=
  match Core_Call_Handler device core CSCID_GET_VOLUME DR_OK with
  | (core, val) => (core, val, core.call_arg)

/-- The function `fs_core_set_master_volume`. -/
def fs_core_set_master_volume (device : CoreSoundDevice) (core : CoreSoundControl)
    (level : Rat) : CoreSoundControl × DirectResult :=
  let core := { core with call_arg := level }
  Core_Call_Handler device core CSCID_SET_VOLUME DR_OK

/-- The function `fs_core_suspend`. -/
def fs_core_suspend (device : CoreSoundDevice) (core : CoreSoundControl) :
    CoreSoundControl × DirectResult :=
  Core_Call_Handler device core CSCID_SUSPEND DR_OK

/-- The function `fs_core_resume`. -/
def fs_core_resume (device : CoreSoundDevice) (core : CoreSoundControl) :
    CoreSoundControl × DirectResult :=
  Core_Call_Handler device core CSCID_RESUME DR_OK

/-! ## Playing a static buffer (`ifusionsoundbuffer.c`) -/

def FSPLAY_NOFX : Nat := 0x00000000
def FSPLAY_LOOPING : Nat := 0x00000001
def FSPLAY_CYCLE : Nat := 0x00000002
def FSPLAY_REWIND : Nat := 0x00000004
def FSPLAY_ALL : Nat := 0x00000007

/-- The function `IFusionSoundBuffer_SetPosition`. -/
def IFusionSoundBuffer_SetPosition (data : IFusionSoundBuffer_data) (position : Int) :
    IFusionSoundBuffer_data × DirectResult :=
  if position < 0 ∨ position ≥ data.length then (data, DR_INVARG)
  else ({ data with pos := position }, DR_OK)

/-- The function `IFusionSoundBuffer_Play`: the interface data, the result and
the playback it started, if any.  `pid`, `center`, `rear` and `volume` are what
`fs_playback_create` gives the playback; it fails with `DR_FUSION` when the pool
hands out no object. -/
def IFusionSoundBuffer_Play (env : CreateEnv) (data : IFusionSoundBuffer_data) (flags : Nat)
    (pid : Nat) (center rear volume : Int) :
    IFusionSoundBuffer_data × DirectResult × Option CorePlayback :=
  if flags &&& (0xFFFFFFFF ^^^ FSPLAY_ALL) ≠ 0 then (data, DR_INVARG, none)
  else if flags &&& FSPLAY_LOOPING ≠ 0 then
    if data.looping_playback.isSome then (data, DR_BUSY, none)
    else if env.object_ok = false then (data, DR_FUSION, none)
    else
      let playback := fs_playback_create pid false center rear volume
      let playback :=
        if flags &&& FSPLAY_REWIND ≠ 0 then (fs_playback_set_pitch playback (-FS_PITCH_ONE)).1
        else (fs_playback_set_pitch playback FS_PITCH_ONE).1
      let playback := (fs_playback_set_position playback data.pos).1
      let playback := (fs_playback_set_stop playback (-1)).1
      match fs_playback_start data.core playback false with
      | (core, playback, ret, _) =>
        if ret ≠ DR_OK then (data, ret, none)
        else ({ data with core := core, looping_playback := some playback }, ret, some playback)
  else
    if env.object_ok = false then (data, DR_FUSION, none)
    else
      let playback := fs_playback_create pid false center rear volume
      let playback :=
        if flags &&& FSPLAY_REWIND ≠ 0 then (fs_playback_set_pitch playback (-FS_PITCH_ONE)).1
        else (fs_playback_set_pitch playback FS_PITCH_ONE).1
      let playback := (fs_playback_set_position playback data.pos).1
      let playback :=
        if flags &&& FSPLAY_CYCLE ≠ 0 then (fs_playback_set_stop playback data.pos).1
        else (fs_playback_set_stop playback 0).1
      match fs_playback_start data.core playback false with
      | (core, playback, ret, _) =>
        if ret ≠ DR_OK then (data, ret, none)
        else ({ data with core := core }, ret, some playback)

/-- The mixer ticks on one playlist entry, as `playback_mix_until_end`, with
the frames counted: the sum over the ticks of `num`, the number of source frames
`fs_buffer_mixto` reports to `fs_playback_mixto`, and the playback the last tick
leaves. -/
def playback_mix_frames (T : MixTables) (SIZEOF_LONG : Nat) (buffer : CoreSoundBuffer)
    (rate : Int) (mode : Nat) (max_frames volume : Int) :
    Nat → CorePlayback → List Int → Option (Int × CorePlayback)
  | 0, _, _ => none
  | fuel + 1, playback, dest =>
    let r := fs_playback_mixto T SIZEOF_LONG buffer playback dest rate mode max_frames volume
    let num := (fs_buffer_mixto T SIZEOF_LONG buffer dest rate mode max_frames playback.position
      playback.stop (fs_playback_mixto_levels playback volume) playback.pitch).ret_num
    if r.ret ≠ DR_OK then some (num, r.playback)
    else
      (playback_mix_frames T SIZEOF_LONG buffer rate mode max_frames volume fuel r.playback
          r.dest).map
        (fun t => (t.1 + num, t.2))

/-! ## Option strings (`sound_conf.c`) -/

/-- The character that ends a C string. -/
def NUL : Char := Char.ofNat 0

/-- The C string that starts at index `p` of a character buffer: the characters
up to the first NUL. -/
def c_string (buf : List Char) (p : Nat) : List Char :=
  (buf.drop p).takeWhile (fun c => c != NUL)

/-- The function `strchr` on the C string at index `p` of a buffer, for a
character other than NUL: the index of its first occurrence, if any. -/
def strchr (buf : List Char) (p : Nat) (c : Char) : Option Nat :=
  let s := c_string buf p
  if s.indexOf c < s.length then some (p + s.indexOf c) else none

/-- The test `isspace` of the C locale. -/
def c_isspace (c : Char) : Bool := c = ' ' || (9 ≤ c.toNat && c.toNat ≤ 13)

/-- The number a string of decimal digits stands for, after `acc`. -/
def sscanf_digits (acc : Nat) : List Char → Nat
  | [] => acc
  | c :: cs => sscanf_digits (acc * 10 + (c.toNat - 48)) cs

/-- The call `sscanf( value, "%d", &n )`: the number converted, or nothing when
the call returns less than 1.  White space is skipped, a sign is optional, and
the digits that follow are converted as `strtol` does with an 8 byte `long`,
which stops at `LONG_MIN` and `LONG_MAX`; the `long` is then stored in the
`int`. -/
def sscanf_d (value : List Char) : Option Int :=
  let s := value.dropWhile c_isspace
  let neg := s.head? = some '-'
  let s := if s.head? = some '-' ∨ s.head? = some '+' then s.tail else s
  let digits := s.takeWhile Char.isDigit
  if digits = [] then none
  else if neg then some (int_wrap (max (-(sscanf_digits 0 digits : Int)) (-2 ^ 63)))
  else some (int_wrap (min (sscanf_digits 0 digits : Int) (2 ^ 63 - 1)))

/-- What `fs_config_set` calls outside this file: the two name tables of
`sound_util.c` and the option setters of the libraries below. -/
structure ConfigEnv where
  fs_channelmode_parse  : List Char → Nat
  fs_sampleformat_parse : List Char → Nat
  fusion_config_set     : List Char → Option (List Char) → DirectResult
  direct_config_set     : List Char → Option (List Char) → DirectResult

/-- The function `fs_config_set` on the configuration `fs_config`; `value` is
nothing for a NULL pointer. -/
def fs_config_set (E : ConfigEnv) (name : List Char) (value : Option (List Char))
    (conf : FSConfig) : FSConfig × DirectResult :=
  if name = "driver".toList then
    match value with
    | some v => ({ conf with driver := some v }, DR_OK)
    | none => (conf, DR_INVARG)
  else if name = "banner".toList then ({ conf with banner := true }, DR_OK)
  else if name = "no-banner".toList then ({ conf with banner := false }, DR_OK)
  else if name = "wait".toList then ({ conf with wait := true }, DR_OK)
  else if name = "no-wait".toList then ({ conf with wait := false }, DR_OK)
  else if name = "deinit-check".toList then ({ conf with deinit_check := true }, DR_OK)
  else if name = "no-deinit-check".toList then ({ conf with deinit_check := false }, DR_OK)
  else if name = "session".toList then
    match value with
    | some v =>
      match sscanf_d v with
      | none => (conf, DR_INVARG)
      | some session => ({ conf with session := session }, DR_OK)
    | none => (conf, DR_INVARG)
  else if name = "channels".toList then
    match value with
    | some v =>
      match sscanf_d v with
      | none => (conf, DR_INVARG)
      | some channels =>
        if channels < 1 ∨ channels > FS_MAX_CHANNELS then (conf, DR_INVARG)
        else ({ conf with channelmode := fs_mode_for_channels channels }, DR_OK)
    | none => (conf, DR_INVARG)
  else if name = "channelmode".toList then
    match value with
    | some v =>
      if E.fs_channelmode_parse v = FSCM_UNKNOWN then (conf, DR_INVARG)
      else ({ conf with channelmode := E.fs_channelmode_parse v }, DR_OK)
    | none => (conf, DR_INVARG)
  else if name = "sampleformat".toList then
    match value with
    | some v =>
      if E.fs_sampleformat_parse v = FSSF_UNKNOWN then (conf, DR_INVARG)
      else ({ conf with sampleformat := E.fs_sampleformat_parse v }, DR_OK)
    | none => (conf, DR_INVARG)
  else if name = "samplerate".toList then
    match value with
    | some v =>
      match sscanf_d v with
      | none => (conf, DR_INVARG)
      | some rate => fs_config_set_samplerate conf rate
    | none => (conf, DR_INVARG)
  else if name = "buffertime".toList then
    match value with
    | some v =>
      match sscanf_d v with
      | none => (conf, DR_INVARG)
      | some time => fs_config_set_buffertime conf time
    | none => (conf, DR_INVARG)
  else if name = "dither".toList then ({ conf with dither := true }, DR_OK)
  else if name = "no-dither".toList then ({ conf with dither := false }, DR_OK)
  else if E.fusion_config_set name value ≠ DR_OK ∧ E.direct_config_set name value ≠ DR_OK then
    (conf, DR_INVARG)
  else (conf, DR_OK)

/-- How `parse_args` ends: it returns a result, or it prints the usage and
calls `exit( 1 )`. -/
inductive ParseExit
  | returned (ret : DirectResult) (conf : FSConfig)
  | exited
  deriving DecidableEq, Repr

/-- The loop of `parse_args` on the buffer `buf`, `name` being an index into
it or nothing for NULL: `while (name && name[0])`.  Each round calls
`fs_config_set( buf, value )`. -/
def parse_args_loop (E : ConfigEnv) : Nat → List Char → Option Nat → FSConfig → Option ParseExit
  | 0, _, _, _ => none
  | fuel + 1, buf, name, conf =>
    match name with
    | none => some (ParseExit.returned DR_OK conf)
    | some name =>
      if buf.getD name NUL = NUL then some (ParseExit.returned DR_OK conf)
      else
        let next := strchr buf name ','
        let buf := match next with
          | some i => buf.set i NUL
          | none => buf
        let next := next.map (fun i => i + 1)
        if c_string buf name = "help".toList then some ParseExit.exited
        else
          let value := strchr buf name '='
          let buf := match value with
            | some i => buf.set i NUL
            | none => buf
          let value := value.map (fun i => i + 1)
          match fs_config_set E (c_string buf 0) (value.map (c_string buf)) conf with
          | (conf, ret) =>
            if ret ≠ DR_OK then some (ParseExit.returned ret conf)
            else parse_args_loop E fuel buf next conf

/-- The function `parse_args` on the configuration `fs_config`: the argument is
copied with its terminator and the loop starts at the copy. -/
def parse_args (E : ConfigEnv) (fuel : Nat) (args : List Char) (conf : FSConfig) :
    Option ParseExit :=
  parse_args_loop E fuel (c_string args 0 ++ [NUL]) (some 0) conf

/-- The loop the description of the option list asks for: as
`parse_args_loop`, with each round calling `fs_config_set` under the key of
its own pair, the string at `name`. -/
def parse_args_by_key_loop (E : ConfigEnv) :
    Nat → List Char → Option Nat → FSConfig → Option ParseExit
  | 0, _, _, _ => none
  | fuel + 1, buf, name, conf =>
    match name with
    | none => some (ParseExit.returned DR_OK conf)
    | some name =>
      if buf.getD name NUL = NUL then some (ParseExit.returned DR_OK conf)
      else
        let next := strchr buf name ','
        let buf := match next with
          | some i => buf.set i NUL
          | none => buf
        let next := next.map (fun i => i + 1)
        if c_string buf name = "help".toList then some ParseExit.exited
        else
          let value := strchr buf name '='
          let buf := match value with
            | some i => buf.set i NUL
            | none => buf
          let value := value.map (fun i => i + 1)
          match fs_config_set E (c_string buf name) (value.map (c_string buf)) conf with
          | (conf, ret) =>
            if ret ≠ DR_OK then some (ParseExit.returned ret conf)
            else parse_args_by_key_loop E fuel buf next conf

/-- The option list applied pair by pair, each under its own key. -/
def parse_args_by_key (E : ConfigEnv) (fuel : Nat) (args : List Char) (conf : FSConfig) :
    Option ParseExit :=
  parse_args_by_key_loop E fuel (c_string args 0 ++ [NUL]) (some 0) conf

/-- The configuration `config_allocate` sets up. -/
def config_allocate : FSConfig :=
  { channelmode := FSCM_STEREO, sampleformat := FSSF_S16, samplerate := 48000, buffertime := 25,
    dither := false }

/-- An environment for examples: no name is known to the tables and the
libraries below take no option. -/
def demo_config_env : ConfigEnv :=
  { fs_channelmode_parse := fun _ => FSCM_UNKNOWN
    fs_sampleformat_parse := fun _ => FSSF_UNKNOWN
    fusion_config_set := fun _ _ => DR_UNSUPPORTED
    direct_config_set := fun _ _ => DR_UNSUPPORTED }

/-! ## Bytes of the output (`fs_sound_thread`) -/

/-- The number of bytes a store through `dst` writes. -/
def Store.bytes : Store → Nat
  | Store.u8 _ => 1
  | Store.u16 _ => 2
  | Store.u32 _ => 4
  | Store.f32 _ => 4

/-- The number of bytes a list of stores writes. -/
def stores_bytes (dst : List Store) : Nat := (dst.map Store.bytes).sum

/-! ## Further objects for examples -/

/-- A sound device without volume control whose calls all succeed. -/
def demo_device : CoreSoundDevice :=
  { capabilities := 0
    get_volume := (DR_OK, 1)
    set_volume := fun _ => DR_OK
    suspend := DR_OK
    resume := DR_OK }

/-- A running sound core at full soft volume. -/
def demo_control : CoreSoundControl :=
  { suspended := false, sound_thread := true, soft_volume := FSF_ONE, call_arg := 0 }

/-! ## The mixer step with the narrowing of the frame count (`sound_buffer.c`) -/

/-- The values of `max` and `last` in `fs_buffer_mixto` after the block
`if (stop >= 0)`. -/
def mixto_max (SIZEOF_LONG : Nat) (buffer : CoreSoundBuffer) (rate max_frames pos stop
    pitch : Int) : Int × Bool :=
  let inc := Int.tdiv (buffer.rate * pitch) rate
  let max := max_frames * inc
  let max := clamp_long SIZEOF_LONG max
  if stop ≥ 0 then
    if pitch < 0 then
      let stop := if pos ≤ stop then stop - buffer.length else stop
      let tmp := (stop - pos) * 2 ^ FS_PITCH_BITS
      if max ≤ tmp then (tmp, true) else (max, false)
    else
      let stop := if pos ≥ stop then stop + buffer.length else stop
      let tmp := (stop - pos) * 2 ^ FS_PITCH_BITS
      if max ≥ tmp then (tmp, true) else (max, false)
  else (max, false)

/-- The function `fs_buffer_mixto` with the two `int` steps at its end written
out: `num = max >> FS_PITCH_BITS` narrows a `long long` to `int`, and
`pos += num` is an addition in `int`; both are reduced with `int_wrap`.  The
products in `long long` are taken to fit. -/
def fs_buffer_mixto_int (T : MixTables) (SIZEOF_LONG : Nat) (buffer : CoreSoundBuffer)
    (dest : List Int) (rate : Int) (mode : Nat) (max_frames pos stop : Int)
    (levels : List Int) (pitch : Int) : MixtoResult :=
  let inc := Int.tdiv (buffer.rate * pitch) rate
  let inc := clamp_long SIZEOF_LONG inc
  let maxlast := mixto_max SIZEOF_LONG buffer rate max_frames pos stop pitch
  let max := maxlast.1
  let last := maxlast.2
  let mixed : List Int × Int :=
    if inc ≠ 0 ∧ (levels.getD 0 0 ≠ 0 ∨ levels.getD 1 0 ≠ 0) then
      let format_index := FS_SAMPLEFORMAT_INDEX buffer.format
      let channel_index := FS_CHANNELS_FOR_MODE buffer.mode - 1
      let func := if pitch < 0 then T.MIX_RW format_index channel_index
                  else T.MIX_FW format_index channel_index
      func buffer dest mode pos inc max levels last
    else
      (dest, if inc ≠ 0 then Int.tdiv max inc else max_frames)
  let num := int_wrap (max >>> FS_PITCH_BITS)
  let pos := int_wrap (pos + num)
  let pos := Int.tmod pos buffer.length
  let pos := if pos < 0 then pos + buffer.length else pos
  { ret := if last then DR_BUFFEREMPTY else DR_OK
    dest := mixed.1
    ret_pos := pos
    ret_num := |num|
    ret_len := mixed.2 }

/-! ## The error feedback of the dither as described -/

/-- The first tap after a dither step as the description gives it:
`(d << 1) + (d >> 5)` with `d = s - (o masked to the top b bits)`, `s` being
the sample handed to `fsf_dither` and `o` the sample it returns. -/
def dither_e0_spec (s : Int) (b : Nat) (o : Int) : Int :=
  let d := s - (o - o % 2 ^ (FSF_DECIBITS + 1 - b))
  d * 2 + (d >>> 5)

/-- The sample with the error feedback added, `_s` in `fsf_dither`, as an
integer. -/
def dither_feedback (s : Int) (p : DitherProfile) : Int :=
  s + p.e0 - p.e1 + p.e2 - p.e3 + p.e4

/-- One step of the random number generator of the dither. -/
def dither_lcg (r : Int) : Int := (r * 196314165 + 907633515) % 2 ^ 32

/-- The dithered sample as an integer: the sample with the feedback, half a
step of the target depth, less the old random bits, plus the new ones. -/
def dither_output (s : Int) (b : Nat) (p : DitherProfile) : Int :=
  dither_feedback s p + 2 ^ (FSF_DECIBITS - b) - p.r % 2 ^ (FSF_DECIBITS + 1 - b) +
    dither_lcg p.r % 2 ^ (FSF_DECIBITS + 1 - b)

/-! ## Calls that drive a stream -/

/-- A call on a stream, on the playback interface of the stream, or a tick of
the mixer with the stream's playback on the playlist. -/
inductive StreamCall
  /-- a call of `Write`, up to its return or its first wait -/
  | write (fuel : Nat) (sample_data : Option (Int → Int)) (length : Int)
  /-- the waiting writer is woken and continues with its input pointer -/
  | wake (fuel : Nat) (sample_data : Int → Int)
  /-- a call of `Commit` -/
  | commit (length : Int)
  /-- a call of `Flush`, up to its return or its wait -/
  | flush
  /-- a call of `Drop` -/
  | drop
  /-- a call of `Continue` on the playback interface of the stream -/
  | play_continue
  /-- a call of `Stop` on the playback interface of the stream -/
  | play_stop
  /-- a call of `SetPitch` or `SetDirection` that sets the signed pitch -/
  | play_pitch (pitch : Int)
  /-- a tick of the mixer thread -/
  | tick (T : MixTables) (SIZEOF_LONG : Nat) (rate : Int) (mode : Nat)
      (buffersize soft_volume : Int) (mixing : List Int)

/-- The stream after one call; `none` when the fuel of a writer loop runs
out. -/
def stream_call : StreamCall → IFusionSoundStream_data → Option IFusionSoundStream_data
  | StreamCall.write fuel sample_data length, data =>
    (IFusionSoundStream_Write fuel data sample_data length).map (fun w => w.data)
  | StreamCall.wake fuel sample_data, data =>
    (Write_loop fuel data sample_data 0).map (fun w => w.data)
  | StreamCall.commit length, data => some (IFusionSoundStream_Commit data length).1
  | StreamCall.flush, data => some (IFusionSoundStream_Flush data).1
  | StreamCall.drop, data => some (IFusionSoundStream_Drop data).1
  | StreamCall.play_continue, data => some (IFusionSoundPlayback_Continue data).1
  | StreamCall.play_stop, data => some (IFusionSoundPlayback_Stop data).1
  | StreamCall.play_pitch pitch, data => some (stream_playback_set_pitch data pitch)
  | StreamCall.tick T SIZEOF_LONG rate mode buffersize soft_volume mixing, data =>
    some (mixer_tick T SIZEOF_LONG rate mode buffersize soft_volume data mixing).1

/-- The stream after a sequence of calls. -/
def stream_calls : List StreamCall → IFusionSoundStream_data → Option IFusionSoundStream_data
  | [], data => some data
  | c :: cs, data => (stream_call c data).bind (stream_calls cs)

/-! ## Lemmas on the writer loops -/

theorem Write_fill_succ (fuel : Nat) (sd : Int → Int) (st : FillState) (h : st.size ≠ 0) :
    Write_fill (fuel + 1) sd st = Write_fill fuel sd (fill_step sd st) := by
  rw [Write_fill]
  simp only [h, if_false, fs_buffer_lock, fs_playback_set_stop, fs_playback_enable, fill_step]
  simp only [ne_eq, not_true_eq_false, if_false]
  split <;> rfl

theorem Write_fill_zero_size (fuel : Nat) (sd : Int → Int) (st : FillState) (h : st.size = 0) :
    Write_fill (fuel + 1) sd st = some st := by
  rw [Write_fill]; simp [h]

theorem wrap_eq_emod (pw L N : Int) (h0 : 0 ≤ pw) (hL : 0 ≤ L) (h : pw + L ≤ N) (_hN : pw < N) :
    (if pw + L = N then 0 else pw + L) = (pw + L) % N := by
  split
  · next h1 => rw [h1, Int.emod_self]
  · next h1 => rw [Int.emod_eq_of_lt (by omega) (by omega)]


theorem frame_lt (B x y b : Int) (hb : b < B) (hB : 0 ≤ B) (h : x < y) : B * x + b < B * y := by
  have : B * (x + 1) ≤ B * y := mul_le_mul_of_nonneg_left (by omega) hB
  nlinarith

theorem frame_le (B x y b : Int) (hb : 0 ≤ b) (hB : 0 ≤ B) (h : x ≤ y) : B * x ≤ B * y + b := by
  have : B * x ≤ B * y := mul_le_mul_of_nonneg_left h hB
  omega

/-- An address inside a copied range lies in one of its frames. -/
theorem range_frame (B p L a : Int) (hB : 0 < B) (h1 : B * p ≤ a) (h2 : a < B * p + B * L) :
    ∃ j b, 0 ≤ j ∧ j < L ∧ 0 ≤ b ∧ b < B ∧ a = B * (p + j) + b := by
  refine ⟨(a - B * p) / B, (a - B * p) % B, ?_, ?_, Int.emod_nonneg _ (by omega),
    Int.emod_lt_of_pos _ hB, ?_⟩
  · exact Int.ediv_nonneg (by omega) (by omega)
  · rw [Int.ediv_lt_iff_lt_mul hB]; nlinarith
  · have := Int.ediv_add_emod (a - B * p) B
    rw [mul_add]; omega

theorem Write_fill_ring (sd : Int → Int) : ∀ (fuel : Nat) (st : FillState),
    1 ≤ st.size → 0 ≤ st.data.pos_write → st.data.pos_write < st.data.buffersize →
    st.size < fuel →
    ∃ mem, Write_fill fuel sd st = some
      { data := after_fill st.data st.size mem
        size := 0
        bytes := st.bytes + st.data.buffer.bytes * st.size
        stored := st.stored + st.size
        ret := DR_OK } ∧
      (st.size ≤ st.data.buffersize →
        (∀ j b, 0 ≤ j → j < st.size → 0 ≤ b → b < st.data.buffer.bytes →
          mem (st.data.buffer.bytes * ((st.data.pos_write + j) % st.data.buffersize) + b)
            = sd (st.bytes + st.data.buffer.bytes * j + b)) ∧
        (∀ a, (∀ j b, 0 ≤ j → j < st.size → 0 ≤ b → b < st.data.buffer.bytes →
            a ≠ st.data.buffer.bytes * ((st.data.pos_write + j) % st.data.buffersize) + b) →
          mem a = st.data.buffer.data a)) := by
  intro fuel
  induction fuel with
  | zero => intro st h1 _ _ h4; exact absurd h4 (by simp; omega)
  | succ fuel ih =>
    intro st h1 h2 h3 h4
    rw [Write_fill_succ fuel sd st (by omega)]
    by_cases hc : st.size ≤ st.data.buffersize - st.data.pos_write
    · -- the rest fits before the end of the ring
      have hmin : min st.size (st.data.buffersize - st.data.pos_write) = st.size := min_eq_left hc
      have hs : (fill_step sd st).size = 0 := by simp [fill_step, hmin]
      obtain ⟨k, rfl⟩ : ∃ k, fuel = k + 1 := ⟨fuel - 1, by push_cast at h4; omega⟩
      rw [Write_fill_zero_size k sd _ hs]
      have hne : st.size ≠ 0 := by omega
      refine ⟨direct_memcpy st.data.buffer.data (st.data.buffer.bytes * st.data.pos_write)
        (ptr_add sd st.bytes) (st.data.buffer.bytes * st.size), ?_, ?_⟩
      · have hw := wrap_eq_emod st.data.pos_write st.size st.data.buffersize h2 (by omega)
          (by omega) h3
        simp [fill_step, after_fill, hmin, hw, hne]
      · intro _
        constructor
        · intro j b hj0 hj1 hb0 hb1
          have hB : 0 ≤ st.data.buffer.bytes := by omega
          rw [Int.emod_eq_of_lt (by omega) (by omega)]
          have e1 : st.data.buffer.bytes * st.data.pos_write ≤
              st.data.buffer.bytes * (st.data.pos_write + j) + b :=
            frame_le _ _ _ _ hb0 hB (by omega)
          have e2 : st.data.buffer.bytes * (st.data.pos_write + j) + b <
              st.data.buffer.bytes * st.data.pos_write + st.data.buffer.bytes * st.size := by
            have := frame_lt st.data.buffer.bytes (st.data.pos_write + j)
              (st.data.pos_write + st.size) b hb1 hB (by omega)
            have e := mul_add st.data.buffer.bytes st.data.pos_write st.size
            omega
          simp only [direct_memcpy, e1, e2, and_self, if_true, ptr_add]
          congr 1; ring
        · intro a ha
          by_cases hB : 0 < st.data.buffer.bytes
          · have hout : ¬ (st.data.buffer.bytes * st.data.pos_write ≤ a ∧
                a < st.data.buffer.bytes * st.data.pos_write + st.data.buffer.bytes * st.size) := by
              rintro ⟨e1, e2⟩
              obtain ⟨j, b, hj0, hj1, hb0, hb1, rfl⟩ := range_frame _ _ _ _ hB e1 e2
              refine ha j b hj0 hj1 hb0 hb1 ?_
              rw [Int.emod_eq_of_lt (by omega) (by omega)]
            simp only [direct_memcpy, hout, if_false]
          · have hout : ¬ (st.data.buffer.bytes * st.data.pos_write ≤ a ∧
                a < st.data.buffer.bytes * st.data.pos_write + st.data.buffer.bytes * st.size) := by
              rintro ⟨e1, e2⟩
              have : st.data.buffer.bytes * st.size ≤ 0 :=
                mul_nonpos_of_nonpos_of_nonneg (by omega) (by omega)
              omega
            simp only [direct_memcpy, hout, if_false]
    · -- the chunk ends at the end of the ring
      have hc' : st.data.buffersize - st.data.pos_write < st.size := not_le.mp hc
      have hmin : min st.size (st.data.buffersize - st.data.pos_write) =
          st.data.buffersize - st.data.pos_write := min_eq_right (le_of_lt hc')
      have hne : st.data.buffersize - st.data.pos_write ≠ 0 := by omega
      have hpw : (fill_step sd st).data.pos_write = 0 := by simp [fill_step, hmin]
      have hN : (fill_step sd st).data.buffersize = st.data.buffersize := by simp [fill_step]
      have hBy : (fill_step sd st).data.buffer.bytes = st.data.buffer.bytes := by simp [fill_step]
      have hsz : (fill_step sd st).size = st.size - (st.data.buffersize - st.data.pos_write) := by
        simp [fill_step, hmin]
      have hbytes : (fill_step sd st).bytes = st.bytes +
          st.data.buffer.bytes * (st.data.buffersize - st.data.pos_write) := by
        simp [fill_step, hmin, hne]
      have hmem1 : (fill_step sd st).data.buffer.data =
          direct_memcpy st.data.buffer.data (st.data.buffer.bytes * st.data.pos_write)
            (ptr_add sd st.bytes)
            (st.data.buffer.bytes * (st.data.buffersize - st.data.pos_write)) := by
        simp [fill_step, hmin, hne]
      obtain ⟨mem, hmem, hcont⟩ := ih (fill_step sd st) (by rw [hsz]; omega) (by rw [hpw])
        (by rw [hpw, hN]; omega) (by rw [hsz]; push_cast at h4; omega)
      refine ⟨mem, ?_, ?_⟩
      · rw [hmem]
        have hmod : (st.size - (st.data.buffersize - st.data.pos_write)) % st.data.buffersize
            = (st.data.pos_write + st.size) % st.data.buffersize := by
          have : st.data.pos_write + st.size =
              (st.size - (st.data.buffersize - st.data.pos_write)) + st.data.buffersize := by ring
          rw [this, Int.add_emod_self]
        simp [fill_step, after_fill, hmin, hne, hmod]
        ring
      · intro hle
        rw [hsz, hpw, hN, hBy, hbytes, hmem1] at hcont
        obtain ⟨hW, hF⟩ := hcont (by omega)
        -- positions of the second chunk
        have hpos2 : ∀ j, 0 ≤ j → j < st.size - (st.data.buffersize - st.data.pos_write) →
            (0 + j) % st.data.buffersize = j := by
          intro j hj0 hj1
          rw [zero_add, Int.emod_eq_of_lt hj0 (by omega)]
        constructor
        · intro j b hj0 hj1 hb0 hb1
          have hB : 0 ≤ st.data.buffer.bytes := by omega
          by_cases hj : j < st.data.buffersize - st.data.pos_write
          · -- a frame of the first chunk, not touched by the second
            rw [Int.emod_eq_of_lt (by omega) (by omega)]
            rw [hF]
            · have e1 : st.data.buffer.bytes * st.data.pos_write ≤
                  st.data.buffer.bytes * (st.data.pos_write + j) + b :=
                frame_le _ _ _ _ hb0 hB (by omega)
              have e2 : st.data.buffer.bytes * (st.data.pos_write + j) + b <
                  st.data.buffer.bytes * st.data.pos_write +
                    st.data.buffer.bytes * (st.data.buffersize - st.data.pos_write) := by
                have := frame_lt st.data.buffer.bytes (st.data.pos_write + j)
                  (st.data.pos_write + (st.data.buffersize - st.data.pos_write)) b hb1 hB
                  (by omega)
                have e := mul_add st.data.buffer.bytes st.data.pos_write
                  (st.data.buffersize - st.data.pos_write)
                omega
              simp only [direct_memcpy, e1, e2, and_self, if_true, ptr_add]
              congr 1; ring
            · intro j2 b2 hj20 hj21 hb20 hb21
              rw [hpos2 j2 hj20 hj21]
              have := frame_lt st.data.buffer.bytes j2 (st.data.pos_write + j) b2 hb21 hB (by omega)
              omega
          · -- a frame of the second chunk
            have hj' : st.data.buffersize - st.data.pos_write ≤ j := not_lt.mp hj
            have hmodj : (st.data.pos_write + j) % st.data.buffersize =
                (0 + (j - (st.data.buffersize - st.data.pos_write))) % st.data.buffersize := by
              have : st.data.pos_write + j =
                  (0 + (j - (st.data.buffersize - st.data.pos_write))) + st.data.buffersize := by
                ring
              rw [this, Int.add_emod_self]
            rw [hmodj, hW (j - (st.data.buffersize - st.data.pos_write)) b (by omega) (by omega)
              hb0 hb1]
            congr 1; ring
        · intro a ha
          rw [hF]
          · by_cases hB : 0 < st.data.buffer.bytes
            · have hout : ¬ (st.data.buffer.bytes * st.data.pos_write ≤ a ∧
                  a < st.data.buffer.bytes * st.data.pos_write +
                    st.data.buffer.bytes * (st.data.buffersize - st.data.pos_write)) := by
                rintro ⟨e1, e2⟩
                obtain ⟨j, b, hj0, hj1, hb0, hb1, rfl⟩ := range_frame _ _ _ _ hB e1 e2
                refine ha j b hj0 (by omega) hb0 hb1 ?_
                rw [Int.emod_eq_of_lt (by omega) (by omega)]
              simp only [direct_memcpy, hout, if_false]
            · have hout : ¬ (st.data.buffer.bytes * st.data.pos_write ≤ a ∧
                  a < st.data.buffer.bytes * st.data.pos_write +
                    st.data.buffer.bytes * (st.data.buffersize - st.data.pos_write)) := by
                rintro ⟨e1, e2⟩
                have : st.data.buffer.bytes * (st.data.buffersize - st.data.pos_write) ≤ 0 :=
                  mul_nonpos_of_nonpos_of_nonneg (by omega) (by omega)
                omega
              simp only [direct_memcpy, hout, if_false]
          · intro j2 b2 hj20 hj21 hb20 hb21
            have := ha (j2 + (st.data.buffersize - st.data.pos_write)) b2 (by omega) (by omega)
              hb20 hb21
            have hmodj : (st.data.pos_write + (j2 + (st.data.buffersize - st.data.pos_write)))
                % st.data.buffersize = (0 + j2) % st.data.buffersize := by
              have : st.data.pos_write + (j2 + (st.data.buffersize - st.data.pos_write)) =
                  (0 + j2) + st.data.buffersize := by ring
              rw [this, Int.add_emod_self]
            rw [hmodj] at this
            exact this

theorem fs_playback_notify_start (playback : CorePlayback) :
    fs_playback_notify playback CPNF_START 0 =
      ({ playback with running := true },
        if playback.notify = false then none
        else some { flags := CPNF_START, pos := playback.position, stop := playback.stop,
                    num := 0 }) := by
  rcases playback with ⟨pid, notify, disabled, running, position, stop, pitch, center, rear,
    levels, volume⟩
  cases notify <;> rfl

theorem fs_playback_notify_stop (playback : CorePlayback) :
    fs_playback_notify playback CPNF_STOP 0 =
      ({ playback with running := false },
        if playback.notify = false then none
        else some { flags := CPNF_STOP, pos := playback.position, stop := playback.position,
                    num := 0 }) := by
  rcases playback with ⟨pid, notify, disabled, running, position, stop, pitch, center, rear,
    levels, volume⟩
  cases notify <;> rfl

theorem fs_playback_start_eq (core : CoreSound) (playback : CorePlayback) (enable : Bool) :
    fs_playback_start core playback enable =
      if (if enable then false else playback.disabled) = true ∧ playback.running = false then
        (core, { playback with disabled := (if enable then false else playback.disabled) },
          DR_TEMPUNAVAIL, none)
      else if playback.running = false ∧ core.shmpool_free = 0 then
        (core, { playback with disabled := (if enable then false else playback.disabled) },
          DR_NOLOCALMEMORY, none)
      else if playback.running = false then
        ({ core with
            playlist_entries := playback.pid :: core.playlist_entries
            shmpool_free := core.shmpool_free - 1 },
         { playback with
            disabled := (if enable then false else playback.disabled), running := true },
         DR_OK,
         if playback.notify = false then none
         else some { flags := CPNF_START, pos := playback.position, stop := playback.stop,
                     num := 0 })
      else
        (core, { playback with disabled := (if enable then false else playback.disabled) },
          DR_OK, none) := by
  unfold fs_playback_start
  rcases playback with ⟨pid, notify, disabled, running, position, stop, pitch, center, rear,
    levels, volume⟩
  cases enable <;> cases running <;> cases disabled <;>
    by_cases hz : core.shmpool_free = 0 <;>
    simp [fs_core_add_playback, fs_playback_notify_start, hz]

theorem fs_playback_stop_eq (core : CoreSound) (playback : CorePlayback) (disable : Bool) :
    fs_playback_stop core playback disable =
      if playback.running = true then
        ((fs_core_remove_playback core playback).1,
         { playback with
            running := false, disabled := (if disable then true else playback.disabled) },
         DR_OK,
         if playback.notify = false then none
         else some { flags := CPNF_STOP, pos := playback.position, stop := playback.position,
                     num := 0 })
      else
        (core, { playback with disabled := (if disable then true else playback.disabled) },
          DR_OK, none) := by
  unfold fs_playback_stop
  rcases playback with ⟨pid, notify, disabled, running, position, stop, pitch, center, rear,
    levels, volume⟩
  cases disable <;> cases running <;> simp [fs_playback_notify_stop]

theorem React_start (data : IFusionSoundStream_data) (pos stop num : Int) :
    IFusionSoundStream_React { flags := CPNF_START, pos := pos, stop := stop, num := num } data
      = { data with playing := true } := by
  have h1 : CPNF_START &&& CPNF_START ≠ 0 := by decide
  unfold IFusionSoundStream_React
  dsimp only
  rw [if_pos h1]

theorem React_stop (data : IFusionSoundStream_data) (pos stop num : Int) :
    IFusionSoundStream_React { flags := CPNF_STOP, pos := pos, stop := stop, num := num } data
      = { data with pos_read := pos, playing := false } := by
  have h1 : ¬ (CPNF_STOP &&& CPNF_START ≠ 0) := by decide
  have h2 : ¬ (CPNF_STOP &&& CPNF_ADVANCE ≠ 0) := by decide
  have h3 : CPNF_STOP &&& CPNF_STOP ≠ 0 := by decide
  unfold IFusionSoundStream_React
  dsimp only
  rw [if_neg h1, if_neg h2, if_pos h3]


theorem stream_playback_start_val (data : IFusionSoundStream_data) (enable : Bool) :
    (stream_playback_start data enable).1 =
      if data.streaming_playback.running = false ∧
          (if enable then false else data.streaming_playback.disabled) = false ∧
          data.core.shmpool_free ≠ 0 then
        { data with
            core :=
              { data.core with
                  playlist_entries := data.streaming_playback.pid :: data.core.playlist_entries
                  shmpool_free := data.core.shmpool_free - 1 }
            streaming_playback :=
              { data.streaming_playback with
                  disabled := (if enable then false else data.streaming_playback.disabled)
                  running := true }
            playing := if data.streaming_playback.notify = false then data.playing else true }
      else
        { data with
            streaming_playback :=
              { data.streaming_playback with
                  disabled := (if enable then false else data.streaming_playback.disabled) } } := by
  unfold stream_playback_start
  rw [fs_playback_start_eq]
  rcases data with ⟨core, buffer, ⟨pid, notify, disabled, running, position, stop, pitch, center,
    rear, levels, volume⟩, N, rate, pre, playing, pw, pr, filled, pending⟩
  by_cases h3 : core.shmpool_free = 0 <;> cases enable <;> cases running <;> cases disabled <;>
    cases notify <;> simp [h3, fs_playback_dispatch, React_start]

theorem stream_playback_start_eq (data : IFusionSoundStream_data) (enable : Bool) :
    ∃ core playback playing, (stream_playback_start data enable).1 =
      { data with core := core, streaming_playback := playback, playing := playing } := by
  rw [stream_playback_start_val]
  split_ifs <;> exact ⟨_, _, _, rfl⟩

theorem stream_playback_start_stop (data : IFusionSoundStream_data) (enable : Bool) :
    (stream_playback_start data enable).1.streaming_playback.stop = data.streaming_playback.stop := by
  rw [stream_playback_start_val]
  split_ifs <;> rfl

theorem start_if_prebuffered_eq (data : IFusionSoundStream_data) :
    ∃ core playback playing, start_if_prebuffered data =
      { data with core := core, streaming_playback := playback, playing := playing } := by
  unfold start_if_prebuffered
  split
  · exact stream_playback_start_eq data true
  · exact ⟨_, _, _, rfl⟩

theorem Write_loop_pending_zero (fuel : Nat) (sd : Int → Int) (data : IFusionSoundStream_data)
    (stored : Int) (h : data.pending = 0) :
    Write_loop (fuel + 1) data sd stored = some
      { data := data, sample_data := sd, stored := stored, exit := Exit.returned DR_OK } := by
  rw [Write_loop]; simp [h]

theorem Write_loop_full (fuel : Nat) (sd : Int → Int) (data : IFusionSoundStream_data)
    (stored : Int) (h : data.pending ≠ 0) (hf : data.filled = data.buffersize) :
    Write_loop (fuel + 1) data sd stored = some
      { data := data, sample_data := sd, stored := stored, exit := Exit.waiting } := by
  rw [Write_loop]; simp [h, hf]

theorem Write_loop_round (sd : Int → Int) (fuel : Nat) (data : IFusionSoundStream_data)
    (stored : Int) (hp : 1 ≤ data.pending) (hf : data.filled < data.buffersize)
    (hpw0 : 0 ≤ data.pos_write) (hpw1 : data.pos_write < data.buffersize)
    (hfuel : min data.pending (data.buffersize - data.filled) + 2 ≤ fuel) :
    ∃ mem, Write_loop fuel data sd stored = some
      { data :=
          { start_if_prebuffered
              (after_fill data (min data.pending (data.buffersize - data.filled)) mem) with
            pending := data.pending - min data.pending (data.buffersize - data.filled) }
        sample_data :=
          ptr_add sd (data.buffer.bytes * min data.pending (data.buffersize - data.filled))
        stored := stored + min data.pending (data.buffersize - data.filled)
        exit := if data.pending ≤ data.buffersize - data.filled then Exit.returned DR_OK
                else Exit.waiting } ∧
      (min data.pending (data.buffersize - data.filled) ≤ data.buffersize →
        (∀ j b, 0 ≤ j → j < min data.pending (data.buffersize - data.filled) → 0 ≤ b →
          b < data.buffer.bytes →
          mem (data.buffer.bytes * ((data.pos_write + j) % data.buffersize) + b)
            = sd (data.buffer.bytes * j + b)) ∧
        (∀ a, (∀ j b, 0 ≤ j → j < min data.pending (data.buffersize - data.filled) → 0 ≤ b →
            b < data.buffer.bytes →
            a ≠ data.buffer.bytes * ((data.pos_write + j) % data.buffersize) + b) →
          mem a = data.buffer.data a)) := by
  have hnum : (if data.buffersize - data.filled > data.pending then data.pending
      else data.buffersize - data.filled) = min data.pending (data.buffersize - data.filled) := by
    split
    · next h => exact (min_eq_left (le_of_lt h)).symm
    · next h => exact (min_eq_right (not_lt.mp h)).symm
  have hnum1 : 1 ≤ min data.pending (data.buffersize - data.filled) := le_min hp (by omega)
  obtain ⟨f, rfl⟩ : ∃ f, fuel = f + 1 := ⟨fuel - 1, by omega⟩
  obtain ⟨g, rfl⟩ : ∃ g, f = g + 1 := ⟨f - 1, by push_cast at hfuel; omega⟩
  obtain ⟨mem, hmem, hcont⟩ := Write_fill_ring sd (g + 1)
    { data := data, size := min data.pending (data.buffersize - data.filled), bytes := 0,
      stored := stored, ret := DR_OK } hnum1 hpw0 hpw1 (by push_cast at hfuel ⊢; omega)
  refine ⟨mem, ?_, ?_⟩
  swap
  · intro hle
    obtain ⟨hW, hF⟩ := hcont hle
    refine ⟨fun j b hj0 hj1 hb0 hb1 => ?_, hF⟩
    have := hW j b hj0 hj1 hb0 hb1
    simpa using this
  rw [Write_loop]
  have hp0 : data.pending ≠ 0 := by omega
  have hfn : data.filled ≠ data.buffersize := by omega
  simp only [hp0, hfn, if_false, hnum, hmem]
  rw [if_neg (by simp)]
  show Write_loop (g + 1)
    (if (start_if_prebuffered (after_fill data
          (min data.pending (data.buffersize - data.filled)) mem)).pending ≠ 0 then
      { start_if_prebuffered (after_fill data
          (min data.pending (data.buffersize - data.filled)) mem) with
        pending := (start_if_prebuffered (after_fill data
          (min data.pending (data.buffersize - data.filled)) mem)).pending -
            min data.pending (data.buffersize - data.filled) }
     else start_if_prebuffered (after_fill data
          (min data.pending (data.buffersize - data.filled)) mem))
    (ptr_add sd (0 + data.buffer.bytes * min data.pending (data.buffersize - data.filled)))
    (stored + min data.pending (data.buffersize - data.filled)) = _
  obtain ⟨c, p, pl, hS⟩ := start_if_prebuffered_eq
    (after_fill data (min data.pending (data.buffersize - data.filled)) mem)
  rw [hS]
  have e1 : (after_fill data (min data.pending (data.buffersize - data.filled)) mem).pending
      = data.pending := rfl
  have e2 : (after_fill data (min data.pending (data.buffersize - data.filled)) mem).filled
      = data.filled + min data.pending (data.buffersize - data.filled) := rfl
  have e3 : (after_fill data (min data.pending (data.buffersize - data.filled)) mem).buffersize
      = data.buffersize := rfl
  simp only [e1, hp0, ne_eq, not_false_eq_true, if_true, zero_add]
  by_cases hle : data.pending ≤ data.buffersize - data.filled
  · rw [Write_loop_pending_zero]
    · simp only [hle, if_true]
    · simp only [after_fill, min_eq_left hle]; omega
  · rw [Write_loop_full]
    · simp only [hle, if_false]
    · simp only [after_fill, min_eq_right (le_of_lt (not_le.mp hle))]; omega
    · simp only [after_fill, min_eq_right (le_of_lt (not_le.mp hle))]; omega

/-! ## Drop, Wait, Access and Write -/

/-- C10. `Drop` sets `pending` to zero and returns `DR_OK`; the write and read
positions, the fill level, the playing flag, the buffer with its contents, the
playback and the core are left as they were. -/
theorem drop_frame_condition (data : IFusionSoundStream_data) :
    (IFusionSoundStream_Drop data).2 = DR_OK ∧
    (IFusionSoundStream_Drop data).1.pending = 0 ∧
    (IFusionSoundStream_Drop data).1.pos_write = data.pos_write ∧
    (IFusionSoundStream_Drop data).1.pos_read = data.pos_read ∧
    (IFusionSoundStream_Drop data).1.filled = data.filled ∧
    (IFusionSoundStream_Drop data).1.playing = data.playing ∧
    (IFusionSoundStream_Drop data).1.buffer = data.buffer ∧
    (IFusionSoundStream_Drop data).1.streaming_playback = data.streaming_playback ∧
    (IFusionSoundStream_Drop data).1.core = data.core ∧
    (IFusionSoundStream_Drop data).1.buffersize = data.buffersize ∧
    (IFusionSoundStream_Drop data).1.prebuffer = data.prebuffer :=
  ⟨rfl, rfl, rfl, rfl, rfl, rfl, rfl, rfl, rfl, rfl, rfl⟩

/-- C8. `Wait(k)` leaves the stream as it is; it returns `DR_INVARG` for `k < 0`
or `k > buffersize`, otherwise it returns `DR_OK` at once exactly when `k = 0`
and the stream is not playing, or `k > 0` and at least `k` frames are free, and
in every other state it waits. -/
theorem stream_wait_condition (data : IFusionSoundStream_data) (k : Int) :
    IFusionSoundStream_Wait data k =
      (data,
        if k < 0 ∨ k > data.buffersize then Exit.returned DR_INVARG
        else if (k = 0 ∧ data.playing = false) ∨ (k > 0 ∧ data.buffersize - data.filled ≥ k) then
          Exit.returned DR_OK
        else Exit.waiting) := by
  unfold IFusionSoundStream_Wait
  by_cases h1 : k < 0 ∨ k > data.buffersize
  · simp only [h1, if_true]
  · simp only [h1, if_false]
    have hk : 0 ≤ k := by omega
    by_cases h2 : k = 0
    · subst h2
      by_cases h3 : data.playing = false <;> simp [h3]
    · have hpos : k > 0 := by omega
      by_cases h3 : data.buffersize - data.filled ≥ k <;> simp [h2, h3, hpos]

/-- C7. With a free frame and the write position inside the ring, `Access`
returns `DR_OK`, the pointer to frame `pos_write` of the buffer, and
`min(buffersize - filled, buffersize - pos_write)` frames, which is at least
one; the stream is left as it is. -/
theorem access_maximal_region (data : IFusionSoundStream_data)
    (hf : data.filled < data.buffersize) (_hpw0 : 0 ≤ data.pos_write)
    (hpw1 : data.pos_write < data.buffersize) :
    (IFusionSoundStream_Access data).exit = Exit.returned DR_OK ∧
    (IFusionSoundStream_Access data).ret_data = data.buffer.bytes * data.pos_write ∧
    (IFusionSoundStream_Access data).ret_frames =
      min (data.buffersize - data.filled) (data.buffersize - data.pos_write) ∧
    1 ≤ (IFusionSoundStream_Access data).ret_frames ∧
    (IFusionSoundStream_Access data).data = data := by
  have hne : data.filled ≠ data.buffersize := by omega
  have hlen : (if data.buffersize - data.filled > data.buffersize - data.pos_write then
      data.buffersize - data.pos_write else data.buffersize - data.filled) =
      min (data.buffersize - data.filled) (data.buffersize - data.pos_write) := by
    split
    · next h => exact (min_eq_right (le_of_lt h)).symm
    · next h => exact (min_eq_left (not_lt.mp h)).symm
  unfold IFusionSoundStream_Access
  simp only [hne, if_false, fs_buffer_lock, hlen, ne_eq, not_true_eq_false, and_self, true_and]
  exact ⟨le_min (by omega) (by omega), trivial⟩


theorem start_if_prebuffered_stop (X : IFusionSoundStream_data) :
    (start_if_prebuffered X).streaming_playback.stop = X.streaming_playback.stop := by
  unfold start_if_prebuffered
  split
  · exact stream_playback_start_stop X true
  · rfl

theorem Write_eq_loop (fuel : Nat) (data : IFusionSoundStream_data) (sd : Int → Int)
    (len : Int) (h : 1 ≤ len) :
    IFusionSoundStream_Write fuel data (some sd) len =
      Write_loop fuel { data with pending := len } sd 0 := by
  unfold IFusionSoundStream_Write
  simp only [show ¬ len < 1 from by omega, if_false]

theorem start_if_prebuffered_pending (X : IFusionSoundStream_data) (p : Int) :
    start_if_prebuffered { X with pending := p } = { start_if_prebuffered X with pending := p } := by
  unfold start_if_prebuffered
  by_cases hc : X.playing = false ∧ X.prebuffer ≥ 0 ∧ X.filled ≥ X.prebuffer
  · rw [if_pos hc, if_pos (show ({ X with pending := p } : IFusionSoundStream_data).playing = false ∧
      ({ X with pending := p } : IFusionSoundStream_data).prebuffer ≥ 0 ∧
      ({ X with pending := p } : IFusionSoundStream_data).filled ≥
        ({ X with pending := p } : IFusionSoundStream_data).prebuffer from hc)]
    rw [stream_playback_start_val, stream_playback_start_val]
    by_cases h : X.streaming_playback.running = false ∧
          (if true then false else X.streaming_playback.disabled) = false ∧
          X.core.shmpool_free ≠ 0
    · rw [if_pos h, if_pos (show ({ X with pending := p } : IFusionSoundStream_data).streaming_playback.running = false ∧
          (if true then false else ({ X with pending := p } : IFusionSoundStream_data).streaming_playback.disabled) = false ∧
          ({ X with pending := p } : IFusionSoundStream_data).core.shmpool_free ≠ 0 from h)]
    · rw [if_neg h, if_neg (show ¬ (({ X with pending := p } : IFusionSoundStream_data).streaming_playback.running = false ∧
          (if true then false else ({ X with pending := p } : IFusionSoundStream_data).streaming_playback.disabled) = false ∧
          ({ X with pending := p } : IFusionSoundStream_data).core.shmpool_free ≠ 0) from h)]
  · rw [if_neg hc, if_neg (show ¬ (({ X with pending := p } : IFusionSoundStream_data).playing = false ∧
      ({ X with pending := p } : IFusionSoundStream_data).prebuffer ≥ 0 ∧
      ({ X with pending := p } : IFusionSoundStream_data).filled ≥
        ({ X with pending := p } : IFusionSoundStream_data).prebuffer) from hc)]

/-- A `Write` that meets a ring with a free frame and the write position inside
it: one pass of the outer loop runs, which stores `min(len, free)` frames. -/
theorem Write_round (sd : Int → Int) (fuel : Nat) (data : IFusionSoundStream_data) (len : Int)
    (hl : 1 ≤ len) (hf : data.filled < data.buffersize)
    (hpw0 : 0 ≤ data.pos_write) (hpw1 : data.pos_write < data.buffersize)
    (hfuel : min len (data.buffersize - data.filled) + 2 ≤ fuel) :
    ∃ mem, IFusionSoundStream_Write fuel data (some sd) len = some
      { data :=
          { start_if_prebuffered
              (after_fill data (min len (data.buffersize - data.filled)) mem) with
            pending := len - min len (data.buffersize - data.filled) }
        sample_data := ptr_add sd (data.buffer.bytes * min len (data.buffersize - data.filled))
        stored := min len (data.buffersize - data.filled)
        exit := if len ≤ data.buffersize - data.filled then Exit.returned DR_OK
                else Exit.waiting } ∧
      (min len (data.buffersize - data.filled) ≤ data.buffersize →
        (∀ j b, 0 ≤ j → j < min len (data.buffersize - data.filled) → 0 ≤ b →
          b < data.buffer.bytes →
          mem (data.buffer.bytes * ((data.pos_write + j) % data.buffersize) + b)
            = sd (data.buffer.bytes * j + b)) ∧
        (∀ a, (∀ j b, 0 ≤ j → j < min len (data.buffersize - data.filled) → 0 ≤ b →
            b < data.buffer.bytes →
            a ≠ data.buffer.bytes * ((data.pos_write + j) % data.buffersize) + b) →
          mem a = data.buffer.data a)) := by
  rw [Write_eq_loop fuel data sd len hl]
  obtain ⟨mem, h1, h2⟩ := Write_loop_round sd fuel { data with pending := len } 0 hl hf hpw0 hpw1
    hfuel
  refine ⟨mem, ?_, h2⟩
  rw [h1]
  have e : after_fill { data with pending := len } (min len (data.buffersize - data.filled)) mem
      = { after_fill data (min len (data.buffersize - data.filled)) mem with pending := len } :=
    rfl
  simp only [e, start_if_prebuffered_pending, zero_add]


theorem frame_inj (B p q b c : Int) (hb0 : 0 ≤ b) (hb1 : b < B) (hc0 : 0 ≤ c) (hc1 : c < B)
    (h : B * p + b = B * q + c) : p = q := by
  have hB : 0 ≤ B := by omega
  rcases lt_trichotomy p q with hlt | heq | hgt
  · have := frame_lt B p q b hb1 hB hlt; omega
  · exact heq
  · have := frame_lt B q p c hc1 hB hgt; omega

/-- C4. A `Write` of `len` frames that fits into the free space returns `DR_OK`
with the write position moved on by `len` modulo the ring size, the fill level
raised by `len`, nothing pending, and the stop position of the playback at the
new write position. -/
theorem write_metadata_update (data : IFusionSoundStream_data) (sd : Int → Int) (len : Int)
    (fuel : Nat) (hpw0 : 0 ≤ data.pos_write) (hpw1 : data.pos_write < data.buffersize)
    (hl1 : 1 ≤ len) (hl2 : len ≤ data.buffersize - data.filled) (hfuel : len + 2 ≤ fuel) :
    ∃ w, IFusionSoundStream_Write fuel data (some sd) len = some w ∧
      w.exit = Exit.returned DR_OK ∧
      w.data.pos_write = (data.pos_write + len) % data.buffersize ∧
      w.data.filled = data.filled + len ∧
      w.data.pending = 0 ∧
      w.data.streaming_playback.stop = w.data.pos_write := by
  have hmin : min len (data.buffersize - data.filled) = len := min_eq_left hl2
  obtain ⟨mem, hw, -⟩ := Write_round sd fuel data len hl1 (by omega) hpw0 hpw1
    (by rw [hmin]; exact hfuel)
  rw [hmin] at hw
  refine ⟨_, hw, ?_, ?_, ?_, ?_, ?_⟩
  · simp only [hl2, if_true]
  · obtain ⟨c, p, pl, hS⟩ := start_if_prebuffered_eq (after_fill data len mem)
    rw [hS]; rfl
  · obtain ⟨c, p, pl, hS⟩ := start_if_prebuffered_eq (after_fill data len mem)
    rw [hS]; rfl
  · simp
  · show (start_if_prebuffered (after_fill data len mem)).streaming_playback.stop =
      (start_if_prebuffered (after_fill data len mem)).pos_write
    rw [start_if_prebuffered_stop]
    obtain ⟨c, p, pl, hS⟩ := start_if_prebuffered_eq (after_fill data len mem)
    rw [hS]; rfl

/-- A `Write` of `len` frames that fits into the free space of a ring (fill
level not negative, write position inside the ring) puts byte `b` of input
frame `i` at byte `b` of ring frame `(pos_write + i) mod buffersize`, for each
`i < len`, and leaves every other frame of the ring as it was. -/
theorem Write_order (data : IFusionSoundStream_data) (sd : Int → Int) (len : Int)
    (fuel : Nat) (hfill : 0 ≤ data.filled)
    (hpw0 : 0 ≤ data.pos_write) (hpw1 : data.pos_write < data.buffersize)
    (hl1 : 1 ≤ len) (hl2 : len ≤ data.buffersize - data.filled) (hfuel : len + 2 ≤ fuel) :
    ∃ w, IFusionSoundStream_Write fuel data (some sd) len = some w ∧
      w.exit = Exit.returned DR_OK ∧
      (∀ i b, 0 ≤ i → i < len → 0 ≤ b → b < data.buffer.bytes →
        w.data.buffer.data
            (data.buffer.bytes * ((data.pos_write + i) % data.buffersize) + b) =
          sd (data.buffer.bytes * i + b)) ∧
      (∀ p b, 0 ≤ p → p < data.buffersize →
        (∀ i, 0 ≤ i → i < len → p ≠ (data.pos_write + i) % data.buffersize) →
        0 ≤ b → b < data.buffer.bytes →
        w.data.buffer.data (data.buffer.bytes * p + b) =
          data.buffer.data (data.buffer.bytes * p + b)) := by
  have hmin : min len (data.buffersize - data.filled) = len := min_eq_left hl2
  obtain ⟨mem, hw, hcont⟩ := Write_round sd fuel data len hl1 (by omega) hpw0 hpw1
    (by rw [hmin]; exact hfuel)
  rw [hmin] at hw hcont
  obtain ⟨hW, hF⟩ := hcont (by omega)
  have hbuf : (start_if_prebuffered (after_fill data len mem)).buffer.data = mem := by
    obtain ⟨c, p, pl, hS⟩ := start_if_prebuffered_eq (after_fill data len mem)
    rw [hS]; rfl
  refine ⟨_, hw, ?_, ?_, ?_⟩
  · simp only [hl2, if_true]
  · intro i b hi0 hi1 hb0 hb1
    show (start_if_prebuffered (after_fill data len mem)).buffer.data _ = _
    rw [hbuf]
    exact hW i b hi0 hi1 hb0 hb1
  · intro p b _ _ hp hb0 hb1
    show (start_if_prebuffered (after_fill data len mem)).buffer.data _ = _
    rw [hbuf]
    apply hF
    intro j c hj0 hj1 hc0 hc1 heq
    exact hp j hj0 hj1 (frame_inj _ _ _ _ _ hb0 hb1 hc0 hc1 heq)

/-! ## Commit -/

theorem Commit_reject (data : IFusionSoundStream_data) (m : Int)
    (h : m < 0 ∨ m > data.buffersize - data.filled) :
    IFusionSoundStream_Commit data m = (data, DR_INVARG) := by
  unfold IFusionSoundStream_Commit
  by_cases h1 : m < 0
  · simp only [h1, if_true]
  · have h2 : m > data.buffersize - data.filled := by omega
    simp only [h1, h2, if_true, if_false]

theorem Commit_zero (data : IFusionSoundStream_data) (h : 0 ≤ data.buffersize - data.filled) :
    IFusionSoundStream_Commit data 0 = (data, DR_OK) := by
  unfold IFusionSoundStream_Commit
  simp only [lt_self_iff_false, if_false, show ¬ (0 > data.buffersize - data.filled) from by omega,
    ne_eq, not_true_eq_false]

theorem Commit_accept (data : IFusionSoundStream_data) (n : Int) (h1 : 1 ≤ n)
    (h2 : n ≤ data.buffersize - data.filled) :
    IFusionSoundStream_Commit data n = (start_if_prebuffered (after_commit data n), DR_OK) := by
  unfold IFusionSoundStream_Commit
  simp only [show ¬ n < 0 from by omega, show ¬ (n > data.buffersize - data.filled) from by omega,
    show n ≠ 0 from by omega, if_false, ne_eq, not_false_eq_true, if_true, fs_playback_set_stop,
    fs_playback_enable, not_true_eq_false]
  unfold start_if_prebuffered after_commit
  split <;> rfl

/-- C6 (amended). With the write position inside the ring, `Commit(n)` for
`0 ≤ n ≤ buffersize - filled` and `n ≤ buffersize - pos_write` (the region
`Access` hands out) returns `DR_OK`, moves the write position on by `n` modulo the
ring size, which keeps it inside the ring, and raises the fill level by `n`;
for `n < 0` or `n > buffersize - filled` it returns `DR_INVARG` and changes
nothing. -/
theorem commit_metadata_update (data : IFusionSoundStream_data) (n : Int)
    (hpw0 : 0 ≤ data.pos_write) (hpw1 : data.pos_write < data.buffersize)
    (hn0 : 0 ≤ n) (hn1 : n ≤ data.buffersize - data.filled)
    (hn2 : n ≤ data.buffersize - data.pos_write) :
    (IFusionSoundStream_Commit data n).2 = DR_OK ∧
    (IFusionSoundStream_Commit data n).1.pos_write = (data.pos_write + n) % data.buffersize ∧
    0 ≤ (IFusionSoundStream_Commit data n).1.pos_write ∧
    (IFusionSoundStream_Commit data n).1.pos_write < data.buffersize ∧
    (IFusionSoundStream_Commit data n).1.filled = data.filled + n ∧
    (∀ m, m < 0 ∨ m > data.buffersize - data.filled →
      IFusionSoundStream_Commit data m = (data, DR_INVARG)) := by
  have hmod := wrap_eq_emod data.pos_write n data.buffersize hpw0 hn0 (by omega) hpw1
  have hr0 : 0 ≤ (data.pos_write + n) % data.buffersize := Int.emod_nonneg _ (by omega)
  have hr1 : (data.pos_write + n) % data.buffersize < data.buffersize :=
    Int.emod_lt_of_pos _ (by omega)
  refine ⟨?_, ?_, ?_, ?_, ?_, fun m hm => Commit_reject data m hm⟩ <;>
    rcases eq_or_lt_of_le hn0 with h0 | hpos
  · subst h0; rw [Commit_zero data (by omega)]
  · rw [Commit_accept data n (by omega) hn1]
  · subst h0; rw [Commit_zero data (by omega)]
    simp only [add_zero]; rw [Int.emod_eq_of_lt hpw0 hpw1]
  · rw [Commit_accept data n (by omega) hn1]
    obtain ⟨c, p, pl, hS⟩ := start_if_prebuffered_eq (after_commit data n)
    rw [hS]; exact hmod
  · subst h0; rw [Commit_zero data (by omega)]; exact hpw0
  · rw [Commit_accept data n (by omega) hn1]
    obtain ⟨c, p, pl, hS⟩ := start_if_prebuffered_eq (after_commit data n)
    rw [hS]
    show 0 ≤ (if data.pos_write + n = data.buffersize then 0 else data.pos_write + n)
    rw [hmod]; exact hr0
  · subst h0; rw [Commit_zero data (by omega)]; exact hpw1
  · rw [Commit_accept data n (by omega) hn1]
    obtain ⟨c, p, pl, hS⟩ := start_if_prebuffered_eq (after_commit data n)
    rw [hS]
    show (if data.pos_write + n = data.buffersize then 0 else data.pos_write + n) < _
    rw [hmod]; exact hr1
  · subst h0; rw [Commit_zero data (by omega)]; simp only [add_zero]
  · rw [Commit_accept data n (by omega) hn1]
    obtain ⟨c, p, pl, hS⟩ := start_if_prebuffered_eq (after_commit data n)
    rw [hS]; rfl

/-- C6, counterexample. A stream of 10 frames after a `Write` of 8 frames and a
mixer tick that played them has `pos_write = 8` and `filled = 0`.  `Commit(5)`
is within the free space and returns `DR_OK`, yet it leaves `pos_write = 13`,
not `(8 + 5) mod 10 = 3`, and so outside the ring. -/
theorem commit_wrap_counterexample :
    (demo_tick (demo_write (demo_stream 10 0) 8) 8).pos_write = 8 ∧
    (demo_tick (demo_write (demo_stream 10 0) 8) 8).filled = 0 ∧
    (demo_tick (demo_write (demo_stream 10 0) 8) 8).buffersize = 10 ∧
    (IFusionSoundStream_Commit (demo_tick (demo_write (demo_stream 10 0) 8) 8) 5).2 = DR_OK ∧
    (IFusionSoundStream_Commit (demo_tick (demo_write (demo_stream 10 0) 8) 8) 5).1.pos_write = 13 ∧
    ((8 : Int) + 5) % 10 = 3 := by
  decide

/-! ## Fuel and totality of the writer loops -/

/-- More fuel does not change the result of the fill loop. -/
theorem Write_fill_mono (sd : Int → Int) : ∀ (fuel k : Nat) (st r : FillState),
    Write_fill fuel sd st = some r → Write_fill (fuel + k) sd st = some r := by
  intro fuel
  induction fuel with
  | zero => intro k st r h; simp [Write_fill] at h
  | succ fuel ih =>
    intro k st r h
    have e : fuel + 1 + k = (fuel + k) + 1 := by omega
    rw [e]
    by_cases hs : st.size = 0
    · rw [Write_fill_zero_size _ _ _ hs] at h ⊢; exact h
    · rw [Write_fill_succ _ _ _ hs] at h ⊢
      exact ih k _ _ h

/-- The fill loop touches neither the playing flag, the prebuffer level, the
core, nor whether the playback runs. -/
theorem Write_fill_keeps (sd : Int → Int) : ∀ (fuel : Nat) (st r : FillState),
    Write_fill fuel sd st = some r →
    r.data.playing = st.data.playing ∧ r.data.prebuffer = st.data.prebuffer ∧
    r.data.core = st.data.core ∧
    r.data.streaming_playback.running = st.data.streaming_playback.running ∧
    r.data.buffersize = st.data.buffersize ∧ r.data.pending = st.data.pending := by
  intro fuel
  induction fuel with
  | zero => intro st r h; simp [Write_fill] at h
  | succ fuel ih =>
    intro st r h
    by_cases hs : st.size = 0
    · rw [Write_fill_zero_size _ _ _ hs] at h
      cases h; exact ⟨rfl, rfl, rfl, rfl, rfl, rfl⟩
    · rw [Write_fill_succ _ _ _ hs] at h
      exact ih (fill_step sd st) r h

/-- The fill loop ends on every ring of at least one frame, whatever the write
position and the size; it raises the fill level and the count of stored frames
by the size. -/
theorem Write_fill_total (sd : Int → Int) (st : FillState) (hN : 1 ≤ st.data.buffersize)
    (hret : st.ret = DR_OK) :
    ∃ F r, Write_fill F sd st = some r ∧ r.ret = DR_OK ∧
      r.data.filled = st.data.filled + st.size ∧ r.stored = st.stored + st.size := by
  by_cases hs : st.size = 0
  · exact ⟨1, st, Write_fill_zero_size 0 sd st hs, hret, by omega, by omega⟩
  · by_cases hc : st.size ≤ st.data.buffersize - st.data.pos_write
    · have hmin : min st.size (st.data.buffersize - st.data.pos_write) = st.size :=
        min_eq_left hc
      refine ⟨2, fill_step sd st, ?_, rfl, ?_, ?_⟩
      · rw [Write_fill_succ 1 sd st hs, Write_fill_zero_size 0 sd _ (by simp [fill_step, hmin])]
      · simp [fill_step, hmin]
      · simp [fill_step, hmin]
    · have hc' : st.data.buffersize - st.data.pos_write < st.size := not_le.mp hc
      have hmin : min st.size (st.data.buffersize - st.data.pos_write) =
          st.data.buffersize - st.data.pos_write := min_eq_right (le_of_lt hc')
      have hpw : (fill_step sd st).data.pos_write = 0 := by simp [fill_step, hmin]
      have hN1 : (fill_step sd st).data.buffersize = st.data.buffersize := by simp [fill_step]
      have hsz : (fill_step sd st).size = st.size - (st.data.buffersize - st.data.pos_write) := by
        simp [fill_step, hmin]
      have hfl : (fill_step sd st).data.filled =
          st.data.filled + (st.data.buffersize - st.data.pos_write) := by
        simp [fill_step, hmin]
      have hst : (fill_step sd st).stored =
          st.stored + (st.data.buffersize - st.data.pos_write) := by
        simp [fill_step, hmin]
      obtain ⟨mem, hmem, -⟩ := Write_fill_ring sd ((fill_step sd st).size.toNat + 1)
        (fill_step sd st) (by rw [hsz]; omega) (by rw [hpw]) (by rw [hpw, hN1]; omega)
        (by push_cast; rw [Int.toNat_of_nonneg (by rw [hsz]; omega)]; omega)
      have h2 := hmem
      rw [← Write_fill_succ _ sd st hs] at h2
      refine ⟨_, _, h2, rfl, ?_, ?_⟩
      · show (fill_step sd st).data.filled + (fill_step sd st).size = _
        rw [hfl, hsz]; ring
      · show (fill_step sd st).stored + (fill_step sd st).size = _
        rw [hst, hsz]; ring


/-- The stream at the end of one pass of the outer loop of `Write`, from the
result `st` of the fill loop for `num` frames. -/
theorem Write_loop_succ (fuel : Nat) (data : IFusionSoundStream_data) (sd : Int → Int)
    (stored : Int) (h0 : data.pending ≠ 0) (hf : data.filled ≠ data.buffersize) :
    Write_loop (fuel + 1) data sd stored =
      match Write_fill fuel sd
        { data := data
          size := if data.buffersize - data.filled > data.pending then data.pending
                  else data.buffersize - data.filled
          bytes := 0, stored := stored, ret := DR_OK } with
      | none => none
      | some st =>
        if st.ret ≠ DR_OK then
          some { data := st.data, sample_data := sd, stored := st.stored,
                 exit := Exit.returned st.ret }
        else
          Write_loop fuel
            (if (start_if_prebuffered st.data).pending ≠ 0 then
              { start_if_prebuffered st.data with
                pending := (start_if_prebuffered st.data).pending -
                  (if data.buffersize - data.filled > data.pending then data.pending
                   else data.buffersize - data.filled) }
             else start_if_prebuffered st.data)
            (ptr_add sd st.bytes) st.stored := by
  rw [Write_loop]
  simp only [h0, hf, if_false]
  rfl

/-- More fuel does not change the result of the outer loop of `Write`. -/
theorem Write_loop_mono : ∀ (fuel k : Nat) (data : IFusionSoundStream_data) (sd : Int → Int)
    (stored : Int) (w : WriteState),
    Write_loop fuel data sd stored = some w → Write_loop (fuel + k) data sd stored = some w := by
  intro fuel
  induction fuel with
  | zero => intro k data sd stored w h; simp [Write_loop] at h
  | succ fuel ih =>
    intro k data sd stored w h
    have e : fuel + 1 + k = (fuel + k) + 1 := by omega
    rw [e]
    by_cases h0 : data.pending = 0
    · rw [Write_loop_pending_zero _ _ _ _ h0] at h ⊢; exact h
    · by_cases hf : data.filled = data.buffersize
      · rw [Write_loop_full _ _ _ _ h0 hf] at h ⊢; exact h
      · rw [Write_loop_succ _ _ _ _ h0 hf] at h ⊢
        cases hfill : Write_fill fuel sd
          { data := data
            size := if data.buffersize - data.filled > data.pending then data.pending
                    else data.buffersize - data.filled
            bytes := 0, stored := stored, ret := DR_OK } with
        | none => rw [hfill] at h; simp at h
        | some st =>
          rw [hfill] at h
          rw [Write_fill_mono sd fuel k _ st hfill]
          dsimp only at h ⊢
          by_cases hr : st.ret ≠ DR_OK
          · rw [if_pos hr] at h ⊢; exact h
          · rw [if_neg hr] at h ⊢
            exact ih k _ _ _ _ h

theorem start_if_prebuffered_of_neg (X : IFusionSoundStream_data) (h : X.prebuffer < 0) :
    start_if_prebuffered X = X := by
  unfold start_if_prebuffered
  rw [if_neg]
  omega

/-- With a negative prebuffer level the outer loop of `Write` neither starts nor
stops the playback. -/
theorem Write_loop_keeps : ∀ (fuel : Nat) (data : IFusionSoundStream_data) (sd : Int → Int)
    (stored : Int) (w : WriteState), data.prebuffer < 0 →
    Write_loop fuel data sd stored = some w →
    playback_unchanged data w.data ∧ w.data.prebuffer = data.prebuffer := by
  intro fuel
  induction fuel with
  | zero => intro data sd stored w _ h; simp [Write_loop] at h
  | succ fuel ih =>
    intro data sd stored w hpre h
    by_cases h0 : data.pending = 0
    · rw [Write_loop_pending_zero _ _ _ _ h0] at h
      cases h; exact ⟨⟨rfl, rfl, rfl⟩, rfl⟩
    · by_cases hf : data.filled = data.buffersize
      · rw [Write_loop_full _ _ _ _ h0 hf] at h
        cases h; exact ⟨⟨rfl, rfl, rfl⟩, rfl⟩
      · rw [Write_loop_succ _ _ _ _ h0 hf] at h
        cases hfill : Write_fill fuel sd
          { data := data
            size := if data.buffersize - data.filled > data.pending then data.pending
                    else data.buffersize - data.filled
            bytes := 0, stored := stored, ret := DR_OK } with
        | none => rw [hfill] at h; simp at h
        | some st =>
          rw [hfill] at h
          dsimp only at h
          obtain ⟨k1, k2, k3, k4, -, -⟩ := Write_fill_keeps sd fuel _ st hfill
          by_cases hr : st.ret ≠ DR_OK
          · rw [if_pos hr] at h
            cases h
            exact ⟨⟨k4, k3, k1⟩, k2⟩
          · rw [if_neg hr] at h
            have hst : st.data.prebuffer < 0 := by rw [k2]; exact hpre
            rw [start_if_prebuffered_of_neg st.data hst] at h
            have key : ∀ X : IFusionSoundStream_data,
                Write_loop fuel X (ptr_add sd st.bytes) st.stored = some w →
                X.prebuffer = st.data.prebuffer →
                X.playing = st.data.playing → X.core = st.data.core →
                X.streaming_playback.running = st.data.streaming_playback.running →
                playback_unchanged data w.data ∧ w.data.prebuffer = data.prebuffer := by
              intro X hX x1 x2 x3 x4
              obtain ⟨⟨u1, u2, u3⟩, u4⟩ := ih X _ _ w (by rw [x1]; exact hst) hX
              exact ⟨⟨by rw [u1, x4, k4], by rw [u2, x3, k3], by rw [u3, x2, k1]⟩,
                by rw [u4, x1, k2]⟩
            split at h
            · exact key _ h rfl rfl rfl rfl
            · exact key _ h rfl rfl rfl rfl


/-- The outer loop of `Write` comes to a stable point on every ring of at least
one frame: it returns or waits, the fill level has grown by the frames stored,
and it has not been raised above the ring size. -/
theorem Write_loop_total (data : IFusionSoundStream_data) (sd : Int → Int) (stored : Int)
    (hN : 1 ≤ data.buffersize) :
    ∃ F w, Write_loop F data sd stored = some w ∧
      w.data.filled - w.stored = data.filled - stored ∧
      w.data.buffersize = data.buffersize ∧
      w.data.filled ≤ max data.filled data.buffersize := by
  by_cases h0 : data.pending = 0
  · exact ⟨1, _, Write_loop_pending_zero 0 sd data stored h0, rfl, rfl, le_max_left _ _⟩
  · by_cases hf : data.filled = data.buffersize
    · exact ⟨1, _, Write_loop_full 0 sd data stored h0 hf, rfl, rfl, le_max_left _ _⟩
    · obtain ⟨F1, st, hfill, hret, hfl, hst⟩ := Write_fill_total sd
        { data := data
          size := if data.buffersize - data.filled > data.pending then data.pending
                  else data.buffersize - data.filled
          bytes := 0, stored := stored, ret := DR_OK } hN rfl
      obtain ⟨-, -, -, -, kN, kp⟩ := Write_fill_keeps sd F1 _ st hfill
      obtain ⟨c, p, pl, hS⟩ := start_if_prebuffered_eq st.data
      have hfill1 := Write_fill_mono sd F1 1 _ st hfill
      have hloop := Write_loop_succ (F1 + 1) data sd stored h0 hf
      rw [hfill1] at hloop
      dsimp only at hloop
      rw [if_neg (by rw [hret]; simp)] at hloop
      have hpend : (start_if_prebuffered st.data).pending ≠ 0 := by
        rw [hS]; show st.data.pending ≠ 0; rw [kp]; exact h0
      rw [if_pos hpend] at hloop
      have hnum_le : (if data.buffersize - data.filled > data.pending then data.pending
          else data.buffersize - data.filled) ≤ data.buffersize - data.filled := by
        split <;> omega
      have e1 : (start_if_prebuffered st.data).pending = data.pending := by
        rw [hS]; exact kp
      have e2 : (start_if_prebuffered st.data).filled = data.filled +
          (if data.buffersize - data.filled > data.pending then data.pending
            else data.buffersize - data.filled) := by
        rw [hS]; exact hfl
      have e3 : (start_if_prebuffered st.data).buffersize = data.buffersize := by
        rw [hS]; exact kN
      by_cases hz : data.pending - (if data.buffersize - data.filled > data.pending then
          data.pending else data.buffersize - data.filled) = 0
      · rw [Write_loop_pending_zero F1 _ _ _ (by show _ - _ = 0; rw [e1]; exact hz)] at hloop
        refine ⟨_, _, hloop, ?_, e3, ?_⟩
        · show (start_if_prebuffered st.data).filled - st.stored = _
          rw [e2, hst]; show _ = data.filled - stored; ring
        · show (start_if_prebuffered st.data).filled ≤ _
          rw [e2]; exact le_trans (by omega) (le_max_right _ _)
      · have hnum : (if data.buffersize - data.filled > data.pending then data.pending
            else data.buffersize - data.filled) = data.buffersize - data.filled := by
          split
          · next h => rw [if_pos h] at hz; omega
          · rfl
        rw [Write_loop_full F1 _ _ _ (by show _ - _ ≠ 0; rw [e1]; exact hz)
          (by show (start_if_prebuffered st.data).filled = (start_if_prebuffered st.data).buffersize
              rw [e2, e3, hnum]; ring)] at hloop
        refine ⟨_, _, hloop, ?_, e3, ?_⟩
        · show (start_if_prebuffered st.data).filled - st.stored = _
          rw [e2, hst]; show _ = data.filled - stored; ring
        · show (start_if_prebuffered st.data).filled ≤ _
          rw [e2]; exact le_trans (by omega) (le_max_right _ _)

/-! ## Conservation along traces -/

theorem Access_data (data : IFusionSoundStream_data) :
    (IFusionSoundStream_Access data).data = data := by
  unfold IFusionSoundStream_Access
  split <;> rfl

theorem React_advance (data : IFusionSoundStream_data) (pos stop num : Int) (ended : Bool) :
    IFusionSoundStream_React
        { flags := if ended then CPNF_ADVANCE ||| CPNF_STOP else CPNF_ADVANCE
          pos := pos, stop := stop, num := num } data =
      { data with
          filled := data.filled - num
          pos_read := pos
          playing := if ended then false else data.playing } := by
  cases ended
  · have h1 : ¬ (CPNF_ADVANCE &&& CPNF_START ≠ 0) := by decide
    have h2 : CPNF_ADVANCE &&& CPNF_ADVANCE ≠ 0 := by decide
    have h3 : ¬ (CPNF_ADVANCE &&& CPNF_STOP ≠ 0) := by decide
    unfold IFusionSoundStream_React
    simp only [Bool.false_eq_true, if_false]
    rw [if_neg h1, if_pos h2, if_neg h3]
  · have h1 : ¬ ((CPNF_ADVANCE ||| CPNF_STOP) &&& CPNF_START ≠ 0) := by decide
    have h2 : (CPNF_ADVANCE ||| CPNF_STOP) &&& CPNF_ADVANCE ≠ 0 := by decide
    have h3 : (CPNF_ADVANCE ||| CPNF_STOP) &&& CPNF_STOP ≠ 0 := by decide
    unfold IFusionSoundStream_React
    simp only [if_true]
    rw [if_neg h1, if_pos h2, if_pos h3]

theorem stream_step_mono (fuel k : Nat) (e : StreamEvent) (l r : Ledger)
    (h : stream_step fuel e l = some r) : stream_step (fuel + k) e l = some r := by
  cases e with
  | write sample_data length =>
    simp only [stream_step, Option.map_eq_some'] at h ⊢
    obtain ⟨w, hw, hr⟩ := h
    refine ⟨w, ?_, hr⟩
    cases sample_data with
    | none => simpa [IFusionSoundStream_Write] using hw
    | some sd =>
      unfold IFusionSoundStream_Write at hw ⊢
      dsimp only at hw ⊢
      split at hw
      · next hl => rw [if_pos hl]; exact hw
      · next hl => rw [if_neg hl]; exact Write_loop_mono fuel k _ _ _ _ hw
  | wake sample_data =>
    simp only [stream_step, Option.map_eq_some'] at h ⊢
    obtain ⟨w, hw, hr⟩ := h
    exact ⟨w, Write_loop_mono fuel k _ _ _ _ hw, hr⟩
  | access => exact h
  | commit length => exact h
  | started pos stop => exact h
  | stopped pos stop => exact h
  | advanced pos stop num ended => exact h

theorem stream_run_mono : ∀ (evs : List StreamEvent) (fuel k : Nat) (l r : Ledger),
    stream_run fuel evs l = some r → stream_run (fuel + k) evs l = some r := by
  intro evs
  induction evs with
  | nil => intro fuel k l r h; exact h
  | cons e es ih =>
    intro fuel k l r h
    simp only [stream_run, Option.bind_eq_some] at h ⊢
    obtain ⟨m, hm, hr⟩ := h
    exact ⟨m, stream_step_mono fuel k e l m hm, ih fuel k m r hr⟩

theorem Commit_cases (data : IFusionSoundStream_data) (n : Int) :
    (IFusionSoundStream_Commit data n = (data, DR_INVARG) ∧
      (n < 0 ∨ n > data.buffersize - data.filled)) ∨
    (n = 0 ∧ IFusionSoundStream_Commit data n = (data, DR_OK)) ∨
    (1 ≤ n ∧ n ≤ data.buffersize - data.filled ∧
      IFusionSoundStream_Commit data n = (start_if_prebuffered (after_commit data n), DR_OK)) := by
  by_cases h : n < 0 ∨ n > data.buffersize - data.filled
  · exact Or.inl ⟨Commit_reject data n h, h⟩
  · by_cases h0 : n = 0
    · subst h0
      exact Or.inr (Or.inl ⟨rfl, Commit_zero data (by omega)⟩)
    · exact Or.inr (Or.inr ⟨by omega, by omega, Commit_accept data n (by omega) (by omega)⟩)

/-- Every step comes to a stable point; there the fill level has changed by
the frames stored minus the frames reported as played, and a step of the
producer has not raised it above the ring size. -/
theorem stream_step_total (e : StreamEvent) (l : Ledger) (hN : 1 ≤ l.data.buffersize) :
    ∃ F r, stream_step F e l = some r ∧
      r.data.filled - r.W + r.C = l.data.filled - l.W + l.C ∧
      r.data.buffersize = l.data.buffersize ∧
      (e.producer = true → r.data.filled ≤ max l.data.filled l.data.buffersize) := by
  cases e with
  | write sample_data length =>
    cases sample_data with
    | none =>
      exact ⟨0, _, rfl, by simp, rfl, fun _ => le_max_left _ _⟩
    | some sd =>
      by_cases hl : length < 1
      · refine ⟨0, { data := l.data, W := l.W + 0, C := l.C }, ?_, by simp, rfl,
          fun _ => le_max_left _ _⟩
        simp [stream_step, IFusionSoundStream_Write, hl]
      · obtain ⟨F, w, hw, h1, h2, h3⟩ := Write_loop_total { l.data with pending := length } sd 0 hN
        refine ⟨F, { data := w.data, W := l.W + w.stored, C := l.C }, ?_, ?_, h2, fun _ => h3⟩
        · simp [stream_step, IFusionSoundStream_Write, hl, hw]
        · have : w.data.filled - w.stored = l.data.filled - 0 := h1
          show w.data.filled - (l.W + w.stored) + l.C = _
          omega
  | wake sd =>
    obtain ⟨F, w, hw, h1, h2, h3⟩ := Write_loop_total l.data sd 0 hN
    refine ⟨F, { data := w.data, W := l.W + w.stored, C := l.C }, ?_, ?_, h2, fun _ => h3⟩
    · simp [stream_step, hw]
    · show w.data.filled - (l.W + w.stored) + l.C = _
      omega
  | access =>
    refine ⟨0, _, rfl, ?_, ?_, fun h => by simp [StreamEvent.producer] at h⟩
    · show (IFusionSoundStream_Access l.data).data.filled - l.W + l.C = _
      rw [Access_data]
    · show (IFusionSoundStream_Access l.data).data.buffersize = _
      rw [Access_data]
  | commit n =>
    have hl : stream_step 0 (StreamEvent.commit n) l = some
        { data := (IFusionSoundStream_Commit l.data n).1
          W := l.W + (if (IFusionSoundStream_Commit l.data n).2 = DR_OK then n else 0)
          C := l.C } := rfl
    rcases Commit_cases l.data n with ⟨hc, -⟩ | ⟨h0, hc⟩ | ⟨h1, h2, hc⟩
    · rw [hc] at hl
      refine ⟨0, _, hl, ?_, rfl, fun _ => le_max_left _ _⟩
      show l.data.filled - (l.W + (if DR_INVARG = DR_OK then n else 0)) + l.C = _
      rw [if_neg (by decide)]; ring
    · rw [hc] at hl
      refine ⟨0, _, hl, ?_, rfl, fun _ => le_max_left _ _⟩
      show l.data.filled - (l.W + (if DR_OK = DR_OK then n else 0)) + l.C = _
      rw [if_pos rfl, h0]; ring
    · rw [hc] at hl
      obtain ⟨c, p, pl, hS⟩ := start_if_prebuffered_eq (after_commit l.data n)
      refine ⟨0, _, hl, ?_, ?_, fun _ => ?_⟩
      · show (start_if_prebuffered (after_commit l.data n)).filled -
          (l.W + (if DR_OK = DR_OK then n else 0)) + l.C = _
        rw [if_pos rfl, hS]
        show l.data.filled + n - (l.W + n) + l.C = _
        ring
      · show (start_if_prebuffered (after_commit l.data n)).buffersize = _
        rw [hS]; rfl
      · show (start_if_prebuffered (after_commit l.data n)).filled ≤ _
        rw [hS]
        show l.data.filled + n ≤ _
        exact le_trans (by omega) (le_max_right _ _)
  | started pos stop =>
    refine ⟨0, _, rfl, ?_, ?_, fun h => by simp [StreamEvent.producer] at h⟩
    · show (IFusionSoundStream_React _ l.data).filled - l.W + l.C = _
      rw [React_start]
    · show (IFusionSoundStream_React _ l.data).buffersize = _
      rw [React_start]
  | stopped pos stop =>
    refine ⟨0, _, rfl, ?_, ?_, fun h => by simp [StreamEvent.producer] at h⟩
    · show (IFusionSoundStream_React _ l.data).filled - l.W + l.C = _
      rw [React_stop]
    · show (IFusionSoundStream_React _ l.data).buffersize = _
      rw [React_stop]
  | advanced pos stop num ended =>
    refine ⟨0, _, rfl, ?_, ?_, fun h => by simp [StreamEvent.producer] at h⟩
    · show (IFusionSoundStream_React _ l.data).filled - l.W + (l.C + num) = _
      rw [React_advance]
      show l.data.filled - num - l.W + (l.C + num) = _
      ring
    · show (IFusionSoundStream_React _ l.data).buffersize = _
      rw [React_advance]


theorem stream_run_total : ∀ (evs : List StreamEvent) (l : Ledger), 1 ≤ l.data.buffersize →
    ∃ F r, stream_run F evs l = some r ∧
      r.data.filled - r.W + r.C = l.data.filled - l.W + l.C ∧
      r.data.buffersize = l.data.buffersize := by
  intro evs
  induction evs with
  | nil => intro l _; exact ⟨0, l, rfl, rfl, rfl⟩
  | cons e es ih =>
    intro l hN
    obtain ⟨F1, m, hm, hm1, hm2, -⟩ := stream_step_total e l hN
    obtain ⟨F2, r, hr, hr1, hr2⟩ := ih m (by rw [hm2]; exact hN)
    refine ⟨F1 + F2, r, ?_, by rw [hr1, hm1], by rw [hr2, hm2]⟩
    simp only [stream_run, Option.bind_eq_some]
    refine ⟨m, stream_step_mono F1 F2 e l m hm, ?_⟩
    have := stream_run_mono es F2 F1 m r hr
    rwa [Nat.add_comm] at this

/-- C1. Stream conservation.  From any state of a stream with a ring of at
least one frame, every sequence of `Write` calls, wake-ups of the waiting
writer, `Access` and `Commit` calls and playback notifications reaches a stable
point (with enough fuel for the loops of `Write`).  There the fill level is the
initial fill level plus the frames stored `W` minus the sum `C` of the `num`
values of the `ADVANCE` notifications, so `filled = W - C` on a stream that
started empty; and whatever step of the producer comes next (`Write`, wake-up,
`Commit`), it reaches a stable point and does not raise the fill level above
the ring size. -/
theorem stream_conservation (data : IFusionSoundStream_data) (hN : 1 ≤ data.buffersize)
    (evs : List StreamEvent) :
    ∃ F l,
      (∀ fuel, F ≤ fuel → stream_run fuel evs { data := data, W := 0, C := 0 } = some l) ∧
      l.data.filled = data.filled + l.W - l.C ∧
      (data.filled = 0 → l.data.filled = l.W - l.C) ∧
      (∀ e : StreamEvent, e.producer = true →
        ∃ G r, (∀ fuel, G ≤ fuel → stream_step fuel e l = some r) ∧
          r.data.filled = data.filled + r.W - r.C ∧
          r.data.filled ≤ max l.data.filled data.buffersize) := by
  obtain ⟨F, l, hl, h1, h2⟩ := stream_run_total evs { data := data, W := 0, C := 0 } hN
  have h1' : l.data.filled - l.W + l.C = data.filled - 0 + 0 := h1
  have h2' : l.data.buffersize = data.buffersize := h2
  refine ⟨F, l, ?_, by omega, fun h => by omega, ?_⟩
  · intro fuel hf
    obtain ⟨k, rfl⟩ := Nat.exists_eq_add_of_le hf
    exact stream_run_mono evs F k _ l hl
  · intro e he
    obtain ⟨G, r, hr, hr1, -, hr3⟩ := stream_step_total e l (by rw [h2']; exact hN)
    refine ⟨G, r, ?_, by omega, ?_⟩
    · intro fuel hf
      obtain ⟨k, rfl⟩ := Nat.exists_eq_add_of_le hf
      exact stream_step_mono G k e l r hr
    · rw [← h2']; exact hr3 he

/-! ## Prebuffer auto-start -/

theorem stream_playback_stop_val (data : IFusionSoundStream_data) (disable : Bool) :
    (stream_playback_stop data disable).1 =
      if data.streaming_playback.running = true then
        { data with
            core := (fs_core_remove_playback data.core data.streaming_playback).1
            streaming_playback :=
              { data.streaming_playback with
                  running := false
                  disabled := (if disable then true else data.streaming_playback.disabled) }
            pos_read :=
              if data.streaming_playback.notify = false then data.pos_read
              else data.streaming_playback.position
            playing := if data.streaming_playback.notify = false then data.playing else false }
      else
        { data with
            streaming_playback :=
              { data.streaming_playback with
                  disabled := (if disable then true else data.streaming_playback.disabled) } } := by
  unfold stream_playback_stop
  rw [fs_playback_stop_eq]
  rcases data with ⟨core, buffer, ⟨pid, notify, disabled, running, position, stop, pitch, center,
    rear, levels, volume⟩, N, rate, pre, playing, pw, pr, filled, pending⟩
  cases disable <;> cases running <;> cases notify <;>
    simp [fs_playback_dispatch, React_stop]

theorem start_if_prebuffered_started (X : IFusionSoundStream_data)
    (hc : X.playing = false ∧ X.prebuffer ≥ 0 ∧ X.filled ≥ X.prebuffer)
    (hr : X.streaming_playback.running = false) (hs : X.core.shmpool_free ≠ 0) :
    playback_started X (start_if_prebuffered X) := by
  unfold start_if_prebuffered
  rw [if_pos hc, stream_playback_start_val, if_pos ⟨hr, by simp, hs⟩]
  refine ⟨rfl, rfl, ?_⟩
  intro hn
  show (if X.streaming_playback.notify = false then X.playing else true) = true
  rw [if_neg (by rw [hn]; simp)]

theorem start_if_prebuffered_not (X : IFusionSoundStream_data)
    (hc : ¬ (X.playing = false ∧ X.prebuffer ≥ 0 ∧ X.filled ≥ X.prebuffer)) :
    start_if_prebuffered X = X := by
  unfold start_if_prebuffered
  rw [if_neg hc]

theorem start_if_prebuffered_filled (X : IFusionSoundStream_data) :
    (start_if_prebuffered X).filled = X.filled := by
  obtain ⟨c, p, pl, hS⟩ := start_if_prebuffered_eq X
  rw [hS]

/-- With a negative prebuffer level no `Write` starts or stops the playback. -/
theorem Write_keeps (fuel : Nat) (data : IFusionSoundStream_data) (sd : Option (Int → Int))
    (len : Int) (w : WriteState) (hpre : data.prebuffer < 0)
    (h : IFusionSoundStream_Write fuel data sd len = some w) : playback_unchanged data w.data := by
  unfold IFusionSoundStream_Write at h
  cases sd with
  | none => simp only [Option.some.injEq] at h; subst h; exact ⟨rfl, rfl, rfl⟩
  | some sd =>
    dsimp only at h
    split at h
    · simp only [Option.some.injEq] at h; subst h; exact ⟨rfl, rfl, rfl⟩
    · exact (Write_loop_keeps fuel { data with pending := len } sd 0 w hpre h).1

/-- With a negative prebuffer level no `Commit` starts or stops the playback. -/
theorem Commit_keeps (data : IFusionSoundStream_data) (m : Int) (hpre : data.prebuffer < 0) :
    playback_unchanged data (IFusionSoundStream_Commit data m).1 := by
  rcases Commit_cases data m with ⟨hc, -⟩ | ⟨-, hc⟩ | ⟨-, -, hc⟩
  · rw [hc]; exact ⟨rfl, rfl, rfl⟩
  · rw [hc]; exact ⟨rfl, rfl, rfl⟩
  · rw [hc, start_if_prebuffered_of_neg (after_commit data m) hpre]; exact ⟨rfl, rfl, rfl⟩

theorem Commit_zero_keeps (data : IFusionSoundStream_data) :
    (IFusionSoundStream_Commit data 0).1 = data := by
  rcases Commit_cases data 0 with ⟨hc, -⟩ | ⟨-, hc⟩ | ⟨h1, -, -⟩
  · rw [hc]
  · rw [hc]
  · omega

/-- With a running playback, or without a free playlist entry, the check for a
(re)start starts nothing. -/
theorem start_if_prebuffered_blocked (X : IFusionSoundStream_data)
    (hb : ¬ (X.streaming_playback.running = false ∧ X.core.shmpool_free ≠ 0)) :
    playback_unchanged X (start_if_prebuffered X) := by
  unfold start_if_prebuffered
  split
  · rw [stream_playback_start_val, if_neg (fun h => hb ⟨h.1, h.2.2⟩)]
    exact ⟨rfl, rfl, rfl⟩
  · exact ⟨rfl, rfl, rfl⟩

/-- C5 (amended). Prebuffer auto-start.  A `Write` that finds a free frame
stores `min(len, free)` frames, and a `Commit(n)` with `1 ≤ n ≤ free` stores `n`
frames; after either, the playback of the stream has been started if the stream
was not playing, `prebuffer ≥ 0`, the updated fill level is at least
`prebuffer`, the playback was stopped and a playlist entry was free, and it has
been neither started nor stopped if one of these five conditions fails (the
result of `fs_playback_start` is not looked at).  `Commit(0)` starts nothing,
and with `prebuffer < 0` no `Write` and no `Commit` starts the playback.  On a
stream of 4800 frames with `prebuffer = 2400`, a first `Write` of 1200 frames
leaves it not playing with 1200 frames filled, and a second one makes it
playing. -/
theorem prebuffer_auto_start (data : IFusionSoundStream_data) (sd : Int → Int) (len n : Int)
    (fuel : Nat) (hpw0 : 0 ≤ data.pos_write) (hpw1 : data.pos_write < data.buffersize)
    (hf : data.filled < data.buffersize) (hl : 1 ≤ len)
    (hfuel : min len (data.buffersize - data.filled) + 2 ≤ fuel)
    (hn1 : 1 ≤ n) (hn2 : n ≤ data.buffersize - data.filled) :
    (∃ w, IFusionSoundStream_Write fuel data (some sd) len = some w ∧
      w.data.filled = data.filled + min len (data.buffersize - data.filled) ∧
      (data.playing = false ∧ data.prebuffer ≥ 0 ∧ w.data.filled ≥ data.prebuffer →
        data.streaming_playback.running = false → data.core.shmpool_free ≠ 0 →
        playback_started data w.data) ∧
      (¬ ((data.playing = false ∧ data.prebuffer ≥ 0 ∧ w.data.filled ≥ data.prebuffer) ∧
          data.streaming_playback.running = false ∧ data.core.shmpool_free ≠ 0) →
        playback_unchanged data w.data)) ∧
    ((IFusionSoundStream_Commit data n).2 = DR_OK ∧
      (IFusionSoundStream_Commit data n).1.filled = data.filled + n ∧
      (data.playing = false ∧ data.prebuffer ≥ 0 ∧
          (IFusionSoundStream_Commit data n).1.filled ≥ data.prebuffer →
        data.streaming_playback.running = false → data.core.shmpool_free ≠ 0 →
        playback_started data (IFusionSoundStream_Commit data n).1) ∧
      (¬ ((data.playing = false ∧ data.prebuffer ≥ 0 ∧
            (IFusionSoundStream_Commit data n).1.filled ≥ data.prebuffer) ∧
          data.streaming_playback.running = false ∧ data.core.shmpool_free ≠ 0) →
        playback_unchanged data (IFusionSoundStream_Commit data n).1)) ∧
    (IFusionSoundStream_Commit data 0).1 = data ∧
    (data.prebuffer < 0 →
      (∀ (fuel0 : Nat) (sd0 : Option (Int → Int)) (len0 : Int) (w : WriteState),
        IFusionSoundStream_Write fuel0 data sd0 len0 = some w → playback_unchanged data w.data) ∧
      (∀ m, playback_unchanged data (IFusionSoundStream_Commit data m).1)) ∧
    ((demo_write (demo_stream 4800 2400) 1200).playing = false ∧
      (demo_write (demo_stream 4800 2400) 1200).filled = 1200 ∧
      (demo_write (demo_write (demo_stream 4800 2400) 1200) 1200).playing = true) := by
  refine ⟨?_, ?_, Commit_zero_keeps data, fun hpre =>
    ⟨fun fuel0 sd0 len0 w h => Write_keeps fuel0 data sd0 len0 w hpre h,
     fun m => Commit_keeps data m hpre⟩, by decide⟩
  · obtain ⟨mem, hw, -⟩ := Write_round sd fuel data len hl hf hpw0 hpw1 hfuel
    refine ⟨_, hw, ?_, ?_, ?_⟩
    · show (start_if_prebuffered _).filled = _
      rw [start_if_prebuffered_filled]; rfl
    · intro hc hr hs
      have hc' : (after_fill data (min len (data.buffersize - data.filled)) mem).playing = false ∧
          (after_fill data (min len (data.buffersize - data.filled)) mem).prebuffer ≥ 0 ∧
          (after_fill data (min len (data.buffersize - data.filled)) mem).filled ≥
            (after_fill data (min len (data.buffersize - data.filled)) mem).prebuffer := by
        refine ⟨hc.1, hc.2.1, ?_⟩
        have := hc.2.2
        change (start_if_prebuffered _).filled ≥ _ at this
        rw [start_if_prebuffered_filled] at this
        exact this
      exact start_if_prebuffered_started _ hc' hr hs
    · intro hc
      show playback_unchanged data
        { start_if_prebuffered (after_fill data (min len (data.buffersize - data.filled)) mem) with
          pending := len - min len (data.buffersize - data.filled) }
      by_cases hb : data.streaming_playback.running = false ∧ data.core.shmpool_free ≠ 0
      · have hc' : ¬ ((after_fill data (min len (data.buffersize - data.filled)) mem).playing
              = false ∧
            (after_fill data (min len (data.buffersize - data.filled)) mem).prebuffer ≥ 0 ∧
            (after_fill data (min len (data.buffersize - data.filled)) mem).filled ≥
              (after_fill data (min len (data.buffersize - data.filled)) mem).prebuffer) := by
          intro h
          apply hc
          refine ⟨⟨h.1, h.2.1, ?_⟩, hb⟩
          show (start_if_prebuffered _).filled ≥ _
          rw [start_if_prebuffered_filled]
          exact h.2.2
        rw [start_if_prebuffered_not _ hc']
        exact ⟨rfl, rfl, rfl⟩
      · obtain ⟨u1, u2, u3⟩ := start_if_prebuffered_blocked
          (after_fill data (min len (data.buffersize - data.filled)) mem) hb
        exact ⟨u1, u2, u3⟩
  · rw [Commit_accept data n hn1 hn2]
    refine ⟨rfl, ?_, ?_, ?_⟩
    · show (start_if_prebuffered _).filled = _
      rw [start_if_prebuffered_filled]; rfl
    · intro hc hr hs
      have hc' : (after_commit data n).playing = false ∧ (after_commit data n).prebuffer ≥ 0 ∧
          (after_commit data n).filled ≥ (after_commit data n).prebuffer := by
        refine ⟨hc.1, hc.2.1, ?_⟩
        have := hc.2.2
        change (start_if_prebuffered _).filled ≥ _ at this
        rw [start_if_prebuffered_filled] at this
        exact this
      exact start_if_prebuffered_started _ hc' hr hs
    · intro hc
      show playback_unchanged data (start_if_prebuffered (after_commit data n))
      by_cases hb : data.streaming_playback.running = false ∧ data.core.shmpool_free ≠ 0
      · have hc' : ¬ ((after_commit data n).playing = false ∧
            (after_commit data n).prebuffer ≥ 0 ∧
            (after_commit data n).filled ≥ (after_commit data n).prebuffer) := by
          intro h
          apply hc
          refine ⟨⟨h.1, h.2.1, ?_⟩, hb⟩
          show (start_if_prebuffered _).filled ≥ _
          rw [start_if_prebuffered_filled]
          exact h.2.2
        rw [start_if_prebuffered_not _ hc']
        exact ⟨rfl, rfl, rfl⟩
      · obtain ⟨u1, u2, u3⟩ := start_if_prebuffered_blocked (after_commit data n) hb
        exact ⟨u1, u2, u3⟩

/-- C5, counterexample. On a fresh stream with `prebuffer = 0`, `Commit(0)` returns
`DR_OK`; afterwards the stream is not playing, `prebuffer ≥ 0` and
`filled ≥ prebuffer`, yet the playback has not been started. -/
theorem commit_zero_counterexample :
    (IFusionSoundStream_Commit (demo_stream 10 0) 0).2 = DR_OK ∧
    (IFusionSoundStream_Commit (demo_stream 10 0) 0).1.playing = false ∧
    (IFusionSoundStream_Commit (demo_stream 10 0) 0).1.prebuffer ≥ 0 ∧
    (IFusionSoundStream_Commit (demo_stream 10 0) 0).1.filled ≥
      (IFusionSoundStream_Commit (demo_stream 10 0) 0).1.prebuffer ∧
    (IFusionSoundStream_Commit (demo_stream 10 0) 0).1.streaming_playback.running = false ∧
    (IFusionSoundStream_Commit (demo_stream 10 0) 0).1.core.playlist_entries = [] := by
  decide

/-! ## Flush -/

theorem Flush_val (data : IFusionSoundStream_data) :
    IFusionSoundStream_Flush data =
      if (stream_playback_stop data true).1.playing = true then
        ((stream_playback_stop data true).1, Exit.waiting)
      else
        ({ (stream_playback_stop data true).1 with
            pos_write := (stream_playback_stop data true).1.pos_read, filled := 0 },
          Exit.returned DR_OK) := by
  unfold IFusionSoundStream_Flush
  rfl

theorem stop_running (data : IFusionSoundStream_data) :
    (stream_playback_stop data true).1.streaming_playback.running = false ∧
    (stream_playback_stop data true).1.streaming_playback.disabled = true := by
  rw [stream_playback_stop_val]
  by_cases h : data.streaming_playback.running = true
  · rw [if_pos h]; exact ⟨rfl, rfl⟩
  · rw [if_neg h]; exact ⟨by simpa using h, rfl⟩

theorem stop_playing (data : IFusionSoundStream_data)
    (hcons : data.playing = true →
      data.streaming_playback.running = true ∧ data.streaming_playback.notify = true) :
    (stream_playback_stop data true).1.playing = false := by
  rw [stream_playback_stop_val]
  by_cases h : data.streaming_playback.running = true
  · rw [if_pos h]
    show (if data.streaming_playback.notify = false then data.playing else false) = false
    by_cases hn : data.streaming_playback.notify = false
    · rw [if_pos hn]
      by_contra hp
      have := (hcons (by simpa using hp)).2
      rw [hn] at this; exact absurd this (by simp)
    · rw [if_neg hn]
  · rw [if_neg h]
    show data.playing = false
    by_contra hp
    exact h (hcons (by simpa using hp)).1

/-- The playing flag of a stream implies a running, notifying playback; `Write`
keeps it so. -/
theorem start_if_prebuffered_cons (X : IFusionSoundStream_data)
    (hcons : X.playing = true →
      X.streaming_playback.running = true ∧ X.streaming_playback.notify = true) :
    (start_if_prebuffered X).playing = true →
      (start_if_prebuffered X).streaming_playback.running = true ∧
      (start_if_prebuffered X).streaming_playback.notify = true := by
  unfold start_if_prebuffered
  by_cases hc : X.playing = false ∧ X.prebuffer ≥ 0 ∧ X.filled ≥ X.prebuffer
  · rw [if_pos hc, stream_playback_start_val]
    by_cases hs : X.streaming_playback.running = false ∧
        (if true then false else X.streaming_playback.disabled) = false ∧
        X.core.shmpool_free ≠ 0
    · rw [if_pos hs]
      intro hp
      refine ⟨rfl, ?_⟩
      change (if X.streaming_playback.notify = false then X.playing else true) = true at hp
      show X.streaming_playback.notify = true
      by_cases hn : X.streaming_playback.notify = false
      · rw [if_pos hn] at hp
        exact (hcons hp).2
      · simpa using hn
    · rw [if_neg hs]
      intro hp
      exact hcons hp
  · rw [if_neg hc]
    exact hcons

/-- C9. `Flush` leaves the playback of the stream stopped and disabled, in every
state.  It then either returns `DR_OK` or waits, and it returns exactly when
the stream no longer counts as playing after the stop, in particular whenever
the playing flag of the stream stood for a running playback that notifies; on
return the ring is empty, the stream is not playing, and the write position is
the read position.  A `Write` that fits into the free space followed by
`Flush` therefore returns with `filled = 0` and not playing. -/
theorem flush_postcondition (data : IFusionSoundStream_data) :
    (IFusionSoundStream_Flush data).1.streaming_playback.running = false ∧
    (IFusionSoundStream_Flush data).1.streaming_playback.disabled = true ∧
    ((IFusionSoundStream_Flush data).2 = Exit.returned DR_OK ∨
      (IFusionSoundStream_Flush data).2 = Exit.waiting) ∧
    ((IFusionSoundStream_Flush data).2 = Exit.returned DR_OK →
      (IFusionSoundStream_Flush data).1.filled = 0 ∧
      (IFusionSoundStream_Flush data).1.playing = false ∧
      (IFusionSoundStream_Flush data).1.pos_write = (IFusionSoundStream_Flush data).1.pos_read) ∧
    ((data.playing = true →
        data.streaming_playback.running = true ∧ data.streaming_playback.notify = true) →
      (IFusionSoundStream_Flush data).2 = Exit.returned DR_OK) ∧
    (∀ (sd : Int → Int) (len : Int) (fuel : Nat),
      (data.playing = true →
        data.streaming_playback.running = true ∧ data.streaming_playback.notify = true) →
      0 ≤ data.pos_write → data.pos_write < data.buffersize →
      1 ≤ len → len ≤ data.buffersize - data.filled → len + 2 ≤ fuel →
      ∃ w, IFusionSoundStream_Write fuel data (some sd) len = some w ∧
        w.exit = Exit.returned DR_OK ∧
        (IFusionSoundStream_Flush w.data).2 = Exit.returned DR_OK ∧
        (IFusionSoundStream_Flush w.data).1.filled = 0 ∧
        (IFusionSoundStream_Flush w.data).1.playing = false) ∧
    ((demo_write (demo_stream 10 0) 8).filled = 8 ∧
      (demo_write (demo_stream 10 0) 8).playing = true ∧
      (IFusionSoundStream_Flush (demo_write (demo_stream 10 0) 8)).2 = Exit.returned DR_OK ∧
      (IFusionSoundStream_Flush (demo_write (demo_stream 10 0) 8)).1.filled = 0 ∧
      (IFusionSoundStream_Flush (demo_write (demo_stream 10 0) 8)).1.playing = false) := by
  have key : ∀ d : IFusionSoundStream_data,
      (d.playing = true →
        d.streaming_playback.running = true ∧ d.streaming_playback.notify = true) →
      (IFusionSoundStream_Flush d).2 = Exit.returned DR_OK ∧
      (IFusionSoundStream_Flush d).1.filled = 0 ∧
      (IFusionSoundStream_Flush d).1.playing = false := by
    intro d hd
    have hp := stop_playing d hd
    rw [Flush_val, if_neg (by rw [hp]; simp)]
    exact ⟨rfl, rfl, hp⟩
  refine ⟨?_, ?_, ?_, ?_, fun h => (key data h).1, ?_, by decide⟩
  · rw [Flush_val]
    split
    · exact (stop_running data).1
    · exact (stop_running data).1
  · rw [Flush_val]
    split
    · exact (stop_running data).2
    · exact (stop_running data).2
  · rw [Flush_val]
    split
    · exact Or.inr rfl
    · exact Or.inl rfl
  · rw [Flush_val]
    split
    · intro h; exact absurd h (by simp)
    · next hp => intro _; exact ⟨rfl, by simpa using hp, rfl⟩
  · intro sd len fuel hcons hpw0 hpw1 hl1 hl2 hfuel
    have hmin : min len (data.buffersize - data.filled) = len := min_eq_left hl2
    obtain ⟨mem, hw, -⟩ := Write_round sd fuel data len hl1 (by omega) hpw0 hpw1
      (by rw [hmin]; exact hfuel)
    rw [hmin] at hw
    refine ⟨_, hw, by simp only [hl2, if_true], ?_⟩
    apply key
    exact start_if_prebuffered_cons (after_fill data len mem) hcons

/-! ## The consumer against the fill level -/

/-- C2, evaluated at the failing inputs.  After an underrun (the playback ended
at the stop position with the ring empty) `Continue` restarts the playback with
position and stop position equal; the next mixer tick of 4 frames reports
`ADVANCE` with `num = 4` although `filled = 0`, and the fill level becomes `-4`.
Likewise, after the direction was set to backward with one frame filled, the
tick reports `num = 4` and the fill level becomes `-3`. -/
theorem advance_beyond_filled :
    (demo_underrun.filled = 0 ∧
      demo_underrun.streaming_playback.running = true ∧
      demo_underrun.streaming_playback.stop = demo_underrun.pos_write ∧
      demo_next_notification demo_underrun 4 =
        some { flags := CPNF_ADVANCE, pos := 5, stop := 1, num := 4 } ∧
      (demo_tick demo_underrun 4).filled = -4) ∧
    (demo_rewind.filled = 1 ∧
      demo_rewind.streaming_playback.running = true ∧
      demo_rewind.streaming_playback.stop = demo_rewind.pos_write ∧
      demo_next_notification demo_rewind 4 =
        some { flags := CPNF_ADVANCE, pos := 6, stop := 1, num := 4 } ∧
      (demo_tick demo_rewind 4).filled = -3) := by
  decide

/-! ## Instances at concrete streams -/

/-- C1, witness: a stream of 10 frames, a `Write` of 3 frames, an `ADVANCE` of
2 frames and a `Commit` of one frame. -/
theorem stream_conservation_witness :
    1 ≤ (demo_stream 10 0).buffersize ∧
    ∃ F l,
      (∀ fuel, F ≤ fuel →
        stream_run fuel
          [StreamEvent.write (some demo_input) 3, StreamEvent.advanced 2 3 2 false,
            StreamEvent.commit 1]
          { data := demo_stream 10 0, W := 0, C := 0 } = some l) ∧
      l.data.filled = (demo_stream 10 0).filled + l.W - l.C ∧
      ((demo_stream 10 0).filled = 0 → l.data.filled = l.W - l.C) ∧
      (∀ e : StreamEvent, e.producer = true →
        ∃ G r, (∀ fuel, G ≤ fuel → stream_step fuel e l = some r) ∧
          r.data.filled = (demo_stream 10 0).filled + r.W - r.C ∧
          r.data.filled ≤ max l.data.filled (demo_stream 10 0).buffersize) :=
  ⟨by decide, stream_conservation (demo_stream 10 0) (by decide) _⟩

/-- C4, witness: a `Write` of 5 frames at write position 8 of an empty ring of
10 frames. -/
theorem write_metadata_update_witness :
    (0 ≤ demo_drained.pos_write ∧ demo_drained.pos_write < demo_drained.buffersize ∧
      (1 : Int) ≤ 5 ∧ 5 ≤ demo_drained.buffersize - demo_drained.filled ∧
      (5 : Int) + 2 ≤ (7 : Nat)) ∧
    ∃ w, IFusionSoundStream_Write 7 demo_drained (some demo_input) 5 = some w ∧
      w.exit = Exit.returned DR_OK ∧
      w.data.pos_write = (demo_drained.pos_write + 5) % demo_drained.buffersize ∧
      w.data.filled = demo_drained.filled + 5 ∧
      w.data.pending = 0 ∧
      w.data.streaming_playback.stop = w.data.pos_write :=
  ⟨by decide, write_metadata_update demo_drained demo_input 5 7 (by decide) (by decide)
    (by decide) (by decide) (by decide)⟩

/-- C5, witness: a fresh stream of 10 frames with `prebuffer = 0`, a `Write` of
3 frames and a `Commit` of 2 frames. -/
theorem prebuffer_auto_start_witness :
    (0 ≤ (demo_stream 10 0).pos_write ∧
      (demo_stream 10 0).pos_write < (demo_stream 10 0).buffersize ∧
      (demo_stream 10 0).filled < (demo_stream 10 0).buffersize ∧ (1 : Int) ≤ 3 ∧
      min 3 ((demo_stream 10 0).buffersize - (demo_stream 10 0).filled) + 2 ≤ ((5 : Nat) : Int) ∧
      (1 : Int) ≤ 2 ∧ 2 ≤ (demo_stream 10 0).buffersize - (demo_stream 10 0).filled) ∧
    (∃ w, IFusionSoundStream_Write 5 (demo_stream 10 0) (some demo_input) 3 = some w ∧
      w.data.filled = (demo_stream 10 0).filled +
        min 3 ((demo_stream 10 0).buffersize - (demo_stream 10 0).filled) ∧
      ((demo_stream 10 0).playing = false ∧ (demo_stream 10 0).prebuffer ≥ 0 ∧
          w.data.filled ≥ (demo_stream 10 0).prebuffer →
        (demo_stream 10 0).streaming_playback.running = false →
        (demo_stream 10 0).core.shmpool_free ≠ 0 →
        playback_started (demo_stream 10 0) w.data) ∧
      (¬ (((demo_stream 10 0).playing = false ∧ (demo_stream 10 0).prebuffer ≥ 0 ∧
            w.data.filled ≥ (demo_stream 10 0).prebuffer) ∧
          (demo_stream 10 0).streaming_playback.running = false ∧
          (demo_stream 10 0).core.shmpool_free ≠ 0) →
        playback_unchanged (demo_stream 10 0) w.data)) ∧
    (IFusionSoundStream_Commit (demo_stream 10 0) 2).1.filled = (demo_stream 10 0).filled + 2 :=
  ⟨by decide,
    (prebuffer_auto_start (demo_stream 10 0) demo_input 3 2 5 (by decide) (by decide) (by decide)
      (by decide) (by decide) (by decide) (by decide)).1,
    (prebuffer_auto_start (demo_stream 10 0) demo_input 3 2 5 (by decide) (by decide) (by decide)
      (by decide) (by decide) (by decide) (by decide)).2.1.2.1⟩

/-- C6, witness: `Commit(2)` at write position 8 of an empty ring of 10 frames,
which ends at the end of the ring. -/
theorem commit_metadata_update_witness :
    (0 ≤ demo_drained.pos_write ∧ demo_drained.pos_write < demo_drained.buffersize ∧
      (0 : Int) ≤ 2 ∧ 2 ≤ demo_drained.buffersize - demo_drained.filled ∧
      2 ≤ demo_drained.buffersize - demo_drained.pos_write) ∧
    ((IFusionSoundStream_Commit demo_drained 2).2 = DR_OK ∧
      (IFusionSoundStream_Commit demo_drained 2).1.pos_write =
        (demo_drained.pos_write + 2) % demo_drained.buffersize ∧
      0 ≤ (IFusionSoundStream_Commit demo_drained 2).1.pos_write ∧
      (IFusionSoundStream_Commit demo_drained 2).1.pos_write < demo_drained.buffersize ∧
      (IFusionSoundStream_Commit demo_drained 2).1.filled = demo_drained.filled + 2 ∧
      (∀ m, m < 0 ∨ m > demo_drained.buffersize - demo_drained.filled →
        IFusionSoundStream_Commit demo_drained m = (demo_drained, DR_INVARG))) :=
  ⟨by decide, commit_metadata_update demo_drained 2 (by decide) (by decide) (by decide)
    (by decide) (by decide)⟩

/-- C7, witness: `Access` at write position 8 of an empty ring of 10 frames
hands out the two frames up to the end of the ring. -/
theorem access_maximal_region_witness :
    (demo_drained.filled < demo_drained.buffersize ∧ 0 ≤ demo_drained.pos_write ∧
      demo_drained.pos_write < demo_drained.buffersize) ∧
    ((IFusionSoundStream_Access demo_drained).exit = Exit.returned DR_OK ∧
      (IFusionSoundStream_Access demo_drained).ret_data =
        demo_drained.buffer.bytes * demo_drained.pos_write ∧
      (IFusionSoundStream_Access demo_drained).ret_frames =
        min (demo_drained.buffersize - demo_drained.filled)
          (demo_drained.buffersize - demo_drained.pos_write) ∧
      1 ≤ (IFusionSoundStream_Access demo_drained).ret_frames ∧
      (IFusionSoundStream_Access demo_drained).data = demo_drained) :=
  ⟨by decide, access_maximal_region demo_drained (by decide) (by decide) (by decide)⟩

/-! ## The presentation delay -/

theorem int_wrap_of_in_int (x : Int) (h : in_int x) : int_wrap x = x := by
  obtain ⟨h1, h2⟩ := h
  unfold int_wrap
  norm_num at h1 h2 ⊢
  omega

/-- C11. `GetPresentationDelay` returns `DR_OK` and leaves the stream as it
is.  Whenever the intermediate values of the expression fit an `int`, the delay
it stores is `d + ((filled + pending) * 1000) / rate`, with `d` the output
delay of the core and the division truncating toward zero. -/
theorem presentation_delay_formula (data : IFusionSoundStream_data)
    (h1 : in_int (data.filled + data.pending))
    (h2 : in_int ((data.filled + data.pending) * 1000))
    (h3 : in_int (Int.tdiv ((data.filled + data.pending) * 1000) data.rate))
    (h4 : in_int (fs_core_output_delay data.core +
      Int.tdiv ((data.filled + data.pending) * 1000) data.rate)) :
    (IFusionSoundStream_GetPresentationDelay data).2.2 =
      fs_core_output_delay data.core +
        Int.tdiv ((data.filled + data.pending) * 1000) data.rate ∧
    (IFusionSoundStream_GetPresentationDelay data).2.1 = DR_OK ∧
    (IFusionSoundStream_GetPresentationDelay data).1 = data := by
  refine ⟨?_, rfl, rfl⟩
  show int_wrap (fs_core_output_delay data.core +
      int_wrap (Int.tdiv (int_wrap (int_wrap (data.filled + data.pending) * 1000)) data.rate)) = _
  rw [int_wrap_of_in_int _ h1, int_wrap_of_in_int _ h2, int_wrap_of_in_int _ h3,
    int_wrap_of_in_int _ h4]

/-- C11, witness: a full ring of 4800 frames at 48000 Hz with 1200 frames
pending, which are 125 ms. -/
theorem presentation_delay_formula_witness :
    (in_int ((demo_write (demo_stream 4800 (-1)) 6000).filled +
        (demo_write (demo_stream 4800 (-1)) 6000).pending) ∧
      in_int (((demo_write (demo_stream 4800 (-1)) 6000).filled +
        (demo_write (demo_stream 4800 (-1)) 6000).pending) * 1000) ∧
      in_int (Int.tdiv (((demo_write (demo_stream 4800 (-1)) 6000).filled +
        (demo_write (demo_stream 4800 (-1)) 6000).pending) * 1000)
        (demo_write (demo_stream 4800 (-1)) 6000).rate) ∧
      in_int (fs_core_output_delay (demo_write (demo_stream 4800 (-1)) 6000).core +
        Int.tdiv (((demo_write (demo_stream 4800 (-1)) 6000).filled +
          (demo_write (demo_stream 4800 (-1)) 6000).pending) * 1000)
          (demo_write (demo_stream 4800 (-1)) 6000).rate)) ∧
    (demo_write (demo_stream 4800 (-1)) 6000).filled = 4800 ∧
    (demo_write (demo_stream 4800 (-1)) 6000).pending = 1200 ∧
    (IFusionSoundStream_GetPresentationDelay (demo_write (demo_stream 4800 (-1)) 6000)).2.2 = 125 :=
  ⟨by decide, by decide, by decide,
    (presentation_delay_formula (demo_write (demo_stream 4800 (-1)) 6000) (by decide) (by decide)
      (by decide) (by decide)).1⟩

/-! ## The reaction of the stream, playback start and stop -/

/-- The reaction of the stream to a notification, case by case. -/
theorem React_cases (data : IFusionSoundStream_data)
    (notification : CorePlaybackNotification) :
    (notification.flags &&& CPNF_START ≠ 0 →
      IFusionSoundStream_React notification data = { data with playing := true }) ∧
    (notification.flags &&& CPNF_START = 0 →
      (IFusionSoundStream_React notification data).pos_read = notification.pos ∧
      (notification.flags &&& CPNF_ADVANCE ≠ 0 →
        (IFusionSoundStream_React notification data).filled = data.filled - notification.num) ∧
      (notification.flags &&& CPNF_ADVANCE = 0 →
        (IFusionSoundStream_React notification data).filled = data.filled) ∧
      (notification.flags &&& CPNF_STOP ≠ 0 →
        (IFusionSoundStream_React notification data).playing = false) ∧
      (notification.flags &&& CPNF_STOP = 0 →
        (IFusionSoundStream_React notification data).playing = data.playing) ∧
      (IFusionSoundStream_React notification data).pos_write = data.pos_write ∧
      (IFusionSoundStream_React notification data).pending = data.pending) := by
  constructor
  · intro h
    unfold IFusionSoundStream_React
    rw [if_pos h]
  · intro h
    have h' : ¬ (notification.flags &&& CPNF_START ≠ 0) := fun c => c h
    unfold IFusionSoundStream_React
    rw [if_neg h']
    by_cases ha : notification.flags &&& CPNF_ADVANCE ≠ 0 <;>
      by_cases hs : notification.flags &&& CPNF_STOP ≠ 0
    · rw [if_pos ha, if_pos hs]
      exact ⟨rfl, fun _ => rfl, fun c => absurd c ha, fun _ => rfl, fun c => absurd c hs, rfl, rfl⟩
    · rw [if_pos ha, if_neg hs]
      exact ⟨rfl, fun _ => rfl, fun c => absurd c ha, fun c => absurd c hs, fun _ => rfl, rfl, rfl⟩
    · rw [if_neg ha, if_pos hs]
      exact ⟨rfl, fun c => absurd c ha, fun _ => rfl, fun _ => rfl, fun c => absurd c hs, rfl, rfl⟩
    · rw [if_neg ha, if_neg hs]
      exact ⟨rfl, fun c => absurd c ha, fun _ => rfl, fun c => absurd c hs, fun _ => rfl, rfl, rfl⟩

/-- C19 (amended). `fs_playback_start` with `enable = false`.  Disabled and not
running: `DR_TEMPUNAVAIL`, nothing changes.  Running: `DR_OK`, nothing changes,
no notification.  Otherwise, with a playlist entry to be had from the pool:
`DR_OK`, one entry for the playback is put in front of the playlist, `running`
is set, and a playback created with `notify` emits one `START` notification
with its position while one created without emits none; with the pool
exhausted: `DR_NOLOCALMEMORY`, nothing changes. -/
theorem playback_start_cases (core : CoreSound) (playback : CorePlayback) :
    (playback.disabled = true ∧ playback.running = false →
      fs_playback_start core playback false = (core, playback, DR_TEMPUNAVAIL, none)) ∧
    (playback.running = true →
      fs_playback_start core playback false = (core, playback, DR_OK, none)) ∧
    (playback.disabled = false ∧ playback.running = false ∧ core.shmpool_free ≠ 0 →
      fs_playback_start core playback false =
        ({ core with
            playlist_entries := playback.pid :: core.playlist_entries
            shmpool_free := core.shmpool_free - 1 },
         { playback with running := true },
         DR_OK,
         if playback.notify = true then
           some { flags := CPNF_START, pos := playback.position, stop := playback.stop, num := 0 }
         else none) ∧
      (fs_playback_start core playback false).1.playlist_entries.count playback.pid =
        core.playlist_entries.count playback.pid + 1) ∧
    (playback.disabled = false ∧ playback.running = false ∧ core.shmpool_free = 0 →
      fs_playback_start core playback false = (core, playback, DR_NOLOCALMEMORY, none)) := by
  rw [fs_playback_start_eq]
  rcases playback with ⟨pid, notify, disabled, running, position, stop, pitch, center, rear,
    levels, volume⟩
  refine ⟨?_, ?_, ?_, ?_⟩
  · rintro ⟨h1, h2⟩
    simp only at h1 h2
    subst h1 h2
    simp
  · intro h
    simp only at h
    subst h
    simp
  · rintro ⟨h1, h2, h3⟩
    simp only at h1 h2 h3
    subst h1 h2
    cases notify <;> simp [h3]
  · rintro ⟨h1, h2, h3⟩
    simp only at h1 h2 h3
    subst h1 h2
    simp [h3]

/-- C19, counterexample. A playback as `IFusionSoundBuffer_Play` creates it
(`notify = false`), enabled and not running, with room in the pool: the start
returns `DR_OK`, adds the playlist entry and sets `running`, and emits no
notification. -/
theorem playback_start_counterexample :
    (demo_playback false 0 0 FS_PITCH_ONE).disabled = false ∧
    (demo_playback false 0 0 FS_PITCH_ONE).running = false ∧
    (fs_playback_start demo_core (demo_playback false 0 0 FS_PITCH_ONE) false).2.2.1 = DR_OK ∧
    (fs_playback_start demo_core (demo_playback false 0 0 FS_PITCH_ONE) false).1.playlist_entries
      = [7] ∧
    (fs_playback_start demo_core (demo_playback false 0 0 FS_PITCH_ONE) false).2.1.running = true ∧
    (fs_playback_start demo_core (demo_playback false 0 0 FS_PITCH_ONE) false).2.2.2 = none := by
  decide

/-- C20. Idempotent stop: a second `fs_playback_stop` with the same `disable`
returns `DR_OK`, leaves the playback and the core (the playlist with it) as the
first call left them, and emits no notification. -/
theorem playback_stop_idempotent (core : CoreSound) (playback : CorePlayback) (disable : Bool) :
    fs_playback_stop (fs_playback_stop core playback disable).1
        (fs_playback_stop core playback disable).2.1 disable =
      ((fs_playback_stop core playback disable).1, (fs_playback_stop core playback disable).2.1,
        DR_OK, none) := by
  rw [fs_playback_stop_eq core playback disable]
  rcases playback with ⟨pid, notify, disabled, running, position, stop, pitch, center, rear,
    levels, volume⟩
  cases running <;> cases disable <;> simp [fs_playback_stop_eq]

/-! ## Sample formats and playback levels -/

theorem fsf_clip_of_range (v : Int) (h1 : -8388608 ≤ v) (h2 : v ≤ 8388607) : fsf_clip v = v := by
  unfold fsf_clip FSF_MAX FSF_MIN FSF_ONE FSF_DECIBITS
  norm_num
  split_ifs <;> omega

/-- C17 (amended). Format round trip in the fixed point build: converting a
sample to fixed point, clipping and converting back gives the sample itself
for U8, S16 and S24; for S32 it gives the sample with its low 8 bits cleared,
`x - x mod 256`, hence the sample itself exactly when it is a multiple of 256. -/
theorem format_round_trip (x : Int) :
    (0 ≤ x ∧ x ≤ 255 → fsf_to_u8 (fsf_clip (fsf_from_u8 x)) = x) ∧
    (-32768 ≤ x ∧ x ≤ 32767 → fsf_to_s16 (fsf_clip (fsf_from_s16 x)) = x) ∧
    (-8388608 ≤ x ∧ x ≤ 8388607 → fsf_to_s24 (fsf_clip (fsf_from_s24 x)) = x) ∧
    (-2147483648 ≤ x ∧ x ≤ 2147483647 →
      fsf_to_s32 (fsf_clip (fsf_from_s32 x)) = x - x % 256 ∧
      (fsf_to_s32 (fsf_clip (fsf_from_s32 x)) = x ↔ x % 256 = 0)) := by
  refine ⟨?_, ?_, ?_, ?_⟩
  · rintro ⟨h1, h2⟩
    have e : fsf_from_u8 x = (x - 128) * 65536 := by
      unfold fsf_from_u8 FSF_DECIBITS; norm_num
    rw [e, fsf_clip_of_range _ (by omega) (by omega)]
    unfold fsf_to_u8 FSF_DECIBITS
    rw [Int.shiftRight_eq_div_pow]
    norm_num
  · rintro ⟨h1, h2⟩
    have e : fsf_from_s16 x = x * 256 := by
      unfold fsf_from_s16 FSF_DECIBITS; norm_num
    rw [e, fsf_clip_of_range _ (by omega) (by omega)]
    unfold fsf_to_s16 FSF_DECIBITS
    rw [Int.shiftRight_eq_div_pow]
    norm_num
  · rintro ⟨h1, h2⟩
    have e : fsf_from_s24 x = x := by
      unfold fsf_from_s24 FSF_DECIBITS; norm_num
    rw [e, fsf_clip_of_range _ h1 h2]
    unfold fsf_to_s24 FSF_DECIBITS
    rw [Int.shiftRight_eq_div_pow]
    norm_num
  · rintro ⟨h1, h2⟩
    have e : fsf_from_s32 x = x / 256 := by
      unfold fsf_from_s32 FSF_DECIBITS
      rw [Int.shiftRight_eq_div_pow]
      norm_num
    rw [e, fsf_clip_of_range _ (by omega) (by omega)]
    have e2 : fsf_to_s32 (x / 256) = x / 256 * 256 := by
      unfold fsf_to_s32 FSF_DECIBITS; norm_num
    rw [e2]
    constructor <;> omega

/-- C17, counterexample. The S32 sample 1 comes back as 0. -/
theorem s32_round_trip_counterexample :
    (-2147483648 : Int) ≤ 1 ∧ (1 : Int) ≤ 2147483647 ∧
    fsf_to_s32 (fsf_clip (fsf_from_s32 1)) = 0 ∧
    fsf_to_s32 (fsf_clip (fsf_from_s32 1)) ≠ 1 := by
  decide

theorem fsf_mul_double (l v : Int) :
    fsf_mul (2 * l) v = (2 : Int) * fsf_mul l v + (if l % 256 ≥ 128 then v >>> 15 else 0) := by
  unfold fsf_mul FSF_DECIBITS
  rw [Int.shiftRight_eq_div_pow, Int.shiftRight_eq_div_pow]
  norm_num
  split
  · next h =>
    have : 2 * l / 256 = 2 * (l / 256) + 1 := by omega
    rw [this]; ring
  · next h =>
    have : 2 * l / 256 = 2 * (l / 256) := by omega
    rw [this]; ring

theorem getD_map_double (l : List Int) (c : Nat) :
    (l.map (fun x => 2 * x)).getD c 0 = 2 * l.getD c 0 := by
  induction l generalizing c with
  | nil => simp
  | cons a t ih =>
    cases c with
    | zero => simp
    | succ n => simpa using ih n

theorem getD_range_map (f : Nat → Int) (c : Nat) (hc : c < 6) :
    ((List.range 6).map f).getD c 0 = f c := by
  interval_cases c <;> rfl

theorem mixto_levels_scaled (playback : CorePlayback) (volume : Int)
    (h : ¬ (volume = FSF_ONE ∧ playback.volume = FSF_ONE)) :
    fs_playback_mixto_levels playback volume =
      (List.range 6).map (fun i =>
        fsf_mul (playback.levels.getD i 0) (fsf_mul volume playback.volume)) := by
  have h2 : volume ≠ FSF_ONE ∨ playback.volume ≠ FSF_ONE := by
    by_cases hv : volume = FSF_ONE
    · exact Or.inr (fun hp => h ⟨hv, hp⟩)
    · exact Or.inl hv
  unfold fs_playback_mixto_levels
  rw [if_pos h2]

theorem mixto_levels_unit (playback : CorePlayback) (volume : Int)
    (h : volume = FSF_ONE ∧ playback.volume = FSF_ONE) :
    fs_playback_mixto_levels playback volume = playback.levels := by
  have h2 : ¬ (volume ≠ FSF_ONE ∨ playback.volume ≠ FSF_ONE) := by
    rintro (hv | hp)
    · exact hv h.1
    · exact hp h.2
  unfold fs_playback_mixto_levels
  rw [if_neg h2]

/-- C18 (amended). The levels that `fs_playback_mixto` hands to the mixing
routine are `fs_playback_mixto_levels`.  When every level of the playback is
doubled: with both volumes equal to `FSF_ONE` the levels handed over are the
doubled levels themselves.  Otherwise channel `c` gets
`fsf_mul(2 * levels[c], v)` with `v = fsf_mul(volume, local volume)`, which is
twice `fsf_mul(levels[c], v)` plus `v >> 15` if bit 7 of `levels[c]` is set; it
is exactly twice the gain whenever that bit is clear. -/
theorem volume_doubling (T : MixTables) (SIZEOF_LONG : Nat) (buffer : CoreSoundBuffer)
    (dest : List Int) (rate : Int) (mode : Nat) (max_frames : Int)
    (playback : CorePlayback) (volume : Int) (c : Nat) (hc : c < 6) :
    (fs_playback_mixto T SIZEOF_LONG buffer playback dest rate mode max_frames volume).dest =
      (fs_buffer_mixto T SIZEOF_LONG buffer dest rate mode max_frames playback.position
        playback.stop (fs_playback_mixto_levels playback volume) playback.pitch).dest ∧
    (volume = FSF_ONE ∧ playback.volume = FSF_ONE →
      fs_playback_mixto_levels playback volume = playback.levels ∧
      fs_playback_mixto_levels { playback with levels := playback.levels.map (fun l => 2 * l) }
          volume = (fs_playback_mixto_levels playback volume).map (fun l => 2 * l)) ∧
    (¬ (volume = FSF_ONE ∧ playback.volume = FSF_ONE) →
      (fs_playback_mixto_levels playback volume).getD c 0 =
        fsf_mul (playback.levels.getD c 0) (fsf_mul volume playback.volume) ∧
      (fs_playback_mixto_levels { playback with levels := playback.levels.map (fun l => 2 * l) }
          volume).getD c 0 =
        (2 : Int) * (fs_playback_mixto_levels playback volume).getD c 0 +
          (if playback.levels.getD c 0 % 256 ≥ 128 then
            fsf_mul volume playback.volume >>> 15 else 0) ∧
      (playback.levels.getD c 0 % 256 < 128 →
        (fs_playback_mixto_levels { playback with levels := playback.levels.map (fun l => 2 * l) }
            volume).getD c 0 =
          2 * (fs_playback_mixto_levels playback volume).getD c 0)) := by
  refine ⟨rfl, ?_, ?_⟩
  · intro h
    rw [mixto_levels_unit playback volume h,
      mixto_levels_unit { playback with levels := playback.levels.map (fun l => 2 * l) } volume h]
    exact ⟨rfl, rfl⟩
  · intro h
    have e1 := mixto_levels_scaled playback volume h
    have e2 := mixto_levels_scaled
      { playback with levels := playback.levels.map (fun l => 2 * l) } volume h
    have key : (fs_playback_mixto_levels
        { playback with levels := playback.levels.map (fun l => 2 * l) } volume).getD c 0 =
        (2 : Int) * (fs_playback_mixto_levels playback volume).getD c 0 +
          (if playback.levels.getD c 0 % 256 ≥ 128 then
            fsf_mul volume playback.volume >>> 15 else 0) := by
      rw [e1, e2, getD_range_map _ c hc, getD_range_map _ c hc]
      dsimp only
      rw [getD_map_double, fsf_mul_double]
    refine ⟨?_, key, ?_⟩
    · rw [e1, getD_range_map _ c hc]
    · intro hb
      rw [key, if_neg (by omega), add_zero]

/-- C18, witness. Channel 0 of a playback with level `2^22` mixed at half
master volume: the doubled level gives exactly twice the gain. -/
theorem volume_doubling_witness :
    (fs_playback_mixto_levels
      { demo_playback false 0 0 FS_PITCH_ONE with levels := [8388608, 0, 0, 0, 0, 0] }
      (FSF_ONE / 2)).getD 0 0 =
      2 * (fs_playback_mixto_levels
        { demo_playback false 0 0 FS_PITCH_ONE with levels := [4194304, 0, 0, 0, 0, 0] }
        (FSF_ONE / 2)).getD 0 0 :=
  ((volume_doubling demo_tables 8 (demo_buffer_at 1000 48000) [] 48000 FSCM_STEREO 256
    { demo_playback false 0 0 FS_PITCH_ONE with levels := [4194304, 0, 0, 0, 0, 0] }
    (FSF_ONE / 2) 0 (by decide)).2.2 (by decide)).2.2 (by decide)

/-- C18, counterexample. With level 5938679 on every channel, master volume
one half and local volume one, the gain is 2969216; with the levels doubled it
is 5938560, which is not twice 2969216. -/
theorem volume_doubling_counterexample :
    (fs_playback_mixto_levels
      { demo_playback false 0 0 FS_PITCH_ONE with levels := List.replicate 6 5938679 }
      (FSF_ONE / 2)).getD 0 0 = 2969216 ∧
    (fs_playback_mixto_levels
      { demo_playback false 0 0 FS_PITCH_ONE with
        levels := (List.replicate 6 5938679).map (fun l => 2 * l) }
      (FSF_ONE / 2)).getD 0 0 = 5938560 ∧
    (5938560 : Int) ≠ 2 * 2969216 := by
  decide

/-! ## Positions of a mixer tick -/

theorem tmod_wrap (a L : Int) (hL : 0 < L) :
    (if Int.tmod a L < 0 then Int.tmod a L + L else Int.tmod a L) = a % L := by
  have h1 : Int.tmod a L < L := Int.tmod_lt_of_pos a hL
  have h3 : L * Int.tdiv a L + Int.tmod a L = a := Int.tdiv_add_tmod a L
  have h2 : -L < Int.tmod a L := by
    by_cases ha : 0 ≤ a
    · have := Int.tmod_nonneg L ha
      omega
    · have e1 : (-a).tdiv L = (-a) / L := Int.tdiv_eq_ediv (by omega) (by omega)
      rw [Int.neg_tdiv] at e1
      have e2 := Int.emod_add_ediv (-a) L
      have e3 := Int.emod_lt_of_pos (-a) hL
      have e4 := Int.emod_nonneg (-a) (by omega : L ≠ 0)
      have e5 : L * Int.tdiv a L = -(L * ((-a) / L)) := by rw [← e1]; ring
      omega
  split
  · next h =>
    have e : a = (Int.tmod a L + L) + L * (Int.tdiv a L - 1) := by
      have := mul_sub L (Int.tdiv a L) 1
      omega
    conv_rhs => rw [e]
    rw [Int.add_mul_emod_self_left, Int.emod_eq_of_lt (by omega) (by omega)]
  · next h =>
    have e : a = Int.tmod a L + L * Int.tdiv a L := by omega
    conv_rhs => rw [e]
    rw [Int.add_mul_emod_self_left, Int.emod_eq_of_lt (by omega) (by omega)]

theorem shift_pitch_bits (x : Int) : (x * 2 ^ FS_PITCH_BITS) >>> FS_PITCH_BITS = x := by
  rw [Int.shiftRight_eq_div_pow]
  have : (2 : Int) ^ FS_PITCH_BITS = 16384 := by decide
  rw [this]
  exact Int.mul_ediv_cancel x (by norm_num)

/-- The fields of the result of `fs_buffer_mixto` on a looping playback. -/
theorem fs_buffer_mixto_loop (T : MixTables) (SIZEOF_LONG : Nat) (buffer : CoreSoundBuffer)
    (dest : List Int) (rate : Int) (mode : Nat) (max_frames pos stop : Int)
    (levels : List Int) (pitch : Int) (hs : stop < 0) (hL : 0 < buffer.length) :
    (fs_buffer_mixto T SIZEOF_LONG buffer dest rate mode max_frames pos stop levels pitch).ret
      = DR_OK ∧
    (fs_buffer_mixto T SIZEOF_LONG buffer dest rate mode max_frames pos stop levels
      pitch).ret_pos =
      (pos + (clamp_long SIZEOF_LONG (max_frames * Int.tdiv (buffer.rate * pitch) rate)) >>>
        FS_PITCH_BITS) % buffer.length ∧
    (fs_buffer_mixto T SIZEOF_LONG buffer dest rate mode max_frames pos stop levels
      pitch).ret_num =
      |(clamp_long SIZEOF_LONG (max_frames * Int.tdiv (buffer.rate * pitch) rate)) >>>
        FS_PITCH_BITS| := by
  have h : ¬ stop ≥ 0 := by omega
  unfold fs_buffer_mixto
  simp only [if_neg h]
  refine ⟨by simp, ?_, ?_⟩
  · exact tmod_wrap _ _ hL
  · trivial

theorem emod_of_range (x L k : Int) (h1 : 0 ≤ x - k * L) (h2 : x - k * L < L) :
    x % L = x - k * L := by
  have e : x = (x - k * L) + L * k := by ring
  conv_lhs => rw [e]
  rw [Int.add_mul_emod_self_left, Int.emod_eq_of_lt h1 h2]

theorem clamp_long_id (S : Nat) (x : Int)
    (h : S ≠ 4 ∨ (-0x7fffffff ≤ x ∧ x ≤ 0x7fffffff)) : clamp_long S x = x := by
  unfold clamp_long
  split_ifs <;> omega

theorem clamp_long_ge (S : Nat) (x t : Int) (ht : 0 ≤ t)
    (h : S ≠ 4 ∨ t ≤ 0x7fffffff ∨ x ≤ 0x7fffffff) :
    clamp_long S x ≥ t ↔ x ≥ t := by
  unfold clamp_long
  split_ifs <;> omega

theorem clamp_long_le (S : Nat) (x t : Int) (ht : t ≤ 0)
    (h : S ≠ 4 ∨ -0x7fffffff ≤ t ∨ -0x7fffffff ≤ x) :
    clamp_long S x ≤ t ↔ x ≤ t := by
  unfold clamp_long
  split_ifs <;> omega

/-- The result code, position and frame count of `fs_buffer_mixto` on a
playback with a stop position. -/
theorem fs_buffer_mixto_stop (T : MixTables) (SIZEOF_LONG : Nat) (buffer : CoreSoundBuffer)
    (dest : List Int) (rate : Int) (mode : Nat) (max_frames pos stop : Int)
    (levels : List Int) (pitch : Int)
    (hpos : 0 ≤ pos ∧ pos < buffer.length) (hstop : 0 ≤ stop ∧ stop ≤ buffer.length)
    (hsign : (pitch < 0 → mixto_inc buffer pitch rate < 0) ∧
      (¬ pitch < 0 → 0 < mixto_inc buffer pitch rate))
    (hlong : SIZEOF_LONG ≠ 4 ∨
      stop_distance buffer.length pos stop pitch * 2 ^ FS_PITCH_BITS ≤ 0x7fffffff ∨
      max_frames * |mixto_inc buffer pitch rate| ≤ 0x7fffffff) :
    (max_frames * |mixto_inc buffer pitch rate| ≥
        stop_distance buffer.length pos stop pitch * 2 ^ FS_PITCH_BITS →
      (fs_buffer_mixto T SIZEOF_LONG buffer dest rate mode max_frames pos stop levels pitch).ret
        = DR_BUFFEREMPTY ∧
      (fs_buffer_mixto T SIZEOF_LONG buffer dest rate mode max_frames pos stop levels
        pitch).ret_num = stop_distance buffer.length pos stop pitch ∧
      (fs_buffer_mixto T SIZEOF_LONG buffer dest rate mode max_frames pos stop levels
        pitch).ret_pos = stop % buffer.length) ∧
    (¬ (max_frames * |mixto_inc buffer pitch rate| ≥
        stop_distance buffer.length pos stop pitch * 2 ^ FS_PITCH_BITS) →
      (fs_buffer_mixto T SIZEOF_LONG buffer dest rate mode max_frames pos stop levels pitch).ret
        = DR_OK ∧
      (fs_buffer_mixto T SIZEOF_LONG buffer dest rate mode max_frames pos stop levels
        pitch).ret_pos =
        (pos + (clamp_long SIZEOF_LONG (max_frames * mixto_inc buffer pitch rate)) >>>
          FS_PITCH_BITS) % buffer.length ∧
      (fs_buffer_mixto T SIZEOF_LONG buffer dest rate mode max_frames pos stop levels
        pitch).ret_num =
        |(clamp_long SIZEOF_LONG (max_frames * mixto_inc buffer pitch rate)) >>>
          FS_PITCH_BITS|) := by
  obtain ⟨hp0, hp1⟩ := hpos
  obtain ⟨hs0, hs1⟩ := hstop
  have hL : 0 < buffer.length := by omega
  have hs : stop ≥ 0 := hs0
  have h14 : (2 : Int) ^ FS_PITCH_BITS = 16384 := by decide
  have hsh : ∀ x : Int, (x * 16384) >>> FS_PITCH_BITS = x := by
    intro x
    have := shift_pitch_bits x
    rwa [h14] at this
  rw [h14] at hlong ⊢
  unfold fs_buffer_mixto
  simp only [if_pos hs]
  have hw := fun a => tmod_wrap a buffer.length hL
  simp only [hw, h14]
  change _ ∧ _ at hsign
  unfold mixto_inc at hsign hlong ⊢
  generalize Int.tdiv (buffer.rate * pitch) rate = inc at hsign hlong ⊢
  by_cases hp : pitch < 0
  · have hi := hsign.1 hp
    simp only [if_pos hp]
    rw [abs_of_neg hi, mul_neg] at hlong ⊢
    have hD : stop_distance buffer.length pos stop pitch =
        pos - (if pos ≤ stop then stop - buffer.length else stop) := by
      unfold stop_distance
      rw [if_pos hp]
      split_ifs <;> omega
    have hD0 : 0 ≤ pos - (if pos ≤ stop then stop - buffer.length else stop) := by
      split_ifs <;> omega
    have hm : (if pos ≤ stop then stop - buffer.length else stop) % buffer.length =
        stop % buffer.length := by
      split_ifs
      · simp
      · rfl
    rw [hD] at hlong ⊢
    generalize (if pos ≤ stop then stop - buffer.length else stop) = s at hD0 hm hlong ⊢
    generalize max_frames * inc = m at hlong ⊢
    have key := clamp_long_le SIZEOF_LONG m ((s - pos) * 16384) (by omega) (by omega)
    constructor
    · intro h
      have hc : clamp_long SIZEOF_LONG m ≤ (s - pos) * 16384 := key.mpr (by omega)
      simp only [if_pos hc, if_true, hsh]
      refine ⟨trivial, ?_, ?_⟩
      · rw [abs_of_nonpos (by omega)]; omega
      · rw [← hm]; congr 1; omega
    · intro h
      have hc : ¬ clamp_long SIZEOF_LONG m ≤ (s - pos) * 16384 := fun hc => h (by
        have := key.mp hc
        omega)
      simp only [if_neg hc]
      simp
  · have hi := hsign.2 hp
    simp only [if_neg hp]
    rw [abs_of_pos hi] at hlong ⊢
    have hD : stop_distance buffer.length pos stop pitch =
        (if pos ≥ stop then stop + buffer.length else stop) - pos := by
      unfold stop_distance
      rw [if_neg hp]
      split_ifs <;> omega
    have hD0 : 0 ≤ (if pos ≥ stop then stop + buffer.length else stop) - pos := by
      split_ifs <;> omega
    have hm : (if pos ≥ stop then stop + buffer.length else stop) % buffer.length =
        stop % buffer.length := by
      split_ifs
      · exact Int.add_emod_self
      · rfl
    rw [hD] at hlong ⊢
    generalize (if pos ≥ stop then stop + buffer.length else stop) = s at hD0 hm hlong ⊢
    generalize max_frames * inc = m at hlong ⊢
    have key := clamp_long_ge SIZEOF_LONG m ((s - pos) * 16384) (by omega) (by omega)
    constructor
    · intro h
      have hc : clamp_long SIZEOF_LONG m ≥ (s - pos) * 16384 := key.mpr (by omega)
      simp only [if_pos hc, if_true, hsh]
      refine ⟨trivial, ?_, ?_⟩
      · rw [abs_of_nonneg (by omega)]
      · rw [← hm]; congr 1; omega
    · intro h
      have hc : ¬ clamp_long SIZEOF_LONG m ≥ (s - pos) * 16384 := fun hc => h (by
        have := key.mp hc
        omega)
      simp only [if_neg hc]
      simp

theorem fs_playback_notify_advance (playback : CorePlayback) (num : Int) :
    fs_playback_notify playback CPNF_ADVANCE num =
      (playback,
        if playback.notify = false then none
        else some { flags := CPNF_ADVANCE, pos := playback.position,
                    stop := if playback.running then playback.stop else playback.position,
                    num := num }) := by
  rcases playback with ⟨pid, notify, disabled, running, position, stop, pitch, center, rear,
    levels, volume⟩
  cases notify <;> rfl

theorem fs_playback_notify_advance_stop (playback : CorePlayback) (num : Int) :
    fs_playback_notify playback (CPNF_ADVANCE ||| CPNF_STOP) num =
      ({ playback with running := false },
        if playback.notify = false then none
        else some { flags := CPNF_ADVANCE ||| CPNF_STOP, pos := playback.position,
                    stop := playback.position, num := num }) := by
  rcases playback with ⟨pid, notify, disabled, running, position, stop, pitch, center, rear,
    levels, volume⟩
  cases notify <;> rfl

/-- The tick `fs_playback_mixto` when `fs_buffer_mixto` returns `DR_OK`. -/
theorem fs_playback_mixto_ok (T : MixTables) (SIZEOF_LONG : Nat) (buffer : CoreSoundBuffer)
    (playback : CorePlayback) (dest : List Int) (rate : Int) (mode : Nat) (max_frames : Int)
    (volume : Int)
    (h : (fs_buffer_mixto T SIZEOF_LONG buffer dest rate mode max_frames playback.position
      playback.stop (fs_playback_mixto_levels playback volume) playback.pitch).ret = DR_OK) :
    fs_playback_mixto T SIZEOF_LONG buffer playback dest rate mode max_frames volume =
      { playback := { playback with
          position := (fs_buffer_mixto T SIZEOF_LONG buffer dest rate mode max_frames
            playback.position playback.stop (fs_playback_mixto_levels playback volume)
            playback.pitch).ret_pos }
        dest := (fs_buffer_mixto T SIZEOF_LONG buffer dest rate mode max_frames
          playback.position playback.stop (fs_playback_mixto_levels playback volume)
          playback.pitch).dest
        ret := DR_OK
        ret_samples := (fs_buffer_mixto T SIZEOF_LONG buffer dest rate mode max_frames
          playback.position playback.stop (fs_playback_mixto_levels playback volume)
          playback.pitch).ret_len
        notification :=
          if playback.notify = false then none
          else some
            { flags := CPNF_ADVANCE
              pos := (fs_buffer_mixto T SIZEOF_LONG buffer dest rate mode max_frames
                playback.position playback.stop (fs_playback_mixto_levels playback volume)
                playback.pitch).ret_pos
              stop := if playback.running then playback.stop else
                (fs_buffer_mixto T SIZEOF_LONG buffer dest rate mode max_frames
                  playback.position playback.stop (fs_playback_mixto_levels playback volume)
                  playback.pitch).ret_pos
              num := (fs_buffer_mixto T SIZEOF_LONG buffer dest rate mode max_frames
                playback.position playback.stop (fs_playback_mixto_levels playback volume)
                playback.pitch).ret_num } } := by
  unfold fs_playback_mixto
  unfold fs_playback_mixto_levels at h ⊢
  simp only [h, ne_eq, not_true_eq_false, if_false, fs_playback_notify_advance]

/-- The tick `fs_playback_mixto` when `fs_buffer_mixto` returns
`DR_BUFFEREMPTY`. -/
theorem fs_playback_mixto_end (T : MixTables) (SIZEOF_LONG : Nat) (buffer : CoreSoundBuffer)
    (playback : CorePlayback) (dest : List Int) (rate : Int) (mode : Nat) (max_frames : Int)
    (volume : Int)
    (h : (fs_buffer_mixto T SIZEOF_LONG buffer dest rate mode max_frames playback.position
      playback.stop (fs_playback_mixto_levels playback volume) playback.pitch).ret
        = DR_BUFFEREMPTY) :
    fs_playback_mixto T SIZEOF_LONG buffer playback dest rate mode max_frames volume =
      { playback := { playback with
          running := false
          position := (fs_buffer_mixto T SIZEOF_LONG buffer dest rate mode max_frames
            playback.position playback.stop (fs_playback_mixto_levels playback volume)
            playback.pitch).ret_pos }
        dest := (fs_buffer_mixto T SIZEOF_LONG buffer dest rate mode max_frames
          playback.position playback.stop (fs_playback_mixto_levels playback volume)
          playback.pitch).dest
        ret := DR_BUFFEREMPTY
        ret_samples := (fs_buffer_mixto T SIZEOF_LONG buffer dest rate mode max_frames
          playback.position playback.stop (fs_playback_mixto_levels playback volume)
          playback.pitch).ret_len
        notification :=
          if playback.notify = false then none
          else some
            { flags := CPNF_ADVANCE ||| CPNF_STOP
              pos := (fs_buffer_mixto T SIZEOF_LONG buffer dest rate mode max_frames
                playback.position playback.stop (fs_playback_mixto_levels playback volume)
                playback.pitch).ret_pos
              stop := (fs_buffer_mixto T SIZEOF_LONG buffer dest rate mode max_frames
                playback.position playback.stop (fs_playback_mixto_levels playback volume)
                playback.pitch).ret_pos
              num := (fs_buffer_mixto T SIZEOF_LONG buffer dest rate mode max_frames
                playback.position playback.stop (fs_playback_mixto_levels playback volume)
                playback.pitch).ret_num } } := by
  have hne : DR_BUFFEREMPTY ≠ DR_OK := by decide
  unfold fs_playback_mixto
  unfold fs_playback_mixto_levels at h ⊢
  simp only [h, ne_eq, hne, not_false_eq_true, if_true, fs_playback_notify_advance_stop]

/-! ## Looping playbacks -/

/-- C16 (amended). Looping persistence: for every playback with stop < 0 on a
buffer of `L ≥ 1` frames and every tick, `fs_buffer_mixto` returns `DR_OK`
whatever the levels, so `fs_playback_mixto` returns `DR_OK`, leaves `running`
unchanged and returns a position in [0, L).  A playback created with
notifications gets one notification, with flags `CPNF_ADVANCE` only and the new
position; a playback created without them gets none. -/
theorem looping_persistence (T : MixTables) (SIZEOF_LONG : Nat) (buffer : CoreSoundBuffer)
    (playback : CorePlayback) (dest : List Int) (rate : Int) (mode : Nat) (max_frames : Int)
    (volume : Int) (hs : playback.stop < 0) (hL : 1 ≤ buffer.length) :
    (∀ levels : List Int,
      (fs_buffer_mixto T SIZEOF_LONG buffer dest rate mode max_frames playback.position
        playback.stop levels playback.pitch).ret = DR_OK) ∧
    (fs_playback_mixto T SIZEOF_LONG buffer playback dest rate mode max_frames volume).ret
      = DR_OK ∧
    (fs_playback_mixto T SIZEOF_LONG buffer playback dest rate mode max_frames
      volume).playback.running = playback.running ∧
    0 ≤ (fs_playback_mixto T SIZEOF_LONG buffer playback dest rate mode max_frames
      volume).playback.position ∧
    (fs_playback_mixto T SIZEOF_LONG buffer playback dest rate mode max_frames
      volume).playback.position < buffer.length ∧
    (playback.notify = true →
      ∃ n, (fs_playback_mixto T SIZEOF_LONG buffer playback dest rate mode max_frames
          volume).notification = some n ∧
        n.flags = CPNF_ADVANCE ∧
        n.pos = (fs_playback_mixto T SIZEOF_LONG buffer playback dest rate mode max_frames
          volume).playback.position) ∧
    (playback.notify = false →
      (fs_playback_mixto T SIZEOF_LONG buffer playback dest rate mode max_frames
        volume).notification = none) := by
  have hb := fun levels => fs_buffer_mixto_loop T SIZEOF_LONG buffer dest rate mode max_frames
    playback.position playback.stop levels playback.pitch hs (by omega)
  have h := fs_playback_mixto_ok T SIZEOF_LONG buffer playback dest rate mode max_frames volume
    (hb _).1
  refine ⟨fun levels => (hb levels).1, ?_⟩
  rw [h]
  dsimp only
  rw [(hb _).2.1]
  refine ⟨rfl, rfl, Int.emod_nonneg _ (by omega), Int.emod_lt_of_pos _ (by omega), ?_, ?_⟩
  · intro hn
    rw [if_neg (by rw [hn]; decide)]
    exact ⟨_, rfl, rfl, rfl⟩
  · intro hn
    rw [if_pos hn]

/-- C16, witness. A looping playback with notifications on a buffer of 1000
frames: a tick of 256 frames from position 900 returns `DR_OK`, keeps `running`
and gives position 156. -/
theorem looping_persistence_witness :
    (demo_playback true 900 (-1) FS_PITCH_ONE).stop < 0 ∧
    (fs_playback_mixto demo_tables 8 (demo_buffer_at 1000 48000)
      (demo_playback true 900 (-1) FS_PITCH_ONE) [] 48000 FSCM_STEREO 256 FSF_ONE).ret = DR_OK ∧
    (fs_playback_mixto demo_tables 8 (demo_buffer_at 1000 48000)
      (demo_playback true 900 (-1) FS_PITCH_ONE) [] 48000 FSCM_STEREO 256
      FSF_ONE).playback.position = 156 :=
  ⟨by decide,
    (looping_persistence demo_tables 8 (demo_buffer_at 1000 48000)
      (demo_playback true 900 (-1) FS_PITCH_ONE) [] 48000 FSCM_STEREO 256 FSF_ONE (by decide)
      (by decide)).2.1,
    by decide⟩

/-- C16, counterexample. A looping playback created without notifications, as
`IFusionSoundBuffer_Play` creates it: the tick returns `DR_OK` and emits no
notification at all. -/
theorem looping_persistence_counterexample :
    (demo_playback false 900 (-1) FS_PITCH_ONE).stop < 0 ∧
    (fs_playback_mixto demo_tables 8 (demo_buffer_at 1000 48000)
      (demo_playback false 900 (-1) FS_PITCH_ONE) [] 48000 FSCM_STEREO 256 FSF_ONE).ret = DR_OK ∧
    (fs_playback_mixto demo_tables 8 (demo_buffer_at 1000 48000)
      (demo_playback false 900 (-1) FS_PITCH_ONE) [] 48000 FSCM_STEREO 256
      FSF_ONE).notification = none := by
  decide

/-! ## Playbacks with a stop position -/

theorem mixto_inc_unit (buffer : CoreSoundBuffer) (pitch : Int) (hr : 0 < buffer.rate) :
    (pitch = FS_PITCH_ONE → mixto_inc buffer pitch buffer.rate = 16384) ∧
    (pitch = -FS_PITCH_ONE → mixto_inc buffer pitch buffer.rate = -16384) := by
  have h1 : FS_PITCH_ONE = 16384 := by decide
  unfold mixto_inc
  constructor
  · intro h
    rw [h, h1]
    exact Int.mul_tdiv_cancel_left _ (by omega)
  · intro h
    rw [h, h1]
    exact Int.mul_tdiv_cancel_left _ (by omega)

/-- One tick of `B` frames at pitch one, forward or backward, on a buffer at the
device rate: when the distance `D` to the stop position is at most `B` the tick
ends the playback at the stop position, otherwise it returns `DR_OK` and leaves
the distance `D - B`. -/
theorem fs_buffer_mixto_unit (T : MixTables) (SIZEOF_LONG : Nat) (buffer : CoreSoundBuffer)
    (dest : List Int) (mode : Nat) (B pos stop : Int) (levels : List Int) (pitch : Int)
    (hpos : 0 ≤ pos ∧ pos < buffer.length) (hstop : 0 ≤ stop ∧ stop < buffer.length)
    (hp : pitch = FS_PITCH_ONE ∨ pitch = -FS_PITCH_ONE) (hr : 0 < buffer.rate) (hB : 1 ≤ B)
    (hlong : SIZEOF_LONG ≠ 4 ∨ B * 2 ^ FS_PITCH_BITS ≤ 0x7fffffff) :
    1 ≤ stop_distance buffer.length pos stop pitch ∧
    stop_distance buffer.length pos stop pitch ≤ buffer.length ∧
    (stop_distance buffer.length pos stop pitch ≤ B →
      (fs_buffer_mixto T SIZEOF_LONG buffer dest buffer.rate mode B pos stop levels pitch).ret
        = DR_BUFFEREMPTY ∧
      (fs_buffer_mixto T SIZEOF_LONG buffer dest buffer.rate mode B pos stop levels
        pitch).ret_pos = stop) ∧
    (B < stop_distance buffer.length pos stop pitch →
      (fs_buffer_mixto T SIZEOF_LONG buffer dest buffer.rate mode B pos stop levels pitch).ret
        = DR_OK ∧
      0 ≤ (fs_buffer_mixto T SIZEOF_LONG buffer dest buffer.rate mode B pos stop levels
        pitch).ret_pos ∧
      (fs_buffer_mixto T SIZEOF_LONG buffer dest buffer.rate mode B pos stop levels
        pitch).ret_pos < buffer.length ∧
      stop_distance buffer.length
        (fs_buffer_mixto T SIZEOF_LONG buffer dest buffer.rate mode B pos stop levels
          pitch).ret_pos stop pitch = stop_distance buffer.length pos stop pitch - B) := by
  have h1 : FS_PITCH_ONE = 16384 := by decide
  have h14 : (2 : Int) ^ FS_PITCH_BITS = 16384 := by decide
  have hsh : ∀ x : Int, (x * 16384) >>> FS_PITCH_BITS = x := by
    intro x
    have := shift_pitch_bits x
    rwa [h14] at this
  obtain ⟨hu1, hu2⟩ := mixto_inc_unit buffer pitch hr
  obtain ⟨hp0, hp1⟩ := hpos
  obtain ⟨hs0, hs1⟩ := hstop
  rw [h14] at hlong
  have hsign : (pitch < 0 → mixto_inc buffer pitch buffer.rate < 0) ∧
      (¬ pitch < 0 → 0 < mixto_inc buffer pitch buffer.rate) := by
    rcases hp with hp | hp
    · rw [hu1 hp, hp, h1]; omega
    · rw [hu2 hp, hp, h1]; omega
  have habs : |mixto_inc buffer pitch buffer.rate| = 16384 := by
    rcases hp with hp | hp
    · rw [hu1 hp]; rfl
    · rw [hu2 hp]; rfl
  have hl3 : SIZEOF_LONG ≠ 4 ∨
      stop_distance buffer.length pos stop pitch * 2 ^ FS_PITCH_BITS ≤ 0x7fffffff ∨
      B * |mixto_inc buffer pitch buffer.rate| ≤ 0x7fffffff := by
    rw [habs]
    rcases hlong with h | h
    · exact Or.inl h
    · exact Or.inr (Or.inr h)
  obtain ⟨hA, hN⟩ := fs_buffer_mixto_stop T SIZEOF_LONG buffer dest buffer.rate mode B pos stop
    levels pitch ⟨hp0, hp1⟩ ⟨hs0, hs1.le⟩ hsign hl3
  rw [habs, h14] at hA hN
  have hclamp : clamp_long SIZEOF_LONG (B * mixto_inc buffer pitch buffer.rate) =
      B * mixto_inc buffer pitch buffer.rate := by
    apply clamp_long_id
    rcases hlong with h | h
    · exact Or.inl h
    · right
      rcases hp with hp | hp
      · rw [hu1 hp]; omega
      · rw [hu2 hp]; omega
  rw [hclamp] at hN
  rcases hp with hp | hp
  · -- forward
    have hd : stop_distance buffer.length pos stop pitch =
        if pos < stop then stop - pos else stop + buffer.length - pos := by
      unfold stop_distance
      rw [if_neg (by rw [hp, h1]; omega)]
    have hdn : ∀ p : Int, stop_distance buffer.length p stop pitch =
        if p < stop then stop - p else stop + buffer.length - p := by
      intro p
      unfold stop_distance
      rw [if_neg (by rw [hp, h1]; omega)]
    rw [hu1 hp, hsh] at hN
    refine ⟨by rw [hd]; split_ifs <;> omega, by rw [hd]; split_ifs <;> omega, ?_, ?_⟩
    · intro h
      obtain ⟨a, -, c⟩ := hA (by omega)
      exact ⟨a, by rw [c, Int.emod_eq_of_lt hs0 hs1]⟩
    · intro h
      obtain ⟨a, b, -⟩ := hN (by omega)
      rw [b, hdn]
      rw [hd] at h ⊢
      by_cases hc : pos + B < buffer.length
      · rw [Int.emod_eq_of_lt (by omega) hc]
        refine ⟨a, by omega, hc, ?_⟩
        split_ifs at h ⊢ <;> omega
      · have e := emod_of_range (pos + B) buffer.length 1 (by split_ifs at h <;> omega)
          (by split_ifs at h <;> omega)
        rw [e]
        refine ⟨a, by omega, by omega, ?_⟩
        split_ifs at h ⊢ <;> omega
  · -- backward
    have hd : stop_distance buffer.length pos stop pitch =
        if pos > stop then pos - stop else pos + buffer.length - stop := by
      unfold stop_distance
      rw [if_pos (by rw [hp, h1]; omega)]
    have hdn : ∀ p : Int, stop_distance buffer.length p stop pitch =
        if p > stop then p - stop else p + buffer.length - stop := by
      intro p
      unfold stop_distance
      rw [if_pos (by rw [hp, h1]; omega)]
    have e16 : B * (-16384) = (-B) * 16384 := by ring
    rw [hu2 hp, e16, hsh] at hN
    refine ⟨by rw [hd]; split_ifs <;> omega, by rw [hd]; split_ifs <;> omega, ?_, ?_⟩
    · intro h
      obtain ⟨a, -, c⟩ := hA (by omega)
      exact ⟨a, by rw [c, Int.emod_eq_of_lt hs0 hs1]⟩
    · intro h
      obtain ⟨a, b, -⟩ := hN (by omega)
      rw [b, hdn]
      rw [hd] at h ⊢
      by_cases hc : 0 ≤ pos + -B
      · rw [Int.emod_eq_of_lt hc (by omega)]
        refine ⟨a, hc, by omega, ?_⟩
        split_ifs at h ⊢ <;> omega
      · have e := emod_of_range (pos + -B) buffer.length (-1) (by split_ifs at h <;> omega)
          (by split_ifs at h <;> omega)
        rw [e]
        refine ⟨a, by omega, by omega, ?_⟩
        split_ifs at h ⊢ <;> omega

theorem IFusionSoundPlayback_Wait_eq (playback : CorePlayback) :
    IFusionSoundPlayback_Wait playback =
      if playback.running then
        if playback.stop < 0 then Exit.returned DR_UNSUPPORTED else Exit.waiting
      else Exit.returned DR_OK := by
  by_cases hs : playback.stop < 0 <;> cases hr : playback.running <;>
    simp [IFusionSoundPlayback_Wait, fs_playback_get_status, hr, hs, CPS_NONE, CPS_PLAYING,
      CPS_LOOPING]

/-- C22. `IFusionSoundPlayback_Wait` on a playback that is running with
stop < 0 returns `DR_UNSUPPORTED` without waiting; on a playback that is not
running it returns `DR_OK` without waiting; it waits exactly when the playback
is running with stop ≥ 0.  In particular, on the playback interface of a buffer
of 500 frames, `Start(0, -1)` followed by `Wait` gives `DR_UNSUPPORTED`. -/
theorem playback_wait_looping (playback : CorePlayback) :
    (playback.running = true ∧ playback.stop < 0 →
      IFusionSoundPlayback_Wait playback = Exit.returned DR_UNSUPPORTED) ∧
    (playback.running = false → IFusionSoundPlayback_Wait playback = Exit.returned DR_OK) ∧
    (IFusionSoundPlayback_Wait playback = Exit.waiting ↔
      playback.running = true ∧ 0 ≤ playback.stop) ∧
    (IFusionSoundPlayback_Start
        { core := demo_core, playback := fs_playback_create 7 true FSF_ONE FSF_ONE FSF_ONE,
          stream := false, length := 500 } 0 (-1)).2 = DR_OK ∧
    (IFusionSoundPlayback_Start
        { core := demo_core, playback := fs_playback_create 7 true FSF_ONE FSF_ONE FSF_ONE,
          stream := false, length := 500 } 0 (-1)).1.playback.running = true ∧
    IFusionSoundPlayback_Wait
      (IFusionSoundPlayback_Start
        { core := demo_core, playback := fs_playback_create 7 true FSF_ONE FSF_ONE FSF_ONE,
          stream := false, length := 500 } 0 (-1)).1.playback = Exit.returned DR_UNSUPPORTED := by
  refine ⟨?_, ?_, ?_, by decide, by decide, by decide⟩
  · rintro ⟨hr, hs⟩
    rw [IFusionSoundPlayback_Wait_eq, hr, if_pos rfl, if_pos hs]
  · intro hr
    rw [IFusionSoundPlayback_Wait_eq, hr]
    rfl
  · rw [IFusionSoundPlayback_Wait_eq]
    cases hr : playback.running
    · simp
    · by_cases hs : playback.stop < 0
      · have : ¬ 0 ≤ playback.stop := by omega
        simp [hs, this]
      · have : 0 ≤ playback.stop := by omega
        simp [hs, this]

/-- C23. The tag of `FSCM_STEREO31` (left, center, right, subwoofer) carries the
channel count 3: `FS_CHANNELS_FOR_MODE` gives 3 where the layout has 4 channels,
and the output loop of the mixer hands out 4 samples a frame for this mode.
For the twelve other channel modes the count in the tag is the number of
channels of the layout. -/
theorem stereo31_channel_count :
    FS_CHANNELS_FOR_MODE FSCM_STEREO31 = 3 ∧
    layout_channels FSCM_STEREO31 = 4 ∧
    (∀ src : Nat → Int, (mix_output_lanes FSCM_STEREO31 src).length = 4) ∧
    (∀ mode ∈ channel_modes, mode ≠ FSCM_STEREO31 →
      FS_CHANNELS_FOR_MODE mode = layout_channels mode) ∧
    channel_modes.length = 13 ∧ channel_modes.Nodup := by
  refine ⟨by decide, by decide, ?_, by decide, by decide, by decide⟩
  intro src
  have h1 : FSCM_STEREO31 ≠ FSCM_MONO := by decide
  have h2 : FSCM_STEREO31 ≠ FSCM_STEREO := by decide
  have h3 : FS_MODE_HAS_CENTER FSCM_STEREO31 = true := by decide
  have h4 : FS_MODE_HAS_LFE FSCM_STEREO31 = true := by decide
  unfold mix_output_lanes
  rw [if_neg h1, if_neg h2, if_pos (Or.inr (Or.inr rfl)), h3, h4]
  rfl

/-! ## The device buffer size and the master feedback -/

/-- The size of the device buffer for a configuration that `fs_config_set`
accepts: it lies between 0 and 65535; it is
`min(samplerate * buffertime / 1000, 65535)` when the product fits an `int`, and
also when the product wraps to a negative `int` whose quotient by 1000 is not
zero; then the quotient, stored as an `unsigned int`, is capped to 65535. -/
theorem fs_core_initialize_buffersize (conf : FSConfig)
    (h1 : 1 ≤ conf.samplerate) (h2 : 1 ≤ conf.buffertime ∧ conf.buffertime ≤ 5000) :
    0 ≤ (fs_core_initialize_config conf).buffersize ∧
    (fs_core_initialize_config conf).buffersize ≤ 65535 ∧
    (conf.samplerate * conf.buffertime ≤ 2 ^ 32 - 1000 →
      (fs_core_initialize_config conf).buffersize =
        min (conf.samplerate * conf.buffertime / 1000) 65535) := by
  have hp : 0 ≤ conf.samplerate * conf.buffertime :=
    mul_nonneg (by omega : (0 : Int) ≤ conf.samplerate) (by omega : (0 : Int) ≤ conf.buffertime)
  unfold fs_core_initialize_config
  dsimp only
  generalize conf.samplerate * conf.buffertime = x at hp
  have hq1 := Int.emod_nonneg
    (int_wrap (Int.tdiv (int_wrap x) 1000)) (by norm_num : (2 : Int) ^ 32 ≠ 0)
  refine ⟨by split_ifs <;> omega, by split_ifs <;> omega, ?_⟩
  intro h3
  norm_num at h3
  by_cases hx : x < 2147483648
  · have e1 : int_wrap x = x := by
      unfold int_wrap
      norm_num
      omega
    have e2 : Int.tdiv x 1000 = x / 1000 := Int.tdiv_eq_ediv hp (by norm_num)
    have e3 : int_wrap (x / 1000) = x / 1000 := by
      unfold int_wrap
      norm_num
      omega
    have e4 : x / 1000 % 2 ^ 32 = x / 1000 := by
      norm_num
      omega
    rw [e1, e2, e3, e4]
    split_ifs with h
    · rw [min_eq_right (by omega)]
    · rw [min_eq_left (by omega)]
  · have e1 : int_wrap x = -(4294967296 - x) := by
      unfold int_wrap
      norm_num
      omega
    have e2 : Int.tdiv (-(4294967296 - x)) 1000 = -((4294967296 - x) / 1000) := by
      rw [Int.neg_tdiv, Int.tdiv_eq_ediv (by omega) (by norm_num)]
    have e3 : int_wrap (-((4294967296 - x) / 1000)) = -((4294967296 - x) / 1000) := by
      unfold int_wrap
      norm_num
      omega
    have e4 : -((4294967296 - x) / 1000) % 2 ^ 32 = 4294967296 - (4294967296 - x) / 1000 := by
      norm_num
      omega
    rw [e1, e2, e3, e4, if_pos (by omega), min_eq_right (by omega)]

/-- C28. For every configuration that `fs_config_set` accepts (samplerate ≥ 1,
1 ≤ buffertime ≤ 5000) the buffer size `fs_core_initialize` hands to the device
lies between 0 and 65535, and it is `min(samplerate * buffertime / 1000, 65535)`
whenever the product is at most `2^32 - 1000`.  With samplerate 858994 and
buffertime 5000, which `fs_config_set` accepts, the product 4294970000 wraps to
2704 in `int` and the buffer size comes out as 2 instead of 65535. -/
theorem device_buffer_overflow :
    (∀ conf : FSConfig, 1 ≤ conf.samplerate → 1 ≤ conf.buffertime ∧ conf.buffertime ≤ 5000 →
      0 ≤ (fs_core_initialize_config conf).buffersize ∧
      (fs_core_initialize_config conf).buffersize ≤ 65535 ∧
      (conf.samplerate * conf.buffertime ≤ 2 ^ 32 - 1000 →
        (fs_core_initialize_config conf).buffersize =
          min (conf.samplerate * conf.buffertime / 1000) 65535)) ∧
    (fs_config_set_samplerate
      { channelmode := FSCM_STEREO, sampleformat := FSSF_S16, samplerate := 48000,
        buffertime := 25, dither := false } 858994).2 = DR_OK ∧
    (fs_config_set_buffertime
      (fs_config_set_samplerate
        { channelmode := FSCM_STEREO, sampleformat := FSSF_S16, samplerate := 48000,
          buffertime := 25, dither := false } 858994).1 5000).2 = DR_OK ∧
    (fs_core_initialize_config
      (fs_config_set_buffertime
        (fs_config_set_samplerate
          { channelmode := FSCM_STEREO, sampleformat := FSSF_S16, samplerate := 48000,
            buffertime := 25, dither := false } 858994).1 5000).1).buffersize = 2 ∧
    int_wrap ((858994 : Int) * 5000) = 2704 ∧
    min ((858994 : Int) * 5000 / 1000) 65535 = 65535 :=
  ⟨fun conf h1 h2 => fs_core_initialize_buffersize conf h1 h2, by decide, by decide, by decide,
    by decide, by decide⟩

/-- C29. The feedback loop of `fs_sound_thread` against the range of the front
channels.  Six channel device, two frames with right samples 100 and 500 and
everything else zero: the right feedback is 0, because the loop stores
`mixing[i]` where it compared `mixing[i+1]`; the range of the right channel is
400.  Stereo device, two frames with left samples 0 and 1000: the left feedback
is 0, because the loop steps by the two channels of the mode through a buffer
that holds six samples a frame; the range of the left channel is 1000. -/
theorem master_feedback_mismatch :
    fs_sound_thread_feedback FSCM_SURROUND51 [0, 100, 0, 0, 0, 0, 0, 500, 0, 0, 0, 0] 2 = (0, 0) ∧
    feedback_spec [0, 100, 0, 0, 0, 0, 0, 500, 0, 0, 0, 0] 2 = (0, 400) ∧
    fs_sound_thread_feedback FSCM_STEREO [0, 0, 0, 0, 0, 0, 1000, 0, 0, 0, 0, 0] 2 = (0, 0) ∧
    feedback_spec [0, 0, 0, 0, 0, 0, 1000, 0, 0, 0, 0, 0] 2 = (1000, 0) ∧
    2 ≤ FS_CHANNELS_FOR_MODE FSCM_SURROUND51 ∧ 2 ≤ FS_CHANNELS_FOR_MODE FSCM_STEREO := by
  decide

/-! ## Creation of streams -/

/-- A descriptor that passes the block `if (desc) { ... }`: the values the
block leaves. -/
theorem stream_description_check_pass (config : CoreSoundDeviceConfig)
    (desc : FSStreamDescription) (hv : stream_fields_pass desc)
    (hr : desc.flags &&& FSSDF_SAMPLERATE ≠ 0 → 100 ≤ desc.samplerate) :
    stream_description_check config desc =
      (DR_OK,
        (if desc.flags &&& FSSDF_CHANNELMODE ≠ 0 then desc.channelmode
          else if desc.flags &&& FSSDF_CHANNELS ≠ 0 then fs_mode_for_channels desc.channels
          else config.mode),
        (if desc.flags &&& FSSDF_SAMPLEFORMAT ≠ 0 then desc.sampleformat else config.format),
        (if desc.flags &&& FSSDF_SAMPLERATE ≠ 0 then desc.samplerate else config.rate),
        (if desc.flags &&& FSSDF_BUFFERSIZE ≠ 0 then desc.buffersize else 0),
        (if desc.flags &&& FSSDF_PREBUFFER ≠ 0 then desc.prebuffer else 0)) := by
  obtain ⟨h1, h2, h3, h4, h5, h6⟩ := hv
  have g1 : ¬ (desc.flags &&& (0xFFFFFFFF ^^^ FSSDF_ALL) ≠ 0) := fun h => h h1
  have g2 : ¬ (desc.flags &&& FSSDF_CHANNELMODE ≠ 0 ∧ channelmode_case desc.channelmode = false) := by
    rintro ⟨a, b⟩
    rw [h2 a] at b
    exact Bool.noConfusion b
  have g3 : ¬ (desc.flags &&& FSSDF_CHANNELMODE = 0 ∧ desc.flags &&& FSSDF_CHANNELS ≠ 0 ∧
      ¬ (1 ≤ desc.channels ∧ desc.channels ≤ FS_MAX_CHANNELS)) := by
    rintro ⟨a, b, c⟩
    exact c (h3 a b)
  have g4 : ¬ (desc.flags &&& FSSDF_SAMPLEFORMAT ≠ 0 ∧
      sampleformat_case desc.sampleformat = false) := by
    rintro ⟨a, b⟩
    rw [h4 a] at b
    exact Bool.noConfusion b
  have g5 : ¬ (desc.flags &&& FSSDF_SAMPLERATE ≠ 0 ∧ desc.samplerate < 100) := by
    rintro ⟨a, b⟩
    have := hr a
    omega
  have g6 : ¬ (desc.flags &&& FSSDF_BUFFERSIZE ≠ 0 ∧ desc.buffersize < 1) := by
    rintro ⟨a, b⟩
    have := h5 a
    omega
  have g7 : ¬ (desc.flags &&& FSSDF_PREBUFFER ≠ 0 ∧
      desc.prebuffer ≥ (if desc.flags &&& FSSDF_BUFFERSIZE ≠ 0 then desc.buffersize else 0)) := by
    rintro ⟨a, b⟩
    have := h6 a
    omega
  unfold stream_description_check
  simp only [if_neg g1, if_neg g2, if_neg g3, if_neg g4, if_neg g5, if_neg g6, if_neg g7]

/-- A descriptor that sets a sample rate below 100 and is in order before that:
the block returns `DR_UNSUPPORTED`. -/
theorem stream_description_check_rate (config : CoreSoundDeviceConfig)
    (desc : FSStreamDescription) (hv : stream_fields_pass desc)
    (hf : desc.flags &&& FSSDF_SAMPLERATE ≠ 0) (hr : desc.samplerate < 100) :
    (stream_description_check config desc).1 = DR_UNSUPPORTED := by
  obtain ⟨h1, h2, h3, h4, h5, h6⟩ := hv
  have g1 : ¬ (desc.flags &&& (0xFFFFFFFF ^^^ FSSDF_ALL) ≠ 0) := fun h => h h1
  have g2 : ¬ (desc.flags &&& FSSDF_CHANNELMODE ≠ 0 ∧ channelmode_case desc.channelmode = false) := by
    rintro ⟨a, b⟩
    rw [h2 a] at b
    exact Bool.noConfusion b
  have g3 : ¬ (desc.flags &&& FSSDF_CHANNELMODE = 0 ∧ desc.flags &&& FSSDF_CHANNELS ≠ 0 ∧
      ¬ (1 ≤ desc.channels ∧ desc.channels ≤ FS_MAX_CHANNELS)) := by
    rintro ⟨a, b, c⟩
    exact c (h3 a b)
  have g4 : ¬ (desc.flags &&& FSSDF_SAMPLEFORMAT ≠ 0 ∧
      sampleformat_case desc.sampleformat = false) := by
    rintro ⟨a, b⟩
    rw [h4 a] at b
    exact Bool.noConfusion b
  have g5 : desc.flags &&& FSSDF_SAMPLERATE ≠ 0 ∧ desc.samplerate < 100 := ⟨hf, hr⟩
  unfold stream_description_check
  simp only [if_neg g1, if_neg g2, if_neg g3, if_neg g4, if_pos g5]

/-- The stream that `IFusionSoundStream_Construct` sets up. -/
theorem IFusionSoundStream_Construct_fields (core : CoreSound) (buffer : CoreSoundBuffer)
    (pid : Nat) (center rear volume buffersize rate prebuffer : Int) :
    (IFusionSoundStream_Construct core buffer pid center rear volume buffersize rate
      prebuffer).buffersize = buffersize ∧
    (IFusionSoundStream_Construct core buffer pid center rear volume buffersize rate
      prebuffer).prebuffer = prebuffer ∧
    (IFusionSoundStream_Construct core buffer pid center rear volume buffersize rate
      prebuffer).rate = rate ∧
    (IFusionSoundStream_Construct core buffer pid center rear volume buffersize rate
      prebuffer).buffer = buffer := by
  refine ⟨?_, ?_, ?_, ?_⟩ <;>
    simp [IFusionSoundStream_Construct, stream_playback_stop, fs_playback_stop_eq,
      fs_playback_create, fs_playback_dispatch]

/-- The tail of `IFusionSound_CreateStream` when every creation step succeeds
and the ring buffer is within the limit. -/
theorem stream_create_ok (env : CreateEnv) (core : CoreSound) (mode format : Nat)
    (rate buffersize prebuffer : Int) (pid : Nat) (center rear volume : Int)
    (he : env_ok env)
    (hl : (if buffersize = 0 then Int.tdiv rate 5 else buffersize) ≤ rate * 5) :
    stream_create env core mode format rate buffersize prebuffer pid center rear volume =
      (DR_OK, some (IFusionSoundStream_Construct core
        { length := if buffersize = 0 then Int.tdiv rate 5 else buffersize
          mode := mode, format := format, rate := rate
          bytes := (FS_BYTES_PER_SAMPLE format : Int) * (FS_CHANNELS_FOR_MODE mode : Int)
          data := env.memory }
        pid center rear volume (if buffersize = 0 then Int.tdiv rate 5 else buffersize) rate
        prebuffer)) := by
  obtain ⟨e1, e2, e3⟩ := he
  unfold stream_create fs_buffer_create
  simp only [if_neg (not_lt.mpr hl), e1, e2, e3]
  simp

/-- The tail of `IFusionSound_CreateStream` with a ring buffer beyond the
limit. -/
theorem stream_create_limit (env : CreateEnv) (core : CoreSound) (mode format : Nat)
    (rate buffersize prebuffer : Int) (pid : Nat) (center rear volume : Int)
    (hl : (if buffersize = 0 then Int.tdiv rate 5 else buffersize) > rate * 5) :
    stream_create env core mode format rate buffersize prebuffer pid center rear volume =
      (DR_LIMITEXCEEDED, none) := by
  unfold stream_create
  simp only [if_pos hl]

/-- A stream that `stream_create` hands out keeps within the limit. -/
theorem stream_create_some (env : CreateEnv) (core : CoreSound) (mode format : Nat)
    (rate buffersize prebuffer : Int) (pid : Nat) (center rear volume : Int)
    (s : IFusionSoundStream_data)
    (h : (stream_create env core mode format rate buffersize prebuffer pid center rear
      volume).2 = some s) :
    s.buffersize ≤ s.rate * 5 ∧ s.rate = rate := by
  by_cases hl : (if buffersize = 0 then Int.tdiv rate 5 else buffersize) > rate * 5
  · rw [stream_create_limit _ _ _ _ _ _ _ _ _ _ _ hl] at h
    exact Option.noConfusion h
  · unfold stream_create at h
    simp only [if_neg hl] at h
    cases hb : fs_buffer_create env (if buffersize = 0 then Int.tdiv rate 5 else buffersize) mode
      format rate with
    | mk ret ob =>
      rw [hb] at h
      cases ob with
      | none => exact Option.noConfusion h
      | some b =>
        dsimp only at h
        by_cases hc : env.construct ≠ DR_OK
        · rw [if_pos hc] at h
          exact Option.noConfusion h
        · rw [if_neg hc] at h
          injection h with h
          subst h
          obtain ⟨f1, -, f3, -⟩ := IFusionSoundStream_Construct_fields core b pid center rear
            volume (if buffersize = 0 then Int.tdiv rate 5 else buffersize) rate prebuffer
          rw [f1, f3]
          exact ⟨by omega, rfl⟩

theorem CreateStream_none (env : CreateEnv) (core : CoreSound) (config : CoreSoundDeviceConfig)
    (pid : Nat) (center rear volume : Int) :
    IFusionSound_CreateStream env core config none true pid center rear volume =
      stream_create env core config.mode config.format config.rate 0 0 pid center rear volume := by
  rfl

theorem CreateStream_pass (env : CreateEnv) (core : CoreSound) (config : CoreSoundDeviceConfig)
    (desc : FSStreamDescription) (pid : Nat) (center rear volume : Int)
    (hv : stream_fields_pass desc)
    (hr : desc.flags &&& FSSDF_SAMPLERATE ≠ 0 → 100 ≤ desc.samplerate) :
    IFusionSound_CreateStream env core config (some desc) true pid center rear volume =
      stream_create env core
        (if desc.flags &&& FSSDF_CHANNELMODE ≠ 0 then desc.channelmode
          else if desc.flags &&& FSSDF_CHANNELS ≠ 0 then fs_mode_for_channels desc.channels
          else config.mode)
        (if desc.flags &&& FSSDF_SAMPLEFORMAT ≠ 0 then desc.sampleformat else config.format)
        (if desc.flags &&& FSSDF_SAMPLERATE ≠ 0 then desc.samplerate else config.rate)
        (if desc.flags &&& FSSDF_BUFFERSIZE ≠ 0 then desc.buffersize else 0)
        (if desc.flags &&& FSSDF_PREBUFFER ≠ 0 then desc.prebuffer else 0)
        pid center rear volume := by
  unfold IFusionSound_CreateStream
  dsimp only
  rw [stream_description_check_pass config desc hv hr]
  simp

theorem CreateStream_some (env : CreateEnv) (core : CoreSound) (config : CoreSoundDeviceConfig)
    (desc : Option FSStreamDescription) (ret_interface : Bool) (pid : Nat)
    (center rear volume : Int) (s : IFusionSoundStream_data)
    (h : (IFusionSound_CreateStream env core config desc ret_interface pid center rear
      volume).2 = some s) :
    s.buffersize ≤ s.rate * 5 := by
  unfold IFusionSound_CreateStream at h
  cases ret_interface with
  | false => exact Option.noConfusion h
  | true =>
    simp only [Bool.true_eq_false, if_false] at h
    cases desc with
    | none => exact (stream_create_some _ _ _ _ _ _ _ _ _ _ _ s h).1
    | some d =>
      dsimp only at h
      rcases hc : stream_description_check config d with ⟨ret, mode, format, rate, bs, pb⟩
      rw [hc] at h
      dsimp only at h
      by_cases hret : ret ≠ DR_OK
      · rw [if_pos hret] at h
        exact Option.noConfusion h
      · rw [if_neg hret] at h
        exact (stream_create_some _ _ _ _ _ _ _ _ _ _ _ s h).1

/-- C27. A descriptor that sets only the prebuffer: for every prebuffer `p ≥ 0`
`IFusionSound_CreateStream` returns `DR_INVARG` and hands out no stream, because
`p` is compared with the ring buffer size before that gets its default; in
particular on a device at 48000 Hz with `p = 0`, where `0 ≤ p < R / 5`.  Only a
negative prebuffer gets through: then, on a device with rate `R ≥ 0` and with
every creation step succeeding, the stream has `buffersize = R / 5` and the
prebuffer of the descriptor. -/
theorem prebuffer_only_rejected :
    (∀ (env : CreateEnv) (core : CoreSound) (config : CoreSoundDeviceConfig)
        (d : FSStreamDescription) (pid : Nat) (center rear volume : Int),
      d.flags = FSSDF_PREBUFFER → 0 ≤ d.prebuffer →
      IFusionSound_CreateStream env core config (some d) true pid center rear volume =
        (DR_INVARG, none)) ∧
    (∀ (env : CreateEnv) (core : CoreSound) (config : CoreSoundDeviceConfig)
        (d : FSStreamDescription) (pid : Nat) (center rear volume : Int),
      d.flags = FSSDF_PREBUFFER → d.prebuffer < 0 → env_ok env → 0 ≤ config.rate →
      ∃ s, IFusionSound_CreateStream env core config (some d) true pid center rear volume =
          (DR_OK, some s) ∧
        s.buffersize = Int.tdiv config.rate 5 ∧ s.prebuffer = d.prebuffer) ∧
    ((100 : Int) ≤ demo_config.rate ∧ (0 : Int) < Int.tdiv demo_config.rate 5 ∧
      (IFusionSound_CreateStream demo_env demo_core demo_config
        (some { flags := FSSDF_PREBUFFER, buffersize := 0, channels := 0, sampleformat := 0,
                samplerate := 0, prebuffer := 0, channelmode := 0 })
        true 7 FSF_ONE FSF_ONE FSF_ONE).1 = DR_INVARG) := by
  have c1 : FSSDF_PREBUFFER &&& (0xFFFFFFFF ^^^ FSSDF_ALL) = 0 := by decide
  have c2 : FSSDF_PREBUFFER &&& FSSDF_CHANNELMODE = 0 := by decide
  have c3 : FSSDF_PREBUFFER &&& FSSDF_CHANNELS = 0 := by decide
  have c4 : FSSDF_PREBUFFER &&& FSSDF_SAMPLEFORMAT = 0 := by decide
  have c5 : FSSDF_PREBUFFER &&& FSSDF_SAMPLERATE = 0 := by decide
  have c6 : FSSDF_PREBUFFER &&& FSSDF_BUFFERSIZE = 0 := by decide
  have c7 : FSSDF_PREBUFFER &&& FSSDF_PREBUFFER ≠ 0 := by decide
  have c8 : FSSDF_PREBUFFER ≠ 0 := by decide
  refine ⟨?_, ?_, by decide, by decide, by decide⟩
  · intro env core config d pid center rear volume hf hp
    have hc : (stream_description_check config d).1 = DR_INVARG := by
      unfold stream_description_check
      rw [hf]
      simp only [c1, c2, c3, c4, c5, c6]
      simp [c7, c8, hp]
    unfold IFusionSound_CreateStream
    dsimp only
    rcases hd : stream_description_check config d with ⟨ret, mode, format, rate, bs, pb⟩
    rw [hd] at hc
    dsimp only at hc ⊢
    rw [hc]
    simp
  · intro env core config d pid center rear volume hf hp he hrate
    have hv : stream_fields_pass d := by
      dsimp only [stream_fields_pass]
      rw [hf]
      simp only [c1, c2, c3, c4, c5, c6]
      simp [c8, hp]
    rw [CreateStream_pass env core config d pid center rear volume hv (by rw [hf]; simp [c5])]
    rw [hf]
    simp only [c2, c3, c4, c5, c6, ne_eq, not_true_eq_false, if_false, c7, not_false_eq_true,
      if_true]
    have hl : (if (0 : Int) = 0 then Int.tdiv config.rate 5 else 0) ≤ config.rate * 5 := by
      rw [if_pos rfl]
      have := Int.tdiv_eq_ediv hrate (by norm_num : (0 : Int) ≤ 5)
      omega
    rw [stream_create_ok env core config.mode config.format config.rate 0 d.prebuffer pid center
      rear volume he hl]
    obtain ⟨f1, f2, -, -⟩ := IFusionSoundStream_Construct_fields core
      { length := if (0 : Int) = 0 then Int.tdiv config.rate 5 else 0
        mode := config.mode, format := config.format, rate := config.rate
        bytes := (FS_BYTES_PER_SAMPLE config.format : Int) * (FS_CHANNELS_FOR_MODE config.mode : Int)
        data := env.memory }
      pid center rear volume (if (0 : Int) = 0 then Int.tdiv config.rate 5 else 0) config.rate
      d.prebuffer
    refine ⟨_, rfl, ?_, f2⟩
    rw [f1, if_pos rfl]

/-! ## Creation of buffers, the accepted sample rates -/

theorem channelmode_case_for_channels (c : Int) (h : 1 ≤ c ∧ c ≤ FS_MAX_CHANNELS) :
    channelmode_case (fs_mode_for_channels c) = true := by
  have h6 : (FS_MAX_CHANNELS : Int) = 6 := by decide
  rw [h6] at h
  obtain ⟨h1, h2⟩ := h
  interval_cases c <;> decide

/-- What a buffer that `IFusionSound_CreateBuffer` hands out looks like, and
which checks its descriptor went through. -/
theorem CreateBuffer_some (env : CreateEnv) (core : CoreSound) (config : CoreSoundDeviceConfig)
    (desc : Option FSBufferDescription) (ret_interface : Bool) (b : IFusionSoundBuffer_data)
    (h : (IFusionSound_CreateBuffer env core config desc ret_interface).2 = some b) :
    ∃ d, desc = some d ∧
      d.flags &&& FSBDF_LENGTH ≠ 0 ∧ b.length = d.length ∧ 1 ≤ d.length ∧
      d.length ≤ FS_MAX_FRAMES ∧ b.buffer.length = b.length ∧ b.buffer.mode = b.mode ∧
      b.buffer.format = b.format ∧
      b.mode = (if d.flags &&& FSBDF_CHANNELMODE ≠ 0 then d.channelmode
        else if d.flags &&& FSBDF_CHANNELS ≠ 0 then fs_mode_for_channels d.channels
        else config.mode) ∧
      b.format = (if d.flags &&& FSBDF_SAMPLEFORMAT ≠ 0 then d.sampleformat else config.format) ∧
      (d.flags &&& FSBDF_CHANNELMODE ≠ 0 → channelmode_case d.channelmode = true) ∧
      (d.flags &&& FSBDF_CHANNELMODE = 0 → d.flags &&& FSBDF_CHANNELS ≠ 0 →
        1 ≤ d.channels ∧ d.channels ≤ FS_MAX_CHANNELS) := by
  unfold IFusionSound_CreateBuffer at h
  cases desc with
  | none => exact Option.noConfusion h
  | some d =>
    refine ⟨d, rfl, ?_⟩
    dsimp only at h
    cases ret_interface with
    | false => exact Option.noConfusion h
    | true =>
      simp only [Bool.true_eq_false, if_false] at h
      by_cases g1 : d.flags &&& (0xFFFFFFFF ^^^ FSBDF_ALL) ≠ 0
      · rw [if_pos g1] at h; exact Option.noConfusion h
      rw [if_neg g1] at h
      by_cases g2 : d.flags &&& FSBDF_CHANNELMODE ≠ 0 ∧ channelmode_case d.channelmode = false
      · rw [if_pos g2] at h; exact Option.noConfusion h
      rw [if_neg g2] at h
      by_cases g3 : d.flags &&& FSBDF_CHANNELMODE = 0 ∧ d.flags &&& FSBDF_CHANNELS ≠ 0 ∧
          ¬ (1 ≤ d.channels ∧ d.channels ≤ FS_MAX_CHANNELS)
      · rw [if_pos g3] at h; exact Option.noConfusion h
      rw [if_neg g3] at h
      by_cases g4 : d.flags &&& FSBDF_SAMPLEFORMAT ≠ 0 ∧ sampleformat_case config.format = false
      · rw [if_pos g4] at h; exact Option.noConfusion h
      rw [if_neg g4] at h
      by_cases g5 : d.flags &&& FSBDF_SAMPLERATE ≠ 0 ∧ d.samplerate < 100
      · rw [if_pos g5] at h; exact Option.noConfusion h
      rw [if_neg g5] at h
      by_cases g6 : (if d.flags &&& FSBDF_LENGTH ≠ 0 then d.length else 0) < 1
      · rw [if_pos g6] at h; exact Option.noConfusion h
      rw [if_neg g6] at h
      by_cases g7 : (if d.flags &&& FSBDF_LENGTH ≠ 0 then d.length else 0) > FS_MAX_FRAMES
      · rw [if_pos g7] at h; exact Option.noConfusion h
      rw [if_neg g7] at h
      have hlen : d.flags &&& FSBDF_LENGTH ≠ 0 := by
        intro hc
        rw [if_neg (by rw [hc]; simp)] at g6
        omega
      rw [if_pos hlen] at g6 g7 h
      generalize (if d.flags &&& FSBDF_CHANNELMODE ≠ 0 then d.channelmode
        else if d.flags &&& FSBDF_CHANNELS ≠ 0 then fs_mode_for_channels d.channels
        else config.mode) = mode at h ⊢
      generalize (if d.flags &&& FSBDF_SAMPLEFORMAT ≠ 0 then d.sampleformat
        else config.format) = format at h ⊢
      generalize (if d.flags &&& FSBDF_SAMPLERATE ≠ 0 then d.samplerate else config.rate) = rate
        at h
      unfold fs_buffer_create IFusionSoundBuffer_Construct at h
      by_cases e1 : env.object_ok = false
      · rw [if_pos e1] at h; exact Option.noConfusion h
      rw [if_neg e1] at h
      dsimp only at h
      by_cases e2 : env.shmalloc
          (d.length * (FS_BYTES_PER_SAMPLE format : Int) * (FS_CHANNELS_FOR_MODE mode : Int)) = false
      · rw [if_pos e2] at h; exact Option.noConfusion h
      rw [if_neg e2] at h
      dsimp only at h
      by_cases e3 : env.construct ≠ DR_OK
      · rw [if_pos e3] at h; exact Option.noConfusion h
      rw [if_neg e3] at h
      dsimp only at h
      injection h with h
      subst h
      refine ⟨hlen, rfl, by omega, by omega, rfl, rfl, rfl, rfl, rfl, ?_, ?_⟩
      · intro a
        by_contra hc
        exact g2 ⟨a, by simpa using hc⟩
      · intro a c
        by_contra hc
        exact g3 ⟨a, c, hc⟩

/-- A descriptor with valid fields on a device with a sample format of the
enumeration: `IFusionSound_CreateBuffer` succeeds when every creation step
does, unless the descriptor sets a sample rate below 100. -/
theorem CreateBuffer_pass (env : CreateEnv) (core : CoreSound) (config : CoreSoundDeviceConfig)
    (d : FSBufferDescription) (he : env_ok env) (hv : buffer_fields_valid d)
    (hc : sampleformat_case config.format = true)
    (hr : d.flags &&& FSBDF_SAMPLERATE ≠ 0 → 100 ≤ d.samplerate) :
    (IFusionSound_CreateBuffer env core config (some d) true).1 = DR_OK := by
  obtain ⟨h1, h2, h3, h4, h5, h6, h7⟩ := hv
  obtain ⟨e1, e2, e3⟩ := he
  have g1 : ¬ (d.flags &&& (0xFFFFFFFF ^^^ FSBDF_ALL) ≠ 0) := fun h => h h1
  have g2 : ¬ (d.flags &&& FSBDF_CHANNELMODE ≠ 0 ∧ channelmode_case d.channelmode = false) := by
    rintro ⟨a, b⟩
    rw [h2 a] at b
    exact Bool.noConfusion b
  have g3 : ¬ (d.flags &&& FSBDF_CHANNELMODE = 0 ∧ d.flags &&& FSBDF_CHANNELS ≠ 0 ∧
      ¬ (1 ≤ d.channels ∧ d.channels ≤ FS_MAX_CHANNELS)) := by
    rintro ⟨a, b, c⟩
    exact c (h3 a b)
  have g4 : ¬ (d.flags &&& FSBDF_SAMPLEFORMAT ≠ 0 ∧ sampleformat_case config.format = false) := by
    rintro ⟨-, b⟩
    rw [hc] at b
    exact Bool.noConfusion b
  have g5 : ¬ (d.flags &&& FSBDF_SAMPLERATE ≠ 0 ∧ d.samplerate < 100) := by
    rintro ⟨a, b⟩
    have := hr a
    omega
  have g6 : ¬ ((if d.flags &&& FSBDF_LENGTH ≠ 0 then d.length else 0) < 1) := by
    rw [if_pos h5]; omega
  have g7 : ¬ ((if d.flags &&& FSBDF_LENGTH ≠ 0 then d.length else 0) > FS_MAX_FRAMES) := by
    rw [if_pos h5]; omega
  unfold IFusionSound_CreateBuffer
  dsimp only
  simp only [Bool.true_eq_false, if_false, if_neg g1, if_neg g2, if_neg g3, if_neg g4, if_neg g5,
    if_neg g6, if_neg g7]
  unfold fs_buffer_create IFusionSoundBuffer_Construct
  simp [e1, e2, e3]

/-- A descriptor that sets a sample rate below 100 and is valid otherwise, on a
device with a sample format of the enumeration: `DR_UNSUPPORTED`, no buffer. -/
theorem CreateBuffer_rate (env : CreateEnv) (core : CoreSound) (config : CoreSoundDeviceConfig)
    (d : FSBufferDescription) (hv : buffer_fields_valid d)
    (hc : sampleformat_case config.format = true)
    (hf : d.flags &&& FSBDF_SAMPLERATE ≠ 0) (hr : d.samplerate < 100) :
    IFusionSound_CreateBuffer env core config (some d) true = (DR_UNSUPPORTED, none) := by
  obtain ⟨h1, h2, h3, h4, h5, h6, h7⟩ := hv
  have g1 : ¬ (d.flags &&& (0xFFFFFFFF ^^^ FSBDF_ALL) ≠ 0) := fun h => h h1
  have g2 : ¬ (d.flags &&& FSBDF_CHANNELMODE ≠ 0 ∧ channelmode_case d.channelmode = false) := by
    rintro ⟨a, b⟩
    rw [h2 a] at b
    exact Bool.noConfusion b
  have g3 : ¬ (d.flags &&& FSBDF_CHANNELMODE = 0 ∧ d.flags &&& FSBDF_CHANNELS ≠ 0 ∧
      ¬ (1 ≤ d.channels ∧ d.channels ≤ FS_MAX_CHANNELS)) := by
    rintro ⟨a, b, c⟩
    exact c (h3 a b)
  have g4 : ¬ (d.flags &&& FSBDF_SAMPLEFORMAT ≠ 0 ∧ sampleformat_case config.format = false) := by
    rintro ⟨-, b⟩
    rw [hc] at b
    exact Bool.noConfusion b
  have g5 : d.flags &&& FSBDF_SAMPLERATE ≠ 0 ∧ d.samplerate < 100 := ⟨hf, hr⟩
  unfold IFusionSound_CreateBuffer
  dsimp only
  simp only [Bool.true_eq_false, if_false, if_neg g1, if_neg g2, if_neg g3, if_neg g4, if_pos g5]

/-- C24. Every buffer that `IFusionSound_CreateBuffer` hands out has
1 ≤ length ≤ `FS_MAX_FRAMES`, and a channel mode of the enumeration when the
device has one.  Its sample format is not checked: where the descriptor sets a
sample format, the `switch` looks at the format of the device, so on a device
with signed 16 bit samples the descriptor with length 100 and the undefined
sample format `FS_SAMPLEFORMAT(5,16,16,1)` gets `DR_OK` and a buffer of that
format, where `IFusionSound_CreateStream` returns `DR_INVARG` for the same
format. -/
theorem create_buffer_unchecked_format :
    (∀ (env : CreateEnv) (core : CoreSound) (config : CoreSoundDeviceConfig)
        (desc : Option FSBufferDescription) (ret_interface : Bool) (b : IFusionSoundBuffer_data),
      (IFusionSound_CreateBuffer env core config desc ret_interface).2 = some b →
      1 ≤ b.length ∧ b.length ≤ FS_MAX_FRAMES ∧ b.buffer.length = b.length ∧
      b.buffer.mode = b.mode ∧ b.buffer.format = b.format ∧
      (channelmode_case config.mode = true → channelmode_case b.mode = true)) ∧
    sampleformat_case (FS_SAMPLEFORMAT 5 16 16 1) = false ∧
    sampleformat_case demo_config.format = true ∧
    (IFusionSound_CreateBuffer demo_env demo_core demo_config
      (some { flags := FSBDF_LENGTH ||| FSBDF_SAMPLEFORMAT, length := 100, channels := 0,
              sampleformat := FS_SAMPLEFORMAT 5 16 16 1, samplerate := 0, channelmode := 0 })
      true).1 = DR_OK ∧
    (IFusionSound_CreateBuffer demo_env demo_core demo_config
      (some { flags := FSBDF_LENGTH ||| FSBDF_SAMPLEFORMAT, length := 100, channels := 0,
              sampleformat := FS_SAMPLEFORMAT 5 16 16 1, samplerate := 0, channelmode := 0 })
      true).2.map (fun b => b.buffer.format) = some (FS_SAMPLEFORMAT 5 16 16 1) ∧
    (IFusionSound_CreateStream demo_env demo_core demo_config
      (some { flags := FSSDF_SAMPLEFORMAT, buffersize := 0, channels := 0,
              sampleformat := FS_SAMPLEFORMAT 5 16 16 1, samplerate := 0, prebuffer := 0,
              channelmode := 0 })
      true 7 FSF_ONE FSF_ONE FSF_ONE).1 = DR_INVARG := by
  refine ⟨?_, by decide, by decide, by decide, by decide, by decide⟩
  intro env core config desc ret_interface b h
  obtain ⟨d, -, hl, e1, e2, e3, e4, e5, e6, e7, -, e9, e10⟩ :=
    CreateBuffer_some env core config desc ret_interface b h
  refine ⟨by omega, by omega, e4, e5, e6, ?_⟩
  intro hc
  rw [e7]
  by_cases a : d.flags &&& FSBDF_CHANNELMODE ≠ 0
  · rw [if_pos a]
    exact e9 a
  · rw [if_neg a]
    by_cases c : d.flags &&& FSBDF_CHANNELS ≠ 0
    · rw [if_pos c]
      exact channelmode_case_for_channels _ (e10 (by simpa using a) c)
    · rw [if_neg c]
      exact hc

/-! ## The playback against the playlist -/

theorem fs_buffer_mixto_ret (T : MixTables) (SIZEOF_LONG : Nat) (buffer : CoreSoundBuffer)
    (dest : List Int) (rate : Int) (mode : Nat) (max_frames pos stop : Int)
    (levels : List Int) (pitch : Int) :
    (fs_buffer_mixto T SIZEOF_LONG buffer dest rate mode max_frames pos stop levels pitch).ret
        = DR_OK ∨
    (fs_buffer_mixto T SIZEOF_LONG buffer dest rate mode max_frames pos stop levels pitch).ret
        = DR_BUFFEREMPTY := by
  unfold fs_buffer_mixto
  dsimp only
  split_ifs <;> simp

/-- What a tick of `fs_playback_mixto` does to the flags of the playback. -/
theorem fs_playback_mixto_flags (T : MixTables) (SIZEOF_LONG : Nat) (buffer : CoreSoundBuffer)
    (playback : CorePlayback) (dest : List Int) (rate : Int) (mode : Nat) (max_frames : Int)
    (volume : Int) :
    (fs_playback_mixto T SIZEOF_LONG buffer playback dest rate mode max_frames volume).playback.pid
      = playback.pid ∧
    (fs_playback_mixto T SIZEOF_LONG buffer playback dest rate mode max_frames
      volume).playback.disabled = playback.disabled ∧
    ((fs_playback_mixto T SIZEOF_LONG buffer playback dest rate mode max_frames volume).ret
        = DR_OK →
      (fs_playback_mixto T SIZEOF_LONG buffer playback dest rate mode max_frames
        volume).playback.running = playback.running) ∧
    ((fs_playback_mixto T SIZEOF_LONG buffer playback dest rate mode max_frames volume).ret
        ≠ DR_OK →
      (fs_playback_mixto T SIZEOF_LONG buffer playback dest rate mode max_frames
        volume).playback.running = false) := by
  rcases fs_buffer_mixto_ret T SIZEOF_LONG buffer dest rate mode max_frames playback.position
    playback.stop (fs_playback_mixto_levels playback volume) playback.pitch with h | h
  · rw [fs_playback_mixto_ok T SIZEOF_LONG buffer playback dest rate mode max_frames volume h]
    refine ⟨rfl, rfl, fun _ => rfl, fun c => ?_⟩
    exact absurd rfl c
  · rw [fs_playback_mixto_end T SIZEOF_LONG buffer playback dest rate mode max_frames volume h]
    refine ⟨rfl, rfl, fun c => ?_, fun _ => rfl⟩
    exact DirectResult.noConfusion c

/-- The playlist loop keeps the invariant of the playback; `es` is what is left
of the entries the loop runs over. -/
theorem fs_sound_thread_entries_invariant (T : MixTables) (SIZEOF_LONG : Nat)
    (buffer : CoreSoundBuffer) (rate : Int) (mode : Nat) (buffersize soft_volume : Int) :
    ∀ (es : List Nat) (core : CoreSound) (playback : CorePlayback) (mixing : List Int),
      playback_invariant (core, playback) →
      es.count playback.pid ≤ core.playlist_entries.count playback.pid →
      playback_invariant
        ((fs_sound_thread_entries T SIZEOF_LONG buffer rate mode buffersize soft_volume es core
            playback mixing).1,
         (fs_sound_thread_entries T SIZEOF_LONG buffer rate mode buffersize soft_volume es core
            playback mixing).2.1) ∧
      (fs_sound_thread_entries T SIZEOF_LONG buffer rate mode buffersize soft_volume es core
        playback mixing).2.1.pid = playback.pid := by
  intro es
  induction es with
  | nil =>
    intro core playback mixing hi _
    exact ⟨hi, rfl⟩
  | cons e es ih =>
    intro core playback mixing hi hc
    obtain ⟨hi1, hi2⟩ := hi
    dsimp only at hi1 hi2
    rw [fs_sound_thread_entries]
    by_cases he : e = playback.pid
    · rw [if_pos he]
      dsimp only
      obtain ⟨m1, m2, m3, m4⟩ := fs_playback_mixto_flags T SIZEOF_LONG buffer playback mixing rate
        mode buffersize soft_volume
      have hcnt : (e :: es).count playback.pid = es.count playback.pid + 1 := by
        rw [he, List.count_cons_self]
      have hrun : playback.running = true := by
        cases hr : playback.running
        · rw [hr] at hi2
          simp only [Bool.false_eq_true, if_false] at hi2
          omega
        · rfl
      rw [hrun, if_pos rfl] at hi2
      have hes : es.count playback.pid = 0 := by omega
      by_cases hret : (fs_playback_mixto T SIZEOF_LONG buffer playback mixing rate mode buffersize
          soft_volume).ret ≠ DR_OK
      · rw [if_pos hret]
        have hr2 := m4 hret
        have := ih
          { core with
              playlist_entries := core.playlist_entries.erase e
              shmpool_free := core.shmpool_free + 1 }
          (fs_playback_mixto T SIZEOF_LONG buffer playback mixing rate mode buffersize
            soft_volume).playback
          (fs_playback_mixto T SIZEOF_LONG buffer playback mixing rate mode buffersize
            soft_volume).dest
          (by
            refine ⟨?_, ?_⟩
            · dsimp only
              rw [hr2]
              simp
            · dsimp only
              rw [m1, hr2, he, List.count_erase_self, hi2]
              simp)
          (by
            dsimp only
            rw [m1, hes]
            exact Nat.zero_le _)
        exact ⟨this.1, this.2.trans m1⟩
      · rw [if_neg hret]
        have hr2 := m3 (by simpa using hret)
        have := ih core
          (fs_playback_mixto T SIZEOF_LONG buffer playback mixing rate mode buffersize
            soft_volume).playback
          (fs_playback_mixto T SIZEOF_LONG buffer playback mixing rate mode buffersize
            soft_volume).dest
          (by
            refine ⟨?_, ?_⟩
            · dsimp only
              rw [m2, hr2]
              exact hi1
            · dsimp only
              rw [m1, hr2, hrun, hi2]
              simp)
          (by
            rw [m1, hes]
            exact Nat.zero_le _)
        exact ⟨this.1, this.2.trans m1⟩
    · rw [if_neg he]
      have hcnt : (e :: es).count playback.pid = es.count playback.pid := by
        rw [List.count_cons_of_ne (fun h => he h.symm)]
      exact ih core playback mixing ⟨hi1, hi2⟩ (by omega)

/-- Every call keeps the invariant of the playback and its identity. -/
theorem playback_step_invariant (T : MixTables) (SIZEOF_LONG : Nat) (buffer : CoreSoundBuffer)
    (e : PlaybackEvent) (st : CoreSound × CorePlayback) (hi : playback_invariant st) :
    playback_invariant (playback_step T SIZEOF_LONG buffer e st) ∧
    (playback_step T SIZEOF_LONG buffer e st).2.pid = st.2.pid := by
  rcases st with ⟨core, playback⟩
  obtain ⟨hi1, hi2⟩ := hi
  dsimp only at hi1 hi2
  cases e with
  | enable =>
    refine ⟨⟨?_, hi2⟩, rfl⟩
    rintro ⟨a, -⟩
    exact Bool.noConfusion a
  | start enable =>
    rw [playback_step, fs_playback_start_eq]
    rcases playback with ⟨pid, notify, disabled, running, position, stop, pitch, center, rear,
      levels, volume⟩
    dsimp only at hi1 hi2 ⊢
    cases running <;> cases disabled <;> cases enable <;>
      by_cases hz : core.shmpool_free = 0 <;>
      simp_all [playback_invariant, List.count_cons_self]
  | stop disable =>
    rw [playback_step, fs_playback_stop_eq]
    rcases playback with ⟨pid, notify, disabled, running, position, stop, pitch, center, rear,
      levels, volume⟩
    dsimp only at hi1 hi2 ⊢
    cases running <;> cases disabled <;> cases disable <;>
      simp_all [playback_invariant, fs_core_remove_playback, List.count_eq_zero]
  | set_position position => exact ⟨⟨hi1, hi2⟩, rfl⟩
  | set_stop stop => exact ⟨⟨hi1, hi2⟩, rfl⟩
  | set_pitch pitch => exact ⟨⟨hi1, hi2⟩, rfl⟩
  | tick rate mode buffersize soft_volume =>
    rw [playback_step]
    exact fs_sound_thread_entries_invariant T SIZEOF_LONG buffer rate mode buffersize soft_volume
      core.playlist_entries core playback [] ⟨hi1, hi2⟩ (le_refl _)

/-- Every sequence of calls keeps the invariant of the playback and its
identity. -/
theorem playback_run_invariant (T : MixTables) (SIZEOF_LONG : Nat) (buffer : CoreSoundBuffer)
    (events : List PlaybackEvent) :
    ∀ st : CoreSound × CorePlayback, playback_invariant st →
      playback_invariant (playback_run T SIZEOF_LONG buffer events st) ∧
      (playback_run T SIZEOF_LONG buffer events st).2.pid = st.2.pid := by
  induction events with
  | nil =>
    intro st hi
    exact ⟨hi, rfl⟩
  | cons e es ih =>
    intro st hi
    obtain ⟨h1, h2⟩ := playback_step_invariant T SIZEOF_LONG buffer e st hi
    obtain ⟨h3, h4⟩ := ih (playback_step T SIZEOF_LONG buffer e st) h1
    exact ⟨h3, h4.trans h2⟩

/-- C21. From a freshly created playback that the playlist does not hold, every
sequence of `fs_playback_enable`, `fs_playback_start`, `fs_playback_stop`,
position, stop and pitch changes and mixer ticks leads to a state in which the
playback is not both disabled and running, and in which it is running if and
only if the playlist holds exactly one entry for it; while it is not running
the playlist holds none. -/
theorem playback_playlist_invariant (T : MixTables) (SIZEOF_LONG : Nat)
    (buffer : CoreSoundBuffer) (events : List PlaybackEvent) (core : CoreSound) (pid : Nat)
    (notify : Bool) (center rear volume : Int) (h : pid ∉ core.playlist_entries) :
    ¬ ((playback_run T SIZEOF_LONG buffer events
          (core, fs_playback_create pid notify center rear volume)).2.disabled = true ∧
       (playback_run T SIZEOF_LONG buffer events
          (core, fs_playback_create pid notify center rear volume)).2.running = true) ∧
    ((playback_run T SIZEOF_LONG buffer events
        (core, fs_playback_create pid notify center rear volume)).2.running = true ↔
      (playback_run T SIZEOF_LONG buffer events
        (core, fs_playback_create pid notify center rear volume)).1.playlist_entries.count pid
        = 1) ∧
    ((playback_run T SIZEOF_LONG buffer events
        (core, fs_playback_create pid notify center rear volume)).2.running = false →
      pid ∉ (playback_run T SIZEOF_LONG buffer events
        (core, fs_playback_create pid notify center rear volume)).1.playlist_entries) := by
  have h0 : playback_invariant (core, fs_playback_create pid notify center rear volume) := by
    refine ⟨?_, ?_⟩
    · rintro ⟨a, -⟩
      exact Bool.noConfusion a
    · show core.playlist_entries.count pid = 0
      exact List.count_eq_zero.mpr h
  obtain ⟨⟨i1, i2⟩, i3⟩ := playback_run_invariant T SIZEOF_LONG buffer events _ h0
  have i3' : (playback_run T SIZEOF_LONG buffer events
      (core, fs_playback_create pid notify center rear volume)).2.pid = pid := i3
  rw [i3'] at i2
  refine ⟨i1, ?_, ?_⟩
  · constructor
    · intro hr
      rw [i2, hr]
      rfl
    · intro hc
      rw [i2] at hc
      by_contra hr
      rw [if_neg hr] at hc
      exact absurd hc (by decide)
  · intro hr
    rw [hr] at i2
    exact List.count_eq_zero.mp i2

/-- C21, witness. On a core whose playlist holds the playbacks 3 and 5, the
playback 7 is started, mixed to the end of a buffer of 1000 frames in four
ticks of 256 frames, started again and stopped with `disable`. -/
theorem playback_playlist_invariant_witness :
    7 ∉ ({ playlist_entries := [3, 5], shmpool_free := 4, output_delay := 0 } :
      CoreSound).playlist_entries ∧
    ¬ ((playback_run demo_tables 8 (demo_buffer_at 1000 48000)
          [PlaybackEvent.start false, PlaybackEvent.tick 48000 FSCM_STEREO 256 FSF_ONE,
           PlaybackEvent.tick 48000 FSCM_STEREO 256 FSF_ONE,
           PlaybackEvent.tick 48000 FSCM_STEREO 256 FSF_ONE,
           PlaybackEvent.tick 48000 FSCM_STEREO 256 FSF_ONE, PlaybackEvent.start false,
           PlaybackEvent.stop true]
          ({ playlist_entries := [3, 5], shmpool_free := 4, output_delay := 0 },
            fs_playback_create 7 true FSF_ONE FSF_ONE FSF_ONE)).2.disabled = true ∧
       (playback_run demo_tables 8 (demo_buffer_at 1000 48000)
          [PlaybackEvent.start false, PlaybackEvent.tick 48000 FSCM_STEREO 256 FSF_ONE,
           PlaybackEvent.tick 48000 FSCM_STEREO 256 FSF_ONE,
           PlaybackEvent.tick 48000 FSCM_STEREO 256 FSF_ONE,
           PlaybackEvent.tick 48000 FSCM_STEREO 256 FSF_ONE, PlaybackEvent.start false,
           PlaybackEvent.stop true]
          ({ playlist_entries := [3, 5], shmpool_free := 4, output_delay := 0 },
            fs_playback_create 7 true FSF_ONE FSF_ONE FSF_ONE)).2.running = true) :=
  ⟨by decide,
    (playback_playlist_invariant demo_tables 8 (demo_buffer_at 1000 48000)
      [PlaybackEvent.start false, PlaybackEvent.tick 48000 FSCM_STEREO 256 FSF_ONE,
       PlaybackEvent.tick 48000 FSCM_STEREO 256 FSF_ONE,
       PlaybackEvent.tick 48000 FSCM_STEREO 256 FSF_ONE,
       PlaybackEvent.tick 48000 FSCM_STEREO 256 FSF_ONE, PlaybackEvent.start false,
       PlaybackEvent.stop true]
      { playlist_entries := [3, 5], shmpool_free := 4, output_delay := 0 } 7 true FSF_ONE FSF_ONE
      FSF_ONE (by decide)).1⟩

/-! ## Output conversion and dither -/

/-- A body that only appends stores, run over a list of samples. -/
theorem output_fold_append (body : OutputState → Nat × Int → OutputState)
    (g : Nat × Int → List Store)
    (hb : ∀ st lane, body st lane = { st with dst := st.dst ++ g lane }) :
    ∀ (l : List (Nat × Int)) (st : OutputState),
      l.foldl body st = { st with dst := st.dst ++ l.flatMap g } := by
  intro l
  induction l with
  | nil =>
    intro st
    simp
  | cons a t ih =>
    intro st
    rw [List.foldl_cons, hb, ih]
    simp [List.flatMap_cons, List.append_assoc]

theorem flatMap_single (f : Nat × Int → Store) (l : List (Nat × Int)) :
    l.flatMap (fun a => [f a]) = l.map f := by
  induction l with
  | nil => rfl
  | cons a t ih => rw [List.flatMap_cons, ih]; rfl

theorem fsf_clip_range (s : Int) : -8388608 ≤ fsf_clip s ∧ fsf_clip s ≤ 8388607 := by
  unfold fsf_clip FSF_MAX FSF_MIN FSF_ONE FSF_DECIBITS
  norm_num
  split_ifs <;> omega

theorem fsf_to_u8_clip_range (s : Int) :
    0 ≤ fsf_to_u8 (fsf_clip s) ∧ fsf_to_u8 (fsf_clip s) ≤ 255 := by
  obtain ⟨h1, h2⟩ := fsf_clip_range s
  unfold fsf_to_u8 FSF_DECIBITS
  rw [Int.shiftRight_eq_div_pow]
  norm_num
  omega

theorem fsf_to_s16_clip_range (s : Int) :
    -32768 ≤ fsf_to_s16 (fsf_clip s) ∧ fsf_to_s16 (fsf_clip s) ≤ 32767 := by
  obtain ⟨h1, h2⟩ := fsf_clip_range s
  unfold fsf_to_s16 FSF_DECIBITS
  rw [Int.shiftRight_eq_div_pow]
  norm_num
  omega

/-- The stores of one sample for the device formats that are not dithered. -/
theorem output_body_plain (format : Nat) (dither WORDS_BIGENDIAN : Bool)
    (hf : format = FSSF_S24 ∨ format = FSSF_S32 ∨ format = FSSF_FLOAT) (st : OutputState)
    (lane : Nat × Int) :
    output_body format dither WORDS_BIGENDIAN st lane =
      { st with dst := st.dst ++ (output_body format false WORDS_BIGENDIAN
          { dither := [], dst := [] } lane).dst } := by
  have n1 : FSSF_S24 ≠ FSSF_U8 := by decide
  have n2 : FSSF_S24 ≠ FSSF_S16 := by decide
  have n3 : FSSF_S32 ≠ FSSF_U8 := by decide
  have n4 : FSSF_S32 ≠ FSSF_S16 := by decide
  have n5 : FSSF_S32 ≠ FSSF_S24 := by decide
  have n6 : FSSF_FLOAT ≠ FSSF_U8 := by decide
  have n7 : FSSF_FLOAT ≠ FSSF_S16 := by decide
  have n8 : FSSF_FLOAT ≠ FSSF_S24 := by decide
  have n9 : FSSF_FLOAT ≠ FSSF_S32 := by decide
  unfold output_body
  rcases hf with hf | hf | hf
  · rw [hf]
    simp only [if_neg n1, if_neg n2, if_pos]
    cases WORDS_BIGENDIAN <;> simp
  · rw [hf]
    simp only [if_neg n3, if_neg n4, if_neg n5, if_pos]
    simp
  · rw [hf]
    simp only [if_neg n6, if_neg n7, if_neg n8, if_neg n9, if_pos]
    simp

/-- The store of one sample for `FSSF_U8` and `FSSF_S16` with dither off. -/
theorem output_body_undithered (WORDS_BIGENDIAN : Bool) (st : OutputState) (lane : Nat × Int) :
    output_body FSSF_U8 false WORDS_BIGENDIAN st lane =
      { st with dst := st.dst ++ [Store.u8 (fsf_to_u8 (fsf_clip lane.2))] } ∧
    output_body FSSF_S16 false WORDS_BIGENDIAN st lane =
      { st with dst := st.dst ++ [Store.u16 (fsf_to_s16 (fsf_clip lane.2) % 2 ^ 16)] } := by
  have n1 : FSSF_S16 ≠ FSSF_U8 := by decide
  obtain ⟨h1, h2⟩ := fsf_to_u8_clip_range lane.2
  constructor
  · unfold output_body output_dither
    simp only [if_pos, Bool.false_eq_true, if_false]
    rw [Int.emod_eq_of_lt h1 (by norm_num; omega)]
  · unfold output_body output_dither
    simp only [if_neg n1, if_pos, Bool.false_eq_true, if_false]

/-- C30. The output conversion of the mixer.  For the device formats S24, S32
and FLOAT the stores are the same whatever the dither flag and the dither
profiles are, and the profiles are left as they were.  For U8 and S16 with
dither off the profiles are left as they were and each sample `s` handed out by
`FS_MIX_OUTPUT_LOOP`, a lane or the sum of lanes formed in `int`, is stored as
`fsf_to_u8(fsf_clip(s))`, a value from 0 to 255, or as the 16 bit pattern of
`fsf_to_s16(fsf_clip(s))`, a value from -32768 to 32767.  With dither on the U8
stores do change: the sample 100000 of the left channel is stored as 129
without dither and as 130 with it.  On a stereo device the frame with left and
center 2000000000 has the left sum -294967296 in `int`, stored as the pattern
32768 of -32768, and the right sum 2000000000, stored as 32767. -/
theorem dither_gating (mode : Nat) (WORDS_BIGENDIAN : Bool) (mixing : List Int) (count : Nat) :
    (∀ format, format = FSSF_S24 ∨ format = FSSF_S32 ∨ format = FSSF_FLOAT →
      ∀ (d1 d2 : Bool) (st1 st2 : OutputState), st1.dst = st2.dst →
        (fs_sound_thread_output format mode d1 WORDS_BIGENDIAN st1 mixing count).dst =
          (fs_sound_thread_output format mode d2 WORDS_BIGENDIAN st2 mixing count).dst ∧
        (fs_sound_thread_output format mode d1 WORDS_BIGENDIAN st1 mixing count).dither =
          st1.dither) ∧
    (∀ st : OutputState,
      fs_sound_thread_output FSSF_U8 mode false WORDS_BIGENDIAN st mixing count =
        { st with dst := (st.dst ++ (mix_output_samples mode mixing count).map
            (fun lane => Store.u8 (fsf_to_u8 (fsf_clip lane.2)))) }) ∧
    (∀ st : OutputState,
      fs_sound_thread_output FSSF_S16 mode false WORDS_BIGENDIAN st mixing count =
        { st with dst := (st.dst ++ (mix_output_samples mode mixing count).map
            (fun lane => Store.u16 (fsf_to_s16 (fsf_clip lane.2) % 2 ^ 16))) }) ∧
    (∀ s : Int, 0 ≤ fsf_to_u8 (fsf_clip s) ∧ fsf_to_u8 (fsf_clip s) ≤ 255 ∧
      -32768 ≤ fsf_to_s16 (fsf_clip s) ∧ fsf_to_s16 (fsf_clip s) ≤ 32767) ∧
    (fs_sound_thread_output FSSF_U8 FSCM_SURROUND51 false false
        { dither := List.replicate 6 DitherProfile.zero, dst := [] }
        [100000, 0, 0, 0, 0, 0] 1).dst.head? = some (Store.u8 129) ∧
    (fs_sound_thread_output FSSF_U8 FSCM_SURROUND51 true false
        { dither := List.replicate 6 DitherProfile.zero, dst := [] }
        [100000, 0, 0, 0, 0, 0] 1).dst.head? = some (Store.u8 130) ∧
    mix_output_lanes FSCM_STEREO (fun c => [2000000000, 0, 2000000000, 0, 0, 0].getD c 0) =
      [(0, -294967296), (1, 2000000000)] ∧
    (fs_sound_thread_output FSSF_S16 FSCM_STEREO false false
        { dither := List.replicate 6 DitherProfile.zero, dst := [] }
        [2000000000, 0, 2000000000, 0, 0, 0] 1).dst = [Store.u16 32768, Store.u16 32767] := by
  refine ⟨?_, ?_, ?_, ?_, by decide, by decide, by decide, by decide⟩
  · intro format hf d1 d2 st1 st2 hst
    unfold fs_sound_thread_output
    rw [output_fold_append _ _ (output_body_plain format d1 WORDS_BIGENDIAN hf),
      output_fold_append _ _ (output_body_plain format d2 WORDS_BIGENDIAN hf)]
    exact ⟨by rw [hst], rfl⟩
  · intro st
    unfold fs_sound_thread_output
    rw [output_fold_append _ _ (fun st lane => (output_body_undithered WORDS_BIGENDIAN st lane).1),
      flatMap_single]
  · intro st
    unfold fs_sound_thread_output
    rw [output_fold_append _ _ (fun st lane => (output_body_undithered WORDS_BIGENDIAN st lane).2),
      flatMap_single]
  · intro s
    exact ⟨(fsf_to_u8_clip_range s).1, (fsf_to_u8_clip_range s).2, (fsf_to_s16_clip_range s).1,
      (fsf_to_s16_clip_range s).2⟩

/-! ## Suspend and resume -/

/-- C31. With a device whose suspend and resume succeed: `fs_core_suspend` on a
suspended core and `fs_core_resume` on a running core return `DR_BUSY` and
leave the state as it was; `fs_core_suspend` on a running core sets `suspended`
and `fs_core_resume` on a suspended core clears it, both with `DR_OK`; and on a
suspended core `fs_core_get_master_volume` and `fs_core_set_master_volume`
return `DR_SUSPENDED` and leave the soft volume (and the suspended flag) as it
was. -/
theorem suspend_resume_machine (device : CoreSoundDevice) (core : CoreSoundControl)
    (hs : device.suspend = DR_OK) (hr : device.resume = DR_OK) :
    (core.suspended = true → fs_core_suspend device core = (core, DR_BUSY)) ∧
    (core.suspended = false → fs_core_resume device core = (core, DR_BUSY)) ∧
    (core.suspended = false →
      fs_core_suspend device core =
        ({ core with sound_thread := false, suspended := true }, DR_OK)) ∧
    (core.suspended = true →
      fs_core_resume device core =
        ({ core with sound_thread := true, suspended := false }, DR_OK)) ∧
    (core.suspended = true →
      (fs_core_get_master_volume device core).1 = core ∧
      (fs_core_get_master_volume device core).2.1 = DR_SUSPENDED) ∧
    (core.suspended = true → ∀ level : Rat,
      (fs_core_set_master_volume device core level).2 = DR_SUSPENDED ∧
      (fs_core_set_master_volume device core level).1.soft_volume = core.soft_volume ∧
      (fs_core_set_master_volume device core level).1.suspended = true) := by
  rcases core with ⟨su, th, sv, ca⟩
  refine ⟨?_, ?_, ?_, ?_, ?_, ?_⟩
  · intro h
    simp only at h
    subst h
    simp [fs_core_suspend, Core_Call_Handler, CSCID_SUSPEND, CSCID_GET_VOLUME, CSCID_SET_VOLUME]
  · intro h
    simp only at h
    subst h
    simp [fs_core_resume, Core_Call_Handler, CSCID_RESUME, CSCID_SUSPEND, CSCID_GET_VOLUME,
      CSCID_SET_VOLUME]
  · intro h
    simp only at h
    subst h
    simp [fs_core_suspend, Core_Call_Handler, CSCID_SUSPEND, CSCID_GET_VOLUME, CSCID_SET_VOLUME,
      hs]
  · intro h
    simp only at h
    subst h
    simp [fs_core_resume, Core_Call_Handler, CSCID_RESUME, CSCID_SUSPEND, CSCID_GET_VOLUME,
      CSCID_SET_VOLUME, hr]
  · intro h
    simp only at h
    subst h
    simp [fs_core_get_master_volume, Core_Call_Handler, CSCID_GET_VOLUME]
  · intro h level
    simp only at h
    subst h
    simp [fs_core_set_master_volume, Core_Call_Handler, CSCID_GET_VOLUME, CSCID_SET_VOLUME]

/-- C31, instance: the running demo core on the demo device. -/
theorem suspend_resume_machine_witness :
    demo_device.suspend = DR_OK ∧ demo_device.resume = DR_OK ∧
    fs_core_suspend demo_device demo_control =
      ({ demo_control with sound_thread := false, suspended := true }, DR_OK) :=
  ⟨rfl, rfl, (suspend_resume_machine demo_device demo_control rfl rfl).2.2.1 rfl⟩

/-! ## Locking a buffer -/

/-- C32, counterexample. On a buffer of 10 frames with 4 bytes per frame,
`fs_buffer_lock` at position 20 with length 5, outside the buffer, returns
`DR_OK` with the region at byte offset 80 of length 20, not `DR_INVARG`. -/
theorem buffer_lock_counterexample :
    fs_buffer_lock { length := 10, mode := FSCM_STEREO, format := FSSF_S16, rate := 48000,
                     bytes := 4, data := fun _ => 0 } 20 5 = (DR_OK, 80, 20) := by
  decide

/-- C32, amended. For every buffer, position and length, in range or not,
`fs_buffer_lock` returns `DR_OK` with the region that starts at byte offset
`bytes * pos` and has `bytes * len` bytes, or `bytes * (L - pos)` bytes when
`len = 0`; `IFusionSoundBuffer_SetPosition` is what rejects a position outside
`[0, L)` with `DR_INVARG`. -/
theorem buffer_lock_contract (buffer : CoreSoundBuffer) (pos len : Int) :
    (len ≠ 0 → fs_buffer_lock buffer pos len = (DR_OK, buffer.bytes * pos, buffer.bytes * len)) ∧
    (len = 0 → fs_buffer_lock buffer pos len =
      (DR_OK, buffer.bytes * pos, buffer.bytes * (buffer.length - pos))) ∧
    (∀ data : IFusionSoundBuffer_data, pos < 0 ∨ pos ≥ data.length →
      IFusionSoundBuffer_SetPosition data pos = (data, DR_INVARG)) ∧
    (∀ data : IFusionSoundBuffer_data, 0 ≤ pos → pos < data.length →
      IFusionSoundBuffer_SetPosition data pos = ({ data with pos := pos }, DR_OK)) := by
  refine ⟨?_, ?_, ?_, ?_⟩
  · intro h
    simp [fs_buffer_lock, h]
  · intro h
    simp [fs_buffer_lock, h]
  · intro data h
    simp only [IFusionSoundBuffer_SetPosition]
    rw [if_pos h]
  · intro data h1 h2
    simp only [IFusionSoundBuffer_SetPosition]
    rw [if_neg (by omega)]

/-! ## Position and frame count of a mixer step -/

/-- The step has the sign of the pitch and is bounded by the pitch times the
ratio of the rates. -/
theorem mixto_inc_bound (buffer : CoreSoundBuffer) (pitch rate K P : Int)
    (hb : 0 < buffer.rate) (hr : 0 < rate) (hK : buffer.rate ≤ K * rate)
    (hP : -P ≤ pitch ∧ pitch ≤ P) :
    (¬ pitch < 0 → 0 ≤ mixto_inc buffer pitch rate ∧ mixto_inc buffer pitch rate ≤ K * P) ∧
    (pitch < 0 → -(K * P) ≤ mixto_inc buffer pitch rate ∧ mixto_inc buffer pitch rate ≤ 0) := by
  have hK0 : 0 ≤ K := by
    by_contra h
    have : K * rate < 0 := mul_neg_of_neg_of_pos (by omega) hr
    omega
  have key : ∀ q : Int, 0 ≤ q → q ≤ P →
      0 ≤ Int.tdiv (buffer.rate * q) rate ∧ Int.tdiv (buffer.rate * q) rate ≤ K * P := by
    intro q hq0 hq1
    have h1 : 0 ≤ buffer.rate * q := mul_nonneg hb.le hq0
    rw [Int.tdiv_eq_ediv h1 hr.le]
    refine ⟨Int.ediv_nonneg h1 hr.le, ?_⟩
    apply Int.ediv_le_of_le_mul hr
    have h2 : buffer.rate * q ≤ (K * rate) * P :=
      mul_le_mul hK hq1 hq0 (mul_nonneg hK0 hr.le)
    calc buffer.rate * q ≤ (K * rate) * P := h2
      _ = K * P * rate := by ring
  unfold mixto_inc
  constructor
  · intro hp
    exact key pitch (by omega) hP.2
  · intro hp
    have := key (-pitch) (by omega) (by omega)
    rw [mul_neg, Int.neg_tdiv] at this
    omega

/-- The sign and the size of `max` after the block `if (stop >= 0)`. -/
theorem mixto_max_sign (SIZEOF_LONG : Nat) (buffer : CoreSoundBuffer)
    (rate max_frames pos stop pitch : Int)
    (hpos : 0 ≤ pos ∧ pos < buffer.length) (hstop : stop ≤ buffer.length)
    (hmf : 0 ≤ max_frames)
    (hsign : (¬ pitch < 0 → 0 ≤ mixto_inc buffer pitch rate) ∧
      (pitch < 0 → mixto_inc buffer pitch rate ≤ 0)) :
    (¬ pitch < 0 →
      0 ≤ (mixto_max SIZEOF_LONG buffer rate max_frames pos stop pitch).1 ∧
      (mixto_max SIZEOF_LONG buffer rate max_frames pos stop pitch).1 ≤
        max_frames * mixto_inc buffer pitch rate) ∧
    (pitch < 0 →
      max_frames * mixto_inc buffer pitch rate ≤
        (mixto_max SIZEOF_LONG buffer rate max_frames pos stop pitch).1 ∧
      (mixto_max SIZEOF_LONG buffer rate max_frames pos stop pitch).1 ≤ 0) := by
  have h14 : (2 : Int) ^ FS_PITCH_BITS = 16384 := by decide
  unfold mixto_max
  unfold mixto_inc at hsign ⊢
  simp only [h14]
  generalize Int.tdiv (buffer.rate * pitch) rate = inc at hsign ⊢
  constructor
  · intro hp
    have hi := hsign.1 hp
    have hm : 0 ≤ max_frames * inc := mul_nonneg hmf hi
    generalize max_frames * inc = m at hm ⊢
    have hc : 0 ≤ clamp_long SIZEOF_LONG m ∧ clamp_long SIZEOF_LONG m ≤ m := by
      unfold clamp_long
      split_ifs <;> omega
    generalize clamp_long SIZEOF_LONG m = c at hc ⊢
    simp only [if_neg hp]
    split_ifs <;> simp only <;> omega
  · intro hp
    have hi := hsign.2 hp
    have hm : max_frames * inc ≤ 0 := mul_nonpos_of_nonneg_of_nonpos hmf hi
    generalize max_frames * inc = m at hm ⊢
    have hc : m ≤ clamp_long SIZEOF_LONG m ∧ clamp_long SIZEOF_LONG m ≤ 0 := by
      unfold clamp_long
      split_ifs <;> omega
    generalize clamp_long SIZEOF_LONG m = c at hc ⊢
    simp only [if_pos hp]
    split_ifs <;> simp only <;> omega

/-- The position and the frame count `fs_buffer_mixto_int` returns, when the
count and the sum fit an `int`. -/
theorem fs_buffer_mixto_int_fit (T : MixTables) (SIZEOF_LONG : Nat) (buffer : CoreSoundBuffer)
    (dest : List Int) (rate : Int) (mode : Nat) (max_frames pos stop : Int)
    (levels : List Int) (pitch : Int) (hL : 0 < buffer.length)
    (h1 : in_int ((mixto_max SIZEOF_LONG buffer rate max_frames pos stop pitch).1 >>>
      FS_PITCH_BITS))
    (h2 : in_int (pos + (mixto_max SIZEOF_LONG buffer rate max_frames pos stop pitch).1 >>>
      FS_PITCH_BITS)) :
    (fs_buffer_mixto_int T SIZEOF_LONG buffer dest rate mode max_frames pos stop levels
      pitch).ret_pos =
      (pos + (mixto_max SIZEOF_LONG buffer rate max_frames pos stop pitch).1 >>>
        FS_PITCH_BITS) % buffer.length ∧
    (fs_buffer_mixto_int T SIZEOF_LONG buffer dest rate mode max_frames pos stop levels
      pitch).ret_num =
      |(mixto_max SIZEOF_LONG buffer rate max_frames pos stop pitch).1 >>> FS_PITCH_BITS| := by
  unfold fs_buffer_mixto_int
  simp only [int_wrap_of_in_int _ h1, int_wrap_of_in_int _ h2]
  exact ⟨tmod_wrap _ _ hL, trivial⟩

/-- The two models of `fs_buffer_mixto` agree when the count and the sum fit
an `int`. -/
theorem fs_buffer_mixto_int_eq (T : MixTables) (SIZEOF_LONG : Nat) (buffer : CoreSoundBuffer)
    (dest : List Int) (rate : Int) (mode : Nat) (max_frames pos stop : Int)
    (levels : List Int) (pitch : Int)
    (h1 : in_int ((mixto_max SIZEOF_LONG buffer rate max_frames pos stop pitch).1 >>>
      FS_PITCH_BITS))
    (h2 : in_int (pos + (mixto_max SIZEOF_LONG buffer rate max_frames pos stop pitch).1 >>>
      FS_PITCH_BITS)) :
    fs_buffer_mixto_int T SIZEOF_LONG buffer dest rate mode max_frames pos stop levels pitch =
      fs_buffer_mixto T SIZEOF_LONG buffer dest rate mode max_frames pos stop levels pitch := by
  unfold fs_buffer_mixto_int
  simp only [int_wrap_of_in_int _ h1, int_wrap_of_in_int _ h2]
  rfl

/-- C38, counterexample. On a build with an 8 byte `long`, a looping playback
of a buffer of 1000 frames at 192000 Hz, mixed at 100 Hz with pitch 64 and
`max_frames = 65535` from position 0: `max >> 14` is 8052940800, which the
`int` `num` holds as -536993792.  The call reports 536993792 frames and the
position 208, while `(0 + 536993792) mod 1000` is 792. -/
theorem mixto_position_counterexample :
    (fs_buffer_mixto_int demo_tables 8 (demo_buffer_at 1000 192000) [] 100 FSCM_STEREO 65535 0
      (-1) [] (64 * FS_PITCH_ONE)).ret_num = 536993792 ∧
    (fs_buffer_mixto_int demo_tables 8 (demo_buffer_at 1000 192000) [] 100 FSCM_STEREO 65535 0
      (-1) [] (64 * FS_PITCH_ONE)).ret_pos = 208 ∧
    ((0 : Int) + 536993792) % 1000 = 792 ∧
    (mixto_max 8 (demo_buffer_at 1000 192000) 100 65535 0 (-1) (64 * FS_PITCH_ONE)).1 >>>
      FS_PITCH_BITS = 8052940800 := by
  decide

/-- C38, amended. For a buffer of `1 ≤ L ≤ 2^30` frames whose rate is at most
256 times the rate mixed at, `0 ≤ pos < L`, `stop ≤ L`,
`0 ≤ max_frames ≤ 65535`, `|pitch| ≤ 64 * 2^14` and positive rates, the position
`fs_buffer_mixto` returns lies in `[0, L)` and equals `(pos + ret_num) mod L`
for `pitch ≥ 0` and `(pos - ret_num) mod L` for `pitch < 0`, `ret_num` being the
reported number of mixed frames. -/
theorem mixto_position_range (T : MixTables) (SIZEOF_LONG : Nat) (buffer : CoreSoundBuffer)
    (dest : List Int) (rate : Int) (mode : Nat) (max_frames pos stop : Int)
    (levels : List Int) (pitch : Int)
    (hL : 1 ≤ buffer.length ∧ buffer.length ≤ 2 ^ 30)
    (hpos : 0 ≤ pos ∧ pos < buffer.length) (hstop : stop ≤ buffer.length)
    (hmf : 0 ≤ max_frames ∧ max_frames ≤ 65535)
    (hpitch : -(64 * FS_PITCH_ONE) ≤ pitch ∧ pitch ≤ 64 * FS_PITCH_ONE)
    (hb : 0 < buffer.rate) (hr : 0 < rate) (hratio : buffer.rate ≤ 256 * rate) :
    0 ≤ (fs_buffer_mixto_int T SIZEOF_LONG buffer dest rate mode max_frames pos stop levels
      pitch).ret_pos ∧
    (fs_buffer_mixto_int T SIZEOF_LONG buffer dest rate mode max_frames pos stop levels
      pitch).ret_pos < buffer.length ∧
    (pitch ≥ 0 →
      (fs_buffer_mixto_int T SIZEOF_LONG buffer dest rate mode max_frames pos stop levels
        pitch).ret_pos =
        (pos + (fs_buffer_mixto_int T SIZEOF_LONG buffer dest rate mode max_frames pos stop
          levels pitch).ret_num) % buffer.length) ∧
    (pitch < 0 →
      (fs_buffer_mixto_int T SIZEOF_LONG buffer dest rate mode max_frames pos stop levels
        pitch).ret_pos =
        (pos - (fs_buffer_mixto_int T SIZEOF_LONG buffer dest rate mode max_frames pos stop
          levels pitch).ret_num) % buffer.length) := by
  have hP : (64 : Int) * FS_PITCH_ONE = 1048576 := by decide
  have h30 : (2 : Int) ^ 30 = 1073741824 := by norm_num
  rw [hP] at hpitch
  rw [h30] at hL
  have hinc := mixto_inc_bound buffer pitch rate 256 1048576 hb hr hratio hpitch
  have hsg := mixto_max_sign SIZEOF_LONG buffer rate max_frames pos stop pitch hpos hstop hmf.1
    ⟨fun h => (hinc.1 h).1, fun h => (hinc.2 h).2⟩
  have hLpos : 0 < buffer.length := by omega
  have hsh : ∀ x : Int, x >>> FS_PITCH_BITS = x / 16384 := by
    intro x
    rw [Int.shiftRight_eq_div_pow]
    rfl
  have hM : -(65535 * 268435456) ≤
        (mixto_max SIZEOF_LONG buffer rate max_frames pos stop pitch).1 ∧
      (mixto_max SIZEOF_LONG buffer rate max_frames pos stop pitch).1 ≤ 65535 * 268435456 ∧
      (pitch ≥ 0 → 0 ≤ (mixto_max SIZEOF_LONG buffer rate max_frames pos stop pitch).1) ∧
      (pitch < 0 → (mixto_max SIZEOF_LONG buffer rate max_frames pos stop pitch).1 ≤ 0) := by
    by_cases hp : pitch < 0
    · have hi := hinc.2 hp
      have hs := hsg.2 hp
      have hm : max_frames * (-mixto_inc buffer pitch rate) ≤ 65535 * (256 * 1048576) :=
        mul_le_mul hmf.2 (by omega) (by omega) (by norm_num)
      rw [mul_neg] at hm
      refine ⟨by omega, by omega, fun h => by omega, fun _ => hs.2⟩
    · have hi := hinc.1 hp
      have hs := hsg.1 hp
      have hm : max_frames * mixto_inc buffer pitch rate ≤ 65535 * (256 * 1048576) :=
        mul_le_mul hmf.2 hi.2 hi.1 (by norm_num)
      refine ⟨by omega, by omega, fun _ => hs.1, fun h => by omega⟩
  generalize hMdef : (mixto_max SIZEOF_LONG buffer rate max_frames pos stop pitch).1 = M at hM
  have h1 : in_int (M >>> FS_PITCH_BITS) := by
    rw [hsh]
    constructor <;> omega
  have h2 : in_int (pos + M >>> FS_PITCH_BITS) := by
    rw [hsh]
    constructor <;> omega
  rw [← hMdef] at h1 h2
  obtain ⟨e1, e2⟩ := fs_buffer_mixto_int_fit T SIZEOF_LONG buffer dest rate mode max_frames pos
    stop levels pitch hLpos h1 h2
  rw [e1, e2, hMdef, hsh]
  refine ⟨Int.emod_nonneg _ (by omega), Int.emod_lt_of_pos _ hLpos, ?_, ?_⟩
  · intro hp
    rw [abs_of_nonneg (by have := hM.2.2.1 hp; omega)]
  · intro hp
    rw [abs_of_nonpos (by have := hM.2.2.2 hp; omega)]
    congr 1
    ring

/-- C38, instance: a buffer of 1000 frames at 44100 Hz mixed at 48000 Hz with
pitch 2, 4096 frames from position 10 with the stop at 500. -/
theorem mixto_position_range_witness :
    (fs_buffer_mixto_int demo_tables 8 (demo_buffer_at 1000 44100) [] 48000 FSCM_STEREO 4096 10
      500 [] (2 * FS_PITCH_ONE)).ret_pos < (demo_buffer_at 1000 44100).length :=
  (mixto_position_range demo_tables 8 (demo_buffer_at 1000 44100) [] 48000 FSCM_STEREO 4096 10
    500 [] (2 * FS_PITCH_ONE) (by decide) (by decide) (by decide) (by decide) (by decide)
    (by decide) (by decide) (by decide)).2.1

/-! ## A step of zero -/

/-- The number of samples the output loop hands out for a frame does not
depend on the samples. -/
theorem mix_output_lanes_length (mode : Nat) (src : Nat → Int) :
    (mix_output_lanes mode src).length = (mix_output_lanes mode (fun _ => 0)).length := by
  unfold mix_output_lanes
  split_ifs <;> rfl

theorem mix_output_samples_succ (mode : Nat) (mixing : List Int) (count : Nat) :
    mix_output_samples mode mixing (count + 1) =
      mix_output_samples mode mixing count ++
        mix_output_lanes mode (fun c => mixing.getD (count * FS_MAX_CHANNELS + c) 0) := by
  unfold mix_output_samples
  rw [List.range_succ, List.flatMap_append]
  simp

theorem mix_output_samples_length (mode : Nat) (mixing : List Int) (count : Nat) :
    (mix_output_samples mode mixing count).length =
      count * (mix_output_lanes mode (fun _ => 0)).length := by
  induction count with
  | zero => simp [mix_output_samples]
  | succ n ih =>
    rw [mix_output_samples_succ, List.length_append, ih,
      mix_output_lanes_length mode (fun c => mixing.getD (n * FS_MAX_CHANNELS + c) 0)]
    ring

/-- The bytes one run of the body stores: the bytes of a sample of the
format. -/
theorem output_body_bytes (format : Nat) (hf : format ∈ sample_formats)
    (dither WORDS_BIGENDIAN : Bool) (st : OutputState) (lane : Nat × Int) :
    stores_bytes (output_body format dither WORDS_BIGENDIAN st lane).dst =
      stores_bytes st.dst + FS_BYTES_PER_SAMPLE format := by
  have n1 : FSSF_S24 ≠ FSSF_U8 := by decide
  have n2 : FSSF_S24 ≠ FSSF_S16 := by decide
  have n3 : FSSF_S32 ≠ FSSF_U8 := by decide
  have n4 : FSSF_S32 ≠ FSSF_S16 := by decide
  have n5 : FSSF_S32 ≠ FSSF_S24 := by decide
  have n6 : FSSF_FLOAT ≠ FSSF_U8 := by decide
  have n7 : FSSF_FLOAT ≠ FSSF_S16 := by decide
  have n8 : FSSF_FLOAT ≠ FSSF_S24 := by decide
  have n9 : FSSF_FLOAT ≠ FSSF_S32 := by decide
  have n0 : FSSF_S16 ≠ FSSF_U8 := by decide
  have b1 : FS_BYTES_PER_SAMPLE FSSF_U8 = 1 := by decide
  have b2 : FS_BYTES_PER_SAMPLE FSSF_S16 = 2 := by decide
  have b3 : FS_BYTES_PER_SAMPLE FSSF_S24 = 3 := by decide
  have b4 : FS_BYTES_PER_SAMPLE FSSF_S32 = 4 := by decide
  have b5 : FS_BYTES_PER_SAMPLE FSSF_FLOAT = 4 := by decide
  simp only [sample_formats, List.mem_cons, List.mem_singleton, List.not_mem_nil,
    or_false] at hf
  unfold output_body output_dither stores_bytes
  rcases hf with hf | hf | hf | hf | hf
  · rw [hf, b1]
    simp only [if_pos]
    cases dither <;> simp [Store.bytes]
  · rw [hf, b2]
    simp only [if_neg n0, if_pos]
    cases dither <;> simp [Store.bytes]
  · rw [hf, b3]
    simp only [if_neg n1, if_neg n2, if_pos]
    cases WORDS_BIGENDIAN <;> simp [Store.bytes]
  · rw [hf, b4]
    simp only [if_neg n3, if_neg n4, if_neg n5, if_pos]
    simp [Store.bytes]
  · rw [hf, b5]
    simp only [if_neg n6, if_neg n7, if_neg n8, if_neg n9, if_pos]
    simp [Store.bytes]

theorem output_fold_bytes (format : Nat) (hf : format ∈ sample_formats)
    (dither WORDS_BIGENDIAN : Bool) : ∀ (l : List (Nat × Int)) (st : OutputState),
    stores_bytes (l.foldl (output_body format dither WORDS_BIGENDIAN) st).dst =
      stores_bytes st.dst + l.length * FS_BYTES_PER_SAMPLE format := by
  intro l
  induction l with
  | nil =>
    intro st
    simp
  | cons a t ih =>
    intro st
    rw [List.foldl_cons, ih, output_body_bytes format hf, List.length_cons]
    ring

/-- The bytes the output conversion writes for `count` frames. -/
theorem fs_sound_thread_output_bytes (format : Nat) (hf : format ∈ sample_formats) (mode : Nat)
    (dither WORDS_BIGENDIAN : Bool) (st : OutputState) (mixing : List Int) (count : Nat) :
    stores_bytes (fs_sound_thread_output format mode dither WORDS_BIGENDIAN st mixing count).dst =
      stores_bytes st.dst +
        count * (mix_output_lanes mode (fun _ => 0)).length * FS_BYTES_PER_SAMPLE format := by
  unfold fs_sound_thread_output
  rw [output_fold_bytes format hf, mix_output_samples_length]

/-- C40. The output loop stores `FS_CHANNELS_FOR_MODE(mode)` samples a frame for
twelve of the thirteen channel modes: the conversion of `count` frames to any of
the five formats then writes `count * FS_CHANNELS_FOR_MODE(mode) *
FS_BYTES_PER_SAMPLE(format)` bytes.  For `FSCM_STEREO31` it stores four samples
a frame where `FS_CHANNELS_FOR_MODE` is 3: one frame in S16 takes 8 bytes, not
6. -/
theorem output_frame_width :
    (∀ format ∈ sample_formats, ∀ mode ∈ channel_modes, mode ≠ FSCM_STEREO31 →
      ∀ (dither WORDS_BIGENDIAN : Bool) (st : OutputState) (mixing : List Int) (count : Nat),
        stores_bytes
            (fs_sound_thread_output format mode dither WORDS_BIGENDIAN st mixing count).dst =
          stores_bytes st.dst +
            count * FS_CHANNELS_FOR_MODE mode * FS_BYTES_PER_SAMPLE format) ∧
    (∀ format ∈ sample_formats,
      ∀ (dither WORDS_BIGENDIAN : Bool) (st : OutputState) (mixing : List Int) (count : Nat),
        stores_bytes
            (fs_sound_thread_output format FSCM_STEREO31 dither WORDS_BIGENDIAN st mixing
              count).dst =
          stores_bytes st.dst + count * 4 * FS_BYTES_PER_SAMPLE format) ∧
    FS_CHANNELS_FOR_MODE FSCM_STEREO31 = 3 ∧
    stores_bytes
        (fs_sound_thread_output FSSF_S16 FSCM_STEREO31 false false
          { dither := List.replicate 6 DitherProfile.zero, dst := [] } [0, 0, 0, 0, 0, 0] 1).dst
      = 8 ∧
    1 * FS_CHANNELS_FOR_MODE FSCM_STEREO31 * FS_BYTES_PER_SAMPLE FSSF_S16 = 6 := by
  have hl : ∀ mode ∈ channel_modes, mode ≠ FSCM_STEREO31 →
      (mix_output_lanes mode (fun _ => 0)).length = FS_CHANNELS_FOR_MODE mode := by decide
  have h4 : (mix_output_lanes FSCM_STEREO31 (fun _ => 0)).length = 4 := by decide
  refine ⟨?_, ?_, by decide, by decide, by decide⟩
  · intro format hf mode hm hne dither be st mixing count
    rw [fs_sound_thread_output_bytes format hf, hl mode hm hne]
  · intro format hf dither be st mixing count
    rw [fs_sound_thread_output_bytes format hf, h4]

/-! ## Equal channels through the stereo downmix -/

/-- One stereo frame in S16 whose two samples are equal, run through the body
on a state whose first two dither profiles are equal: the same value is stored
twice, and the first two profiles are equal afterwards. -/
theorem output_body_stereo_pair (dither WORDS_BIGENDIAN : Bool) (st : OutputState) (s : Int)
    (hlen : 2 ≤ st.dither.length)
    (hd : st.dither.getD 0 DitherProfile.zero = st.dither.getD 1 DitherProfile.zero) :
    ∃ v : Int,
      ([(0, s), (1, s)].foldl (output_body FSSF_S16 dither WORDS_BIGENDIAN) st).dst =
        st.dst ++ [Store.u16 v, Store.u16 v] ∧
      ([(0, s), (1, s)].foldl (output_body FSSF_S16 dither WORDS_BIGENDIAN) st).dither.length =
        st.dither.length ∧
      ([(0, s), (1, s)].foldl (output_body FSSF_S16 dither WORDS_BIGENDIAN) st).dither.getD 0
          DitherProfile.zero =
        ([(0, s), (1, s)].foldl (output_body FSSF_S16 dither WORDS_BIGENDIAN) st).dither.getD 1
          DitherProfile.zero := by
  have n0 : FSSF_S16 ≠ FSSF_U8 := by decide
  rcases st with ⟨d, dst⟩
  rcases d with _ | ⟨x, _ | ⟨y, t⟩⟩
  · simp at hlen
  · simp at hlen
  · simp only [List.getD_cons_zero, List.getD_cons_succ] at hd
    subst hd
    cases dither
    · refine ⟨fsf_to_s16 (fsf_clip s) % 2 ^ 16, ?_, ?_, ?_⟩ <;>
        simp [output_body, output_dither, n0]
    · refine ⟨fsf_to_s16 (fsf_clip (fsf_dither s 16 x).1) % 2 ^ 16, ?_, ?_, ?_⟩ <;>
        simp [output_body, output_dither, n0]

/-- C33. A stereo device in S16, dither on or off, with dither profiles of the
left and right channel that are equal at the start: if in every frame of the
accumulator the L and R lanes are equal and the Rl and Rr lanes are equal,
then every output frame stores the same 16 bit value for left and right, and
the two profiles are equal afterwards. -/
theorem centre_downmix_symmetric (dither WORDS_BIGENDIAN : Bool) (st : OutputState)
    (mixing : List Int) (count : Nat)
    (hlen : 2 ≤ st.dither.length)
    (hd : st.dither.getD 0 DitherProfile.zero = st.dither.getD 1 DitherProfile.zero)
    (hLR : ∀ n, n < count →
      mixing.getD (n * FS_MAX_CHANNELS + 0) 0 = mixing.getD (n * FS_MAX_CHANNELS + 1) 0 ∧
      mixing.getD (n * FS_MAX_CHANNELS + 3) 0 = mixing.getD (n * FS_MAX_CHANNELS + 4) 0) :
    ∃ vs : List Int, vs.length = count ∧
      (fs_sound_thread_output FSSF_S16 FSCM_STEREO dither WORDS_BIGENDIAN st mixing count).dst =
        st.dst ++ vs.flatMap (fun v => [Store.u16 v, Store.u16 v]) ∧
      (fs_sound_thread_output FSSF_S16 FSCM_STEREO dither WORDS_BIGENDIAN st mixing
          count).dither.length = st.dither.length ∧
      (fs_sound_thread_output FSSF_S16 FSCM_STEREO dither WORDS_BIGENDIAN st mixing
          count).dither.getD 0 DitherProfile.zero =
        (fs_sound_thread_output FSSF_S16 FSCM_STEREO dither WORDS_BIGENDIAN st mixing
          count).dither.getD 1 DitherProfile.zero := by
  have n1 : FSCM_STEREO ≠ FSCM_MONO := by decide
  induction count with
  | zero =>
    exact ⟨[], rfl, by simp [fs_sound_thread_output, mix_output_samples], rfl, hd⟩
  | succ n ih =>
    obtain ⟨vs, h1, h2, h3, h4⟩ := ih (fun k hk => hLR k (by omega))
    obtain ⟨e1, e2⟩ := hLR n (by omega)
    have hl : mix_output_lanes FSCM_STEREO
        (fun c => mixing.getD (n * FS_MAX_CHANNELS + c) 0) =
        [(0, int_wrap (mixing.getD (n * FS_MAX_CHANNELS + 0) 0 +
            mixing.getD (n * FS_MAX_CHANNELS + 2) 0 + mixing.getD (n * FS_MAX_CHANNELS + 3) 0)),
         (1, int_wrap (mixing.getD (n * FS_MAX_CHANNELS + 0) 0 +
            mixing.getD (n * FS_MAX_CHANNELS + 2) 0 +
            mixing.getD (n * FS_MAX_CHANNELS + 3) 0))] := by
      unfold mix_output_lanes
      rw [if_neg n1, if_pos rfl]
      dsimp only
      rw [← e1, ← e2]
    generalize int_wrap (mixing.getD (n * FS_MAX_CHANNELS + 0) 0 +
      mixing.getD (n * FS_MAX_CHANNELS + 2) 0 + mixing.getD (n * FS_MAX_CHANNELS + 3) 0) = S
      at hl
    have hs : fs_sound_thread_output FSSF_S16 FSCM_STEREO dither WORDS_BIGENDIAN st mixing
        (n + 1) =
        [(0, S), (1, S)].foldl (output_body FSSF_S16 dither WORDS_BIGENDIAN)
          (fs_sound_thread_output FSSF_S16 FSCM_STEREO dither WORDS_BIGENDIAN st mixing n) := by
      unfold fs_sound_thread_output
      rw [mix_output_samples_succ, List.foldl_append, hl]
    obtain ⟨v, g1, g2, g3⟩ := output_body_stereo_pair dither WORDS_BIGENDIAN
      (fs_sound_thread_output FSSF_S16 FSCM_STEREO dither WORDS_BIGENDIAN st mixing n)
      S (by omega) h4
    refine ⟨vs ++ [v], by simp [h1], ?_, ?_, ?_⟩
    · rw [hs, g1, h2]
      simp [List.flatMap_append]
    · rw [hs, g2, h3]
    · rw [hs]
      exact g3

/-- C33, instance: two frames with the centre lane only, dither on, from the
initial profiles. -/
theorem centre_downmix_symmetric_witness :
    ∃ vs : List Int, vs.length = 2 ∧
      (fs_sound_thread_output FSSF_S16 FSCM_STEREO true false
        { dither := List.replicate 6 DitherProfile.zero, dst := [] }
        [0, 0, 4194304, 0, 0, 0, 0, 0, -4194304, 0, 0, 0] 2).dst =
        [] ++ vs.flatMap (fun v => [Store.u16 v, Store.u16 v]) :=
  match centre_downmix_symmetric true false
      { dither := List.replicate 6 DitherProfile.zero, dst := [] }
      [0, 0, 4194304, 0, 0, 0, 0, 0, -4194304, 0, 0, 0] 2 (by decide) (by decide)
      (by decide) with
  | ⟨vs, h1, h2, _⟩ => ⟨vs, h1, h2⟩

/-! ## The dither step -/

/-- A right shift of an integer by a count written as an integer. -/
theorem shr_int_count (x : Int) (n : Nat) : x >>> (n : Int) = x / 2 ^ n := by
  have h : x >>> (n : Int) = x >>> n := by
    cases x with
    | ofNat m => exact Int.shiftRight_coe_nat m n
    | negSucc m => exact Int.shiftRight_negSucc m n
  rw [h, Int.shiftRight_eq_div_pow]
  norm_cast

/-- C34, counterexample. The sample 100000 dithered to 16 bits twice in a row
from the initial profile: the first step leaves `e0 = -195`; the second returns
99972 and leaves `e0 = -72`, computed from `d = _s - (o & ~_m) = -35` with
`_s = 100000 - 195`, while `d = s - (o & ~_m) = 160` gives 325. -/
theorem dither_step_counterexample :
    (fsf_dither 100000 16 DitherProfile.zero).2 =
      { e0 := -195, e1 := 0, e2 := 0, e3 := 0, e4 := 0, r := 907633515 } ∧
    (fsf_dither 100000 16 (fsf_dither 100000 16 DitherProfile.zero).2).1 = 99972 ∧
    (fsf_dither 100000 16 (fsf_dither 100000 16 DitherProfile.zero).2).2.e0 = -72 ∧
    dither_e0_spec 100000 16 99972 = 325 := by
  decide

/-- C34, amended. For a sample and taps of at most 2^26 in size, a state `r`
of 32 bits and the depth 8 or 16, `fsf_dither` returns
`o = _s + 2^(23-b) - (r mod 2^(24-b)) + (r' mod 2^(24-b))` with
`_s = s + e0 - e1 + e2 - e3 + e4` and `r' = (r*196314165 + 907633515) mod 2^32`,
advances `r` to `r'`, and sets `e4' = (e3>>1) - (e3>>3)`, `e3' = e2 - (e2>>2)`,
`e2' = e1 - (e1>>4)`, `e1' = e0 + (e0>>4)` and `e0' = (d<<1) + (d>>5)` where
`d = _s - (o with its low 24-b bits cleared)`: the error is taken from the
sample with the feedback added, not from `s`. -/
theorem dither_step (s : Int) (b : Nat) (p : DitherProfile) (hb : b = 8 ∨ b = 16)
    (hs : -2 ^ 26 ≤ s ∧ s ≤ 2 ^ 26)
    (h0 : -2 ^ 26 ≤ p.e0 ∧ p.e0 ≤ 2 ^ 26) (h1 : -2 ^ 26 ≤ p.e1 ∧ p.e1 ≤ 2 ^ 26)
    (h2 : -2 ^ 26 ≤ p.e2 ∧ p.e2 ≤ 2 ^ 26) (h3 : -2 ^ 26 ≤ p.e3 ∧ p.e3 ≤ 2 ^ 26)
    (h4 : -2 ^ 26 ≤ p.e4 ∧ p.e4 ≤ 2 ^ 26) (hr : 0 ≤ p.r ∧ p.r < 2 ^ 32) :
    (fsf_dither s b p).1 = dither_output s b p ∧
    (fsf_dither s b p).2.r = dither_lcg p.r ∧
    (fsf_dither s b p).2.e4 = (p.e3 >>> 1) - (p.e3 >>> 3) ∧
    (fsf_dither s b p).2.e3 = p.e2 - (p.e2 >>> 2) ∧
    (fsf_dither s b p).2.e2 = p.e1 - (p.e1 >>> 4) ∧
    (fsf_dither s b p).2.e1 = p.e0 + (p.e0 >>> 4) ∧
    (fsf_dither s b p).2.e0 = dither_e0_spec (dither_feedback s p) b (dither_output s b p) := by
  rcases p with ⟨e0, e1, e2, e3, e4, r⟩
  simp only at h0 h1 h2 h3 h4 hr
  norm_num at hs h0 h1 h2 h3 h4 hr
  have s1 : ∀ x : Int, x >>> (1 : Int) = x / 2 := by
    intro x
    have h := shr_int_count x 1
    norm_num at h
    exact h
  have s2 : ∀ x : Int, x >>> (2 : Int) = x / 4 := by
    intro x
    have h := shr_int_count x 2
    norm_num at h
    exact h
  have s3 : ∀ x : Int, x >>> (3 : Int) = x / 8 := by
    intro x
    have h := shr_int_count x 3
    norm_num at h
    exact h
  have s4 : ∀ x : Int, x >>> (4 : Int) = x / 16 := by
    intro x
    have h := shr_int_count x 4
    norm_num at h
    exact h
  have s5 : ∀ x : Int, x >>> (5 : Int) = x / 32 := by
    intro x
    have h := shr_int_count x 5
    norm_num at h
    exact h
  have iw : ∀ x : Int, -2147483648 ≤ x → x < 2147483648 → int_wrap x = x := by
    intro x a b
    exact int_wrap_of_in_int x ⟨by norm_num; exact a, by norm_num; exact b⟩
  rcases hb with rfl | rfl
  · simp only [fsf_dither, dither_output, dither_e0_spec, dither_feedback, dither_lcg,
      FSF_DECIBITS, s1, s2, s3, s4, s5]
    norm_num only
    have hA1 := Int.emod_nonneg r (by norm_num : (65536 : Int) ≠ 0)
    have hA2 := Int.emod_lt_of_pos r (by norm_num : (0 : Int) < 65536)
    generalize r % 65536 = A at hA1 hA2 ⊢
    have hB1 := Int.emod_nonneg ((r * 196314165 + 907633515) % 4294967296)
      (by norm_num : (65536 : Int) ≠ 0)
    have hB2 := Int.emod_lt_of_pos ((r * 196314165 + 907633515) % 4294967296)
      (by norm_num : (0 : Int) < 65536)
    generalize (r * 196314165 + 907633515) % 4294967296 % 65536 = B at hB1 hB2 ⊢
    have hS1 : -402653184 ≤ s + e0 - e1 + e2 - e3 + e4 := by omega
    have hS2 : s + e0 - e1 + e2 - e3 + e4 ≤ 402653184 := by omega
    generalize s + e0 - e1 + e2 - e3 + e4 = S at hS1 hS2 ⊢
    rw [iw S (by omega) (by omega), iw (S + 32768 - A) (by omega) (by omega),
      iw (S + 32768 - A + B) (by omega) (by omega)]
    have hC1 := Int.emod_nonneg (S + 32768 - A + B) (by norm_num : (65536 : Int) ≠ 0)
    have hC2 := Int.emod_lt_of_pos (S + 32768 - A + B) (by norm_num : (0 : Int) < 65536)
    generalize (S + 32768 - A + B) % 65536 = C at hC1 hC2 ⊢
    rw [iw (S - (S + 32768 - A + B - C)) (by omega) (by omega)]
    have hD1 : -200000 ≤ S - (S + 32768 - A + B - C) := by omega
    have hD2 : S - (S + 32768 - A + B - C) ≤ 200000 := by omega
    generalize S - (S + 32768 - A + B - C) = D at hD1 hD2 ⊢
    exact ⟨rfl, trivial, iw _ (by omega) (by omega), iw _ (by omega) (by omega),
      iw _ (by omega) (by omega), iw _ (by omega) (by omega), iw _ (by omega) (by omega)⟩
  · simp only [fsf_dither, dither_output, dither_e0_spec, dither_feedback, dither_lcg,
      FSF_DECIBITS, s1, s2, s3, s4, s5]
    norm_num only
    have hA1 := Int.emod_nonneg r (by norm_num : (256 : Int) ≠ 0)
    have hA2 := Int.emod_lt_of_pos r (by norm_num : (0 : Int) < 256)
    generalize r % 256 = A at hA1 hA2 ⊢
    have hB1 := Int.emod_nonneg ((r * 196314165 + 907633515) % 4294967296)
      (by norm_num : (256 : Int) ≠ 0)
    have hB2 := Int.emod_lt_of_pos ((r * 196314165 + 907633515) % 4294967296)
      (by norm_num : (0 : Int) < 256)
    generalize (r * 196314165 + 907633515) % 4294967296 % 256 = B at hB1 hB2 ⊢
    have hS1 : -402653184 ≤ s + e0 - e1 + e2 - e3 + e4 := by omega
    have hS2 : s + e0 - e1 + e2 - e3 + e4 ≤ 402653184 := by omega
    generalize s + e0 - e1 + e2 - e3 + e4 = S at hS1 hS2 ⊢
    rw [iw S (by omega) (by omega), iw (S + 128 - A) (by omega) (by omega),
      iw (S + 128 - A + B) (by omega) (by omega)]
    have hC1 := Int.emod_nonneg (S + 128 - A + B) (by norm_num : (256 : Int) ≠ 0)
    have hC2 := Int.emod_lt_of_pos (S + 128 - A + B) (by norm_num : (0 : Int) < 256)
    generalize (S + 128 - A + B) % 256 = C at hC1 hC2 ⊢
    rw [iw (S - (S + 128 - A + B - C)) (by omega) (by omega)]
    have hD1 : -200000 ≤ S - (S + 128 - A + B - C) := by omega
    have hD2 : S - (S + 128 - A + B - C) ≤ 200000 := by omega
    generalize S - (S + 128 - A + B - C) = D at hD1 hD2 ⊢
    exact ⟨rfl, trivial, iw _ (by omega) (by omega), iw _ (by omega) (by omega),
      iw _ (by omega) (by omega), iw _ (by omega) (by omega), iw _ (by omega) (by omega)⟩
/-- C34, instance: the second step of the sample 100000 at 16 bits. -/
theorem dither_step_witness :
    (fsf_dither 100000 16
        { e0 := -195, e1 := 0, e2 := 0, e3 := 0, e4 := 0, r := 907633515 }).2.e0 =
      dither_e0_spec
        (dither_feedback 100000
          { e0 := -195, e1 := 0, e2 := 0, e3 := 0, e4 := 0, r := 907633515 }) 16
        (dither_output 100000 16
          { e0 := -195, e1 := 0, e2 := 0, e3 := 0, e4 := 0, r := 907633515 }) :=
  (dither_step 100000 16 { e0 := -195, e1 := 0, e2 := 0, e3 := 0, e4 := 0, r := 907633515 }
    (Or.inr rfl) (by decide) (by decide) (by decide) (by decide) (by decide) (by decide)
    (by decide)).2.2.2.2.2.2

/-! ## Option lists -/

/-- An option list without a comma is applied under its own key. -/
theorem parse_args_single (E : ConfigEnv) (args : List Char) (conf : FSConfig)
    (h : strchr (c_string args 0 ++ [NUL]) 0 ',' = none) (fuel : Nat) :
    parse_args E fuel args conf = parse_args_by_key E fuel args conf := by
  unfold parse_args parse_args_by_key
  cases fuel with
  | zero => rfl
  | succ n =>
    simp only [parse_args_loop, parse_args_by_key_loop, h, Option.map_none']
    cases n <;> rfl

/-- C37. `parse_args` hands `buf`, the start of its copy of the list, to
`fs_config_set` in every round, so every value is set under the first key.  The
list "samplerate=44100,buffertime=50" on the initial configuration leaves
`samplerate = 50` and `buffertime = 25`, where applying each pair under its own
key gives 44100 and 50; "buffertime=50,samplerate=44100" fails with `DR_INVARG`,
44100 being no buffer time.  A list without a comma is applied under its own
key. -/
theorem option_list_first_key :
    (∀ (E : ConfigEnv) (args : List Char) (conf : FSConfig) (fuel : Nat),
      strchr (c_string args 0 ++ [NUL]) 0 ',' = none →
      parse_args E fuel args conf = parse_args_by_key E fuel args conf) ∧
    parse_args demo_config_env 4 "samplerate=44100".toList config_allocate =
      some (ParseExit.returned DR_OK { config_allocate with samplerate := 44100 }) ∧
    parse_args demo_config_env 4 "samplerate=44100,buffertime=50".toList config_allocate =
      some (ParseExit.returned DR_OK { config_allocate with samplerate := 50 }) ∧
    parse_args_by_key demo_config_env 4 "samplerate=44100,buffertime=50".toList config_allocate =
      some (ParseExit.returned DR_OK
        { config_allocate with samplerate := 44100, buffertime := 50 }) ∧
    parse_args demo_config_env 4 "buffertime=50,samplerate=44100".toList config_allocate =
      some (ParseExit.returned DR_INVARG { config_allocate with buffertime := 50 }) := by
  refine ⟨?_, by decide, by decide, by decide, by decide⟩
  intro E args conf fuel h
  exact parse_args_single E args conf h fuel

/-! ## Growth of the presentation delay -/

/-- The check for a (re)start leaves the fill level, the rate and the delay of
the device as they are. -/
theorem start_if_prebuffered_delay (X : IFusionSoundStream_data) :
    (start_if_prebuffered X).filled = X.filled ∧ (start_if_prebuffered X).rate = X.rate ∧
    (start_if_prebuffered X).core.output_delay = X.core.output_delay := by
  unfold start_if_prebuffered
  split_ifs
  · rw [stream_playback_start_val]
    split_ifs <;> exact ⟨rfl, rfl, rfl⟩
  · exact ⟨rfl, rfl, rfl⟩

/-- The quotient of a sum exceeds the sum of the quotients by 0 or 1. -/
theorem ediv_add_cases (a b r : Int) (hr : 0 < r) :
    a / r + b / r ≤ (a + b) / r ∧ (a + b) / r ≤ a / r + b / r + 1 ∧
    ((a + b) / r = a / r + b / r ↔ a % r + b % r < r) := by
  have ha := Int.emod_add_ediv a r
  have hb := Int.emod_add_ediv b r
  have ha1 := Int.emod_nonneg a (by omega : r ≠ 0)
  have ha2 := Int.emod_lt_of_pos a hr
  have hb1 := Int.emod_nonneg b (by omega : r ≠ 0)
  have hb2 := Int.emod_lt_of_pos b hr
  have e : a + b = (a % r + b % r) + r * (a / r + b / r) := by
    rw [mul_add]
    omega
  have e2 : (a + b) / r = (a % r + b % r) / r + (a / r + b / r) := by
    conv_lhs => rw [e]
    exact Int.add_mul_ediv_left _ _ (by omega)
  by_cases h : a % r + b % r < r
  · have : (a % r + b % r) / r = 0 := Int.ediv_eq_zero_of_lt (by omega) h
    rw [e2, this]
    refine ⟨by omega, by omega, ?_⟩
    constructor
    · intro _
      exact h
    · intro _
      omega
  · have e3 : a % r + b % r = (a % r + b % r - r) + r * 1 := by ring
    have : (a % r + b % r) / r = 1 := by
      rw [e3, Int.add_mul_ediv_left _ _ (by omega : r ≠ 0),
        Int.ediv_eq_zero_of_lt (by omega) (by omega)]
      rfl
    rw [e2, this]
    refine ⟨by omega, by omega, ?_⟩
    constructor
    · intro h'
      omega
    · intro h'
      exact absurd h' h

/-- C36, counterexample. On a stream at 48000 Hz with 24 frames buffered, a
`Write` of 24 frames with no tick in between raises the presentation delay
from 0 to 1, while `24 * 1000 / 48000` is 0. -/
theorem presentation_delay_counterexample :
    (demo_write (demo_stream 100 (-1)) 24).filled = 24 ∧
    (demo_write (demo_stream 100 (-1)) 24).rate = 48000 ∧
    (IFusionSoundStream_GetPresentationDelay (demo_write (demo_stream 100 (-1)) 24)).2.2 = 0 ∧
    (demo_write (demo_write (demo_stream 100 (-1)) 24) 24).filled = 48 ∧
    (IFusionSoundStream_GetPresentationDelay
      (demo_write (demo_write (demo_stream 100 (-1)) 24) 24)).2.2 = 1 ∧
    Int.tdiv (24 * 1000) 48000 = 0 := by
  decide

/-- C36, amended. On a stream with no writer waiting (`pending = 0`), a fill
level `filled ≥ 0`, a positive rate, and values that fit an `int`, a `Write` of
`n` frames that fit the free space returns `DR_OK` with all `n` frames stored,
and the presentation delay after it is the delay before plus
`(filled + n) * 1000 / rate - filled * 1000 / rate`.  This difference is
`n * 1000 / rate` or one more; it is `n * 1000 / rate` exactly when the
remainders of `filled * 1000` and `n * 1000` by the rate add up to less than
the rate. -/
theorem presentation_delay_growth (data : IFusionSoundStream_data) (sd : Int → Int) (n : Int)
    (fuel : Nat) (hp : data.pending = 0) (hf0 : 0 ≤ data.filled)
    (hpw0 : 0 ≤ data.pos_write) (hpw1 : data.pos_write < data.buffersize)
    (hl1 : 1 ≤ n) (hl2 : n ≤ data.buffersize - data.filled) (hr : 0 < data.rate)
    (hrange : (data.filled + n) * 1000 < 2 ^ 30)
    (hod : 0 ≤ data.core.output_delay ∧ data.core.output_delay < 2 ^ 30)
    (hfuel : n + 2 ≤ fuel) :
    ∃ w, IFusionSoundStream_Write fuel data (some sd) n = some w ∧
      w.exit = Exit.returned DR_OK ∧ w.stored = n ∧
      (IFusionSoundStream_GetPresentationDelay w.data).2.2 =
        (IFusionSoundStream_GetPresentationDelay data).2.2 +
          ((data.filled + n) * 1000 / data.rate - data.filled * 1000 / data.rate) ∧
      n * 1000 / data.rate ≤
        (data.filled + n) * 1000 / data.rate - data.filled * 1000 / data.rate ∧
      (data.filled + n) * 1000 / data.rate - data.filled * 1000 / data.rate ≤
        n * 1000 / data.rate + 1 ∧
      ((data.filled + n) * 1000 / data.rate - data.filled * 1000 / data.rate =
          n * 1000 / data.rate ↔
        data.filled * 1000 % data.rate + n * 1000 % data.rate < data.rate) := by
  have hmin : min n (data.buffersize - data.filled) = n := min_eq_left hl2
  obtain ⟨mem, hw, _⟩ := Write_round sd fuel data n hl1 (by omega) hpw0 hpw1 (by rw [hmin]; exact hfuel)
  rw [hmin] at hw
  obtain ⟨g1, g2, g3⟩ := start_if_prebuffered_delay (after_fill data n mem)
  obtain ⟨c1, c2, c3⟩ := ediv_add_cases (data.filled * 1000) (n * 1000) data.rate hr
  have esum : (data.filled + n) * 1000 = data.filled * 1000 + n * 1000 := by ring
  rw [esum] at hrange ⊢
  norm_num at hrange hod
  have q1 : 0 ≤ data.filled * 1000 / data.rate := Int.ediv_nonneg (by omega) hr.le
  have q2 : data.filled * 1000 / data.rate ≤ data.filled * 1000 :=
    Int.ediv_le_self _ (by omega)
  have q3 : 0 ≤ (data.filled * 1000 + n * 1000) / data.rate := Int.ediv_nonneg (by omega) hr.le
  have q4 : (data.filled * 1000 + n * 1000) / data.rate ≤ data.filled * 1000 + n * 1000 :=
    Int.ediv_le_self _ (by omega)
  have iw : ∀ x : Int, -2147483648 ≤ x → x < 2147483648 → int_wrap x = x := by
    intro x a b
    exact int_wrap_of_in_int x ⟨by norm_num; exact a, by norm_num; exact b⟩
  have dbefore : (IFusionSoundStream_GetPresentationDelay data).2.2 =
      data.core.output_delay + data.filled * 1000 / data.rate := by
    unfold IFusionSoundStream_GetPresentationDelay fs_core_output_delay
    simp only [hp, add_zero]
    rw [iw data.filled (by omega) (by omega), iw (data.filled * 1000) (by omega) (by omega),
      Int.tdiv_eq_ediv (by omega) hr.le,
      iw (data.filled * 1000 / data.rate) (by omega) (by omega),
      iw (data.core.output_delay + data.filled * 1000 / data.rate) (by omega) (by omega)]
  refine ⟨_, hw, ?_, rfl, ?_, by omega, by omega, ?_⟩
  · simp only [if_pos hl2]
  · rw [dbefore]
    unfold IFusionSoundStream_GetPresentationDelay fs_core_output_delay
    simp only [g1, g2, g3, sub_self, add_zero]
    have f1 : (after_fill data n mem).filled = data.filled + n := rfl
    have f2 : (after_fill data n mem).rate = data.rate := rfl
    have f3 : (after_fill data n mem).core.output_delay = data.core.output_delay := rfl
    rw [f1, f2, f3, iw (data.filled + n) (by omega) (by omega), esum,
      iw (data.filled * 1000 + n * 1000) (by omega) (by omega),
      Int.tdiv_eq_ediv (by omega) hr.le,
      iw ((data.filled * 1000 + n * 1000) / data.rate) (by omega) (by omega),
      iw (data.core.output_delay + (data.filled * 1000 + n * 1000) / data.rate) (by omega)
        (by omega)]
    ring
  · constructor
    · intro h
      exact c3.mp (by omega)
    · intro h
      have := c3.mpr h
      omega

/-- C36, instance: the second `Write` of 24 frames on the stream at 48000 Hz
with 24 frames buffered. -/
theorem presentation_delay_growth_witness :
    ∃ w, IFusionSoundStream_Write 26 (demo_write (demo_stream 100 (-1)) 24) (some demo_input) 24
        = some w ∧ w.exit = Exit.returned DR_OK ∧ w.stored = 24 :=
  match presentation_delay_growth (demo_write (demo_stream 100 (-1)) 24) demo_input 24 26
      (by decide) (by decide) (by decide) (by decide) (by decide) (by decide) (by decide)
      (by decide) (by decide) (by decide) with
  | ⟨w, h1, h2, h3, _⟩ => ⟨w, h1, h2, h3⟩

/-! ## One cycle of a static buffer -/

/-- The frame count `fs_buffer_mixto` reports at pitch one, forward or backward,
on a buffer at the device rate: the distance to the stop position when the tick
reaches it, and the tick size otherwise. -/
theorem fs_buffer_mixto_unit_num (T : MixTables) (SIZEOF_LONG : Nat) (buffer : CoreSoundBuffer)
    (dest : List Int) (mode : Nat) (B pos stop : Int) (levels : List Int) (pitch : Int)
    (hpos : 0 ≤ pos ∧ pos < buffer.length) (hstop : 0 ≤ stop ∧ stop < buffer.length)
    (hp : pitch = FS_PITCH_ONE ∨ pitch = -FS_PITCH_ONE) (hr : 0 < buffer.rate) (hB : 1 ≤ B)
    (hlong : SIZEOF_LONG ≠ 4 ∨ B * 2 ^ FS_PITCH_BITS ≤ 0x7fffffff) :
    (stop_distance buffer.length pos stop pitch ≤ B →
      (fs_buffer_mixto T SIZEOF_LONG buffer dest buffer.rate mode B pos stop levels
        pitch).ret_num = stop_distance buffer.length pos stop pitch) ∧
    (B < stop_distance buffer.length pos stop pitch →
      (fs_buffer_mixto T SIZEOF_LONG buffer dest buffer.rate mode B pos stop levels
        pitch).ret_num = B) := by
  have h1 : FS_PITCH_ONE = 16384 := by decide
  have h14 : (2 : Int) ^ FS_PITCH_BITS = 16384 := by decide
  have hsh : ∀ x : Int, (x * 16384) >>> FS_PITCH_BITS = x := by
    intro x
    have := shift_pitch_bits x
    rwa [h14] at this
  obtain ⟨hu1, hu2⟩ := mixto_inc_unit buffer pitch hr
  rw [h14] at hlong
  have hsign : (pitch < 0 → mixto_inc buffer pitch buffer.rate < 0) ∧
      (¬ pitch < 0 → 0 < mixto_inc buffer pitch buffer.rate) := by
    rcases hp with hp | hp
    · rw [hu1 hp, hp, h1]; omega
    · rw [hu2 hp, hp, h1]; omega
  have habs : |mixto_inc buffer pitch buffer.rate| = 16384 := by
    rcases hp with hp | hp
    · rw [hu1 hp]; rfl
    · rw [hu2 hp]; rfl
  have hl3 : SIZEOF_LONG ≠ 4 ∨
      stop_distance buffer.length pos stop pitch * 2 ^ FS_PITCH_BITS ≤ 0x7fffffff ∨
      B * |mixto_inc buffer pitch buffer.rate| ≤ 0x7fffffff := by
    rw [habs]
    rcases hlong with h | h
    · exact Or.inl h
    · exact Or.inr (Or.inr h)
  obtain ⟨hA, hN⟩ := fs_buffer_mixto_stop T SIZEOF_LONG buffer dest buffer.rate mode B pos stop
    levels pitch hpos ⟨hstop.1, hstop.2.le⟩ hsign hl3
  rw [habs, h14] at hA hN
  have hclamp : clamp_long SIZEOF_LONG (B * mixto_inc buffer pitch buffer.rate) =
      B * mixto_inc buffer pitch buffer.rate := by
    apply clamp_long_id
    rcases hlong with h | h
    · exact Or.inl h
    · right
      rcases hp with hp | hp
      · rw [hu1 hp]; omega
      · rw [hu2 hp]; omega
  rw [hclamp] at hN
  constructor
  · intro h
    exact (hA (by omega)).2.1
  · intro h
    obtain ⟨-, -, c⟩ := hN (by omega)
    rw [c]
    rcases hp with hp | hp
    · rw [hu1 hp, hsh, abs_of_nonneg (by omega)]
    · have e16 : B * (-16384) = (-B) * 16384 := by ring
      rw [hu2 hp, e16, hsh, abs_of_nonpos (by omega)]
      ring

/-- The run of ticks of `B` frames on a playback at pitch one, forward or
backward, on a buffer at the device rate, with the frames counted: with fuel for
the distance `D` to the stop position it ends at the stop position after `D`
frames. -/
theorem playback_mix_frames_run (T : MixTables) (SIZEOF_LONG : Nat) (buffer : CoreSoundBuffer)
    (mode : Nat) (B volume : Int) (hr : 0 < buffer.rate) (hB : 1 ≤ B)
    (hlong : SIZEOF_LONG ≠ 4 ∨ B * 2 ^ FS_PITCH_BITS ≤ 0x7fffffff) :
    ∀ (fuel : Nat) (playback : CorePlayback) (dest : List Int),
      0 ≤ playback.position ∧ playback.position < buffer.length →
      0 ≤ playback.stop ∧ playback.stop < buffer.length →
      playback.pitch = FS_PITCH_ONE ∨ playback.pitch = -FS_PITCH_ONE →
      stop_distance buffer.length playback.position playback.stop playback.pitch ≤ fuel * B →
      ∃ last, playback_mix_frames T SIZEOF_LONG buffer buffer.rate mode B volume fuel playback
          dest =
          some (stop_distance buffer.length playback.position playback.stop playback.pitch,
            last) ∧
        last.running = false ∧ last.position = playback.stop := by
  intro fuel
  induction fuel with
  | zero =>
    intro playback dest hpos hstop hp hD
    have := (fs_buffer_mixto_unit T SIZEOF_LONG buffer dest mode B playback.position
      playback.stop [] playback.pitch hpos hstop hp hr hB hlong).1
    simp at hD
    omega
  | succ fuel ih =>
    intro playback dest hpos hstop hp hD
    obtain ⟨hD1, -, hE, hN⟩ := fs_buffer_mixto_unit T SIZEOF_LONG buffer dest mode B
      playback.position playback.stop (fs_playback_mixto_levels playback volume) playback.pitch
      hpos hstop hp hr hB hlong
    obtain ⟨nE, nN⟩ := fs_buffer_mixto_unit_num T SIZEOF_LONG buffer dest mode B
      playback.position playback.stop (fs_playback_mixto_levels playback volume) playback.pitch
      hpos hstop hp hr hB hlong
    rw [playback_mix_frames]
    by_cases hc : stop_distance buffer.length playback.position playback.stop playback.pitch ≤ B
    · obtain ⟨a, b⟩ := hE hc
      have hm := fs_playback_mixto_end T SIZEOF_LONG buffer playback dest buffer.rate mode B
        volume a
      have hne : DR_BUFFEREMPTY ≠ DR_OK := by decide
      rw [hm]
      simp only [ne_eq, hne, not_false_eq_true, if_true]
      rw [nE hc]
      exact ⟨_, rfl, rfl, b⟩
    · obtain ⟨a, b1, b2, b3⟩ := hN (by omega)
      have hm := fs_playback_mixto_ok T SIZEOF_LONG buffer playback dest buffer.rate mode B
        volume a
      rw [hm]
      simp only [ne_eq, not_true_eq_false, if_false]
      have hD2 : stop_distance buffer.length
          (fs_buffer_mixto T SIZEOF_LONG buffer dest buffer.rate mode B playback.position
            playback.stop (fs_playback_mixto_levels playback volume) playback.pitch).ret_pos
          playback.stop playback.pitch ≤ fuel * B := by
        rw [b3]
        push_cast at hD
        have := add_mul (fuel : Int) 1 B
        omega
      obtain ⟨last, e, t1, t2⟩ := ih
        { playback with
          position := (fs_buffer_mixto T SIZEOF_LONG buffer dest buffer.rate mode B
            playback.position playback.stop (fs_playback_mixto_levels playback volume)
            playback.pitch).ret_pos }
        (fs_buffer_mixto T SIZEOF_LONG buffer dest buffer.rate mode B playback.position
          playback.stop (fs_playback_mixto_levels playback volume) playback.pitch).dest
        ⟨b1, b2⟩ hstop hp hD2
      rw [e]
      dsimp only at t2 ⊢
      rw [b3, nN (by omega)]
      refine ⟨last, ?_, t1, t2⟩
      simp only [Option.map_some']
      congr 2
      ring

/-- The playback `IFusionSoundBuffer_Play` starts for `FSPLAY_CYCLE`, with or
without `FSPLAY_REWIND`: it runs from the position of the buffer interface to
that same position, at pitch one forward or backward. -/
theorem IFusionSoundBuffer_Play_cycle (env : CreateEnv) (data : IFusionSoundBuffer_data)
    (pid : Nat) (center rear volume : Int) (rewind : Bool)
    (henv : env.object_ok = true) (hpool : data.core.shmpool_free ≠ 0) :
    (IFusionSoundBuffer_Play env data
        (if rewind then FSPLAY_CYCLE ||| FSPLAY_REWIND else FSPLAY_CYCLE) pid center rear
        volume).2 =
      (DR_OK, some
        { fs_playback_create pid false center rear volume with
          pitch := if rewind then -FS_PITCH_ONE else FS_PITCH_ONE
          position := data.pos
          stop := data.pos
          running := true }) := by
  have a1 : FSPLAY_CYCLE &&& (0xFFFFFFFF ^^^ FSPLAY_ALL) = 0 := by decide
  have a2 : (FSPLAY_CYCLE ||| FSPLAY_REWIND) &&& (0xFFFFFFFF ^^^ FSPLAY_ALL) = 0 := by decide
  have b1 : FSPLAY_CYCLE &&& FSPLAY_LOOPING = 0 := by decide
  have b2 : (FSPLAY_CYCLE ||| FSPLAY_REWIND) &&& FSPLAY_LOOPING = 0 := by decide
  have c1 : FSPLAY_CYCLE &&& FSPLAY_REWIND = 0 := by decide
  have c2 : (FSPLAY_CYCLE ||| FSPLAY_REWIND) &&& FSPLAY_REWIND ≠ 0 := by decide
  have d1 : FSPLAY_CYCLE &&& FSPLAY_CYCLE ≠ 0 := by decide
  have d2 : (FSPLAY_CYCLE ||| FSPLAY_REWIND) &&& FSPLAY_CYCLE ≠ 0 := by decide
  unfold IFusionSoundBuffer_Play
  cases rewind
  · simp only [Bool.false_eq_true, if_false, a1, b1, c1, ne_eq, not_true_eq_false, henv]
    rw [if_pos d1, fs_playback_start_eq]
    simp [fs_playback_create, fs_playback_set_pitch, fs_playback_set_position,
      fs_playback_set_stop, hpool]
  · simp only [if_true, a2, b2, ne_eq, not_true_eq_false, if_false, henv, Bool.true_eq_false]
    rw [if_pos c2, if_pos d2, fs_playback_start_eq]
    simp [fs_playback_create, fs_playback_set_pitch, fs_playback_set_position,
      fs_playback_set_stop, hpool]

/-- C35. A playback started by `IFusionSoundBuffer_Play` with `FSPLAY_CYCLE`, or
with `FSPLAY_CYCLE | FSPLAY_REWIND`, on a buffer of `L ≥ 1` frames whose
interface stands at the position `p` in `[0, L)`, mixed at the rate of the buffer
in ticks of `1 ≤ B ≤ 65535` frames: the playback has pitch `+2^14` or `-2^14`
and the stop position `p`; the first tick mixes at least one frame; and the run
of ticks ends with `running = false` at the position `p` after exactly `L` source
frames. -/
theorem cycle_plays_one_cycle (env : CreateEnv) (data : IFusionSoundBuffer_data)
    (pid : Nat) (center rear pvolume : Int) (T : MixTables) (SIZEOF_LONG : Nat) (mode : Nat)
    (B volume : Int) (dest : List Int) (fuel : Nat)
    (henv : env.object_ok = true) (hpool : data.core.shmpool_free ≠ 0)
    (hpos : 0 ≤ data.pos ∧ data.pos < data.buffer.length) (hr : 0 < data.buffer.rate)
    (hB : 1 ≤ B ∧ B ≤ 65535) (hfuel : data.buffer.length ≤ fuel * B) :
    ∀ rewind : Bool, ∃ playback last,
      (IFusionSoundBuffer_Play env data
          (if rewind then FSPLAY_CYCLE ||| FSPLAY_REWIND else FSPLAY_CYCLE) pid center rear
          pvolume).2 = (DR_OK, some playback) ∧
      playback.pitch = (if rewind then -FS_PITCH_ONE else FS_PITCH_ONE) ∧
      playback.position = data.pos ∧ playback.stop = data.pos ∧ playback.running = true ∧
      1 ≤ (fs_buffer_mixto T SIZEOF_LONG data.buffer dest data.buffer.rate mode B
        playback.position playback.stop (fs_playback_mixto_levels playback volume)
        playback.pitch).ret_num ∧
      playback_mix_frames T SIZEOF_LONG data.buffer data.buffer.rate mode B volume fuel playback
        dest = some (data.buffer.length, last) ∧
      last.running = false ∧ last.position = data.pos := by
  intro rewind
  have h14 : (2 : Int) ^ FS_PITCH_BITS = 16384 := by decide
  have hlong : SIZEOF_LONG ≠ 4 ∨ B * 2 ^ FS_PITCH_BITS ≤ 0x7fffffff := by
    right
    rw [h14]
    omega
  have hplay := IFusionSoundBuffer_Play_cycle env data pid center rear pvolume rewind henv hpool
  generalize hpb : ({ fs_playback_create pid false center rear pvolume with
      pitch := if rewind then -FS_PITCH_ONE else FS_PITCH_ONE
      position := data.pos
      stop := data.pos
      running := true } : CorePlayback) = playback at hplay
  have e1 : playback.pitch = (if rewind then -FS_PITCH_ONE else FS_PITCH_ONE) := by
    rw [← hpb]
  have e2 : playback.position = data.pos := by rw [← hpb]
  have e3 : playback.stop = data.pos := by rw [← hpb]
  have e4 : playback.running = true := by rw [← hpb]
  have hp : playback.pitch = FS_PITCH_ONE ∨ playback.pitch = -FS_PITCH_ONE := by
    rw [e1]
    cases rewind
    · exact Or.inl rfl
    · exact Or.inr rfl
  have hD : stop_distance data.buffer.length playback.position playback.stop playback.pitch =
      data.buffer.length := by
    rw [e2, e3]
    unfold stop_distance
    split_ifs <;> omega
  obtain ⟨last, r1, r2, r3⟩ := playback_mix_frames_run T SIZEOF_LONG data.buffer mode B volume
    hr hB.1 hlong fuel playback dest (by rw [e2]; exact hpos) (by rw [e3]; exact hpos) hp
    (by rw [hD]; exact hfuel)
  obtain ⟨nE, nN⟩ := fs_buffer_mixto_unit_num T SIZEOF_LONG data.buffer dest mode B
    playback.position playback.stop (fs_playback_mixto_levels playback volume) playback.pitch
    (by rw [e2]; exact hpos) (by rw [e3]; exact hpos) hp hr hB.1 hlong
  rw [hD] at r1 nE nN
  refine ⟨playback, last, hplay, e1, e2, e3, e4, ?_, r1, r2, by rw [r3, e3]⟩
  by_cases hc : data.buffer.length ≤ B
  · rw [nE hc]
    omega
  · rw [nN (by omega)]
    exact hB.1

/-- C35, instance: a buffer of 1000 frames at 48000 Hz with the interface at
position 300, ticks of 256 frames, played backward. -/
theorem cycle_plays_one_cycle_witness :
    ∃ playback last,
      (IFusionSoundBuffer_Play demo_env
          { core := demo_core, buffer := demo_buffer_at 1000 48000, length := 1000,
            mode := FSCM_STEREO, format := FSSF_S16, rate := 48000, pos := 300 }
          (FSPLAY_CYCLE ||| FSPLAY_REWIND) 7 FSF_ONE FSF_ONE FSF_ONE).2 =
        (DR_OK, some playback) ∧
      playback_mix_frames demo_tables 8 (demo_buffer_at 1000 48000) 48000 FSCM_STEREO 256 FSF_ONE
        4 playback [] = some (1000, last) ∧
      last.position = 300 :=
  match cycle_plays_one_cycle demo_env
      { core := demo_core, buffer := demo_buffer_at 1000 48000, length := 1000,
        mode := FSCM_STEREO, format := FSSF_S16, rate := 48000, pos := 300 }
      7 FSF_ONE FSF_ONE FSF_ONE demo_tables 8 FSCM_STEREO 256 FSF_ONE [] 4
      (by decide) (by decide) (by decide) (by decide) (by decide) (by decide) true with
  | ⟨playback, last, h1, _, _, _, _, _, h7, _, h9⟩ => ⟨playback, last, h1, h7, h9⟩

/-! ## One tick of a looping playback -/

/-- The values of `max` and `last` for a looping playback: nothing is cut. -/
theorem mixto_max_loop (SIZEOF_LONG : Nat) (buffer : CoreSoundBuffer)
    (rate max_frames pos stop pitch : Int) (hs : stop < 0) :
    mixto_max SIZEOF_LONG buffer rate max_frames pos stop pitch =
      (clamp_long SIZEOF_LONG (max_frames * mixto_inc buffer pitch rate), false) := by
  unfold mixto_max mixto_inc
  simp only [if_neg (by omega : ¬ stop ≥ 0)]

/-- C13 (amended). One tick on a looping playback (stop < 0) on a buffer of
`1 ≤ L ≤ 2^30` frames from a position in `[0, L)`, with `0 ≤ N ≤ 65535` frames,
`|pitch| ≤ 64 * 2^14`, positive rates and a buffer rate of at most 256 times the
rate mixed at, so that the frame count fits the `int` it is stored in:
`fs_buffer_mixto` returns `DR_OK` and the position
`(pos + ((N * inc) >> 14)) mod L`, where `inc` is the truncated quotient
`R_src * pitch / R_dst` and `N * inc` is clamped to 31 bits when `long` has 4
bytes.  When `R_dst` divides `R_src * pitch` and the clamp does not apply this
is the position of the specification,
`(pos + floor(N * pitch * R_src / R_dst / 2^14)) mod L`. -/
theorem resampling_position (T : MixTables) (SIZEOF_LONG : Nat) (buffer : CoreSoundBuffer)
    (dest : List Int) (rate : Int) (mode : Nat) (N pos stop : Int)
    (levels : List Int) (pitch : Int)
    (hs : stop < 0) (hL : 1 ≤ buffer.length ∧ buffer.length ≤ 2 ^ 30)
    (hpos : 0 ≤ pos ∧ pos < buffer.length) (hN : 0 ≤ N ∧ N ≤ 65535)
    (hpitch : -(64 * FS_PITCH_ONE) ≤ pitch ∧ pitch ≤ 64 * FS_PITCH_ONE)
    (hb : 0 < buffer.rate) (hr : 0 < rate) (hratio : buffer.rate ≤ 256 * rate) :
    (fs_buffer_mixto_int T SIZEOF_LONG buffer dest rate mode N pos stop levels pitch).ret
      = DR_OK ∧
    (fs_buffer_mixto_int T SIZEOF_LONG buffer dest rate mode N pos stop levels pitch).ret_pos =
      (pos + (clamp_long SIZEOF_LONG (N * mixto_inc buffer pitch rate)) >>> FS_PITCH_BITS) %
        buffer.length ∧
    (rate ∣ buffer.rate * pitch →
      SIZEOF_LONG ≠ 4 ∨ |N * mixto_inc buffer pitch rate| ≤ 0x7fffffff →
      (fs_buffer_mixto_int T SIZEOF_LONG buffer dest rate mode N pos stop levels
        pitch).ret_pos =
        resample_position_spec buffer.length pos N pitch buffer.rate rate) := by
  have hP : (64 : Int) * FS_PITCH_ONE = 1048576 := by decide
  have h30 : (2 : Int) ^ 30 = 1073741824 := by norm_num
  rw [hP] at hpitch
  rw [h30] at hL
  have hinc := mixto_inc_bound buffer pitch rate 256 1048576 hb hr hratio hpitch
  have hsg := mixto_max_sign SIZEOF_LONG buffer rate N pos stop pitch hpos (by omega) hN.1
    ⟨fun h => (hinc.1 h).1, fun h => (hinc.2 h).2⟩
  have hml := mixto_max_loop SIZEOF_LONG buffer rate N pos stop pitch hs
  have hLpos : 0 < buffer.length := by omega
  have hsh : ∀ x : Int, x >>> FS_PITCH_BITS = x / 16384 := by
    intro x
    rw [Int.shiftRight_eq_div_pow]
    rfl
  have hM : -(65535 * 268435456) ≤
        (mixto_max SIZEOF_LONG buffer rate N pos stop pitch).1 ∧
      (mixto_max SIZEOF_LONG buffer rate N pos stop pitch).1 ≤ 65535 * 268435456 := by
    by_cases hp : pitch < 0
    · have hi := hinc.2 hp
      have hs' := hsg.2 hp
      have hm : N * (-mixto_inc buffer pitch rate) ≤ 65535 * (256 * 1048576) :=
        mul_le_mul hN.2 (by omega) (by omega) (by norm_num)
      rw [mul_neg] at hm
      exact ⟨by omega, by omega⟩
    · have hi := hinc.1 hp
      have hs' := hsg.1 hp
      have hm : N * mixto_inc buffer pitch rate ≤ 65535 * (256 * 1048576) :=
        mul_le_mul hN.2 hi.2 hi.1 (by norm_num)
      exact ⟨by omega, by omega⟩
  have h1 : in_int ((mixto_max SIZEOF_LONG buffer rate N pos stop pitch).1 >>>
      FS_PITCH_BITS) := by
    rw [hsh]
    constructor <;> omega
  have h2 : in_int (pos + (mixto_max SIZEOF_LONG buffer rate N pos stop pitch).1 >>>
      FS_PITCH_BITS) := by
    rw [hsh]
    constructor <;> omega
  obtain ⟨e1, -⟩ := fs_buffer_mixto_int_fit T SIZEOF_LONG buffer dest rate mode N pos
    stop levels pitch hLpos h1 h2
  rw [hml] at e1
  have eret : (fs_buffer_mixto_int T SIZEOF_LONG buffer dest rate mode N pos stop levels
      pitch).ret = DR_OK := by
    unfold fs_buffer_mixto_int
    simp only [hml]
    simp
  refine ⟨eret, e1, ?_⟩
  intro hd hc
  rw [e1]
  unfold resample_position_spec mixto_inc at *
  rw [clamp_long_id _ _ (by
    rcases hc with hc | hc
    · exact Or.inl hc
    · rw [abs_le] at hc
      exact Or.inr hc)]
  obtain ⟨q, hq⟩ := hd
  have e1 : Int.tdiv (buffer.rate * pitch) rate = q := by
    rw [hq]
    exact Int.mul_tdiv_cancel_left q (by omega)
  have e2 : N * pitch * buffer.rate = rate * (N * q) := by
    have : N * pitch * buffer.rate = N * (buffer.rate * pitch) := by ring
    rw [this, hq]; ring
  rw [e1, e2, Int.mul_ediv_mul_of_pos _ _ hr, Int.shiftRight_eq_div_pow]
  rfl

/-- C13, witness. A buffer of 1000 frames at 48000 Hz mixed at 48000 Hz with
pitch one: 256 frames from position 900 end at position 156. -/
theorem resampling_position_witness :
    (fs_buffer_mixto_int demo_tables 8 (demo_buffer_at 1000 48000) [] 48000 FSCM_STEREO 256 900
      (-1) [FSF_ONE, FSF_ONE] FS_PITCH_ONE).ret_pos = 156 ∧
    resample_position_spec 1000 900 256 FS_PITCH_ONE 48000 48000 = 156 :=
  ⟨((resampling_position demo_tables 8 (demo_buffer_at 1000 48000) [] 48000 FSCM_STEREO 256 900
      (-1) [FSF_ONE, FSF_ONE] FS_PITCH_ONE (by decide) (by decide) (by decide) (by decide)
      (by decide) (by decide) (by decide) (by decide)).2.2
      (by decide) (by decide)).trans (by decide),
    by decide⟩

/-- C13, counterexample. A buffer at 44100 Hz mixed at 48000 Hz with pitch one:
the step is 15052 (15052.8 truncated), so 20480 frames from position 0 end at
position 18815, while the formula of the specification gives 18816. -/
theorem resampling_position_counterexample :
    (fs_buffer_mixto_int demo_tables 8 (demo_buffer_at 100000 44100) [] 48000 FSCM_STEREO 20480
      0 (-1) [FSF_ONE, FSF_ONE] FS_PITCH_ONE).ret_pos = 18815 ∧
    mixto_inc (demo_buffer_at 100000 44100) FS_PITCH_ONE 48000 = 15052 ∧
    resample_position_spec 100000 0 20480 FS_PITCH_ONE 44100 48000 = 18816 ∧
    FS_PITCH_ONE = 1 * 2 ^ 14 * 1 := by
  decide

/-! ## Creation of streams with the limit tested in `int` -/

/-- Five times a rate of at most 429496729 fits an `int`. -/
theorem int_wrap_rate5 (rate : Int) (h : 0 ≤ rate ∧ rate ≤ 429496729) :
    int_wrap (rate * 5) = rate * 5 := by
  unfold int_wrap
  norm_num
  omega

/-- The tail of `IFusionSound_CreateStream` when every creation step succeeds
and the ring buffer is within the limit. -/
theorem stream_create_int_ok (env : CreateEnv) (core : CoreSound) (mode format : Nat)
    (rate buffersize prebuffer : Int) (pid : Nat) (center rear volume : Int)
    (he : env_ok env)
    (hl : (if buffersize = 0 then Int.tdiv rate 5 else buffersize) ≤ int_wrap (rate * 5)) :
    stream_create_int env core mode format rate buffersize prebuffer pid center rear volume =
      (DR_OK, some (IFusionSoundStream_Construct core
        { length := if buffersize = 0 then Int.tdiv rate 5 else buffersize
          mode := mode, format := format, rate := rate
          bytes := (FS_BYTES_PER_SAMPLE format : Int) * (FS_CHANNELS_FOR_MODE mode : Int)
          data := env.memory }
        pid center rear volume (if buffersize = 0 then Int.tdiv rate 5 else buffersize) rate
        prebuffer)) := by
  obtain ⟨e1, e2, e3⟩ := he
  unfold stream_create_int fs_buffer_create
  simp only [if_neg (not_lt.mpr hl), e1, e2, e3]
  simp

/-- The tail of `IFusionSound_CreateStream` with a ring buffer beyond the
limit. -/
theorem stream_create_int_limit (env : CreateEnv) (core : CoreSound) (mode format : Nat)
    (rate buffersize prebuffer : Int) (pid : Nat) (center rear volume : Int)
    (hl : (if buffersize = 0 then Int.tdiv rate 5 else buffersize) > int_wrap (rate * 5)) :
    stream_create_int env core mode format rate buffersize prebuffer pid center rear volume =
      (DR_LIMITEXCEEDED, none) := by
  unfold stream_create_int
  simp only [if_pos hl]

/-- A stream that `stream_create_int` hands out keeps within the limit. -/
theorem stream_create_int_some (env : CreateEnv) (core : CoreSound) (mode format : Nat)
    (rate buffersize prebuffer : Int) (pid : Nat) (center rear volume : Int)
    (s : IFusionSoundStream_data)
    (h : (stream_create_int env core mode format rate buffersize prebuffer pid center rear
      volume).2 = some s) :
    s.buffersize ≤ int_wrap (s.rate * 5) ∧ s.rate = rate := by
  by_cases hl : (if buffersize = 0 then Int.tdiv rate 5 else buffersize) > int_wrap (rate * 5)
  · rw [stream_create_int_limit _ _ _ _ _ _ _ _ _ _ _ hl] at h
    exact Option.noConfusion h
  · unfold stream_create_int at h
    simp only [if_neg hl] at h
    cases hb : fs_buffer_create env (if buffersize = 0 then Int.tdiv rate 5 else buffersize) mode
      format rate with
    | mk ret ob =>
      rw [hb] at h
      cases ob with
      | none => exact Option.noConfusion h
      | some b =>
        dsimp only at h
        by_cases hc : env.construct ≠ DR_OK
        · rw [if_pos hc] at h
          exact Option.noConfusion h
        · rw [if_neg hc] at h
          injection h with h
          subst h
          obtain ⟨f1, -, f3, -⟩ := IFusionSoundStream_Construct_fields core b pid center rear
            volume (if buffersize = 0 then Int.tdiv rate 5 else buffersize) rate prebuffer
          rw [f1, f3]
          exact ⟨by omega, rfl⟩

theorem CreateStream_int_pass (env : CreateEnv) (core : CoreSound)
    (config : CoreSoundDeviceConfig) (desc : FSStreamDescription) (pid : Nat)
    (center rear volume : Int) (hv : stream_fields_pass desc)
    (hr : desc.flags &&& FSSDF_SAMPLERATE ≠ 0 → 100 ≤ desc.samplerate) :
    IFusionSound_CreateStream_int env core config (some desc) true pid center rear volume =
      stream_create_int env core
        (if desc.flags &&& FSSDF_CHANNELMODE ≠ 0 then desc.channelmode
          else if desc.flags &&& FSSDF_CHANNELS ≠ 0 then fs_mode_for_channels desc.channels
          else config.mode)
        (if desc.flags &&& FSSDF_SAMPLEFORMAT ≠ 0 then desc.sampleformat else config.format)
        (if desc.flags &&& FSSDF_SAMPLERATE ≠ 0 then desc.samplerate else config.rate)
        (if desc.flags &&& FSSDF_BUFFERSIZE ≠ 0 then desc.buffersize else 0)
        (if desc.flags &&& FSSDF_PREBUFFER ≠ 0 then desc.prebuffer else 0)
        pid center rear volume := by
  unfold IFusionSound_CreateStream_int
  dsimp only
  rw [stream_description_check_pass config desc hv hr]
  simp

theorem CreateStream_int_some (env : CreateEnv) (core : CoreSound)
    (config : CoreSoundDeviceConfig) (desc : Option FSStreamDescription) (ret_interface : Bool)
    (pid : Nat) (center rear volume : Int) (s : IFusionSoundStream_data)
    (h : (IFusionSound_CreateStream_int env core config desc ret_interface pid center rear
      volume).2 = some s) :
    s.buffersize ≤ int_wrap (s.rate * 5) := by
  unfold IFusionSound_CreateStream_int at h
  cases ret_interface with
  | false => exact Option.noConfusion h
  | true =>
    simp only [Bool.true_eq_false, if_false] at h
    cases desc with
    | none => exact (stream_create_int_some _ _ _ _ _ _ _ _ _ _ _ s h).1
    | some d =>
      dsimp only at h
      rcases hc : stream_description_check config d with ⟨ret, mode, format, rate, bs, pb⟩
      rw [hc] at h
      dsimp only at h
      by_cases hret : ret ≠ DR_OK
      · rw [if_pos hret] at h
        exact Option.noConfusion h
      · rw [if_neg hret] at h
        exact (stream_create_int_some _ _ _ _ _ _ _ _ _ _ _ s h).1

/-- C26. `IFusionSound_CreateStream` with a NULL descriptor or a descriptor
without flags, on a device with a rate `0 ≤ R ≤ 429496729`: when every creation
step succeeds it returns `DR_OK` and a stream with `buffersize = R / 5`,
`prebuffer = 0` and the channel mode, sample format and rate of the device.
For every descriptor: a stream that is handed out has `buffersize` at most the
`int` value of `5 * rate`, and a descriptor that passes the checks of its fields
with a rate of at most 429496729 and a resulting ring buffer size above
`5 * rate` gets `DR_LIMITEXCEEDED` and no stream.  On a device at 500000000 Hz, a rate
`fs_config_set` accepts, the product `rate * 5` leaves the range of `int`: the default ring buffer of
100000000 frames, which is below `5 * rate`, is refused with
`DR_LIMITEXCEEDED`. -/
theorem create_stream_defaults :
    (∀ (env : CreateEnv) (core : CoreSound) (config : CoreSoundDeviceConfig) (pid : Nat)
        (center rear volume : Int) (desc : Option FSStreamDescription),
      (desc = none ∨ ∃ d, desc = some d ∧ d.flags = 0) → env_ok env →
      0 ≤ config.rate ∧ config.rate ≤ 429496729 →
      ∃ s, IFusionSound_CreateStream_int env core config desc true pid center rear volume =
          (DR_OK, some s) ∧
        s.buffersize = Int.tdiv config.rate 5 ∧ s.prebuffer = 0 ∧ s.rate = config.rate ∧
        s.buffer.length = Int.tdiv config.rate 5 ∧ s.buffer.mode = config.mode ∧
        s.buffer.format = config.format ∧ s.buffer.rate = config.rate) ∧
    (∀ (env : CreateEnv) (core : CoreSound) (config : CoreSoundDeviceConfig) (pid : Nat)
        (center rear volume : Int) (desc : Option FSStreamDescription) (ret_interface : Bool)
        (s : IFusionSoundStream_data),
      (IFusionSound_CreateStream_int env core config desc ret_interface pid center rear
        volume).2 = some s → s.buffersize ≤ int_wrap (s.rate * 5)) ∧
    (∀ (env : CreateEnv) (core : CoreSound) (config : CoreSoundDeviceConfig) (pid : Nat)
        (center rear volume : Int) (d : FSStreamDescription), stream_fields_pass d →
      (d.flags &&& FSSDF_SAMPLERATE ≠ 0 → 100 ≤ d.samplerate) →
      0 ≤ (if d.flags &&& FSSDF_SAMPLERATE ≠ 0 then d.samplerate else config.rate) ∧
        (if d.flags &&& FSSDF_SAMPLERATE ≠ 0 then d.samplerate else config.rate) ≤ 429496729 →
      (if d.flags &&& FSSDF_BUFFERSIZE ≠ 0 then d.buffersize
        else Int.tdiv (if d.flags &&& FSSDF_SAMPLERATE ≠ 0 then d.samplerate else config.rate) 5) >
        (if d.flags &&& FSSDF_SAMPLERATE ≠ 0 then d.samplerate else config.rate) * 5 →
      IFusionSound_CreateStream_int env core config (some d) true pid center rear volume =
        (DR_LIMITEXCEEDED, none)) ∧
    (fs_config_set_samplerate config_allocate 500000000).2 = DR_OK ∧
    (fs_core_initialize_config (fs_config_set_samplerate config_allocate 500000000).1).rate =
      500000000 ∧
    (IFusionSound_CreateStream_int demo_env demo_core
        (fs_core_initialize_config (fs_config_set_samplerate config_allocate 500000000).1)
        none true 7 FSF_ONE FSF_ONE FSF_ONE).1 = DR_LIMITEXCEEDED ∧
    (IFusionSound_CreateStream_int demo_env demo_core
        (fs_core_initialize_config (fs_config_set_samplerate config_allocate 500000000).1)
        none true 7 FSF_ONE FSF_ONE FSF_ONE).2.isSome = false ∧
    Int.tdiv 500000000 5 = 100000000 ∧ (100000000 : Int) ≤ 5 * 500000000 ∧
    int_wrap (500000000 * 5) = -1794967296 := by
  refine ⟨?_, ?_, ?_, by decide, by decide, by decide, by decide, by decide, by decide,
    by decide⟩
  · intro env core config pid center rear volume desc hd he hrate
    have key : IFusionSound_CreateStream_int env core config desc true pid center rear volume =
        stream_create_int env core config.mode config.format config.rate 0 0 pid center rear
          volume := by
      rcases hd with hd | ⟨d, hd, hf⟩
      · rw [hd]
        rfl
      · have hv : stream_fields_pass d := by
          dsimp only [stream_fields_pass]
          rw [hf]
          simp
        rw [hd, CreateStream_int_pass env core config d pid center rear volume hv
          (by rw [hf]; simp)]
        rw [hf]
        simp
    have hl : (if (0 : Int) = 0 then Int.tdiv config.rate 5 else 0) ≤
        int_wrap (config.rate * 5) := by
      rw [if_pos rfl, int_wrap_rate5 _ hrate]
      have := Int.tdiv_eq_ediv hrate.1 (by norm_num : (0 : Int) ≤ 5)
      omega
    rw [key, stream_create_int_ok env core config.mode config.format config.rate 0 0 pid center
      rear volume he hl]
    obtain ⟨f1, f2, f3, f4⟩ := IFusionSoundStream_Construct_fields core
      { length := if (0 : Int) = 0 then Int.tdiv config.rate 5 else 0
        mode := config.mode, format := config.format, rate := config.rate
        bytes := (FS_BYTES_PER_SAMPLE config.format : Int) * (FS_CHANNELS_FOR_MODE config.mode : Int)
        data := env.memory }
      pid center rear volume (if (0 : Int) = 0 then Int.tdiv config.rate 5 else 0) config.rate 0
    refine ⟨_, rfl, ?_, f2, f3, ?_, ?_, ?_, ?_⟩
    · rw [f1, if_pos rfl]
    · rw [f4]; simp
    · rw [f4]
    · rw [f4]
    · rw [f4]
  · intro env core config pid center rear volume desc ret_interface s h
    exact CreateStream_int_some env core config desc ret_interface pid center rear volume s h
  · intro env core config pid center rear volume d hv hr hb5 hl
    rw [CreateStream_int_pass env core config d pid center rear volume hv hr]
    apply stream_create_int_limit
    rw [int_wrap_rate5 _ hb5]
    by_cases hb : d.flags &&& FSSDF_BUFFERSIZE ≠ 0
    · rw [if_pos hb] at hl ⊢
      have := hv.2.2.2.2.1 hb
      rw [if_neg (by omega)]
      exact hl
    · rw [if_neg hb] at hl ⊢
      rw [if_pos rfl]
      exact hl

/-- C25 (amended). For a buffer descriptor and a stream descriptor that set the
sample rate and whose other fields are valid, on a device with a sample format
of the enumeration and with every creation step succeeding:
`IFusionSound_CreateBuffer` succeeds for every sample rate of at least 100 and
returns `DR_UNSUPPORTED` for every sample rate below 100;
`IFusionSound_CreateStream` succeeds for every sample rate from 100 to
429496729 (so that five times the rate fits an `int`) for which a ring buffer
size set in the descriptor is at most five times the rate, and returns
`DR_UNSUPPORTED` for every sample rate below 100. -/
theorem sample_rate_range (env : CreateEnv) (core : CoreSound) (config : CoreSoundDeviceConfig)
    (bd : FSBufferDescription) (sd : FSStreamDescription) (pid : Nat)
    (center rear volume : Int)
    (he : env_ok env) (hc : sampleformat_case config.format = true)
    (hb : buffer_fields_valid bd) (hs : stream_fields_pass sd)
    (hbf : bd.flags &&& FSBDF_SAMPLERATE ≠ 0) (hsf : sd.flags &&& FSSDF_SAMPLERATE ≠ 0) :
    (100 ≤ bd.samplerate →
      (IFusionSound_CreateBuffer env core config (some bd) true).1 = DR_OK) ∧
    (bd.samplerate < 100 →
      IFusionSound_CreateBuffer env core config (some bd) true = (DR_UNSUPPORTED, none)) ∧
    (100 ≤ sd.samplerate → sd.samplerate ≤ 429496729 →
      (sd.flags &&& FSSDF_BUFFERSIZE ≠ 0 → sd.buffersize ≤ sd.samplerate * 5) →
      (IFusionSound_CreateStream_int env core config (some sd) true pid center rear volume).1
        = DR_OK) ∧
    (sd.samplerate < 100 →
      IFusionSound_CreateStream_int env core config (some sd) true pid center rear volume =
        (DR_UNSUPPORTED, none)) := by
  refine ⟨?_, ?_, ?_, ?_⟩
  · intro hr
    exact CreateBuffer_pass env core config bd he hb hc (fun _ => hr)
  · intro hr
    exact CreateBuffer_rate env core config bd hb hc hbf hr
  · intro hr hr2 hl
    have hp := stream_description_check_pass config sd hs (fun _ => hr)
    unfold IFusionSound_CreateStream_int
    dsimp only
    rw [hp]
    simp only [Bool.true_eq_false, if_false, ne_eq, not_true_eq_false]
    rw [if_pos hsf]
    rw [stream_create_int_ok env core _ _ sd.samplerate _ _ pid center rear volume he (by
      rw [int_wrap_rate5 _ ⟨by omega, hr2⟩]
      by_cases hbs : sd.flags &&& FSSDF_BUFFERSIZE ≠ 0
      · rw [if_pos hbs]
        have := hs.2.2.2.2.1 hbs
        rw [if_neg (by omega)]
        exact hl hbs
      · rw [if_neg hbs, if_pos rfl]
        have := Int.tdiv_eq_ediv (by omega : (0 : Int) ≤ sd.samplerate)
          (by norm_num : (0 : Int) ≤ 5)
        omega)]
  · intro hr
    have hp := stream_description_check_rate config sd hs hsf hr
    unfold IFusionSound_CreateStream_int
    dsimp only
    rcases hd : stream_description_check config sd with ⟨ret, mode, format, rate, bs, pb⟩
    rw [hd] at hp
    dsimp only at hp ⊢
    rw [hp]
    simp

/-- C25, witness. On the stereo 16 bit device with every creation step
succeeding, a buffer descriptor with length 100 and sample rate 100 and a
stream descriptor with sample rate 100 are accepted. -/
theorem sample_rate_range_witness :
    (IFusionSound_CreateBuffer demo_env demo_core demo_config
      (some { flags := FSBDF_LENGTH ||| FSBDF_SAMPLERATE, length := 100, channels := 0,
              sampleformat := 0, samplerate := 100, channelmode := 0 }) true).1 = DR_OK ∧
    (IFusionSound_CreateStream_int demo_env demo_core demo_config
      (some { flags := FSSDF_SAMPLERATE, buffersize := 0, channels := 0, sampleformat := 0,
              samplerate := 100, prebuffer := 0, channelmode := 0 })
      true 7 FSF_ONE FSF_ONE FSF_ONE).1 = DR_OK :=
  have h := sample_rate_range demo_env demo_core demo_config
    { flags := FSBDF_LENGTH ||| FSBDF_SAMPLERATE, length := 100, channels := 0,
      sampleformat := 0, samplerate := 100, channelmode := 0 }
    { flags := FSSDF_SAMPLERATE, buffersize := 0, channels := 0, sampleformat := 0,
      samplerate := 100, prebuffer := 0, channelmode := 0 }
    7 FSF_ONE FSF_ONE FSF_ONE ⟨rfl, fun _ => rfl, rfl⟩ (by decide) (by decide) (by decide)
    (by decide) (by decide)
  ⟨h.1 (by decide), h.2.2.1 (by decide) (by decide) (by decide)⟩

/-- C25, counterexample. The sample rate 50 is at least 1 and every other field
is valid, yet both calls return `DR_UNSUPPORTED`. -/
theorem sample_rate_counterexample :
    buffer_fields_valid
      { flags := FSBDF_LENGTH ||| FSBDF_SAMPLERATE, length := 100, channels := 0,
        sampleformat := 0, samplerate := 50, channelmode := 0 } ∧
    (IFusionSound_CreateBuffer demo_env demo_core demo_config
      (some { flags := FSBDF_LENGTH ||| FSBDF_SAMPLERATE, length := 100, channels := 0,
              sampleformat := 0, samplerate := 50, channelmode := 0 }) true).1
      = DR_UNSUPPORTED ∧
    stream_fields_pass
      { flags := FSSDF_SAMPLERATE, buffersize := 0, channels := 0, sampleformat := 0,
        samplerate := 50, prebuffer := 0, channelmode := 0 } ∧
    (IFusionSound_CreateStream_int demo_env demo_core demo_config
      (some { flags := FSSDF_SAMPLERATE, buffersize := 0, channels := 0, sampleformat := 0,
              samplerate := 50, prebuffer := 0, channelmode := 0 })
      true 7 FSF_ONE FSF_ONE FSF_ONE).1 = DR_UNSUPPORTED ∧
    (1 : Int) ≤ 50 := by
  decide

/-! ## Order of the frames of a `Write` -/

/-- C3. A `Write` of `len` frames that fits into the free space of a ring with
a fill level that is not negative (write position inside the ring) returns
`DR_OK`, puts byte `b` of input frame `i` at byte `b` of ring frame
`(pos_write + i) mod buffersize`, for each `i < len`, and leaves every other
frame of the ring as it was; so for 5 frames written at position 8 of an empty
ring of 10 frames.  With a fill level below zero the free space
`buffersize - filled` is larger than the ring: on the stream of 10 frames after
`Write(1)`, a tick of 4 frames, `Continue` and a second tick of 4 frames the
fill level is -4 and the write position 1, a `Write` of 14 frames fits the free
space of 14 frames, returns `DR_OK` with 14 frames stored, and ring frame 1
then holds input frame 10 in place of input frame 0. -/
theorem write_preserves_order :
    (∀ (data : IFusionSoundStream_data) (sd : Int → Int) (len : Int) (fuel : Nat),
      0 ≤ data.filled → 0 ≤ data.pos_write → data.pos_write < data.buffersize →
      1 ≤ len → len ≤ data.buffersize - data.filled → len + 2 ≤ fuel →
      ∃ w, IFusionSoundStream_Write fuel data (some sd) len = some w ∧
        w.exit = Exit.returned DR_OK ∧
        (∀ i b, 0 ≤ i → i < len → 0 ≤ b → b < data.buffer.bytes →
          w.data.buffer.data
              (data.buffer.bytes * ((data.pos_write + i) % data.buffersize) + b) =
            sd (data.buffer.bytes * i + b)) ∧
        (∀ p b, 0 ≤ p → p < data.buffersize →
          (∀ i, 0 ≤ i → i < len → p ≠ (data.pos_write + i) % data.buffersize) →
          0 ≤ b → b < data.buffer.bytes →
          w.data.buffer.data (data.buffer.bytes * p + b) =
            data.buffer.data (data.buffer.bytes * p + b))) ∧
    (demo_drained.filled = 0 ∧ demo_drained.pos_write = 8 ∧ demo_drained.buffersize = 10 ∧
      ∃ w, IFusionSoundStream_Write 7 demo_drained (some demo_input) 5 = some w ∧
        w.exit = Exit.returned DR_OK ∧
        (∀ i b, 0 ≤ i → i < 5 → 0 ≤ b → b < demo_drained.buffer.bytes →
          w.data.buffer.data
              (demo_drained.buffer.bytes *
                ((demo_drained.pos_write + i) % demo_drained.buffersize) + b) =
            demo_input (demo_drained.buffer.bytes * i + b))) ∧
    (demo_tick demo_underrun 4).filled = -4 ∧
    (demo_tick demo_underrun 4).pos_write = 1 ∧
    (demo_tick demo_underrun 4).buffersize = 10 ∧
    (demo_tick demo_underrun 4).buffer.bytes = 4 ∧
    (1 : Int) ≤ 14 ∧
    14 ≤ (demo_tick demo_underrun 4).buffersize - (demo_tick demo_underrun 4).filled ∧
    (IFusionSoundStream_Write 8 (demo_tick demo_underrun 4) (some demo_input) 14).map
        (fun w => (w.exit, w.stored, w.data.buffer.data (4 * ((1 + 0) % 10) + 0))) =
      some (Exit.returned DR_OK, 14, 40) ∧
    demo_input (4 * 0 + 0) = 0 ∧ demo_input (4 * 10 + 0) = 40 := by
  refine ⟨?_, ⟨by decide, by decide, by decide, ?_⟩, by decide, by decide, by decide,
    by decide, by decide, by decide, by decide, by decide, by decide⟩
  · intro data sd len fuel hfill hpw0 hpw1 hl1 hl2 hfuel
    exact Write_order data sd len fuel hfill hpw0 hpw1 hl1 hl2 hfuel
  · obtain ⟨w, h1, h2, h3, -⟩ := Write_order demo_drained demo_input 5 7 (by decide)
      (by decide) (by decide) (by decide) (by decide) (by decide)
    exact ⟨w, h1, h2, h3⟩

/-! ## The read position of a stream and the position of its playback -/

theorem start_synced (data : IFusionSoundStream_data) (enable : Bool)
    (h : data.streaming_playback.position = data.pos_read ∧
      data.streaming_playback.notify = true) :
    (stream_playback_start data enable).1.streaming_playback.position =
        (stream_playback_start data enable).1.pos_read ∧
      (stream_playback_start data enable).1.streaming_playback.notify = true := by
  rw [stream_playback_start_val]
  split_ifs <;> exact h

theorem stop_synced (data : IFusionSoundStream_data) (disable : Bool)
    (h : data.streaming_playback.position = data.pos_read ∧
      data.streaming_playback.notify = true) :
    (stream_playback_stop data disable).1.streaming_playback.position =
        (stream_playback_stop data disable).1.pos_read ∧
      (stream_playback_stop data disable).1.streaming_playback.notify = true := by
  obtain ⟨h1, h2⟩ := h
  rw [stream_playback_stop_val]
  by_cases hr : data.streaming_playback.running = true
  · rw [if_pos hr]
    refine ⟨?_, h2⟩
    show data.streaming_playback.position =
      (if data.streaming_playback.notify = false then data.pos_read
        else data.streaming_playback.position)
    rw [if_neg (by rw [h2]; decide)]
  · rw [if_neg hr]
    exact ⟨h1, h2⟩

theorem start_if_prebuffered_synced (data : IFusionSoundStream_data)
    (h : data.streaming_playback.position = data.pos_read ∧
      data.streaming_playback.notify = true) :
    (start_if_prebuffered data).streaming_playback.position =
        (start_if_prebuffered data).pos_read ∧
      (start_if_prebuffered data).streaming_playback.notify = true := by
  unfold start_if_prebuffered
  split
  · exact start_synced data true h
  · exact h

theorem Write_fill_synced (sd : Int → Int) : ∀ (fuel : Nat) (st r : FillState),
    Write_fill fuel sd st = some r →
    r.data.streaming_playback.position = st.data.streaming_playback.position ∧
    r.data.streaming_playback.notify = st.data.streaming_playback.notify ∧
    r.data.pos_read = st.data.pos_read := by
  intro fuel
  induction fuel with
  | zero => intro st r h; simp [Write_fill] at h
  | succ fuel ih =>
    intro st r h
    by_cases hs : st.size = 0
    · rw [Write_fill_zero_size _ _ _ hs] at h
      cases h; exact ⟨rfl, rfl, rfl⟩
    · rw [Write_fill_succ _ _ _ hs] at h
      exact ih (fill_step sd st) r h

theorem Write_loop_synced : ∀ (fuel : Nat) (data : IFusionSoundStream_data) (sd : Int → Int)
    (stored : Int) (w : WriteState),
    data.streaming_playback.position = data.pos_read ∧ data.streaming_playback.notify = true →
    Write_loop fuel data sd stored = some w →
    w.data.streaming_playback.position = w.data.pos_read ∧
      w.data.streaming_playback.notify = true := by
  intro fuel
  induction fuel with
  | zero => intro data sd stored w _ h; simp [Write_loop] at h
  | succ fuel ih =>
    intro data sd stored w hinv h
    by_cases h0 : data.pending = 0
    · rw [Write_loop_pending_zero _ _ _ _ h0] at h
      cases h; exact hinv
    · by_cases hf : data.filled = data.buffersize
      · rw [Write_loop_full _ _ _ _ h0 hf] at h
        cases h; exact hinv
      · rw [Write_loop_succ _ _ _ _ h0 hf] at h
        cases hfill : Write_fill fuel sd
          { data := data
            size := if data.buffersize - data.filled > data.pending then data.pending
                    else data.buffersize - data.filled
            bytes := 0, stored := stored, ret := DR_OK } with
        | none => rw [hfill] at h; simp at h
        | some st =>
          rw [hfill] at h
          dsimp only at h
          obtain ⟨k1, k2, k3⟩ := Write_fill_synced sd fuel _ st hfill
          have hst : st.data.streaming_playback.position = st.data.pos_read ∧
              st.data.streaming_playback.notify = true :=
            ⟨by rw [k1, k3]; exact hinv.1, by rw [k2]; exact hinv.2⟩
          by_cases hr : st.ret ≠ DR_OK
          · rw [if_pos hr] at h
            cases h
            exact hst
          · rw [if_neg hr] at h
            have hsy := start_if_prebuffered_synced st.data hst
            split at h
            · refine ih _ _ _ w ?_ h
              exact hsy
            · exact ih _ _ _ w hsy h

theorem Write_synced (fuel : Nat) (data : IFusionSoundStream_data) (sd : Option (Int → Int))
    (len : Int) (w : WriteState)
    (hinv : data.streaming_playback.position = data.pos_read ∧
      data.streaming_playback.notify = true)
    (h : IFusionSoundStream_Write fuel data sd len = some w) :
    w.data.streaming_playback.position = w.data.pos_read ∧
      w.data.streaming_playback.notify = true := by
  unfold IFusionSoundStream_Write at h
  cases sd with
  | none => simp only [Option.some.injEq] at h; subst h; exact hinv
  | some sd =>
    dsimp only at h
    split at h
    · simp only [Option.some.injEq] at h; subst h; exact hinv
    · exact Write_loop_synced fuel { data with pending := len } sd 0 w hinv h

theorem Commit_synced (data : IFusionSoundStream_data) (m : Int)
    (hinv : data.streaming_playback.position = data.pos_read ∧
      data.streaming_playback.notify = true) :
    (IFusionSoundStream_Commit data m).1.streaming_playback.position =
        (IFusionSoundStream_Commit data m).1.pos_read ∧
      (IFusionSoundStream_Commit data m).1.streaming_playback.notify = true := by
  rcases Commit_cases data m with ⟨hc, -⟩ | ⟨-, hc⟩ | ⟨-, -, hc⟩
  · rw [hc]; exact hinv
  · rw [hc]; exact hinv
  · rw [hc]
    exact start_if_prebuffered_synced (after_commit data m) hinv

theorem Flush_synced (data : IFusionSoundStream_data)
    (hinv : data.streaming_playback.position = data.pos_read ∧
      data.streaming_playback.notify = true) :
    (IFusionSoundStream_Flush data).1.streaming_playback.position =
        (IFusionSoundStream_Flush data).1.pos_read ∧
      (IFusionSoundStream_Flush data).1.streaming_playback.notify = true := by
  rw [Flush_val]
  split
  · exact stop_synced data true hinv
  · exact stop_synced data true hinv

/-- What the reaction of the stream does with the notification of a tick. -/
theorem mixto_dispatch (T : MixTables) (SIZEOF_LONG : Nat) (data : IFusionSoundStream_data)
    (dest : List Int) (rate : Int) (mode : Nat) (max_frames volume : Int)
    (hn : data.streaming_playback.notify = true) :
    ∃ n, (fs_playback_mixto T SIZEOF_LONG data.buffer data.streaming_playback dest rate mode
        max_frames volume).notification = some n ∧
      (n.flags = CPNF_ADVANCE ∨ n.flags = CPNF_ADVANCE ||| CPNF_STOP) ∧
      (n.flags = CPNF_ADVANCE ↔
        (fs_playback_mixto T SIZEOF_LONG data.buffer data.streaming_playback dest rate mode
          max_frames volume).ret = DR_OK) ∧
      n.pos = (fs_playback_mixto T SIZEOF_LONG data.buffer data.streaming_playback dest rate
        mode max_frames volume).playback.position ∧
      (fs_playback_mixto T SIZEOF_LONG data.buffer data.streaming_playback dest rate
        mode max_frames volume).playback.notify = true ∧
      IFusionSoundStream_React n
          { data with streaming_playback :=
              (fs_playback_mixto T SIZEOF_LONG data.buffer data.streaming_playback dest rate
                mode max_frames volume).playback } =
        { data with
            streaming_playback :=
              (fs_playback_mixto T SIZEOF_LONG data.buffer data.streaming_playback dest rate
                mode max_frames volume).playback
            filled := data.filled - n.num
            pos_read := n.pos
            playing := if n.flags = CPNF_ADVANCE then data.playing else false } := by
  have hnf : ¬ (data.streaming_playback.notify = false) := by rw [hn]; decide
  have a1 : ¬ (CPNF_ADVANCE &&& CPNF_START ≠ 0) := by decide
  have a2 : CPNF_ADVANCE &&& CPNF_ADVANCE ≠ 0 := by decide
  have a3 : ¬ (CPNF_ADVANCE &&& CPNF_STOP ≠ 0) := by decide
  have b1 : ¬ ((CPNF_ADVANCE ||| CPNF_STOP) &&& CPNF_START ≠ 0) := by decide
  have b2 : (CPNF_ADVANCE ||| CPNF_STOP) &&& CPNF_ADVANCE ≠ 0 := by decide
  have b3 : (CPNF_ADVANCE ||| CPNF_STOP) &&& CPNF_STOP ≠ 0 := by decide
  have b4 : ¬ (CPNF_ADVANCE ||| CPNF_STOP = CPNF_ADVANCE) := by decide
  rcases fs_buffer_mixto_ret T SIZEOF_LONG data.buffer dest rate mode max_frames
    data.streaming_playback.position data.streaming_playback.stop
    (fs_playback_mixto_levels data.streaming_playback volume) data.streaming_playback.pitch
    with h | h
  · rw [fs_playback_mixto_ok T SIZEOF_LONG data.buffer data.streaming_playback dest rate mode
      max_frames volume h]
    dsimp only
    rw [if_neg hnf]
    refine ⟨_, rfl, Or.inl rfl, ⟨fun _ => rfl, fun _ => rfl⟩, rfl, hn, ?_⟩
    unfold IFusionSoundStream_React
    dsimp only
    rw [if_neg a1, if_pos a2, if_neg a3, if_pos rfl]
  · rw [fs_playback_mixto_end T SIZEOF_LONG data.buffer data.streaming_playback dest rate mode
      max_frames volume h]
    dsimp only
    rw [if_neg hnf]
    refine ⟨_, rfl, Or.inr rfl, ⟨fun c => absurd c b4, fun c => DirectResult.noConfusion c⟩,
      rfl, hn, ?_⟩
    unfold IFusionSoundStream_React
    dsimp only
    rw [if_neg b1, if_pos b2, if_pos b3, if_neg b4]

theorem thread_mix_synced (T : MixTables) (SIZEOF_LONG : Nat) (rate : Int) (mode : Nat)
    (buffersize soft_volume : Int) :
    ∀ (es : List Nat) (data : IFusionSoundStream_data) (mixing : List Int),
    data.streaming_playback.position = data.pos_read ∧ data.streaming_playback.notify = true →
    (fs_sound_thread_mix T SIZEOF_LONG rate mode buffersize soft_volume es data
        mixing).1.streaming_playback.position =
      (fs_sound_thread_mix T SIZEOF_LONG rate mode buffersize soft_volume es data
        mixing).1.pos_read ∧
    (fs_sound_thread_mix T SIZEOF_LONG rate mode buffersize soft_volume es data
        mixing).1.streaming_playback.notify = true := by
  intro es
  induction es with
  | nil => intro data mixing h; exact h
  | cons e es ih =>
    intro data mixing hinv
    unfold fs_sound_thread_mix
    by_cases he : e = data.streaming_playback.pid
    · rw [if_pos he]
      dsimp only
      obtain ⟨n, e1, -, -, e4, e5, e6⟩ := mixto_dispatch T SIZEOF_LONG data mixing rate mode
        buffersize soft_volume hinv.2
      rw [e1]
      unfold fs_playback_dispatch
      dsimp only
      rw [e6]
      apply ih
      split
      · exact ⟨e4.symm, e5⟩
      · exact ⟨e4.symm, e5⟩
    · rw [if_neg he]
      exact ih data mixing hinv

theorem stream_call_synced (c : StreamCall) (data r : IFusionSoundStream_data)
    (hinv : data.streaming_playback.position = data.pos_read ∧
      data.streaming_playback.notify = true)
    (h : stream_call c data = some r) :
    r.streaming_playback.position = r.pos_read ∧ r.streaming_playback.notify = true := by
  cases c with
  | write fuel sd len =>
    simp only [stream_call] at h
    cases hw : IFusionSoundStream_Write fuel data sd len with
    | none => rw [hw] at h; exact Option.noConfusion h
    | some w =>
      rw [hw] at h
      simp only [Option.map_some', Option.some.injEq] at h
      subst h
      exact Write_synced fuel data sd len w hinv hw
  | wake fuel sd =>
    simp only [stream_call] at h
    cases hw : Write_loop fuel data sd 0 with
    | none => rw [hw] at h; exact Option.noConfusion h
    | some w =>
      rw [hw] at h
      simp only [Option.map_some', Option.some.injEq] at h
      subst h
      exact Write_loop_synced fuel data sd 0 w hinv hw
  | commit len =>
    simp only [stream_call] at h
    simp only [Option.some.injEq] at h
    subst h
    exact Commit_synced data len hinv
  | flush =>
    simp only [stream_call] at h
    simp only [Option.some.injEq] at h
    subst h
    exact Flush_synced data hinv
  | drop =>
    simp only [stream_call] at h
    simp only [Option.some.injEq] at h
    subst h
    exact hinv
  | play_continue =>
    simp only [stream_call] at h
    simp only [Option.some.injEq] at h
    subst h
    exact start_synced data false hinv
  | play_stop =>
    simp only [stream_call] at h
    simp only [Option.some.injEq] at h
    subst h
    exact stop_synced data false hinv
  | play_pitch p =>
    simp only [stream_call] at h
    simp only [Option.some.injEq] at h
    subst h
    exact hinv
  | tick T SL rate mode bs vol mixing =>
    simp only [stream_call] at h
    simp only [Option.some.injEq] at h
    subst h
    exact thread_mix_synced T SL rate mode bs vol _ data mixing hinv

theorem stream_calls_synced : ∀ (cs : List StreamCall) (data r : IFusionSoundStream_data),
    data.streaming_playback.position = data.pos_read ∧ data.streaming_playback.notify = true →
    stream_calls cs data = some r →
    r.streaming_playback.position = r.pos_read ∧ r.streaming_playback.notify = true := by
  intro cs
  induction cs with
  | nil =>
    intro data r hinv h
    unfold stream_calls at h
    simp only [Option.some.injEq] at h
    subst h
    exact hinv
  | cons c cs ih =>
    intro data r hinv h
    unfold stream_calls at h
    cases hc : stream_call c data with
    | none => rw [hc] at h; exact Option.noConfusion h
    | some d =>
      rw [hc] at h
      exact ih d r (stream_call_synced c data d hinv hc) h

theorem Construct_synced (core : CoreSound) (buffer : CoreSoundBuffer) (pid : Nat)
    (center rear volume buffersize rate prebuffer : Int) :
    (IFusionSoundStream_Construct core buffer pid center rear volume buffersize rate
        prebuffer).streaming_playback.position =
      (IFusionSoundStream_Construct core buffer pid center rear volume buffersize rate
        prebuffer).pos_read ∧
    (IFusionSoundStream_Construct core buffer pid center rear volume buffersize rate
        prebuffer).streaming_playback.notify = true := by
  unfold IFusionSoundStream_Construct
  exact stop_synced _ true ⟨rfl, rfl⟩


theorem stream_playback_start_dispatch (data : IFusionSoundStream_data) (enable : Bool) :
    (stream_playback_start data enable).1 =
      fs_playback_dispatch (fs_playback_start data.core data.streaming_playback enable).2.2.2
        { data with
            core := (fs_playback_start data.core data.streaming_playback enable).1
            streaming_playback :=
              (fs_playback_start data.core data.streaming_playback enable).2.1 } := rfl

theorem stream_playback_stop_dispatch (data : IFusionSoundStream_data) (disable : Bool) :
    (stream_playback_stop data disable).1 =
      fs_playback_dispatch (fs_playback_stop data.core data.streaming_playback disable).2.2.2
        { data with
            core := (fs_playback_stop data.core data.streaming_playback disable).1
            streaming_playback :=
              (fs_playback_stop data.core data.streaming_playback disable).2.1 } := rfl

/-- The notification of `fs_playback_start` on the playback of a stream. -/
theorem start_notification (data : IFusionSoundStream_data) (enable : Bool)
    (n : CorePlaybackNotification)
    (hn : (fs_playback_start data.core data.streaming_playback enable).2.2.2 = some n) :
    n.flags = CPNF_START ∧ n.num = 0 ∧ n.pos = data.streaming_playback.position := by
  rw [fs_playback_start_eq] at hn
  split_ifs at hn
  all_goals first
    | exact Option.noConfusion hn
    | (simp only [Option.some.injEq] at hn; subst hn; exact ⟨rfl, rfl, rfl⟩)

/-- The notification of `fs_playback_stop` on the playback of a stream. -/
theorem stop_notification (data : IFusionSoundStream_data) (disable : Bool)
    (n : CorePlaybackNotification)
    (hn : (fs_playback_stop data.core data.streaming_playback disable).2.2.2 = some n) :
    n.flags = CPNF_STOP ∧ n.num = 0 ∧ n.pos = data.streaming_playback.position := by
  rw [fs_playback_stop_eq] at hn
  split_ifs at hn
  all_goals first
    | exact Option.noConfusion hn
    | (simp only [Option.some.injEq] at hn; subst hn; exact ⟨rfl, rfl, rfl⟩)

/-- C12. The reaction of a stream to the notifications of its playback.  Take a
stream as `IFusionSoundStream_Construct` leaves it and drive it by any sequence
of calls of `Write` (with the wake-ups of a waiting writer), `Commit`, `Flush`,
`Drop`, of `Continue`, `Stop` and pitch changes on its playback interface, and
of mixer ticks.  In the state reached the read position is the position of the
playback, and every notification `fs_playback_notify` hands to
`IFusionSoundStream_React` there is one of three kinds.  The `START`
notification of `fs_playback_start`: after the reaction `pos_read` is the
position of the notification and `playing` is set.  The `STOP` notification of
`fs_playback_stop`: after the reaction `pos_read` is the position of the
notification and `playing` is cleared.  The notification of a tick
(`fs_playback_mixto`, one for every tick), with the flags `ADVANCE` or
`ADVANCE | STOP`: after the reaction `pos_read` is the position of the
notification, `filled` is lower by exactly `num`, and `playing` is cleared if
`STOP` is set. -/
theorem stream_react_effect (core : CoreSound) (buffer : CoreSoundBuffer) (pid : Nat)
    (center rear volume buffersize rate prebuffer : Int) (calls : List StreamCall)
    (data : IFusionSoundStream_data)
    (h : stream_calls calls (IFusionSoundStream_Construct core buffer pid center rear volume
      buffersize rate prebuffer) = some data) :
    data.pos_read = data.streaming_playback.position ∧
    (∀ (enable : Bool) (n : CorePlaybackNotification),
      (fs_playback_start data.core data.streaming_playback enable).2.2.2 = some n →
      n.flags = CPNF_START ∧
      (stream_playback_start data enable).1 =
        IFusionSoundStream_React n
          { data with
              core := (fs_playback_start data.core data.streaming_playback enable).1
              streaming_playback :=
                (fs_playback_start data.core data.streaming_playback enable).2.1 } ∧
      (stream_playback_start data enable).1.pos_read = n.pos ∧
      (stream_playback_start data enable).1.playing = true) ∧
    (∀ (disable : Bool) (n : CorePlaybackNotification),
      (fs_playback_stop data.core data.streaming_playback disable).2.2.2 = some n →
      n.flags = CPNF_STOP ∧
      (stream_playback_stop data disable).1 =
        IFusionSoundStream_React n
          { data with
              core := (fs_playback_stop data.core data.streaming_playback disable).1
              streaming_playback :=
                (fs_playback_stop data.core data.streaming_playback disable).2.1 } ∧
      (stream_playback_stop data disable).1.pos_read = n.pos ∧
      (stream_playback_stop data disable).1.playing = false) ∧
    (∀ (T : MixTables) (SIZEOF_LONG : Nat) (dest : List Int) (rate : Int) (mode : Nat)
        (max_frames volume : Int),
      ∃ n, (fs_playback_mixto T SIZEOF_LONG data.buffer data.streaming_playback dest rate mode
          max_frames volume).notification = some n ∧
        (n.flags = CPNF_ADVANCE ∨ n.flags = CPNF_ADVANCE ||| CPNF_STOP) ∧
        (IFusionSoundStream_React n
          { data with streaming_playback :=
              (fs_playback_mixto T SIZEOF_LONG data.buffer data.streaming_playback dest rate
                mode max_frames volume).playback }).pos_read = n.pos ∧
        (IFusionSoundStream_React n
          { data with streaming_playback :=
              (fs_playback_mixto T SIZEOF_LONG data.buffer data.streaming_playback dest rate
                mode max_frames volume).playback }).filled = data.filled - n.num ∧
        (n.flags &&& CPNF_STOP ≠ 0 →
          (IFusionSoundStream_React n
            { data with streaming_playback :=
                (fs_playback_mixto T SIZEOF_LONG data.buffer data.streaming_playback dest rate
                  mode max_frames volume).playback }).playing = false)) := by
  obtain ⟨h1, h2⟩ := stream_calls_synced calls _ data
    (Construct_synced core buffer pid center rear volume buffersize rate prebuffer) h
  have s1 : CPNF_START &&& CPNF_START ≠ 0 := by decide
  have s2 : CPNF_STOP &&& CPNF_START = 0 := by decide
  have s3 : CPNF_STOP &&& CPNF_STOP ≠ 0 := by decide
  refine ⟨h1.symm, ?_, ?_, ?_⟩
  · intro enable n hn
    obtain ⟨f1, -, f3⟩ := start_notification data enable n hn
    have e : (stream_playback_start data enable).1 =
        IFusionSoundStream_React n
          { data with
              core := (fs_playback_start data.core data.streaming_playback enable).1
              streaming_playback :=
                (fs_playback_start data.core data.streaming_playback enable).2.1 } := by
      rw [stream_playback_start_dispatch, hn]
      rfl
    refine ⟨f1, e, ?_, ?_⟩
    · rw [e, (React_cases _ n).1 (by rw [f1]; exact s1), f3]
      exact h1.symm
    · rw [e, (React_cases _ n).1 (by rw [f1]; exact s1)]
  · intro disable n hn
    obtain ⟨f1, -, f3⟩ := stop_notification data disable n hn
    have e : (stream_playback_stop data disable).1 =
        IFusionSoundStream_React n
          { data with
              core := (fs_playback_stop data.core data.streaming_playback disable).1
              streaming_playback :=
                (fs_playback_stop data.core data.streaming_playback disable).2.1 } := by
      rw [stream_playback_stop_dispatch, hn]
      rfl
    obtain ⟨g1, -, -, g4, -⟩ := (React_cases
      { data with
          core := (fs_playback_stop data.core data.streaming_playback disable).1
          streaming_playback :=
            (fs_playback_stop data.core data.streaming_playback disable).2.1 } n).2
      (by rw [f1]; exact s2)
    refine ⟨f1, e, ?_, ?_⟩
    · rw [e]; exact g1
    · rw [e]; exact g4 (by rw [f1]; exact s3)
  · intro T SIZEOF_LONG dest rate mode max_frames volume
    obtain ⟨n, e1, e2, -, -, -, e6⟩ := mixto_dispatch T SIZEOF_LONG data dest rate mode
      max_frames volume h2
    refine ⟨n, e1, e2, ?_, ?_, ?_⟩
    · rw [e6]
    · rw [e6]
    · intro hs
      rw [e6]
      show (if n.flags = CPNF_ADVANCE then data.playing else false) = false
      rcases e2 with e2 | e2
      · rw [e2] at hs
        exact absurd (by decide) hs
      · rw [if_neg (by rw [e2]; decide)]

/-- C12, witness. The stream of 10 frames after a `Write` of 3 frames, which
starts the playback, and a mixer tick of 2 frames: the read position is the
position of the playback, 2, and the notification of a further tick of 1 frame
takes the read position to 3 and the fill level from 1 to 0. -/
theorem stream_react_effect_witness :
    stream_calls
        [StreamCall.write 8 (some demo_input) 3,
          StreamCall.tick demo_tables 8 48000 FSCM_STEREO 2 FSF_ONE []]
        (IFusionSoundStream_Construct demo_core (demo_buffer 10) 7 FSF_ONE FSF_ONE FSF_ONE 10
          48000 0) =
      some (demo_tick (demo_write (demo_stream 10 0) 3) 2) ∧
    (demo_tick (demo_write (demo_stream 10 0) 3) 2).pos_read =
      (demo_tick (demo_write (demo_stream 10 0) 3) 2).streaming_playback.position ∧
    (demo_tick (demo_write (demo_stream 10 0) 3) 2).pos_read = 2 ∧
    (demo_tick (demo_write (demo_stream 10 0) 3) 2).filled = 1 ∧
    (demo_tick (demo_tick (demo_write (demo_stream 10 0) 3) 2) 1).pos_read = 3 ∧
    (demo_tick (demo_tick (demo_write (demo_stream 10 0) 3) 2) 1).filled = 0 :=
  ⟨rfl,
    (stream_react_effect demo_core (demo_buffer 10) 7 FSF_ONE FSF_ONE FSF_ONE 10 48000 0
      [StreamCall.write 8 (some demo_input) 3,
        StreamCall.tick demo_tables 8 48000 FSCM_STEREO 2 FSF_ONE []]
      (demo_tick (demo_write (demo_stream 10 0) 3) 2) rfl).1,
    by decide, by decide, by decide, by decide⟩

end FusionSound
